import Mathlib

/-!
# The ext2 block allocator (`fs/ext2/balloc.c`)

A shallow embedding of the block bitmap cache, the allocator `ext2_new_block`,
the deallocator `ext2_free_blocks`, the audit of the free block counts
(`ext2_count_free_blocks`, `ext2_check_blocks_bitmap`) and `ext2_bg_has_super`,
followed by the properties proved of them.

Conventions of the embedding:

* C pointers into arrays are indices: a `buffer_head *` for a block read with
  `sb_bread` is the number of that block (the buffer cache keeps one buffer per
  block), `NULL` is `none`; a `struct ext2_group_desc *` is the index of the
  descriptor in the group descriptor table.
* A bitmap buffer is a function from bit numbers to `Bool` (`true` = in use).
* Machine integers are natural numbers; the places where the C arithmetic can
  wrap are reduced explicitly modulo the width of the C type.
* `ext2_error` and `ext2_warning` append to a log and return; `ext2_panic`
  does not return.  The lines printed with `printk` by the audit are a list
  handed back with its result.
* The calls of `sb_bread` are recorded in the state (`bread_log`); whether a
  read succeeds is a property of the device (`bread_ok`).
* Loops that the C code does not bound (`goto repeat`, `while (1)`) run on
  fuel, and `none` stands for a call that has not returned.
* `mark_buffer_dirty`, `ll_rw_block`, `wait_on_buffer`, `lock_super` and
  `unlock_super` act on the block device and the lock only and have no
  counterpart; block preallocation is not in use (`prealloc_count == NULL`).
-/

namespace Ext2

/-! ## Constants and machine arithmetic -/

/-- Modelled from the spec: the width of `unsigned long` (`asm/types.h` is not
part of the sources); the 32-bit targets are taken. -/
def BITS_PER_LONG : Nat := 32

/-- Modelled from the spec: capacity of the bitmap cache ("a small fixed
maximum"); `EXT2_MAX_GROUP_LOADED` of `ext2_fs_sb.h`, which is not part of the
sources, has the value of its ext3 twin. -/
def EXT2_MAX_GROUP_LOADED : Nat := 8

def ENOSPC : Int := 28
def EIO : Int := 5
def EDQUOT : Int := 122

/-- Truncation to `unsigned long`. -/
def ulong (x : Nat) : Nat := x % 2 ^ BITS_PER_LONG

/-- Subtraction `a - b` of two `unsigned long` values. -/
def ulong_sub (a b : Nat) : Nat := (2 ^ BITS_PER_LONG - b % 2 ^ BITS_PER_LONG + a) % 2 ^ BITS_PER_LONG

/-- Truncation to a 32-bit quantity (`int`, `__u32`). -/
def u32 (x : Nat) : Nat := x % 2 ^ 32

/-- Truncation to a 16-bit quantity (`__u16`). -/
def u16 (x : Nat) : Nat := x % 2 ^ 16

/-- Subtraction `a - b` of two 32-bit quantities. -/
def u32_sub (a b : Nat) : Nat := (2 ^ 32 - b % 2 ^ 32 + a) % 2 ^ 32

/-- Subtraction `a - b` of two 16-bit quantities. -/
def u16_sub (a b : Nat) : Nat := (2 ^ 16 - b % 2 ^ 16 + a) % 2 ^ 16

/-- The macro `in_range(b, first, len)`, in `unsigned long` arithmetic. -/
def in_range (b first len : Nat) : Bool :=
  decide (first ≤ b) && decide (b ≤ ulong_sub (ulong (first + len)) 1)

/-! ## Data model -/

/-- Messages of `ext2_error`, `ext2_warning` and `ext2_panic`. -/
inductive ext2_msg where
  | group_out_of_range (block_group groups_count : Nat)
  | group_desc_not_loaded (block_group group_desc desc : Nat)
  | cannot_read_block_bitmap (block_group block_bitmap : Nat)
  | load_group_out_of_range (block_group groups_count : Nat)
  | load_wrong_bitmap_number
  | free_not_in_datazone (block count : Nat)
  | free_in_system_zone (block count : Nat)
  | bit_already_cleared (block : Nat)
  | alloc_in_system_zone (block : Nat)
  | bit_already_set (j : Nat)
  | free_count_corrupted (group : Nat)
  | block_ge_blocks_count (block blocks_count group : Nat)
  | super_block_marked_free (group : Nat)
  | descriptor_block_marked_free (j group : Nat)
  | block_bitmap_marked_free (group : Nat)
  | inode_bitmap_marked_free (group : Nat)
  | inode_table_block_marked_free (j group : Nat)
  | wrong_group_free_count (group stored counted : Nat)
  | wrong_super_free_count (stored counted : Nat)
  deriving DecidableEq, Repr

/-- On-disk group descriptor (the fields used by the allocator). -/
structure ext2_group_desc where
  bg_block_bitmap : Nat
  bg_inode_bitmap : Nat
  bg_inode_table : Nat
  bg_free_blocks_count : Nat
  deriving DecidableEq, Repr

/-- On-disk super block (the fields used by the allocator). -/
structure ext2_super_block where
  s_blocks_count : Nat
  s_r_blocks_count : Nat
  s_free_blocks_count : Nat
  s_first_data_block : Nat
  deriving DecidableEq, Repr

/-- In-memory super block: `struct super_block` with its `u.ext2_sb`, the
group descriptor table, the buffers of the block device and the message log. -/
structure super_block where
  s_es : ext2_super_block
  s_blocksize : Nat
  s_blocks_per_group : Nat
  s_itb_per_group : Nat
  s_groups_count : Nat
  s_desc_per_block : Nat
  /-- Whether `s_group_desc[n]`, the buffer of descriptor block `n`, is non-NULL. -/
  s_group_desc : Nat → Bool
  /-- The descriptors held by those buffers, by position in the table. -/
  gdt : Nat → ext2_group_desc
  s_loaded_block_bitmaps : Nat
  s_block_bitmap_number : Nat → Nat
  s_block_bitmap : Nat → Option Nat
  s_resuid : Nat
  s_resgid : Nat
  s_dirt : Bool
  /-- Whether `sb_bread` of a block succeeds. -/
  bread_ok : Nat → Bool
  /-- Contents of the buffer of a block, bit by bit. -/
  b_data : Nat → Nat → Bool
  log : List ext2_msg
  /-- The blocks asked of the block device with `sb_bread`, oldest first. -/
  bread_log : List Nat

/-- Modelled from the spec: the quota collaborator (`reserve(count) -> ok|reject`,
`release(count)`; `linux/quotaops.h` is not part of the sources).  A
reservation is accepted when no limit is set or the blocks in use stay within it. -/
structure dquot where
  limit : Option Nat
  reserved : Nat
  released : Nat
  deriving DecidableEq, Repr

/-- The inode on whose behalf blocks are allocated and freed. -/
structure inode where
  i_sb : super_block
  i_dquot : dquot

/-- Modelled from the spec: the permission collaborator, the fields of
`current` read by the reserved-block test. -/
structure task_struct where
  fsuid : Nat
  in_group_p : Nat → Bool
  cap_sys_resource : Bool

/-- `DQUOT_ALLOC_BLOCK(inode, 1)`: `none` when the reservation is rejected. -/
def DQUOT_ALLOC_BLOCK (ino : inode) : Option inode :=
  match ino.i_dquot.limit with
  | none => some { ino with i_dquot := { ino.i_dquot with reserved := ino.i_dquot.reserved + 1 } }
  | some l =>
    if ino.i_dquot.reserved + 1 ≤ l + ino.i_dquot.released then
      some { ino with i_dquot := { ino.i_dquot with reserved := ino.i_dquot.reserved + 1 } }
    else none

/-- `DQUOT_FREE_BLOCK(inode, n)`. -/
def DQUOT_FREE_BLOCK (ino : inode) (n : Nat) : inode :=
  { ino with i_dquot := { ino.i_dquot with released := ino.i_dquot.released + n } }

/-- `ext2_error` / `ext2_warning`: the message is logged, the call returns. -/
def ext2_error (sb : super_block) (m : ext2_msg) : super_block :=
  { sb with log := sb.log ++ [m] }

/-! ## Bit operations on a bitmap buffer -/

/-- `ext2_test_bit(nr, bh->b_data)`. -/
def ext2_test_bit (sb : super_block) (bh nr : Nat) : Bool := sb.b_data bh nr

/-- The store done by `ext2_set_bit` / `ext2_clear_bit`. -/
def write_bit (sb : super_block) (bh nr : Nat) (v : Bool) : super_block :=
  { sb with b_data := fun b n => if b = bh ∧ n = nr then v else sb.b_data b n }

/-- `ext2_set_bit(nr, bh->b_data)`: the new state and the old value of the bit. -/
def ext2_set_bit (sb : super_block) (bh nr : Nat) : super_block × Bool :=
  (write_bit sb bh nr true, sb.b_data bh nr)

/-- `ext2_clear_bit(nr, bh->b_data)`: the new state and the old value of the bit. -/
def ext2_clear_bit (sb : super_block) (bh nr : Nat) : super_block × Bool :=
  (write_bit sb bh nr false, sb.b_data bh nr)

/-- Scan of `n` bits from bit `start` on: the first clear one, `start + n` if none. -/
def scan_zero_bit (bm : Nat → Bool) : Nat → Nat → Nat
  | 0, start => start
  | n + 1, start => if bm start = false then start else scan_zero_bit bm n (start + 1)

/-- Modelled from the spec: `ext2_find_next_zero_bit(addr, size, offset)` (an
architecture header, not part of the sources): the first clear bit at or after
`offset` and below `size`, and `size` when there is none. -/
def ext2_find_next_zero_bit (bm : Nat → Bool) (size offset : Nat) : Nat :=
  if size ≤ offset then size else scan_zero_bit bm (size - offset) offset

/-- Modelled from the spec: `ext2_find_first_zero_bit(addr, size)`. -/
def ext2_find_first_zero_bit (bm : Nat → Bool) (size : Nat) : Nat :=
  ext2_find_next_zero_bit bm size 0

/-- Whether byte `b` of the bitmap is 0, i.e. its eight bits are clear. -/
def byte_is_zero (bm : Nat → Bool) (b : Nat) : Bool :=
  !(bm (8 * b) || bm (8 * b + 1) || bm (8 * b + 2) || bm (8 * b + 3) ||
    bm (8 * b + 4) || bm (8 * b + 5) || bm (8 * b + 6) || bm (8 * b + 7))

/-- Modelled from the spec: `memscan(p, 0, size)` (`lib/string.c`, not part of
the sources) on byte offsets into the buffer: the first zero byte among the
`size` bytes from `p` on, and `p + size` when there is none. -/
def memscan (bm : Nat → Bool) : Nat → Nat → Nat
  | p, 0 => p
  | p, size + 1 => if byte_is_zero bm p then p else memscan bm (p + 1) size

/-! ## Group descriptors and the bitmap cache -/

/-- `ext2_get_group_desc(sb, block_group, &bh)`: the descriptor (its position
in the table), `none` for `NULL`. -/
def ext2_get_group_desc (sb : super_block) (block_group : Nat) : super_block × Option Nat :=
  if sb.s_groups_count ≤ block_group then
    (ext2_error sb (.group_out_of_range block_group sb.s_groups_count), none)
  else
    let group_desc := block_group / sb.s_desc_per_block
    let desc := block_group % sb.s_desc_per_block
    if sb.s_group_desc group_desc = false then
      (ext2_error sb (.group_desc_not_loaded block_group group_desc desc), none)
    else
      (sb, some (group_desc * sb.s_desc_per_block + desc))

/-- The call `sb_bread(sb, block)` as seen by the device: the block is asked
for.  Whether the read succeeds is `bread_ok block`. -/
def sb_bread (sb : super_block) (block : Nat) : super_block :=
  { sb with bread_log := sb.bread_log ++ [block] }

/-- `read_block_bitmap(sb, block_group)`: the buffer head, `none` for `NULL`. -/
def read_block_bitmap (sb : super_block) (block_group : Nat) : super_block × Option Nat :=
  match ext2_get_group_desc sb block_group with
  | (sb1, none) => (sb1, none)
  | (sb1, some gdp) =>
    let blk := (sb1.gdt gdp).bg_block_bitmap
    if sb1.bread_ok blk then (sb_bread sb1 blk, some blk)
    else (ext2_error (sb_bread sb1 blk) (.cannot_read_block_bitmap block_group blk), none)

/-- What `load_block_bitmap` hands back. -/
inductive load_result where
  | bh (b : Nat)
  | err_ptr (e : Int)
  | panic
  deriving DecidableEq, Repr

/-- The lookup loop of `load_block_bitmap`:
`for (i = 0; i < loaded && number[i] != block_group; i++);` run for `n` more
slots from slot `i`. -/
def lookup_slot (number : Nat → Nat) (block_group : Nat) : Nat → Nat → Nat
  | 0, i => i
  | n + 1, i => if number i = block_group then i else lookup_slot number block_group n (i + 1)

/-- The loop `while (i--) { a[i+1] = a[i]; }` of `load_block_bitmap` on one array. -/
def shift_slots {α : Type} (a : Nat → α) : Nat → Nat → α
  | 0 => a
  | i + 1 => shift_slots (fun k => if k = i + 1 then a i else a k) i

/-- The statement `if (!bh) bh = read_block_bitmap(sb, block_group);`. -/
def read_if_null (sb : super_block) (block_group : Nat) (bh : Option Nat) :
    super_block × Option Nat :=
  match bh with
  | some b => (sb, some b)
  | none => read_block_bitmap sb block_group

/-- The stores `s_block_bitmap_number[slot] = block_group; s_block_bitmap[slot] = bh;`. -/
def store_slot (sb : super_block) (slot block_group : Nat) (bh : Option Nat) : super_block :=
  { sb with
    s_block_bitmap_number := fun k => if k = slot then block_group else sb.s_block_bitmap_number k
    s_block_bitmap := fun k => if k = slot then bh else sb.s_block_bitmap k }

/-- The end of `load_block_bitmap`: `if (!bh) return ERR_PTR(-EIO); return bh;`. -/
def bh_or_err (bh : Option Nat) : load_result :=
  match bh with
  | none => .err_ptr (- EIO)
  | some b => .bh b

/-- The label `read_it` of `load_block_bitmap`. -/
def load_read_it (sb : super_block) (block_group slot : Nat) (bh : Option Nat) :
    super_block × load_result :=
  (store_slot (read_if_null sb block_group bh).1 slot block_group (read_if_null sb block_group bh).2,
   bh_or_err (read_if_null sb block_group bh).2)

/-- `load_block_bitmap(sb, block_group)`. -/
def load_block_bitmap (sb : super_block) (block_group : Nat) : super_block × load_result :=
  if sb.s_groups_count ≤ block_group then
    (ext2_error sb (.load_group_out_of_range block_group sb.s_groups_count), .panic)
  else
    match (if 0 < sb.s_loaded_block_bitmaps ∧ sb.s_block_bitmap_number 0 = block_group
           then sb.s_block_bitmap 0 else none) with
    | some b => (sb, .bh b)
    | none =>
      if sb.s_groups_count ≤ EXT2_MAX_GROUP_LOADED then
        match sb.s_block_bitmap block_group with
        | none => load_read_it sb block_group block_group none
        | some b =>
          if sb.s_block_bitmap_number block_group = block_group then (sb, .bh b)
          else (ext2_error sb .load_wrong_bitmap_number, .panic)
      else
        let i := lookup_slot sb.s_block_bitmap_number block_group sb.s_loaded_block_bitmaps 0
        if i < sb.s_loaded_block_bitmaps then
          load_read_it
            { sb with
              s_block_bitmap_number := shift_slots sb.s_block_bitmap_number i
              s_block_bitmap := shift_slots sb.s_block_bitmap i }
            block_group 0 (sb.s_block_bitmap i)
        else if sb.s_loaded_block_bitmaps < EXT2_MAX_GROUP_LOADED then
          load_read_it
            { sb with
              s_loaded_block_bitmaps := sb.s_loaded_block_bitmaps + 1
              s_block_bitmap_number := shift_slots sb.s_block_bitmap_number i
              s_block_bitmap := shift_slots sb.s_block_bitmap i }
            block_group 0 none
        else
          load_read_it
            { sb with
              s_block_bitmap_number := shift_slots sb.s_block_bitmap_number (i - 1)
              s_block_bitmap := shift_slots sb.s_block_bitmap (i - 1) }
            block_group 0 none

/-! ## Deallocation -/

/-- `release_blocks(sb, count)`. -/
def release_blocks (sb : super_block) (count : Nat) : super_block :=
  if count ≠ 0 then
    { sb with
      s_es := { sb.s_es with s_free_blocks_count := u32 (sb.s_es.s_free_blocks_count + count) }
      s_dirt := true }
  else sb

/-- `group_release_blocks(desc, bh, count)`, `desc` being descriptor `gdp` of the table. -/
def group_release_blocks (sb : super_block) (gdp count : Nat) : super_block :=
  if count ≠ 0 then
    { sb with gdt := fun g =>
        if g = gdp then
          { sb.gdt g with bg_free_blocks_count := u16 ((sb.gdt g).bg_free_blocks_count + count) }
        else sb.gdt g }
  else sb

/-- The loop `for (i = 0, group_freed = 0; i < count; i++)` of `ext2_free_blocks`,
with `n` iterations left: the state and `group_freed`. -/
def free_bits_loop (bh bit block : Nat) : Nat → Nat → super_block → Nat → super_block × Nat
  | 0, _, sb, group_freed => (sb, group_freed)
  | n + 1, i, sb, group_freed =>
    let r := ext2_clear_bit sb bh (bit + i)
    if r.2 = false then
      free_bits_loop bh bit block n (i + 1) (ext2_error r.1 (.bit_already_cleared (block + i))) group_freed
    else
      free_bits_loop bh bit block n (i + 1) r.1 (group_freed + 1)

/-- What `ext2_free_blocks` leaves: the inode (with its super block), and
whether the call ended in `ext2_panic` instead of returning. -/
structure free_result where
  ino : inode
  panicked : Bool

/-- The label `error_return` of `ext2_free_blocks`. -/
def free_error_return (ino : inode) (sb : super_block) (freed : Nat) : free_result :=
  { ino := DQUOT_FREE_BLOCK { ino with i_sb := release_blocks sb freed } freed, panicked := false }

/-- The test for blocks of the system zones made by `ext2_free_blocks`
(`ext2_error`: "Freeing blocks in system zones"). -/
def free_check_zone (sb : super_block) (gdp block count : Nat) : super_block :=
  if in_range (sb.gdt gdp).bg_block_bitmap block count ||
     in_range (sb.gdt gdp).bg_inode_bitmap block count ||
     in_range block (sb.gdt gdp).bg_inode_table sb.s_itb_per_group ||
     in_range (ulong_sub (ulong (block + count)) 1) (sb.gdt gdp).bg_inode_table sb.s_itb_per_group
  then ext2_error sb (.free_in_system_zone block count) else sb

/-- The part of `ext2_free_blocks` that deals with the blocks of one group,
once its bitmap `bh` and its descriptor `gdp` are at hand: the test for the
system zones, the loop over the bits and `group_release_blocks`; the state
and `group_freed`. -/
def free_in_group (sb : super_block) (bh gdp bit block count : Nat) : super_block × Nat :=
  (group_release_blocks (free_bits_loop bh bit block count 0 (free_check_zone sb gdp block count) 0).1
      gdp (free_bits_loop bh bit block count 0 (free_check_zone sb gdp block count) 0).2,
   (free_bits_loop bh bit block count 0 (free_check_zone sb gdp block count) 0).2)

/-- The body of `ext2_free_blocks` from the label `do_more` on; every `goto
do_more` uses one unit of `fuel`. -/
def free_do_more (ino : inode) : Nat → super_block → Nat → Nat → Nat → free_result
  | 0, sb, _, _, freed => free_error_return ino sb freed
  | fuel + 1, sb, block, count, freed =>
    let first := sb.s_es.s_first_data_block
    let block_group := ulong_sub block first / sb.s_blocks_per_group
    let bit := ulong_sub block first % sb.s_blocks_per_group
    let overflow := if sb.s_blocks_per_group < ulong (bit + count)
                    then ulong_sub (ulong (bit + count)) sb.s_blocks_per_group else 0
    let count := ulong_sub count overflow
    match load_block_bitmap sb block_group with
    | (sb1, .panic) => { ino := { ino with i_sb := sb1 }, panicked := true }
    | (sb1, .err_ptr _) => free_error_return ino sb1 freed
    | (sb1, .bh bh) =>
      match ext2_get_group_desc sb1 block_group with
      | (sb2, none) => free_error_return ino sb2 freed
      | (sb2, some gdp) =>
        let r := free_in_group sb2 bh gdp bit block count
        let freed := u32 (freed + r.2)
        if overflow ≠ 0 then
          free_do_more ino fuel r.1 (ulong (block + count)) overflow freed
        else free_error_return ino r.1 freed

/-- `ext2_free_blocks(inode, block, count)`. -/
def ext2_free_blocks (ino : inode) (block count : Nat) : free_result :=
  let sb := ino.i_sb
  if block < sb.s_es.s_first_data_block ∨ sb.s_es.s_blocks_count < ulong (block + count) then
    free_error_return ino (ext2_error sb (.free_not_in_datazone block count)) 0
  else
    free_do_more ino (count + 1) sb block count 0

/-! ## Allocation -/

/-- What `ext2_new_block` leaves: the inode (with its super block), the value
returned, `*err`, and whether the call ended in `ext2_panic`. -/
structure new_block_result where
  ino : inode
  ret : Nat
  err : Int
  panicked : Bool

/-- How one pass through the body of `ext2_new_block` ends: the function is
left, or `goto repeat` is taken with the current inode and goal. -/
inductive pass_result where
  | done (r : new_block_result)
  | again (ino : inode) (goal : Nat)

/-- The label `out` of `ext2_new_block`. -/
def new_block_out (ino : inode) (sb : super_block) (err : Int) : pass_result :=
  .done { ino := { ino with i_sb := sb }, ret := 0, err := err, panicked := false }

/-- The label `io_error` of `ext2_new_block`. -/
def new_block_io_error (ino : inode) (sb : super_block) : pass_result :=
  new_block_out ino sb (- EIO)

/-- The loop of the label `search_back`:
`for (k = 0; k < 7 && j > 0 && !ext2_test_bit (j - 1, bh->b_data); k++, j--);`
with `n` = `7 - k` rounds left. -/
def search_back (bm : Nat → Bool) : Nat → Nat → Nat
  | 0, j => j
  | n + 1, j => if 0 < j ∧ bm (j - 1) = false then search_back bm n (j - 1) else j

/-- The test for a block of the system zone made at the label `got_block`
(`ext2_error`: "Allocating block in system zone"). -/
def new_block_check_zone (sb : super_block) (gdp tmp : Nat) : super_block :=
  if tmp = (sb.gdt gdp).bg_block_bitmap ∨ tmp = (sb.gdt gdp).bg_inode_bitmap ∨
     in_range tmp (sb.gdt gdp).bg_inode_table sb.s_itb_per_group = true
  then ext2_error sb (.alloc_in_system_zone tmp) else sb

/-- The end of a successful `ext2_new_block`: the free block counts of the
group and of the super block go down by one, `sb->s_dirt = 1`. -/
def new_block_commit (sb : super_block) (gdp : Nat) : super_block :=
  { sb with
    gdt := fun g =>
      if g = gdp then
        { sb.gdt g with bg_free_blocks_count := u16_sub (sb.gdt g).bg_free_blocks_count 1 }
      else sb.gdt g
    s_es := { sb.s_es with s_free_blocks_count := u32_sub sb.s_es.s_free_blocks_count 1 }
    s_dirt := true }

/-- The label `got_block` of `ext2_new_block`: bit `j` of buffer `bh` of group
`i` with descriptor `gdp` was chosen. -/
def new_block_got_block (ino : inode) (sb : super_block) (goal i gdp bh j : Nat) : pass_result :=
  match DQUOT_ALLOC_BLOCK { ino with i_sb := sb } with
  | none => new_block_out ino sb (- EDQUOT)
  | some ino1 =>
    let tmp := u32 (j + i * sb.s_blocks_per_group + sb.s_es.s_first_data_block)
    let r := ext2_set_bit (new_block_check_zone sb gdp tmp) bh j
    if r.2 = true then
      .again (DQUOT_FREE_BLOCK { ino1 with i_sb := ext2_error r.1 (.bit_already_set j) } 1) goal
    else if sb.s_es.s_blocks_count ≤ tmp then
      .done { ino := { ino1 with
                i_sb := ext2_error r.1 (.block_ge_blocks_count tmp sb.s_es.s_blocks_count i) },
              ret := 0, err := - ENOSPC, panicked := false }
    else
      .done { ino := { ino1 with i_sb := new_block_commit r.1 gdp },
              ret := tmp, err := 0, panicked := false }

/-- The label `search_back` followed by `got_block`. -/
def new_block_search_back (ino : inode) (sb : super_block) (goal i gdp bh j : Nat) : pass_result :=
  new_block_got_block ino sb goal i gdp bh (search_back (sb.b_data bh) 7 j)

/-- How the loop over the other groups ends. -/
inductive group_search where
  | found (i gdp : Nat)
  | not_found
  | no_desc

/-- The loop `for (k = 0; k < sb->u.ext2_sb.s_groups_count; k++)` of
`ext2_new_block`, with `n` rounds left after group `i`. -/
def search_groups : Nat → super_block → Nat → super_block × group_search
  | 0, sb, _ => (sb, .not_found)
  | n + 1, sb, i =>
    let i1 := if sb.s_groups_count ≤ i + 1 then 0 else i + 1
    match ext2_get_group_desc sb i1 with
    | (sb1, none) => (sb1, .no_desc)
    | (sb1, some gdp) =>
      if 0 < (sb1.gdt gdp).bg_free_blocks_count then (sb1, .found i1 gdp)
      else search_groups n sb1 i1

/-- The part of `ext2_new_block` after the search in the group of the goal:
"Now search the rest of the groups". -/
def new_block_other_groups (ino : inode) (sb : super_block) (goal i : Nat) : pass_result :=
  match search_groups sb.s_groups_count sb i with
  | (sb1, .no_desc) => new_block_io_error ino sb1
  | (sb1, .not_found) => new_block_out ino sb1 (- ENOSPC)
  | (sb1, .found i1 gdp) =>
    match load_block_bitmap sb1 i1 with
    | (sb2, .panic) =>
      .done { ino := { ino with i_sb := sb2 }, ret := 0, err := - ENOSPC, panicked := true }
    | (sb2, .err_ptr _) => new_block_io_error ino sb2
    | (sb2, .bh bh) =>
      let bpg := sb2.s_blocks_per_group
      let j := memscan (sb2.b_data bh) 0 (bpg / 8) * 8
      if j < bpg then new_block_search_back ino sb2 goal i1 gdp bh j
      else
        let j := ext2_find_first_zero_bit (sb2.b_data bh) bpg
        if bpg ≤ j then
          new_block_out ino (ext2_error sb2 (.free_count_corrupted i1)) (- ENOSPC)
        else new_block_search_back ino sb2 goal i1 gdp bh j

/-- The search of `ext2_new_block` in the group of the goal, once its bitmap
`bh` is loaded: goal bit, near-goal window, free byte, free bit. -/
def new_block_goal_group (ino : inode) (sb : super_block) (goal i gdp bh j : Nat) : pass_result :=
  let bpg := sb.s_blocks_per_group
  if ext2_test_bit sb bh j = false then new_block_got_block ino sb goal i gdp bh j
  else
    let end_goal := (j + 63) / 64 * 64
    let j1 := if j ≠ 0 then ext2_find_next_zero_bit (sb.b_data bh) end_goal j else j
    if j ≠ 0 ∧ j1 < end_goal then new_block_got_block ino sb goal i gdp bh j1
    else
      let p := j1 / 8
      let r := memscan (sb.b_data bh) p (ulong (ulong_sub bpg j1 + 7) / 8)
      let k := r * 8
      if k < bpg then new_block_search_back ino sb goal i gdp bh k
      else
        let k := ext2_find_next_zero_bit (sb.b_data bh) bpg j1
        if k < bpg then new_block_got_block ino sb goal i gdp bh k
        else new_block_other_groups ino sb goal i

/-- One pass through `ext2_new_block` from the label `repeat` on. -/
def new_block_pass (ino : inode) (sb : super_block) (goal : Nat) : pass_result :=
  let es := sb.s_es
  let goal := if goal < es.s_first_data_block ∨ es.s_blocks_count ≤ goal
              then es.s_first_data_block else goal
  let i := (goal - es.s_first_data_block) / sb.s_blocks_per_group
  match ext2_get_group_desc sb i with
  | (sb1, none) => new_block_io_error ino sb1
  | (sb1, some gdp) =>
    if 0 < (sb1.gdt gdp).bg_free_blocks_count then
      let j := (goal - es.s_first_data_block) % sb1.s_blocks_per_group
      match load_block_bitmap sb1 i with
      | (sb2, .panic) =>
        .done { ino := { ino with i_sb := sb2 }, ret := 0, err := - ENOSPC, panicked := true }
      | (sb2, .err_ptr _) => new_block_io_error ino sb2
      | (sb2, .bh bh) => new_block_goal_group ino sb2 goal i gdp bh j
    else new_block_other_groups ino sb1 goal i

/-- The `goto repeat` loop of `ext2_new_block`; `none` when `fuel` passes do
not end it. -/
def new_block_repeat : Nat → inode → Nat → Option new_block_result
  | 0, _, _ => none
  | fuel + 1, ino, goal =>
    match new_block_pass ino ino.i_sb goal with
    | .done r => some r
    | .again ino1 goal1 => new_block_repeat fuel ino1 goal1

/-- `ext2_new_block(inode, goal, NULL, NULL, &err)` called by the task
`current`, the `goto repeat` loop being run for at most `fuel` passes. -/
def ext2_new_block (fuel : Nat) (current : task_struct) (ino : inode) (goal : Nat) :
    Option new_block_result :=
  let sb := ino.i_sb
  if sb.s_es.s_free_blocks_count ≤ sb.s_es.s_r_blocks_count ∧
     (sb.s_resuid ≠ current.fsuid ∧
      (sb.s_resgid = 0 ∨ current.in_group_p sb.s_resgid = false) ∧
      current.cap_sys_resource = false) then
    some { ino := ino, ret := 0, err := - ENOSPC, panicked := false }
  else new_block_repeat fuel ino goal


/-! ## Groups with a copy of the super block -/

/-- The loop `while (1)` of `test_root`, `a` and `b` being non-negative; `none`
when `fuel` rounds do not end it. -/
def test_root_loop (b : Nat) : Nat → Nat → Option Nat
  | 0, _ => none
  | fuel + 1, a =>
    if a = 1 then some 1
    else if a % b ≠ 0 then some 0
    else test_root_loop b fuel (a / b)

/-- `test_root(a, b)` for non-negative `a` and `b`, the loop being run for at
most `fuel` rounds. -/
def test_root (fuel a b : Nat) : Option Nat :=
  if a = 0 then some 1 else test_root_loop b fuel a

/-- `ext2_group_sparse(group)`:
`test_root(group, 3) || test_root(group, 5) || test_root(group, 7)`. -/
def ext2_group_sparse (fuel group : Nat) : Option Nat :=
  match test_root fuel group 3 with
  | none => none
  | some x =>
    if x ≠ 0 then some 1
    else
      match test_root fuel group 5 with
      | none => none
      | some y =>
        if y ≠ 0 then some 1
        else
          match test_root fuel group 7 with
          | none => none
          | some z => if z ≠ 0 then some 1 else some 0

/-- `ext2_bg_has_super(sb, group)`; `sparse_super` is the value of
`EXT2_HAS_RO_COMPAT_FEATURE(sb, EXT2_FEATURE_RO_COMPAT_SPARSE_SUPER)`, a macro
of a header that is not part of the sources. -/
def ext2_bg_has_super (fuel : Nat) (sparse_super : Bool) (group : Nat) : Option Nat :=
  if sparse_super = true then
    match ext2_group_sparse fuel group with
    | none => none
    | some s => if s = 0 then some 0 else some 1
  else some 1

/-- `ext2_bg_num_gdb(sb, group)`; `s_gdb_count` is `EXT2_SB(sb)->s_gdb_count`. -/
def ext2_bg_num_gdb (fuel : Nat) (sparse_super : Bool) (s_gdb_count group : Nat) : Option Nat :=
  if sparse_super = true then
    match ext2_group_sparse fuel group with
    | none => none
    | some s => if s = 0 then some 0 else some s_gdb_count
  else some s_gdb_count

/-! ## The audit of the free block counts -/

/-- Number of clear bits among the `n` bits of a bitmap from bit `start` on. -/
def count_clear (bm : Nat → Bool) : Nat → Nat → Nat
  | _, 0 => 0
  | start, n + 1 => (if bm start = false then 1 else 0) + count_clear bm (start + 1) n

/-- The loop `for (i = 0; i < numchars; i++) sum += ...` of `ext2_count_free`
over the bytes of a bitmap, with `n` rounds left: each byte adds the number of
its clear bits. -/
def count_free_bytes (bm : Nat → Bool) : Nat → Nat → Nat → Nat
  | 0, _, sum => sum
  | n + 1, i, sum => count_free_bytes bm n (i + 1) (ulong (sum + count_clear bm (8 * i) 8))

/-- Modelled from the spec: `ext2_count_free(bh, numchars)` of `bitmap.c`,
which is not part of the sources ("compute actual free count by scanning its
bitmap"): the number of clear bits in the first `numchars` bytes of the
buffer, summed up byte by byte in an `unsigned long`. -/
def ext2_count_free (sb : super_block) (bh numchars : Nat) : Nat :=
  count_free_bytes (sb.b_data bh) numchars 0 0

/-- A line printed with `printk` by `ext2_count_free_blocks`:
"group %d: stored = %d, counted = %lu" and
"ext2_count_free_blocks: stored = %lu, computed = %lu, %lu". -/
inductive audit_line where
  | group (i stored counted : Nat)
  | total (stored computed counted : Nat)
  deriving DecidableEq, Repr

/-- The variables of the loop over the groups of `ext2_count_free_blocks` and
`ext2_check_blocks_bitmap`, the lines printed so far, and whether the call
ended in `ext2_panic`. -/
structure audit_state where
  sb : super_block
  desc_count : Nat
  bitmap_count : Nat
  out : List audit_line
  panicked : Bool

/-- The loop `for (i = 0; i < sb->u.ext2_sb.s_groups_count; i++)` of
`ext2_count_free_blocks` (with `EXT2FS_DEBUG`), with `n` rounds left. -/
def count_free_loop : Nat → Nat → audit_state → audit_state
  | 0, _, s => s
  | n + 1, i, s =>
    match ext2_get_group_desc s.sb i with
    | (sb1, none) => count_free_loop n (i + 1) { s with sb := sb1 }
    | (sb1, some gdp) =>
      let desc_count := ulong (s.desc_count + (sb1.gdt gdp).bg_free_blocks_count)
      match load_block_bitmap sb1 i with
      | (sb2, .panic) => { s with sb := sb2, desc_count := desc_count, panicked := true }
      | (sb2, .err_ptr _) =>
        count_free_loop n (i + 1) { s with sb := sb2, desc_count := desc_count }
      | (sb2, .bh bh) =>
        let x := ext2_count_free sb2 bh sb2.s_blocksize
        count_free_loop n (i + 1)
          { s with
            sb := sb2
            desc_count := desc_count
            bitmap_count := ulong (s.bitmap_count + x)
            out := s.out ++ [.group i (sb2.gdt gdp).bg_free_blocks_count x] }

/-- What `ext2_count_free_blocks` leaves: the super block, the value returned,
the lines printed, and whether the call ended in `ext2_panic`. -/
structure count_free_result where
  sb : super_block
  ret : Nat
  out : List audit_line
  panicked : Bool

/-- `ext2_count_free_blocks(sb)`; `debug` tells whether `EXT2FS_DEBUG` is
defined. -/
def ext2_count_free_blocks (debug : Bool) (sb : super_block) : count_free_result :=
  if debug = true then
    let s := count_free_loop sb.s_groups_count 0
      { sb := sb, desc_count := 0, bitmap_count := 0, out := [], panicked := false }
    if s.panicked = true then { sb := s.sb, ret := 0, out := s.out, panicked := true }
    else
      { sb := s.sb
        ret := s.bitmap_count
        out := s.out ++ [.total s.sb.s_es.s_free_blocks_count s.desc_count s.bitmap_count]
        panicked := false }
  else { sb := sb, ret := sb.s_es.s_free_blocks_count, out := [], panicked := false }

/-- `block_in_use(block, sb, map)`, `map` being the data of buffer `bh`. -/
def block_in_use (sb : super_block) (block bh : Nat) : Bool :=
  ext2_test_bit sb bh (ulong_sub block sb.s_es.s_first_data_block % sb.s_blocks_per_group)

/-- The loop `for (j = 0; j < desc_blocks; j++)` of `ext2_check_blocks_bitmap`
for group `i`, with `n` rounds left. -/
def check_desc_blocks (bh i : Nat) : Nat → Nat → super_block → super_block
  | 0, _, sb => sb
  | n + 1, j, sb =>
    check_desc_blocks bh i n (j + 1)
      (if ext2_test_bit sb bh (j + 1) = false
       then ext2_error sb (.descriptor_block_marked_free j i) else sb)

/-- The loop `for (j = 0; j < sb->u.ext2_sb.s_itb_per_group; j++)` of
`ext2_check_blocks_bitmap` for group `i`, with `n` rounds left. -/
def check_inode_table (bh gdp i : Nat) : Nat → Nat → super_block → super_block
  | 0, _, sb => sb
  | n + 1, j, sb =>
    check_inode_table bh gdp i n (j + 1)
      (if block_in_use sb (ulong ((sb.gdt gdp).bg_inode_table + j)) bh = false
       then ext2_error sb (.inode_table_block_marked_free j i) else sb)

/-- The checks of `ext2_check_blocks_bitmap` on the bits of the descriptor
blocks, the block bitmap, the inode bitmap and the inode table of group `i`,
`desc_blocks` being the value of `ext2_bg_num_gdb(sb, i)`. -/
def check_group_marks (desc_blocks i gdp bh : Nat) (sb : super_block) : super_block :=
  let sb2 := check_desc_blocks bh i desc_blocks 0 sb
  let sb3 := if block_in_use sb2 (sb2.gdt gdp).bg_block_bitmap bh = false
             then ext2_error sb2 (.block_bitmap_marked_free i) else sb2
  let sb4 := if block_in_use sb3 (sb3.gdt gdp).bg_inode_bitmap bh = false
             then ext2_error sb3 (.inode_bitmap_marked_free i) else sb3
  check_inode_table bh gdp i sb4.s_itb_per_group 0 sb4

/-- The end of the checks of `ext2_check_blocks_bitmap` on group `i`: the free
blocks are counted and compared with the stored count; the state and `x`, the
number counted. -/
def check_group_count (i gdp bh : Nat) (sb : super_block) : super_block × Nat :=
  let x := ext2_count_free sb bh sb.s_blocksize
  (if (sb.gdt gdp).bg_free_blocks_count ≠ x
   then ext2_error sb (.wrong_group_free_count i (sb.gdt gdp).bg_free_blocks_count x)
   else sb, x)

/-- The checks of `ext2_check_blocks_bitmap` on group `i`, once its descriptor
`gdp` and its bitmap `bh` are at hand: the state and `x`, the number of free
blocks counted; `none` if a call of `ext2_bg_has_super` or `ext2_bg_num_gdb`
does not return. -/
def check_group (sparse_super : Bool) (s_gdb_count : Nat) (sb : super_block) (i gdp bh : Nat) :
    Option (super_block × Nat) :=
  match ext2_bg_has_super i sparse_super i with
  | none => none
  | some has_super =>
    let sb1 := if has_super ≠ 0 ∧ ext2_test_bit sb bh 0 = false
               then ext2_error sb (.super_block_marked_free i) else sb
    match ext2_bg_num_gdb i sparse_super s_gdb_count i with
    | none => none
    | some desc_blocks =>
      some (check_group_count i gdp bh (check_group_marks desc_blocks i gdp bh sb1))

/-- The loop `for (i = 0; i < sb->u.ext2_sb.s_groups_count; i++)` of
`ext2_check_blocks_bitmap`, with `n` rounds left. -/
def check_loop (sparse_super : Bool) (s_gdb_count : Nat) :
    Nat → Nat → audit_state → Option audit_state
  | 0, _, s => some s
  | n + 1, i, s =>
    match ext2_get_group_desc s.sb i with
    | (sb1, none) => check_loop sparse_super s_gdb_count n (i + 1) { s with sb := sb1 }
    | (sb1, some gdp) =>
      let desc_count := ulong (s.desc_count + (sb1.gdt gdp).bg_free_blocks_count)
      match load_block_bitmap sb1 i with
      | (sb2, .panic) => some { s with sb := sb2, desc_count := desc_count, panicked := true }
      | (sb2, .err_ptr _) =>
        check_loop sparse_super s_gdb_count n (i + 1)
          { s with sb := sb2, desc_count := desc_count }
      | (sb2, .bh bh) =>
        match check_group sparse_super s_gdb_count sb2 i gdp bh with
        | none => none
        | some r =>
          check_loop sparse_super s_gdb_count n (i + 1)
            { s with
              sb := r.1
              desc_count := desc_count
              bitmap_count := ulong (s.bitmap_count + r.2) }

/-- `ext2_check_blocks_bitmap(sb)` (with `CONFIG_EXT2_CHECK`): the state it
leaves, its reports being in the log; `sparse_super` and `s_gdb_count` are as
in `ext2_bg_has_super` and `ext2_bg_num_gdb`. -/
def ext2_check_blocks_bitmap (sparse_super : Bool) (s_gdb_count : Nat) (sb : super_block) :
    Option audit_state :=
  match check_loop sparse_super s_gdb_count sb.s_groups_count 0
      { sb := sb, desc_count := 0, bitmap_count := 0, out := [], panicked := false } with
  | none => none
  | some s =>
    if s.panicked = true then some s
    else
      some { s with
        sb := if s.sb.s_es.s_free_blocks_count ≠ s.bitmap_count
              then ext2_error s.sb
                (.wrong_super_free_count s.sb.s_es.s_free_blocks_count s.bitmap_count)
              else s.sb }

/-! ## Notions used by the statements -/

/-- The bitmap block of group `g`. -/
def bitmap_block (sb : super_block) (g : Nat) : Nat := (sb.gdt g).bg_block_bitmap

/-- Two states of the super block that differ in the bitmap cache, the log and
the record of the blocks read only. -/
structure same_disk (a b : super_block) : Prop where
  s_es : b.s_es = a.s_es
  s_blocksize : b.s_blocksize = a.s_blocksize
  s_blocks_per_group : b.s_blocks_per_group = a.s_blocks_per_group
  s_itb_per_group : b.s_itb_per_group = a.s_itb_per_group
  s_groups_count : b.s_groups_count = a.s_groups_count
  s_desc_per_block : b.s_desc_per_block = a.s_desc_per_block
  s_group_desc : b.s_group_desc = a.s_group_desc
  gdt : b.gdt = a.gdt
  s_resuid : b.s_resuid = a.s_resuid
  s_resgid : b.s_resgid = a.s_resgid
  s_dirt : b.s_dirt = a.s_dirt
  bread_ok : b.bread_ok = a.bread_ok
  b_data : b.b_data = a.b_data

/-- Invariant of the bitmap cache: a buffer held by a slot is the bitmap block
of the group the slot is tagged with, and without LRU an occupied slot is
tagged with its own number. -/
def cache_ok (sb : super_block) : Prop :=
  (∀ slot b, sb.s_block_bitmap slot = some b →
     b = bitmap_block sb (sb.s_block_bitmap_number slot)) ∧
  (sb.s_groups_count ≤ EXT2_MAX_GROUP_LOADED →
     ∀ slot b, slot < sb.s_groups_count → sb.s_block_bitmap slot = some b →
       sb.s_block_bitmap_number slot = slot)

/-- Every group descriptor block is loaded and every block bitmap can be read. -/
def io_ok (sb : super_block) : Prop :=
  ∀ g, g < sb.s_groups_count →
    sb.s_group_desc (g / sb.s_desc_per_block) = true ∧ sb.bread_ok (bitmap_block sb g) = true

/-- The reserved-block test at the head of `ext2_new_block` turns the caller away. -/
def reserved_reject (sb : super_block) (current : task_struct) : Prop :=
  sb.s_es.s_free_blocks_count ≤ sb.s_es.s_r_blocks_count ∧
  (sb.s_resuid ≠ current.fsuid ∧
   (sb.s_resgid = 0 ∨ current.in_group_p sb.s_resgid = false) ∧
   current.cap_sys_resource = false)

/-- The quota collaborator accepts the reservation of one block. -/
def quota_accepts (dq : dquot) : Prop :=
  match dq.limit with
  | none => True
  | some l => dq.reserved + 1 ≤ l + dq.released

/-- Group of block `b`: `(b - first_data_block) / blocks_per_group`. -/
def group_of (sb : super_block) (b : Nat) : Nat :=
  (b - sb.s_es.s_first_data_block) / sb.s_blocks_per_group

/-- Bit of block `b` in the bitmap of its group:
`(b - first_data_block) % blocks_per_group`. -/
def bit_of (sb : super_block) (b : Nat) : Nat :=
  (b - sb.s_es.s_first_data_block) % sb.s_blocks_per_group

/-- The bitmap bit of block `b`, read from the bitmap block of its group. -/
def block_bit (sb : super_block) (b : Nat) : Bool :=
  sb.b_data (bitmap_block sb (group_of sb b)) (bit_of sb b)

/-! ## Concrete file systems used as instances -/

/-- Two groups of 8192 blocks, first data block 1; group 0 is full except for
bit 5000, group 1 is full; the bitmap cache is empty. -/
def sb_two_groups : super_block :=
  { s_es := { s_blocks_count := 16385, s_r_blocks_count := 0, s_free_blocks_count := 1,
              s_first_data_block := 1 }
    s_blocksize := 1024
    s_blocks_per_group := 8192
    s_itb_per_group := 4
    s_groups_count := 2
    s_desc_per_block := 32
    s_group_desc := fun n => decide (n = 0)
    gdt := fun g =>
      if g = 0 then { bg_block_bitmap := 3, bg_inode_bitmap := 4, bg_inode_table := 5,
                      bg_free_blocks_count := 1 }
      else { bg_block_bitmap := 8195, bg_inode_bitmap := 8196, bg_inode_table := 8197,
             bg_free_blocks_count := 0 }
    s_loaded_block_bitmaps := 0
    s_block_bitmap_number := fun _ => 0
    s_block_bitmap := fun _ => none
    s_resuid := 0
    s_resgid := 0
    s_dirt := false
    bread_ok := fun _ => true
    b_data := fun b n => if b = 3 then decide (n ≠ 5000) else true
    log := []
    bread_log := [] }

/-- An inode of `sb_two_groups` without quota limit. -/
def ino_two_groups : inode :=
  { i_sb := sb_two_groups, i_dquot := { limit := none, reserved := 0, released := 0 } }

/-- A task with `CAP_SYS_RESOURCE`. -/
def task_root : task_struct :=
  { fsuid := 0, in_group_p := fun _ => false, cap_sys_resource := true }

/-- A task without any claim to the reserved blocks. -/
def task_user : task_struct :=
  { fsuid := 1000, in_group_p := fun _ => false, cap_sys_resource := false }

/-- The fields hold values of their C types: `__u32` and `__u16` on disk,
`unsigned long` in memory. -/
structure fields_fit (sb : super_block) : Prop where
  s_blocks_count : sb.s_es.s_blocks_count < 2 ^ 32
  s_r_blocks_count : sb.s_es.s_r_blocks_count < 2 ^ 32
  s_free_blocks_count : sb.s_es.s_free_blocks_count < 2 ^ 32
  s_first_data_block : sb.s_es.s_first_data_block < 2 ^ 32
  bg_block_bitmap : ∀ g, (sb.gdt g).bg_block_bitmap < 2 ^ 32
  bg_inode_bitmap : ∀ g, (sb.gdt g).bg_inode_bitmap < 2 ^ 32
  bg_inode_table : ∀ g, (sb.gdt g).bg_inode_table < 2 ^ 32
  bg_free_blocks_count : ∀ g, (sb.gdt g).bg_free_blocks_count < 2 ^ 16
  s_blocks_per_group : sb.s_blocks_per_group < 2 ^ BITS_PER_LONG
  s_itb_per_group : sb.s_itb_per_group < 2 ^ BITS_PER_LONG
  s_groups_count : sb.s_groups_count < 2 ^ BITS_PER_LONG
  s_desc_per_block : sb.s_desc_per_block < 2 ^ BITS_PER_LONG

/-- The goal once `ext2_new_block` has put it into range. -/
def norm_goal (sb : super_block) (goal : Nat) : Nat :=
  if goal < sb.s_es.s_first_data_block ∨ sb.s_es.s_blocks_count ≤ goal
  then sb.s_es.s_first_data_block else goal

/-- End of the near-goal window of bit `j`: `(j + 63) & ~63`. -/
def end_goal (j : Nat) : Nat := (j + 63) / 64 * 64

/-- Where the search goes on after the near-goal window: the end of the
window, and bit 0 when the goal bit is bit 0 (no window is searched then). -/
def after_window (j : Nat) : Nat := if j = 0 then 0 else end_goal j

/-- What mounting establishes about the geometry: a group has blocks, its
bitmap fits one block (of at most 64K), and every block of the data zone
lies in one of the `s_groups_count` groups. -/
structure geometry_ok (sb : super_block) : Prop where
  bpg_pos : 0 < sb.s_blocks_per_group
  bpg_le : sb.s_blocks_per_group ≤ 8 * sb.s_blocksize
  blocksize_le : sb.s_blocksize ≤ 65536
  first_le : sb.s_es.s_first_data_block ≤ sb.s_es.s_blocks_count
  groups : sb.s_es.s_blocks_count - sb.s_es.s_first_data_block ≤
    sb.s_groups_count * sb.s_blocks_per_group

/-- Number of set bits among the `n` bits of a bitmap from bit `start` on. -/
def count_set (bm : Nat → Bool) : Nat → Nat → Nat
  | _, 0 => 0
  | start, n + 1 => (if bm start = true then 1 else 0) + count_set bm (start + 1) n

/-- Number of blocks among the `n` blocks from `block` on that are selected
by `sel` and whose bitmap bit is set. -/
def count_used (sb : super_block) (sel : Nat → Bool) : Nat → Nat → Nat
  | _, 0 => 0
  | block, n + 1 =>
    (if sel block = true ∧ block_bit sb block = true then 1 else 0) +
      count_used sb sel (block + 1) n

/-- Number of blocks of the range `[block, block + n)` in use. -/
def used_in_range (sb : super_block) (block n : Nat) : Nat :=
  count_used sb (fun _ => true) block n

/-- Number of blocks of the range `[block, block + n)` in use that lie in group `g`. -/
def used_in_group (sb : super_block) (g block n : Nat) : Nat :=
  count_used sb (fun b => decide (group_of sb b = g)) block n

/-- Number of blocks of the range `[block, block + n)` that lie in group `g`. -/
def range_in_group (sb : super_block) (g block : Nat) : Nat → Nat
  | 0 => 0
  | n + 1 => (if group_of sb block = g then 1 else 0) + range_in_group sb g (block + 1) n

/-- The groups have their block bitmaps in different blocks (mounting checks
that the bitmap of a group lies inside the group). -/
def bitmaps_distinct (sb : super_block) : Prop :=
  ∀ g h, g < sb.s_groups_count → h < sb.s_groups_count →
    bitmap_block sb g = bitmap_block sb h → g = h

/-- A mounted file system in working order: fields within their types,
geometry as set up by mounting, coherent bitmap cache, descriptors loaded and
bitmaps readable, one bitmap block per group. -/
structure fs_ok (sb : super_block) : Prop where
  fit : fields_fit sb
  geo : geometry_ok sb
  cache : cache_ok sb
  io : io_ok sb
  distinct : bitmaps_distinct sb

/-- Two states with the same layout: they differ at most in bitmap contents,
free block counts, the dirty flag, the bitmap cache and the log. -/
structure same_layout (a b : super_block) : Prop where
  s_blocks_count : b.s_es.s_blocks_count = a.s_es.s_blocks_count
  s_r_blocks_count : b.s_es.s_r_blocks_count = a.s_es.s_r_blocks_count
  s_first_data_block : b.s_es.s_first_data_block = a.s_es.s_first_data_block
  s_blocksize : b.s_blocksize = a.s_blocksize
  s_blocks_per_group : b.s_blocks_per_group = a.s_blocks_per_group
  s_itb_per_group : b.s_itb_per_group = a.s_itb_per_group
  s_groups_count : b.s_groups_count = a.s_groups_count
  s_desc_per_block : b.s_desc_per_block = a.s_desc_per_block
  s_group_desc : b.s_group_desc = a.s_group_desc
  bg_block_bitmap : ∀ g, (b.gdt g).bg_block_bitmap = (a.gdt g).bg_block_bitmap
  bg_inode_bitmap : ∀ g, (b.gdt g).bg_inode_bitmap = (a.gdt g).bg_inode_bitmap
  bg_inode_table : ∀ g, (b.gdt g).bg_inode_table = (a.gdt g).bg_inode_table
  s_resuid : b.s_resuid = a.s_resuid
  s_resgid : b.s_resgid = a.s_resgid
  bread_ok : b.bread_ok = a.bread_ok

/-- What `ext2_free_blocks` has done when its loop, entered for the range
`[block, block + count)` with `freed` blocks freed before, is over: every bit
of the range is clear, no other bit has changed, every group count went up by
the number of blocks of the range in use in that group, the count of the
super block and the quota released went up by `freed` plus the number of
blocks of the range in use. -/
structure free_post (ino : inode) (sb : super_block) (block count freed : Nat)
    (r : free_result) : Prop where
  not_panicked : r.panicked = false
  layout : same_layout sb r.ino.i_sb
  ok : fs_ok r.ino.i_sb
  cleared : ∀ b, block ≤ b → b < block + count → block_bit r.ino.i_sb b = false
  others : ∀ blk n,
    (∀ b, block ≤ b → b < block + count →
      ¬ (blk = bitmap_block sb (group_of sb b) ∧ n = bit_of sb b)) →
    r.ino.i_sb.b_data blk n = sb.b_data blk n
  group_counts : ∀ g, (r.ino.i_sb.gdt g).bg_free_blocks_count =
    u16 ((sb.gdt g).bg_free_blocks_count + used_in_group sb g block count)
  free_count : r.ino.i_sb.s_es.s_free_blocks_count =
    u32 (sb.s_es.s_free_blocks_count + (freed + used_in_range sb block count))
  quota : r.ino.i_dquot =
    { ino.i_dquot with released := ino.i_dquot.released + (freed + used_in_range sb block count) }

/-- Two groups of 96 blocks (a multiple of 8, not of 64), first data block 1,
blocks of 1024 bytes.  In group 0 block 51 (bit 50) is the one free block,
and bit 96 of its bitmap, the first bit after the 96 bits of the group, is
clear; group 1 is full.  The free counts (1, 0, total 1) are those of the
bitmaps. -/
def sb_window : super_block :=
  { s_es := { s_blocks_count := 193, s_r_blocks_count := 0, s_free_blocks_count := 1,
              s_first_data_block := 1 }
    s_blocksize := 1024
    s_blocks_per_group := 96
    s_itb_per_group := 2
    s_groups_count := 2
    s_desc_per_block := 32
    s_group_desc := fun n => decide (n = 0)
    gdt := fun g =>
      if g = 0 then { bg_block_bitmap := 3, bg_inode_bitmap := 4, bg_inode_table := 5,
                      bg_free_blocks_count := 1 }
      else { bg_block_bitmap := 99, bg_inode_bitmap := 100, bg_inode_table := 101,
             bg_free_blocks_count := 0 }
    s_loaded_block_bitmaps := 0
    s_block_bitmap_number := fun _ => 0
    s_block_bitmap := fun _ => none
    s_resuid := 0
    s_resgid := 0
    s_dirt := false
    bread_ok := fun _ => true
    b_data := fun b n => if b = 3 then decide (n ≠ 50 ∧ n ≠ 96) else true
    log := []
    bread_log := [] }

/-- An inode of `sb_window` without quota limit. -/
def ino_window : inode :=
  { i_sb := sb_window, i_dquot := { limit := none, reserved := 0, released := 0 } }

/-- Two groups of 100 blocks (not a multiple of 8), first data block 1,
blocks of 1024 bytes.  Group 0 is full; in group 1 block 106 (bit 5) is the
one free block; every bit after the 100 bits of a group is set.  The free
counts (0, 1, total 1) are those of the bitmaps. -/
def sb_odd : super_block :=
  { s_es := { s_blocks_count := 201, s_r_blocks_count := 1, s_free_blocks_count := 1,
              s_first_data_block := 1 }
    s_blocksize := 1024
    s_blocks_per_group := 100
    s_itb_per_group := 2
    s_groups_count := 2
    s_desc_per_block := 32
    s_group_desc := fun n => decide (n = 0)
    gdt := fun g =>
      if g = 0 then { bg_block_bitmap := 3, bg_inode_bitmap := 4, bg_inode_table := 5,
                      bg_free_blocks_count := 0 }
      else { bg_block_bitmap := 103, bg_inode_bitmap := 104, bg_inode_table := 105,
             bg_free_blocks_count := 1 }
    s_loaded_block_bitmaps := 0
    s_block_bitmap_number := fun _ => 0
    s_block_bitmap := fun _ => none
    s_resuid := 0
    s_resgid := 0
    s_dirt := false
    bread_ok := fun _ => true
    b_data := fun b n => if b = 103 then decide (n ≠ 5) else true
    log := []
    bread_log := [] }

/-- An inode of `sb_odd` without quota limit. -/
def ino_odd : inode :=
  { i_sb := sb_odd, i_dquot := { limit := none, reserved := 0, released := 0 } }

/-- The file system `sb_odd` with bit 96 of group 1 (block 197) free as well. -/
def sb_odd_two_free : super_block :=
  { sb_odd with
    s_es := { sb_odd.s_es with s_free_blocks_count := 2 }
    gdt := fun g =>
      if g = 0 then { bg_block_bitmap := 3, bg_inode_bitmap := 4, bg_inode_table := 5,
                      bg_free_blocks_count := 0 }
      else { bg_block_bitmap := 103, bg_inode_bitmap := 104, bg_inode_table := 105,
             bg_free_blocks_count := 2 }
    b_data := fun b n => if b = 103 then decide (n ≠ 5 ∧ n ≠ 96) else true }

/-- An inode of `sb_odd_two_free` without quota limit. -/
def ino_odd_two_free : inode :=
  { i_sb := sb_odd_two_free, i_dquot := { limit := none, reserved := 0, released := 0 } }

/-- The states that the passes of `ext2_new_block` go through on `ino_odd`:
the file system of `sb_odd` with any coherent bitmap cache, any log and any
record of reads, and no quota limit. -/
def stuck_odd (ino : inode) : Prop :=
  same_disk sb_odd ino.i_sb ∧ cache_ok ino.i_sb ∧ ino.i_dquot.limit = none

/-- The bitmaps are laid out as `mke2fs` lays them out: a group has a multiple
of 8 blocks, in the bitmap of every group the bits after those of the group,
up to the next multiple of 64, are set, and the block numbers of all groups
fit 32 bits. -/
structure layout_ok (sb : super_block) : Prop where
  bpg_mul8 : sb.s_blocks_per_group % 8 = 0
  padding : ∀ g, g < sb.s_groups_count → ∀ n, sb.s_blocks_per_group ≤ n →
    n < end_goal sb.s_blocks_per_group → sb.b_data (bitmap_block sb g) n = true
  groups_fit : sb.s_groups_count * sb.s_blocks_per_group + sb.s_es.s_first_data_block ≤ 2 ^ 32

/-- How a pass of `ext2_new_block` on the state `sb` with goal `goal` can end
before the label `got_block` does its work: it fails with the file system as
it was (apart from the bitmap cache and the log), or it reaches `got_block`
with a clear bit `j` of a group `i` that has a stored free count above 0. -/
inductive pass_shape (ino : inode) (sb : super_block) (goal : Nat) : pass_result → Prop where
  | failed (sb1 : super_block) (e : Int) (hsd : same_disk sb sb1) (hc : cache_ok sb1)
      (he : e = - EIO ∨ e = - ENOSPC) : pass_shape ino sb goal (new_block_out ino sb1 e)
  | chosen (sb1 : super_block) (i j : Nat) (hsd : same_disk sb sb1) (hc : cache_ok sb1)
      (hi : i < sb.s_groups_count) (hj : j < sb.s_blocks_per_group)
      (hbit : sb.b_data (bitmap_block sb i) j = false)
      (hfree : 0 < (sb.gdt i).bg_free_blocks_count) :
      pass_shape ino sb goal (new_block_got_block ino sb1 goal i i (bitmap_block sb i) j)

/-- What a successful `ext2_new_block` on the inode `ino` has done, `r` being
its result: bit `j` of group `i`, clear before, is set now and nothing else
in the bitmaps has changed; the block returned is the block of that bit and
lies below `s_blocks_count`; the free count of group `i`, which was above 0,
and the free count of the super block have gone down by one; one block of
quota is reserved. -/
structure alloc_post (ino : inode) (r : new_block_result) (i j : Nat) : Prop where
  group : i < ino.i_sb.s_groups_count
  bit : j < ino.i_sb.s_blocks_per_group
  ret : r.ret = ino.i_sb.s_es.s_first_data_block + i * ino.i_sb.s_blocks_per_group + j
  below : r.ret < ino.i_sb.s_es.s_blocks_count
  was_clear : ino.i_sb.b_data (bitmap_block ino.i_sb i) j = false
  had_free : 0 < (ino.i_sb.gdt i).bg_free_blocks_count
  b_data : r.ino.i_sb.b_data =
    fun b n => if b = bitmap_block ino.i_sb i ∧ n = j then true else ino.i_sb.b_data b n
  group_count : ∀ g, (r.ino.i_sb.gdt g).bg_free_blocks_count =
    if g = i then u16_sub (ino.i_sb.gdt g).bg_free_blocks_count 1
    else (ino.i_sb.gdt g).bg_free_blocks_count
  free_count : r.ino.i_sb.s_es.s_free_blocks_count =
    u32_sub ino.i_sb.s_es.s_free_blocks_count 1
  layout : same_layout ino.i_sb r.ino.i_sb
  cache : cache_ok r.ino.i_sb
  quota : r.ino.i_dquot = { ino.i_dquot with reserved := ino.i_dquot.reserved + 1 }
  not_panicked : r.panicked = false

/-- The file system `sb_two_groups` without a free block: every bit of both
bitmaps is set and the free counts of both groups and of the super block are 0. -/
def sb_no_space : super_block :=
  { sb_two_groups with
    s_es := { sb_two_groups.s_es with s_free_blocks_count := 0 }
    gdt := fun g =>
      if g = 0 then { bg_block_bitmap := 3, bg_inode_bitmap := 4, bg_inode_table := 5,
                      bg_free_blocks_count := 0 }
      else { bg_block_bitmap := 8195, bg_inode_bitmap := 8196, bg_inode_table := 8197,
             bg_free_blocks_count := 0 }
    b_data := fun _ _ => true }

/-- An inode of `sb_no_space` without quota limit. -/
def ino_no_space : inode :=
  { i_sb := sb_no_space, i_dquot := { limit := none, reserved := 0, released := 0 } }

/-- How the search of a pass of `ext2_new_block` ends, before the label
`got_block` does its work: at `got_block` with bit `j` of buffer `bh` of group
`i` (descriptor `gdp`), at `io_error` because `ext2_get_group_desc` returned
`NULL` or because `load_block_bitmap` of group `i` returned an error, in
`ext2_panic`, or at `out` because no group has a stored free count above 0 or
because the group chosen has no clear bit ("Free blocks count corrupted"). -/
inductive find_result where
  | got_block (i gdp bh j : Nat)
  | no_desc
  | load_failed (i : Nat)
  | load_panic
  | not_found
  | corrupted
  deriving DecidableEq, Repr

/-- The search of `ext2_new_block` in the groups after group `i` ("Now search
the rest of the groups"), up to the label `got_block`: the statements of
`new_block_other_groups` without what `got_block` does. -/
def find_in_other_groups (sb : super_block) (i : Nat) : super_block × find_result :=
  match search_groups sb.s_groups_count sb i with
  | (sb1, .no_desc) => (sb1, .no_desc)
  | (sb1, .not_found) => (sb1, .not_found)
  | (sb1, .found i1 gdp) =>
    match load_block_bitmap sb1 i1 with
    | (sb2, .panic) => (sb2, .load_panic)
    | (sb2, .err_ptr _) => (sb2, .load_failed i1)
    | (sb2, .bh bh) =>
      let bpg := sb2.s_blocks_per_group
      let j := memscan (sb2.b_data bh) 0 (bpg / 8) * 8
      if j < bpg then (sb2, .got_block i1 gdp bh (search_back (sb2.b_data bh) 7 j))
      else
        let j := ext2_find_first_zero_bit (sb2.b_data bh) bpg
        if bpg ≤ j then (ext2_error sb2 (.free_count_corrupted i1), .corrupted)
        else (sb2, .got_block i1 gdp bh (search_back (sb2.b_data bh) 7 j))

/-- The search of `ext2_new_block` in the group of the goal, up to the label
`got_block`: the statements of `new_block_goal_group` without what `got_block`
does. -/
def find_in_goal_group (sb : super_block) (i gdp bh j : Nat) : super_block × find_result :=
  let bpg := sb.s_blocks_per_group
  if ext2_test_bit sb bh j = false then (sb, .got_block i gdp bh j)
  else
    let end_goal := (j + 63) / 64 * 64
    let j1 := if j ≠ 0 then ext2_find_next_zero_bit (sb.b_data bh) end_goal j else j
    if j ≠ 0 ∧ j1 < end_goal then (sb, .got_block i gdp bh j1)
    else
      let p := j1 / 8
      let r := memscan (sb.b_data bh) p (ulong (ulong_sub bpg j1 + 7) / 8)
      let k := r * 8
      if k < bpg then (sb, .got_block i gdp bh (search_back (sb.b_data bh) 7 k))
      else
        let k := ext2_find_next_zero_bit (sb.b_data bh) bpg j1
        if k < bpg then (sb, .got_block i gdp bh k)
        else find_in_other_groups sb i

/-- The search of one pass of `ext2_new_block`, from the label `repeat` up to
the label `got_block`: the statements of `new_block_pass` without what
`got_block` does. -/
def new_block_find (sb : super_block) (goal : Nat) : super_block × find_result :=
  let es := sb.s_es
  let goal := if goal < es.s_first_data_block ∨ es.s_blocks_count ≤ goal
              then es.s_first_data_block else goal
  let i := (goal - es.s_first_data_block) / sb.s_blocks_per_group
  match ext2_get_group_desc sb i with
  | (sb1, none) => (sb1, .no_desc)
  | (sb1, some gdp) =>
    if 0 < (sb1.gdt gdp).bg_free_blocks_count then
      let j := (goal - es.s_first_data_block) % sb1.s_blocks_per_group
      match load_block_bitmap sb1 i with
      | (sb2, .panic) => (sb2, .load_panic)
      | (sb2, .err_ptr _) => (sb2, .load_failed i)
      | (sb2, .bh bh) => find_in_goal_group sb2 i gdp bh j
    else find_in_other_groups sb1 i

/-- What a pass of `ext2_new_block` does once its search is over. -/
def new_block_finish (ino : inode) (goal : Nat) : super_block × find_result → pass_result
  | (sb, .got_block i gdp bh j) => new_block_got_block ino sb goal i gdp bh j
  | (sb, .no_desc) => new_block_io_error ino sb
  | (sb, .load_failed _) => new_block_io_error ino sb
  | (sb, .load_panic) =>
    .done { ino := { ino with i_sb := sb }, ret := 0, err := - ENOSPC, panicked := true }
  | (sb, .not_found) => new_block_out ino sb (- ENOSPC)
  | (sb, .corrupted) => new_block_out ino sb (- ENOSPC)

/-- An inode of `sb_two_groups` whose quota is used up: no further block is
accepted. -/
def ino_quota_full : inode :=
  { i_sb := sb_two_groups, i_dquot := { limit := some 0, reserved := 0, released := 0 } }

/-- A file system that uses the whole range of 32-bit block numbers: blocks
of 4096 bytes, 32768 blocks per group, first data block 0, `2^32 - 1` blocks
in 131072 groups (the last group has 32767 blocks).  Every bit of every bitmap
is set and every free count is 0; the bitmap cache is empty. -/
def sb_large : super_block :=
  { s_es := { s_blocks_count := 4294967295, s_r_blocks_count := 0, s_free_blocks_count := 0,
              s_first_data_block := 0 }
    s_blocksize := 4096
    s_blocks_per_group := 32768
    s_itb_per_group := 512
    s_groups_count := 131072
    s_desc_per_block := 128
    s_group_desc := fun _ => true
    gdt := fun g =>
      { bg_block_bitmap := g * 32768 + 1026, bg_inode_bitmap := g * 32768 + 1027,
        bg_inode_table := g * 32768 + 1028, bg_free_blocks_count := 0 }
    s_loaded_block_bitmaps := 0
    s_block_bitmap_number := fun _ => 0
    s_block_bitmap := fun _ => none
    s_resuid := 0
    s_resgid := 0
    s_dirt := false
    bread_ok := fun _ => true
    b_data := fun _ _ => true
    log := []
    bread_log := [] }

/-- An inode of `sb_large` without quota limit. -/
def ino_large : inode :=
  { i_sb := sb_large, i_dquot := { limit := none, reserved := 0, released := 0 } }

/-! ## The bitmap cache -/

/-- The bitmap cache as mounting leaves it: no bitmap loaded, no slot occupied. -/
def cache_empty (sb : super_block) : Prop :=
  sb.s_loaded_block_bitmaps = 0 ∧ ∀ slot, sb.s_block_bitmap slot = none

/-- The states whose bitmap cache is reachable from the empty cache: by calls
of `load_block_bitmap` for any group, successful or failing, and, between
these calls, by anything that leaves the cache and the number of groups alone
(allocation and deallocation change bitmaps and counts, reads may start or
stop to fail). -/
inductive cache_reachable : super_block → Prop where
  | empty (sb : super_block) (h : cache_empty sb) : cache_reachable sb
  | load (sb : super_block) (g : Nat) (h : cache_reachable sb) :
      cache_reachable (load_block_bitmap sb g).1
  | other (sb sb1 : super_block) (h : cache_reachable sb)
      (hg : sb1.s_groups_count = sb.s_groups_count)
      (hl : sb1.s_loaded_block_bitmaps = sb.s_loaded_block_bitmaps)
      (hn : sb1.s_block_bitmap_number = sb.s_block_bitmap_number)
      (hb : sb1.s_block_bitmap = sb.s_block_bitmap) : cache_reachable sb1

/-- The invariant of the bitmap cache.  Without LRU (at most
`EXT2_MAX_GROUP_LOADED` groups) `s_loaded_block_bitmaps` stays 0 and an
occupied slot is tagged with its own number.  With LRU at most
`EXT2_MAX_GROUP_LOADED` slots are in use, the slots from
`s_loaded_block_bitmaps` on are empty, and the tags of the slots in use are
pairwise distinct. -/
structure cache_inv (sb : super_block) : Prop where
  direct_loaded : sb.s_groups_count ≤ EXT2_MAX_GROUP_LOADED → sb.s_loaded_block_bitmaps = 0
  direct_tag : sb.s_groups_count ≤ EXT2_MAX_GROUP_LOADED →
    ∀ s b, sb.s_block_bitmap s = some b → sb.s_block_bitmap_number s = s
  lru_loaded : EXT2_MAX_GROUP_LOADED < sb.s_groups_count →
    sb.s_loaded_block_bitmaps ≤ EXT2_MAX_GROUP_LOADED
  lru_empty : EXT2_MAX_GROUP_LOADED < sb.s_groups_count →
    ∀ s, sb.s_loaded_block_bitmaps ≤ s → sb.s_block_bitmap s = none
  lru_distinct : EXT2_MAX_GROUP_LOADED < sb.s_groups_count →
    ∀ s t, s < sb.s_loaded_block_bitmaps → t < sb.s_loaded_block_bitmaps →
      sb.s_block_bitmap_number s = sb.s_block_bitmap_number t → s = t

/-- The entries `f k, f (k + 1), ...` of `n` slots from slot `k` on. -/
def slots {α : Type} (f : Nat → α) : Nat → Nat → List α
  | _, 0 => []
  | k, n + 1 => f k :: slots f (k + 1) n

/-- The ordered list of the entries of the LRU cache: for each of the
`s_loaded_block_bitmaps` slots in use, from slot 0 on, the group the slot is
tagged with and the buffer it holds (`none` after a read that failed). -/
def cache_entries (sb : super_block) : List (Nat × Option Nat) :=
  slots (fun k => (sb.s_block_bitmap_number k, sb.s_block_bitmap k)) 0 sb.s_loaded_block_bitmaps

/-- The move-to-front list of the spec ("hit moves entry to front; miss evicts
the least-recently-used slot and loads the requested group into the freed
slot"), for a cache of `cap` slots: the entry of group `g` with its buffer
`bh` comes first; it is followed by the previous list without the entry of
`g` if there was one, without its last entry if there was none and the list
was full, and by the previous list as it was otherwise. -/
def spec_move_to_front (cap : Nat) (l : List (Nat × Option Nat)) (g : Nat) (bh : Option Nat) :
    List (Nat × Option Nat) :=
  (g, bh) ::
    (if l.any (fun e => decide (e.1 = g)) then l.filter (fun e => decide (e.1 ≠ g))
     else if l.length = cap then l.dropLast else l)

/-- Group `g` is resident with a buffer: an entry of the cache is tagged with
`g` and holds a buffer. -/
def resident_with_buffer (sb : super_block) (g : Nat) : Prop :=
  ∃ b, (g, some b) ∈ cache_entries sb

/-- The three ways through the LRU part of `load_block_bitmap`, `m` being the
last slot that is overwritten: a hit at slot `m`, a miss with a slot to
spare, a miss with the cache full. -/
def lru_case (sb : super_block) (g m loaded : Nat) (bh0 : Option Nat) : Prop :=
  (m < sb.s_loaded_block_bitmaps ∧ sb.s_block_bitmap_number m = g ∧
    loaded = sb.s_loaded_block_bitmaps ∧ bh0 = sb.s_block_bitmap m) ∨
  ((∀ k, k < sb.s_loaded_block_bitmaps → sb.s_block_bitmap_number k ≠ g) ∧
    sb.s_loaded_block_bitmaps < EXT2_MAX_GROUP_LOADED ∧ m = sb.s_loaded_block_bitmaps ∧
    loaded = sb.s_loaded_block_bitmaps + 1 ∧ bh0 = none) ∨
  ((∀ k, k < sb.s_loaded_block_bitmaps → sb.s_block_bitmap_number k ≠ g) ∧
    EXT2_MAX_GROUP_LOADED ≤ sb.s_loaded_block_bitmaps ∧ m + 1 = sb.s_loaded_block_bitmaps ∧
    loaded = sb.s_loaded_block_bitmaps ∧ bh0 = none)

/-- The file system `sb_large` (LRU cache) after the bitmaps of the groups 5,
7 and again 5 have been loaded. -/
def sb_large_loaded : super_block :=
  (load_block_bitmap (load_block_bitmap (load_block_bitmap sb_large 5).1 7).1 5).1

/-- The file system `sb_two_groups` on a device that fails every read. -/
def sb_bad_disk : super_block :=
  { sb_two_groups with bread_ok := fun _ => false }

/-- An inode of `sb_bad_disk` without quota limit. -/
def ino_bad_disk : inode :=
  { i_sb := sb_bad_disk, i_dquot := { limit := none, reserved := 0, released := 0 } }

/-- Between the state `sb` and the later state `sb1` the device was asked for
blocks whose reads all succeeded (or for none). -/
def reads_succeeded (sb sb1 : super_block) : Prop :=
  ∃ l, sb1.bread_log = sb.bread_log ++ l ∧ ∀ b, b ∈ l → sb.bread_ok b = true

/-- The state of the super block at the end of a pass of `ext2_new_block`. -/
def pass_sb : pass_result → super_block
  | .done r => r.ino.i_sb
  | .again ino _ => ino.i_sb

/-- Two groups of 256 blocks (a multiple of 64), first data block 1, blocks of
1024 bytes.  In group 0 the free blocks are block 65 (bit 64) and the blocks
201 to 208 (bits 200 to 207, one whole byte of the bitmap); every other bit,
also after the 256 bits of the group, is set; group 1 is full.  The free
counts (9, 0, total 9) are those of the bitmaps. -/
def sb_near : super_block :=
  { s_es := { s_blocks_count := 513, s_r_blocks_count := 0, s_free_blocks_count := 9,
              s_first_data_block := 1 }
    s_blocksize := 1024
    s_blocks_per_group := 256
    s_itb_per_group := 2
    s_groups_count := 2
    s_desc_per_block := 32
    s_group_desc := fun n => decide (n = 0)
    gdt := fun g =>
      if g = 0 then { bg_block_bitmap := 3, bg_inode_bitmap := 4, bg_inode_table := 5,
                      bg_free_blocks_count := 9 }
      else { bg_block_bitmap := 259, bg_inode_bitmap := 260, bg_inode_table := 261,
             bg_free_blocks_count := 0 }
    s_loaded_block_bitmaps := 0
    s_block_bitmap_number := fun _ => 0
    s_block_bitmap := fun _ => none
    s_resuid := 0
    s_resgid := 0
    s_dirt := false
    bread_ok := fun _ => true
    b_data := fun b n => if b = 3 then decide (n ≠ 64 ∧ (n < 200 ∨ 207 < n)) else true
    log := []
    bread_log := [] }

/-- An inode of `sb_near` without quota limit. -/
def ino_near : inode :=
  { i_sb := sb_near, i_dquot := { limit := none, reserved := 0, released := 0 } }

/-- Nine groups of 8192 blocks (LRU cache), first data block 1, blocks of 1024
bytes; the bitmap of group `g` is block `g * 8192 + 3`.  Block 5001 (bit 5000
of group 0) is the one free block.  The bitmap of group 0 is in the first slot
of the bitmap cache, and the device no longer reads its block (block 3); every
other block can be read. -/
def sb_stale : super_block :=
  { s_es := { s_blocks_count := 73729, s_r_blocks_count := 0, s_free_blocks_count := 1,
              s_first_data_block := 1 }
    s_blocksize := 1024
    s_blocks_per_group := 8192
    s_itb_per_group := 4
    s_groups_count := 9
    s_desc_per_block := 32
    s_group_desc := fun n => decide (n = 0)
    gdt := fun g =>
      { bg_block_bitmap := g * 8192 + 3, bg_inode_bitmap := g * 8192 + 4,
        bg_inode_table := g * 8192 + 5, bg_free_blocks_count := if g = 0 then 1 else 0 }
    s_loaded_block_bitmaps := 1
    s_block_bitmap_number := fun _ => 0
    s_block_bitmap := fun k => if k = 0 then some 3 else none
    s_resuid := 0
    s_resgid := 0
    s_dirt := false
    bread_ok := fun b => decide (b ≠ 3)
    b_data := fun b n => if b = 3 then decide (n ≠ 5000) else true
    log := []
    bread_log := [3] }

/-- The state `b` differs from the state `a` at most in the log: the disk and
the bitmap cache are the same. -/
structure only_log (a b : super_block) : Prop where
  disk : same_disk a b
  s_loaded_block_bitmaps : b.s_loaded_block_bitmaps = a.s_loaded_block_bitmaps
  s_block_bitmap_number : b.s_block_bitmap_number = a.s_block_bitmap_number
  s_block_bitmap : b.s_block_bitmap = a.s_block_bitmap

/-- The states `a` and `b` are states of the same disk, and what was logged
in `a` since its log was `la` is what was logged in `b` since its log was
`lb`. -/
structure log_sync (la lb : List ext2_msg) (a b : super_block) : Prop where
  disk : same_disk a b
  logs : ∃ m, a.log = la ++ m ∧ b.log = lb ++ m

/-- A step of an audit that at most logs messages, the same ones on any two
states of the same disk. -/
def quiet_step (f : super_block → super_block) : Prop :=
  (∀ a, only_log a (f a)) ∧
  (∀ la lb a b, log_sync la lb a b → log_sync la lb (f a) (f b))

/-- The file system of `sb_stale` right after mounting: the bitmap cache is
empty and every block can be read. -/
def sb_fresh : super_block :=
  { sb_stale with
    s_loaded_block_bitmaps := 0
    s_block_bitmap := fun _ => none
    bread_ok := fun _ => true
    bread_log := [] }

/-! ## The search before the back-scan -/

/-- How the search of a pass of `ext2_new_block` ends before the label
`search_back` or `got_block` is entered.  `direct`: `goto got_block` with bit
`j` (the goal bit, a bit of the near-goal window, or the bit found by
`ext2_find_next_zero_bit` in the group of the goal).  `byte`: `search_back` is
entered with `j = r << 3`, `r` being the byte handed back by `memscan`.
`first_zero`: `search_back` is entered with the bit `j` handed back by
`ext2_find_first_zero_bit` in a later group.  The other cases are those of
`find_result`. -/
inductive scan_result where
  | direct (i gdp bh j : Nat)
  | byte (i gdp bh r : Nat)
  | first_zero (i gdp bh j : Nat)
  | no_desc
  | load_failed (i : Nat)
  | load_panic
  | not_found
  | corrupted
  deriving DecidableEq, Repr

/-- The search of `ext2_new_block` in the groups after group `i`, up to the
labels `search_back` and `got_block`: the statements of
`new_block_other_groups` without the back-scan and what `got_block` does. -/
def scan_in_other_groups (sb : super_block) (i : Nat) : super_block × scan_result :=
  match search_groups sb.s_groups_count sb i with
  | (sb1, .no_desc) => (sb1, .no_desc)
  | (sb1, .not_found) => (sb1, .not_found)
  | (sb1, .found i1 gdp) =>
    match load_block_bitmap sb1 i1 with
    | (sb2, .panic) => (sb2, .load_panic)
    | (sb2, .err_ptr _) => (sb2, .load_failed i1)
    | (sb2, .bh bh) =>
      let bpg := sb2.s_blocks_per_group
      let r := memscan (sb2.b_data bh) 0 (bpg / 8)
      if r * 8 < bpg then (sb2, .byte i1 gdp bh r)
      else
        let j := ext2_find_first_zero_bit (sb2.b_data bh) bpg
        if bpg ≤ j then (ext2_error sb2 (.free_count_corrupted i1), .corrupted)
        else (sb2, .first_zero i1 gdp bh j)

/-- The search of `ext2_new_block` in the group of the goal, up to the labels
`search_back` and `got_block`: the statements of `new_block_goal_group`
without the back-scan and what `got_block` does. -/
def scan_in_goal_group (sb : super_block) (i gdp bh j : Nat) : super_block × scan_result :=
  let bpg := sb.s_blocks_per_group
  if ext2_test_bit sb bh j = false then (sb, .direct i gdp bh j)
  else
    let end_goal := (j + 63) / 64 * 64
    let j1 := if j ≠ 0 then ext2_find_next_zero_bit (sb.b_data bh) end_goal j else j
    if j ≠ 0 ∧ j1 < end_goal then (sb, .direct i gdp bh j1)
    else
      let p := j1 / 8
      let r := memscan (sb.b_data bh) p (ulong (ulong_sub bpg j1 + 7) / 8)
      if r * 8 < bpg then (sb, .byte i gdp bh r)
      else
        let k := ext2_find_next_zero_bit (sb.b_data bh) bpg j1
        if k < bpg then (sb, .direct i gdp bh k)
        else scan_in_other_groups sb i

/-- The search of one pass of `ext2_new_block`, from the label `repeat` up to
the labels `search_back` and `got_block`: the statements of `new_block_pass`
without the back-scan and what `got_block` does. -/
def new_block_scan (sb : super_block) (goal : Nat) : super_block × scan_result :=
  let es := sb.s_es
  let goal := if goal < es.s_first_data_block ∨ es.s_blocks_count ≤ goal
              then es.s_first_data_block else goal
  let i := (goal - es.s_first_data_block) / sb.s_blocks_per_group
  match ext2_get_group_desc sb i with
  | (sb1, none) => (sb1, .no_desc)
  | (sb1, some gdp) =>
    if 0 < (sb1.gdt gdp).bg_free_blocks_count then
      let j := (goal - es.s_first_data_block) % sb1.s_blocks_per_group
      match load_block_bitmap sb1 i with
      | (sb2, .panic) => (sb2, .load_panic)
      | (sb2, .err_ptr _) => (sb2, .load_failed i)
      | (sb2, .bh bh) => scan_in_goal_group sb2 i gdp bh j
    else scan_in_other_groups sb1 i

/-- The label `search_back` on the result of the search: the bit handed to
`got_block` is the one the loop of `search_back` ends on when the search ended
at `search_back`, and the bit found when the search ended at `got_block`. -/
def back_scan : super_block × scan_result → super_block × find_result
  | (sb, .direct i gdp bh j) => (sb, .got_block i gdp bh j)
  | (sb, .byte i gdp bh r) => (sb, .got_block i gdp bh (search_back (sb.b_data bh) 7 (r * 8)))
  | (sb, .first_zero i gdp bh j) => (sb, .got_block i gdp bh (search_back (sb.b_data bh) 7 j))
  | (sb, .no_desc) => (sb, .no_desc)
  | (sb, .load_failed i) => (sb, .load_failed i)
  | (sb, .load_panic) => (sb, .load_panic)
  | (sb, .not_found) => (sb, .not_found)
  | (sb, .corrupted) => (sb, .corrupted)

/-- The file system `sb_near` with the blocks 198 to 208 free (bits 197 to 207
of group 0: the last three bits of byte 24 and the whole of byte 25 of the
bitmap) and every other block in use; the free counts (11, 0, total 11) are
those of the bitmaps. -/
def sb_run : super_block :=
  { sb_near with
    s_es := { sb_near.s_es with s_free_blocks_count := 11 }
    gdt := fun g =>
      if g = 0 then { bg_block_bitmap := 3, bg_inode_bitmap := 4, bg_inode_table := 5,
                      bg_free_blocks_count := 11 }
      else { bg_block_bitmap := 259, bg_inode_bitmap := 260, bg_inode_table := 261,
             bg_free_blocks_count := 0 }
    b_data := fun b n => if b = 3 then decide (n < 197 ∨ 207 < n) else true }

/-- An inode of `sb_run` without quota limit. -/
def ino_run : inode :=
  { i_sb := sb_run, i_dquot := { limit := none, reserved := 0, released := 0 } }

/-- The call `ext2_new_block(inode, goal, NULL, NULL, &err)` claims bit `j` of
the bitmap buffer `bh` of group `i`: it returns having set that bit and no
other, and the value returned is the block of that bit,
`j + i * blocks_per_group + first_data_block` (in the 32 bits of `int tmp`),
with `*err = 0`, when that block lies below `s_blocks_count`. -/
def claims_bit (fuel : Nat) (current : task_struct) (ino : inode) (goal i bh j : Nat) : Prop :=
  ∃ r, ext2_new_block (fuel + 1) current ino goal = some r ∧ r.panicked = false ∧
    r.ino.i_sb.b_data = (fun b n => if b = bh ∧ n = j then true else ino.i_sb.b_data b n) ∧
    (u32 (j + i * ino.i_sb.s_blocks_per_group + ino.i_sb.s_es.s_first_data_block) <
        ino.i_sb.s_es.s_blocks_count →
      r.ret = u32 (j + i * ino.i_sb.s_blocks_per_group + ino.i_sb.s_es.s_first_data_block) ∧
      r.err = 0)

/-- The error exit of `ext2_new_block` for a block at or after the end of the
file system ("block(%d) >= blocks count(%d)"), `sb` being the state before the
call and `r` its result: the bit `j` chosen in the bitmap `bh` of a group `i`
was clear, its block `j + i * blocks_per_group + first_data_block` is not
below `s_blocks_count`, the bit is set in the state left, no other bit has
changed, `*err` is `-ENOSPC` and the error is the last message logged. -/
def past_end_exit (sb : super_block) (r : new_block_result) : Prop :=
  ∃ i bh j, sb.b_data bh j = false ∧
    sb.s_es.s_blocks_count ≤ u32 (j + i * sb.s_blocks_per_group + sb.s_es.s_first_data_block) ∧
    r.err = - ENOSPC ∧
    r.ino.i_sb.b_data = (fun b n => if b = bh ∧ n = j then true else sb.b_data b n) ∧
    r.ino.i_sb.log.getLast? = some (.block_ge_blocks_count
      (u32 (j + i * sb.s_blocks_per_group + sb.s_es.s_first_data_block))
      sb.s_es.s_blocks_count i)

/-- Two groups of 64 blocks, first data block 1, 101 blocks in all (group 1
has the 36 blocks 65 to 100), blocks of 1024 bytes.  Every block is in use;
in the bitmap of group 1 (block 67) bit 40, which stands for no block of the
file system, is clear, and the stored free count of group 1 and of the super
block is 1. -/
def sb_short : super_block :=
  { s_es := { s_blocks_count := 101, s_r_blocks_count := 0, s_free_blocks_count := 1,
              s_first_data_block := 1 }
    s_blocksize := 1024
    s_blocks_per_group := 64
    s_itb_per_group := 2
    s_groups_count := 2
    s_desc_per_block := 32
    s_group_desc := fun n => decide (n = 0)
    gdt := fun g =>
      if g = 0 then { bg_block_bitmap := 3, bg_inode_bitmap := 4, bg_inode_table := 5,
                      bg_free_blocks_count := 0 }
      else { bg_block_bitmap := 67, bg_inode_bitmap := 68, bg_inode_table := 69,
             bg_free_blocks_count := 1 }
    s_loaded_block_bitmaps := 0
    s_block_bitmap_number := fun _ => 0
    s_block_bitmap := fun _ => none
    s_resuid := 0
    s_resgid := 0
    s_dirt := false
    bread_ok := fun _ => true
    b_data := fun b n => if b = 67 then decide (n ≠ 40) else true
    log := []
    bread_log := [] }

/-- An inode of `sb_short` without quota limit. -/
def ino_short : inode :=
  { i_sb := sb_short, i_dquot := { limit := none, reserved := 0, released := 0 } }

/-! ## The sum of the stored free counts -/

/-- Sum of the stored free block counts of the first `n` groups. -/
def desc_sum (sb : super_block) : Nat → Nat
  | 0 => 0
  | n + 1 => desc_sum sb n + (sb.gdt n).bg_free_blocks_count

/-- The sum of the stored free block counts of all groups equals the free
block count of the super block. -/
def counts_sum_ok (sb : super_block) : Prop :=
  desc_sum sb sb.s_groups_count = sb.s_es.s_free_blocks_count

/-! ## Messages logged -/

/-- Two groups of 256 blocks, first data block 1, blocks of 1024 bytes, every
block in use and every free count 0.  In group 0 the block bitmap is block 3,
the inode bitmap block 4 and the inode table the two blocks 10 and 11; the
blocks 5 to 9 and 12 onwards are data blocks. -/
def sb_gap : super_block :=
  { s_es := { s_blocks_count := 513, s_r_blocks_count := 0, s_free_blocks_count := 0,
              s_first_data_block := 1 }
    s_blocksize := 1024
    s_blocks_per_group := 256
    s_itb_per_group := 2
    s_groups_count := 2
    s_desc_per_block := 32
    s_group_desc := fun n => decide (n = 0)
    gdt := fun g =>
      if g = 0 then { bg_block_bitmap := 3, bg_inode_bitmap := 4, bg_inode_table := 10,
                      bg_free_blocks_count := 0 }
      else { bg_block_bitmap := 259, bg_inode_bitmap := 260, bg_inode_table := 266,
             bg_free_blocks_count := 0 }
    s_loaded_block_bitmaps := 0
    s_block_bitmap_number := fun _ => 0
    s_block_bitmap := fun _ => none
    s_resuid := 0
    s_resgid := 0
    s_dirt := false
    bread_ok := fun _ => true
    b_data := fun _ _ => true
    log := []
    bread_log := [] }

/-- An inode of `sb_gap` without quota limit. -/
def ino_gap : inode :=
  { i_sb := sb_gap, i_dquot := { limit := none, reserved := 0, released := 0 } }

/-- Whether a pass of `ext2_new_block` ends with `goto repeat`. -/
def takes_repeat : pass_result → Bool
  | .again _ _ => true
  | .done _ => false

/-- The stored free block count of every group equals the number of clear
bits among the first `s_blocks_per_group` bits of the bitmap of the group. -/
def counts_match (sb : super_block) : Prop :=
  ∀ g, g < sb.s_groups_count →
    (sb.gdt g).bg_free_blocks_count =
      count_clear (sb.b_data (bitmap_block sb g)) 0 sb.s_blocks_per_group

/-! ## Auxiliary facts: group descriptors and the bitmap cache -/

theorem same_disk_refl (a : super_block) : same_disk a a := by
  constructor <;> rfl

theorem same_disk_trans {a b c : super_block} (h1 : same_disk a b) (h2 : same_disk b c) :
    same_disk a c := by
  constructor
  · rw [h2.s_es, h1.s_es]
  · rw [h2.s_blocksize, h1.s_blocksize]
  · rw [h2.s_blocks_per_group, h1.s_blocks_per_group]
  · rw [h2.s_itb_per_group, h1.s_itb_per_group]
  · rw [h2.s_groups_count, h1.s_groups_count]
  · rw [h2.s_desc_per_block, h1.s_desc_per_block]
  · rw [h2.s_group_desc, h1.s_group_desc]
  · rw [h2.gdt, h1.gdt]
  · rw [h2.s_resuid, h1.s_resuid]
  · rw [h2.s_resgid, h1.s_resgid]
  · rw [h2.s_dirt, h1.s_dirt]
  · rw [h2.bread_ok, h1.bread_ok]
  · rw [h2.b_data, h1.b_data]

theorem same_disk_ext2_error (sb : super_block) (m : ext2_msg) : same_disk sb (ext2_error sb m) := by
  constructor <;> rfl

theorem get_group_desc_same_disk (sb : super_block) (g : Nat) :
    same_disk sb (ext2_get_group_desc sb g).1 := by
  unfold ext2_get_group_desc
  split
  · exact same_disk_ext2_error _ _
  · dsimp only
    split
    · exact same_disk_ext2_error _ _
    · exact same_disk_refl _

theorem get_group_desc_cache (sb : super_block) (g : Nat) :
    (ext2_get_group_desc sb g).1.s_block_bitmap = sb.s_block_bitmap ∧
    (ext2_get_group_desc sb g).1.s_block_bitmap_number = sb.s_block_bitmap_number ∧
    (ext2_get_group_desc sb g).1.s_loaded_block_bitmaps = sb.s_loaded_block_bitmaps := by
  unfold ext2_get_group_desc
  split
  · exact ⟨rfl, rfl, rfl⟩
  · dsimp only
    split
    · exact ⟨rfl, rfl, rfl⟩
    · exact ⟨rfl, rfl, rfl⟩

theorem get_group_desc_some (sb : super_block) (g : Nat) (hg : g < sb.s_groups_count)
    (hd : sb.s_group_desc (g / sb.s_desc_per_block) = true) :
    ext2_get_group_desc sb g = (sb, some g) := by
  unfold ext2_get_group_desc
  rw [if_neg (by omega)]
  simp [hd, Nat.div_add_mod']

theorem get_group_desc_eq_some {sb sb1 : super_block} {g gdp : Nat}
    (h : ext2_get_group_desc sb g = (sb1, some gdp)) :
    sb1 = sb ∧ gdp = g ∧ g < sb.s_groups_count ∧ sb.s_group_desc (g / sb.s_desc_per_block) = true := by
  unfold ext2_get_group_desc at h
  split at h
  · simp at h
  · dsimp only at h
    split at h
    · simp at h
    · rename_i h1 h2
      simp only [Prod.mk.injEq, Option.some.injEq] at h
      refine ⟨h.1.symm, ?_, by omega, ?_⟩
      · rw [← h.2]; exact Nat.div_add_mod' _ _
      · simpa using h2


theorem shift_slots_apply {α : Type} (a : Nat → α) (i k : Nat) :
    shift_slots a i k = if 1 ≤ k ∧ k ≤ i then a (k - 1) else a k := by
  induction i generalizing a with
  | zero =>
    simp only [shift_slots]
    rw [if_neg (by omega)]
  | succ i ih =>
    simp only [shift_slots]
    rw [ih]
    by_cases h1 : 1 ≤ k ∧ k ≤ i
    · have h3 : ¬ (k - 1 = i + 1) := by omega
      have h4 : 1 ≤ k ∧ k ≤ i + 1 := by omega
      simp only [h1, h3, h4, and_self, if_true, if_false]
    · by_cases h2 : k = i + 1
      · have h4 : 1 ≤ k ∧ k ≤ i + 1 := by omega
        simp only [h1, h2, h4, if_true, if_false]
        subst h2; simp
      · have h4 : ¬ (1 ≤ k ∧ k ≤ i + 1) := by omega
        simp only [h1, h2, h4, if_true, if_false]

theorem same_disk_sb_bread (sb : super_block) (block : Nat) : same_disk sb (sb_bread sb block) := by
  constructor <;> rfl

theorem read_block_bitmap_same_disk (sb : super_block) (g : Nat) :
    same_disk sb (read_block_bitmap sb g).1 := by
  unfold read_block_bitmap
  have h := get_group_desc_same_disk sb g
  split
  · rename_i sb1 heq; rw [heq] at h; exact h
  · rename_i sb1 gdp heq; rw [heq] at h
    dsimp only
    split
    · exact same_disk_trans h (same_disk_sb_bread _ _)
    · exact same_disk_trans h
        (same_disk_trans (same_disk_sb_bread _ _) (same_disk_ext2_error _ _))

theorem read_block_bitmap_cache (sb : super_block) (g : Nat) :
    (read_block_bitmap sb g).1.s_block_bitmap = sb.s_block_bitmap ∧
    (read_block_bitmap sb g).1.s_block_bitmap_number = sb.s_block_bitmap_number ∧
    (read_block_bitmap sb g).1.s_loaded_block_bitmaps = sb.s_loaded_block_bitmaps := by
  unfold read_block_bitmap
  have h := get_group_desc_cache sb g
  split
  · rename_i sb1 heq; rw [heq] at h; exact h
  · rename_i sb1 gdp heq; rw [heq] at h
    dsimp only
    split
    · exact h
    · exact h

theorem read_block_bitmap_some {sb : super_block} {g b : Nat}
    (h : (read_block_bitmap sb g).2 = some b) : b = bitmap_block sb g := by
  unfold read_block_bitmap at h
  split at h
  · simp at h
  · rename_i sb1 gdp heq
    obtain ⟨h1, h2, _, _⟩ := get_group_desc_eq_some heq
    dsimp only at h
    split at h
    · simp only [Option.some.injEq] at h
      rw [← h, h1, h2]; rfl
    · simp at h

theorem read_block_bitmap_ok {sb : super_block} {g : Nat} (hio : io_ok sb)
    (hg : g < sb.s_groups_count) :
    read_block_bitmap sb g = (sb_bread sb (bitmap_block sb g), some (bitmap_block sb g)) := by
  unfold read_block_bitmap
  rw [get_group_desc_some sb g hg (hio g hg).1]
  have := (hio g hg).2
  unfold bitmap_block at this
  simp [this, bitmap_block]


theorem read_if_null_spec (sb : super_block) (g : Nat) (bh : Option Nat)
    (hbh : ∀ b, bh = some b → b = bitmap_block sb g) :
    same_disk sb (read_if_null sb g bh).1 ∧
    (read_if_null sb g bh).1.s_block_bitmap = sb.s_block_bitmap ∧
    (read_if_null sb g bh).1.s_block_bitmap_number = sb.s_block_bitmap_number ∧
    (read_if_null sb g bh).1.s_loaded_block_bitmaps = sb.s_loaded_block_bitmaps ∧
    (∀ b, (read_if_null sb g bh).2 = some b → b = bitmap_block sb g) ∧
    ((bh.isSome ∨ (io_ok sb ∧ g < sb.s_groups_count)) →
      (read_if_null sb g bh).2 = some (bitmap_block sb g)) := by
  cases bh with
  | some b =>
    refine ⟨same_disk_refl _, rfl, rfl, rfl, ?_, ?_⟩
    · intro b' hb'
      simp only [read_if_null, Option.some.injEq] at hb'
      rw [← hb']; exact hbh b rfl
    · intro _; simp only [read_if_null]; rw [← hbh b rfl]
  | none =>
    refine ⟨read_block_bitmap_same_disk sb g, (read_block_bitmap_cache sb g).1,
      (read_block_bitmap_cache sb g).2.1, (read_block_bitmap_cache sb g).2.2,
      fun b hb => read_block_bitmap_some hb, ?_⟩
    intro h
    rcases h with h | ⟨hio, hg⟩
    · simp at h
    · simp only [read_if_null]; rw [read_block_bitmap_ok hio hg]

theorem store_slot_same_disk (sb : super_block) (slot g : Nat) (bh : Option Nat) :
    same_disk sb (store_slot sb slot g bh) := by
  constructor <;> rfl

theorem store_slot_cache_ok (sb : super_block) (slot g : Nat) (bh : Option Nat)
    (hc : cache_ok sb) (hbh : ∀ b, bh = some b → b = bitmap_block sb g)
    (hslot : sb.s_groups_count ≤ EXT2_MAX_GROUP_LOADED → slot = g) :
    cache_ok (store_slot sb slot g bh) := by
  constructor
  · intro s b hb
    simp only [store_slot, bitmap_block] at hb ⊢
    by_cases hs : s = slot
    · rw [if_pos hs] at hb
      rw [if_pos hs]
      exact hbh b hb
    · rw [if_neg hs] at hb
      rw [if_neg hs]
      exact hc.1 s b hb
  · intro hle s b hs hb
    simp only [store_slot] at hle hs hb ⊢
    by_cases hs' : s = slot
    · rw [if_pos hs', hs', hslot hle]
    · rw [if_neg hs'] at hb
      rw [if_neg hs']
      exact hc.2 hle s b hs hb

theorem cache_ok_of_same {a b : super_block} (hc : cache_ok a) (hsd : same_disk a b)
    (h1 : b.s_block_bitmap = a.s_block_bitmap)
    (h2 : b.s_block_bitmap_number = a.s_block_bitmap_number) : cache_ok b := by
  unfold cache_ok bitmap_block at *
  rw [h1, h2, hsd.gdt, hsd.s_groups_count]
  exact hc

theorem bitmap_block_same {a b : super_block} (hsd : same_disk a b) (g : Nat) :
    bitmap_block b g = bitmap_block a g := by
  unfold bitmap_block; rw [hsd.gdt]

theorem load_read_it_spec (sb : super_block) (g slot : Nat) (bh : Option Nat)
    (hc : cache_ok sb) (hbh : ∀ b, bh = some b → b = bitmap_block sb g)
    (hslot : sb.s_groups_count ≤ EXT2_MAX_GROUP_LOADED → slot = g) :
    same_disk sb (load_read_it sb g slot bh).1 ∧ cache_ok (load_read_it sb g slot bh).1 ∧
    (∀ b, (load_read_it sb g slot bh).2 = .bh b → b = bitmap_block sb g) ∧
    (load_read_it sb g slot bh).2 ≠ .panic ∧
    ((bh.isSome ∨ (io_ok sb ∧ g < sb.s_groups_count)) →
      (load_read_it sb g slot bh).2 = .bh (bitmap_block sb g)) := by
  obtain ⟨hsd, hbm, hnum, _, hsome, hok⟩ := read_if_null_spec sb g bh hbh
  have hc1 : cache_ok (read_if_null sb g bh).1 := cache_ok_of_same hc hsd hbm hnum
  unfold load_read_it
  refine ⟨same_disk_trans hsd (store_slot_same_disk _ _ _ _), ?_, ?_, ?_, ?_⟩
  · apply store_slot_cache_ok _ _ _ _ hc1
    · intro b hb; rw [bitmap_block_same hsd]; exact hsome b hb
    · rw [hsd.s_groups_count]; exact hslot
  · intro b hb
    dsimp only at hb
    cases hr : (read_if_null sb g bh).2 with
    | none => rw [hr] at hb; simp [bh_or_err] at hb
    | some b' =>
      rw [hr] at hb; simp only [bh_or_err, load_result.bh.injEq] at hb
      rw [← hb]; exact hsome b' hr
  · dsimp only
    cases hr : (read_if_null sb g bh).2 <;> simp [bh_or_err]
  · intro h
    dsimp only
    rw [hok h]; rfl


theorem cache_ok_shift (sb : super_block) (hc : cache_ok sb) (i l : Nat)
    (hlru : ¬ sb.s_groups_count ≤ EXT2_MAX_GROUP_LOADED) :
    cache_ok { sb with
      s_loaded_block_bitmaps := l
      s_block_bitmap_number := shift_slots sb.s_block_bitmap_number i
      s_block_bitmap := shift_slots sb.s_block_bitmap i } := by
  constructor
  · intro s b hb
    simp only [bitmap_block, shift_slots_apply] at hb ⊢
    by_cases h : 1 ≤ s ∧ s ≤ i
    · rw [if_pos h] at hb ⊢; exact hc.1 _ b hb
    · rw [if_neg h] at hb ⊢; exact hc.1 _ b hb
  · intro hle; exact absurd hle hlru

theorem same_disk_shift (sb : super_block) (i l : Nat) :
    same_disk sb { sb with
      s_loaded_block_bitmaps := l
      s_block_bitmap_number := shift_slots sb.s_block_bitmap_number i
      s_block_bitmap := shift_slots sb.s_block_bitmap i } := by
  constructor <;> rfl

theorem lookup_slot_spec (number : Nat → Nat) (g n i : Nat) :
    i ≤ lookup_slot number g n i ∧ lookup_slot number g n i ≤ i + n ∧
    (lookup_slot number g n i < i + n → number (lookup_slot number g n i) = g) := by
  induction n generalizing i with
  | zero => simp [lookup_slot]
  | succ n ih =>
    simp only [lookup_slot]
    split
    · rename_i h; exact ⟨le_refl _, by omega, fun _ => h⟩
    · obtain ⟨h1, h2, h3⟩ := ih (i + 1)
      exact ⟨by omega, by omega, fun h => h3 (by omega)⟩

theorem load_block_bitmap_spec (sb : super_block) (g : Nat) (hc : cache_ok sb) :
    same_disk sb (load_block_bitmap sb g).1 ∧ cache_ok (load_block_bitmap sb g).1 ∧
    (∀ b, (load_block_bitmap sb g).2 = .bh b → b = bitmap_block sb g) ∧
    (io_ok sb → g < sb.s_groups_count →
      (load_block_bitmap sb g).2 = .bh (bitmap_block sb g)) := by
  unfold load_block_bitmap
  split
  · rename_i hg
    refine ⟨same_disk_ext2_error _ _, ?_, by simp, fun _ h => absurd h (by omega)⟩
    exact cache_ok_of_same hc (same_disk_ext2_error _ _) rfl rfl
  · rename_i hg
    split
    · rename_i b hb
      have hb' : b = bitmap_block sb g := by
        split at hb
        · rename_i h0; rw [← h0.2]; exact hc.1 0 b hb
        · simp at hb
      refine ⟨same_disk_refl _, hc, ?_, ?_⟩
      · intro b' h; simp only [load_result.bh.injEq] at h; rw [← h]; exact hb'
      · intro _ _; rw [hb']
    · split
      · rename_i hdirect
        split
        · rename_i hnone
          obtain ⟨h1, h2, h3, _, h5⟩ := load_read_it_spec sb g g none hc (by simp) (fun _ => rfl)
          exact ⟨h1, h2, h3, fun hio hg' => h5 (Or.inr ⟨hio, hg'⟩)⟩
        · rename_i b hb
          have hnum := hc.2 hdirect g b (by omega) hb
          rw [if_pos hnum]
          have hb' : b = bitmap_block sb g := by rw [hc.1 g b hb, hnum]
          refine ⟨same_disk_refl _, hc, ?_, ?_⟩
          · intro b' h; simp only [load_result.bh.injEq] at h; rw [← h]; exact hb'
          · intro _ _; rw [hb']
      · rename_i hlru
        dsimp only
        obtain ⟨hl1, hl2, hl3⟩ := lookup_slot_spec sb.s_block_bitmap_number g
          sb.s_loaded_block_bitmaps 0
        split
        · rename_i hi
          have hbh : ∀ b, sb.s_block_bitmap
              (lookup_slot sb.s_block_bitmap_number g sb.s_loaded_block_bitmaps 0) = some b →
              b = bitmap_block sb g := by
            intro b hb
            rw [hc.1 _ b hb, hl3 (by omega)]
          obtain ⟨h1, h2, h3, _, h5⟩ := load_read_it_spec _ g 0 _
            (cache_ok_shift sb hc (lookup_slot sb.s_block_bitmap_number g sb.s_loaded_block_bitmaps 0)
              sb.s_loaded_block_bitmaps hlru) hbh (fun h => absurd h hlru)
          exact ⟨same_disk_trans (same_disk_shift sb _ _) h1, h2, h3,
            fun hio hg' => h5 (Or.inr ⟨hio, hg'⟩)⟩
        · split
          · obtain ⟨h1, h2, h3, _, h5⟩ := load_read_it_spec _ g 0 none
              (cache_ok_shift sb hc (lookup_slot sb.s_block_bitmap_number g sb.s_loaded_block_bitmaps 0)
                (sb.s_loaded_block_bitmaps + 1) hlru) (by simp) (fun h => absurd h hlru)
            exact ⟨same_disk_trans (same_disk_shift sb _ _) h1, h2, h3,
              fun hio hg' => h5 (Or.inr ⟨hio, hg'⟩)⟩
          · obtain ⟨h1, h2, h3, _, h5⟩ := load_read_it_spec _ g 0 none
              (cache_ok_shift sb hc
                (lookup_slot sb.s_block_bitmap_number g sb.s_loaded_block_bitmaps 0 - 1)
                sb.s_loaded_block_bitmaps hlru) (by simp) (fun h => absurd h hlru)
            exact ⟨same_disk_trans (same_disk_shift sb _ _) h1, h2, h3,
              fun hio hg' => h5 (Or.inr ⟨hio, hg'⟩)⟩

set_option maxRecDepth 100000

theorem new_block_pass_normalize (ino : inode) (sb : super_block) (g : Nat)
    (hg : g < sb.s_es.s_first_data_block ∨ sb.s_es.s_blocks_count ≤ g) :
    new_block_pass ino sb g = new_block_pass ino sb sb.s_es.s_first_data_block := by
  unfold new_block_pass
  simp only [hg, if_true, ite_self]

theorem new_block_repeat_normalize (fuel : Nat) (ino : inode) (g : Nat)
    (hg : g < ino.i_sb.s_es.s_first_data_block ∨ ino.i_sb.s_es.s_blocks_count ≤ g) :
    new_block_repeat fuel ino g = new_block_repeat fuel ino ino.i_sb.s_es.s_first_data_block := by
  cases fuel with
  | zero => rfl
  | succ n => simp only [new_block_repeat]; rw [new_block_pass_normalize ino ino.i_sb g hg]

/-- C3: a goal below `s_first_data_block` or not below `s_blocks_count` is
treated exactly as the goal `s_first_data_block`: same returned block, same
error code, same resulting state (the whole result is the same). -/
theorem ext2_new_block_goal_normalization (fuel : Nat) (current : task_struct) (ino : inode)
    (g : Nat) (hg : g < ino.i_sb.s_es.s_first_data_block ∨ ino.i_sb.s_es.s_blocks_count ≤ g) :
    ext2_new_block fuel current ino g =
      ext2_new_block fuel current ino ino.i_sb.s_es.s_first_data_block := by
  unfold ext2_new_block
  simp only [new_block_repeat_normalize fuel ino g hg]

theorem ext2_new_block_goal_normalization_witness :
    (0 < ino_two_groups.i_sb.s_es.s_first_data_block ∨
      ino_two_groups.i_sb.s_es.s_blocks_count ≤ 0) ∧
    ext2_new_block 1 task_root ino_two_groups 0 =
      ext2_new_block 1 task_root ino_two_groups ino_two_groups.i_sb.s_es.s_first_data_block :=
  ⟨by decide, ext2_new_block_goal_normalization 1 task_root ino_two_groups 0 (by decide)⟩

/-- C4: when the free block count is at most the reserved block count and
the caller has no claim to the reserved blocks, `ext2_new_block` returns 0 with
`*err = -ENOSPC` and leaves the whole state (bitmaps, free counters, quota) as
it was, whatever the goal. -/
theorem ext2_new_block_reserved_policy (fuel : Nat) (current : task_struct) (ino : inode)
    (goal : Nat) (h : reserved_reject ino.i_sb current) :
    ∃ r, ext2_new_block fuel current ino goal = some r ∧ r.ret = 0 ∧ r.err = - ENOSPC ∧
      r.panicked = false ∧ r.ino = ino := by
  refine ⟨{ ino := ino, ret := 0, err := - ENOSPC, panicked := false }, ?_, rfl, rfl, rfl, rfl⟩
  unfold ext2_new_block
  unfold reserved_reject at h
  simp only
  rw [if_pos h]

theorem ext2_new_block_reserved_policy_witness :
    reserved_reject { ino_two_groups.i_sb with
        s_es := { ino_two_groups.i_sb.s_es with s_r_blocks_count := 1 } } task_user ∧
    ∃ r, ext2_new_block 1 task_user
        { ino_two_groups with i_sb := { ino_two_groups.i_sb with
            s_es := { ino_two_groups.i_sb.s_es with s_r_blocks_count := 1 } } } 5001 = some r ∧
      r.ret = 0 ∧ r.err = - ENOSPC ∧ r.panicked = false ∧
      r.ino = { ino_two_groups with i_sb := { ino_two_groups.i_sb with
            s_es := { ino_two_groups.i_sb.s_es with s_r_blocks_count := 1 } } } :=
  ⟨by unfold reserved_reject; decide,
   ext2_new_block_reserved_policy 1 task_user _ 5001 (by unfold reserved_reject; decide)⟩

set_option maxRecDepth 100000

theorem load_block_bitmap_same_disk (sb : super_block) (g : Nat) :
    same_disk sb (load_block_bitmap sb g).1 := by
  unfold load_block_bitmap
  split
  · exact same_disk_ext2_error _ _
  · split
    · exact same_disk_refl _
    · split
      · split
        · unfold load_read_it read_if_null
          exact same_disk_trans (read_block_bitmap_same_disk sb g) (store_slot_same_disk _ _ _ _)
        · split
          · exact same_disk_refl _
          · exact same_disk_ext2_error _ _
      · dsimp only
        have key : ∀ (sb' : super_block) (bh : Option Nat), same_disk sb sb' →
            same_disk sb (load_read_it sb' g 0 bh).1 := by
          intro sb' bh h
          unfold load_read_it read_if_null
          cases bh with
          | some b => exact same_disk_trans h (store_slot_same_disk _ _ _ _)
          | none =>
            exact same_disk_trans h (same_disk_trans (read_block_bitmap_same_disk sb' g)
              (store_slot_same_disk _ _ _ _))
        split
        · exact key _ _ (same_disk_shift sb _ _)
        · split
          · exact key _ _ (same_disk_shift sb _ _)
          · exact key _ _ (same_disk_shift sb _ _)

theorem DQUOT_ALLOC_BLOCK_accepts (ino : inode) (h : quota_accepts ino.i_dquot) :
    DQUOT_ALLOC_BLOCK ino =
      some { ino with i_dquot := { ino.i_dquot with reserved := ino.i_dquot.reserved + 1 } } := by
  unfold DQUOT_ALLOC_BLOCK
  unfold quota_accepts at h
  split
  · rfl
  · rename_i l hl
    rw [hl] at h
    simp only at h
    rw [if_pos h]

theorem new_block_check_zone_b_data (sb : super_block) (gdp tmp : Nat) :
    (new_block_check_zone sb gdp tmp).b_data = sb.b_data := by
  unfold new_block_check_zone
  split <;> rfl

/-- What the label `got_block` does when quota accepts, the chosen bit is clear
and the block lies below `s_blocks_count`. -/
theorem new_block_got_block_success (ino : inode) (sb : super_block) (goal i gdp bh j : Nat)
    (hq : quota_accepts ino.i_dquot) (hbit : sb.b_data bh j = false)
    (hlt : u32 (j + i * sb.s_blocks_per_group + sb.s_es.s_first_data_block) < sb.s_es.s_blocks_count) :
    new_block_got_block ino sb goal i gdp bh j =
      .done { ino := { i_sb := new_block_commit (write_bit (new_block_check_zone sb gdp
                  (u32 (j + i * sb.s_blocks_per_group + sb.s_es.s_first_data_block))) bh j true) gdp,
                       i_dquot := { ino.i_dquot with reserved := ino.i_dquot.reserved + 1 } },
              ret := u32 (j + i * sb.s_blocks_per_group + sb.s_es.s_first_data_block),
              err := 0, panicked := false } := by
  unfold new_block_got_block
  rw [DQUOT_ALLOC_BLOCK_accepts { ino with i_sb := sb } hq]
  simp only [ext2_set_bit, new_block_check_zone_b_data, hbit]
  rw [if_neg (by simp), if_neg (by omega)]

set_option maxRecDepth 100000

theorem fields_fit_two_groups : fields_fit sb_two_groups := by
  constructor
  any_goals decide
  all_goals (intro g; simp only [sb_two_groups]; split <;> decide)

theorem new_block_repeat_done (fuel : Nat) (ino : inode) (goal : Nat) (r : new_block_result)
    (h : new_block_pass ino ino.i_sb goal = .done r) :
    new_block_repeat (fuel + 1) ino goal = some r := by
  simp only [new_block_repeat, h]

theorem ext2_new_block_of_pass (fuel : Nat) (current : task_struct) (ino : inode) (goal : Nat)
    (r : new_block_result) (hres : ¬ reserved_reject ino.i_sb current)
    (h : new_block_pass ino ino.i_sb goal = .done r) :
    ext2_new_block (fuel + 1) current ino goal = some r := by
  unfold ext2_new_block
  unfold reserved_reject at hres
  simp only
  rw [if_neg hres]
  exact new_block_repeat_done fuel ino goal r h

/-- The pass of `ext2_new_block` up to the search in the group of an in-range
goal whose group has free blocks and whose bitmap loads. -/
theorem new_block_pass_goal_group (ino : inode) (sb : super_block) (goal bh : Nat)
    (hlo : sb.s_es.s_first_data_block ≤ goal) (hhi : goal < sb.s_es.s_blocks_count)
    (hgrp : group_of sb goal < sb.s_groups_count)
    (hdesc : sb.s_group_desc (group_of sb goal / sb.s_desc_per_block) = true)
    (hfree : 0 < (sb.gdt (group_of sb goal)).bg_free_blocks_count)
    (hload : (load_block_bitmap sb (group_of sb goal)).2 = .bh bh) :
    new_block_pass ino sb goal =
      new_block_goal_group ino (load_block_bitmap sb (group_of sb goal)).1 goal
        (group_of sb goal) (group_of sb goal) bh (bit_of sb goal) := by
  unfold new_block_pass
  have hn : ¬ (goal < sb.s_es.s_first_data_block ∨ sb.s_es.s_blocks_count ≤ goal) := by omega
  simp only [hn, if_false]
  have hget := get_group_desc_some sb (group_of sb goal) hgrp hdesc
  unfold group_of at hget hfree hload ⊢
  unfold bit_of
  rw [hget]
  simp only [hfree, if_true]
  generalize hl : load_block_bitmap sb ((goal - sb.s_es.s_first_data_block) / sb.s_blocks_per_group) = l
    at hload ⊢
  obtain ⟨l1, l2⟩ := l
  simp only at hload
  subst hload
  rfl

theorem block_nr_of_goal (sb : super_block) (goal : Nat)
    (hlo : sb.s_es.s_first_data_block ≤ goal) (h32 : goal < 2 ^ 32) :
    u32 (bit_of sb goal + group_of sb goal * sb.s_blocks_per_group + sb.s_es.s_first_data_block)
      = goal := by
  unfold bit_of group_of u32
  have := Nat.mod_add_div' (goal - sb.s_es.s_first_data_block) sb.s_blocks_per_group
  rw [this, Nat.sub_add_cancel hlo]
  exact Nat.mod_eq_of_lt h32

/-- C9: fast path.  For an in-range goal, when the reserved-block test lets
the caller pass, the group of the goal has a stored free count above 0, its
bitmap loads (buffer `bh`), the bit of the goal is clear and quota accepts,
`ext2_new_block` returns exactly the goal block, with `*err = 0`. -/
theorem ext2_new_block_fast_path (fuel : Nat) (current : task_struct) (ino : inode)
    (goal bh : Nat) (hfit : fields_fit ino.i_sb)
    (hres : ¬ reserved_reject ino.i_sb current)
    (hlo : ino.i_sb.s_es.s_first_data_block ≤ goal) (hhi : goal < ino.i_sb.s_es.s_blocks_count)
    (hgrp : group_of ino.i_sb goal < ino.i_sb.s_groups_count)
    (hdesc : ino.i_sb.s_group_desc (group_of ino.i_sb goal / ino.i_sb.s_desc_per_block) = true)
    (hfree : 0 < (ino.i_sb.gdt (group_of ino.i_sb goal)).bg_free_blocks_count)
    (hload : (load_block_bitmap ino.i_sb (group_of ino.i_sb goal)).2 = .bh bh)
    (hbit : ino.i_sb.b_data bh (bit_of ino.i_sb goal) = false)
    (hq : quota_accepts ino.i_dquot) :
    ∃ r, ext2_new_block (fuel + 1) current ino goal = some r ∧ r.ret = goal ∧ r.err = 0 ∧
      r.panicked = false := by
  have hsd := load_block_bitmap_same_disk ino.i_sb (group_of ino.i_sb goal)
  have h32 : goal < 2 ^ 32 := lt_trans hhi hfit.s_blocks_count
  have hpass := new_block_pass_goal_group ino ino.i_sb goal bh hlo hhi hgrp hdesc hfree hload
  have hnr := block_nr_of_goal ino.i_sb goal hlo h32
  have hgg : new_block_goal_group ino (load_block_bitmap ino.i_sb (group_of ino.i_sb goal)).1 goal
        (group_of ino.i_sb goal) (group_of ino.i_sb goal) bh (bit_of ino.i_sb goal) =
      new_block_got_block ino (load_block_bitmap ino.i_sb (group_of ino.i_sb goal)).1 goal
        (group_of ino.i_sb goal) (group_of ino.i_sb goal) bh (bit_of ino.i_sb goal) := by
    unfold new_block_goal_group ext2_test_bit
    simp only [hsd.b_data, hbit, if_true]
  have hgot := new_block_got_block_success ino (load_block_bitmap ino.i_sb (group_of ino.i_sb goal)).1
    goal (group_of ino.i_sb goal) (group_of ino.i_sb goal) bh (bit_of ino.i_sb goal) hq
    (by rw [hsd.b_data]; exact hbit)
    (by rw [hsd.s_blocks_per_group, hsd.s_es, hnr]; exact hhi)
  rw [hsd.s_blocks_per_group, hsd.s_es, hnr] at hgot
  refine ⟨_, ext2_new_block_of_pass fuel current ino goal _ hres (hpass.trans (hgg.trans hgot)),
    rfl, rfl, rfl⟩

theorem ext2_new_block_fast_path_witness :
    ∃ r, ext2_new_block 1 task_root ino_two_groups 5001 = some r ∧ r.ret = 5001 ∧ r.err = 0 ∧
      r.panicked = false :=
  ext2_new_block_fast_path 0 task_root ino_two_groups 5001 3 fields_fit_two_groups
    (by unfold reserved_reject; decide) (by decide) (by decide) (by decide) (by decide)
    (by decide) (by decide) (by decide) (by simp [quota_accepts, ino_two_groups])

set_option maxRecDepth 100000

theorem scan_zero_bit_spec (bm : Nat → Bool) (n s : Nat) :
    s ≤ scan_zero_bit bm n s ∧ scan_zero_bit bm n s ≤ s + n ∧
    (scan_zero_bit bm n s < s + n → bm (scan_zero_bit bm n s) = false) ∧
    (∀ k, s ≤ k → k < scan_zero_bit bm n s → bm k = true) := by
  induction n generalizing s with
  | zero =>
    simp only [scan_zero_bit]
    exact ⟨le_refl _, le_refl _, fun h => absurd h (by omega), fun k h1 h2 => absurd h2 (by omega)⟩
  | succ n ih =>
    simp only [scan_zero_bit]
    split
    · rename_i h
      exact ⟨le_refl _, by omega, fun _ => h, fun k h1 h2 => absurd h2 (by omega)⟩
    · rename_i h
      obtain ⟨h1, h2, h3, h4⟩ := ih (s + 1)
      refine ⟨by omega, by omega, fun h' => h3 (by omega), ?_⟩
      intro k hk1 hk2
      by_cases hks : k = s
      · subst hks; simpa using h
      · exact h4 k (by omega) hk2

theorem find_next_zero_bit_spec (bm : Nat → Bool) (size offset : Nat) :
    ext2_find_next_zero_bit bm size offset ≤ size ∧
    (offset ≤ size → offset ≤ ext2_find_next_zero_bit bm size offset) ∧
    (ext2_find_next_zero_bit bm size offset < size →
      bm (ext2_find_next_zero_bit bm size offset) = false) ∧
    (∀ k, offset ≤ k → k < ext2_find_next_zero_bit bm size offset → bm k = true) := by
  unfold ext2_find_next_zero_bit
  split
  · rename_i h
    exact ⟨le_refl _, fun h' => by omega, fun h' => absurd h' (by omega),
      fun k h1 h2 => absurd h2 (by omega)⟩
  · rename_i h
    obtain ⟨h1, h2, h3, h4⟩ := scan_zero_bit_spec bm (size - offset) offset
    exact ⟨by omega, fun _ => h1, fun h' => h3 (by omega), h4⟩

theorem find_next_zero_bit_eq (bm : Nat → Bool) (size offset p : Nat)
    (h1 : offset ≤ p) (h2 : p < size) (h3 : bm p = false)
    (h4 : ∀ k, offset ≤ k → k < p → bm k = true) :
    ext2_find_next_zero_bit bm size offset = p := by
  obtain ⟨g1, g2, g3, g4⟩ := find_next_zero_bit_spec bm size offset
  by_contra hne
  rcases Nat.lt_or_gt_of_ne hne with hlt | hgt
  · have := h4 _ (g2 (by omega)) hlt
    rw [g3 (by omega)] at this
    exact absurd this (by simp)
  · have := g4 p h1 hgt
    rw [h3] at this
    exact absurd this (by simp)

theorem find_next_zero_bit_none (bm : Nat → Bool) (size offset : Nat)
    (h4 : ∀ k, offset ≤ k → k < size → bm k = true) :
    ext2_find_next_zero_bit bm size offset = size := by
  obtain ⟨g1, g2, g3, g4⟩ := find_next_zero_bit_spec bm size offset
  by_contra hne
  have hlt : ext2_find_next_zero_bit bm size offset < size := by omega
  by_cases ho : offset ≤ size
  · have := h4 _ (g2 ho) hlt
    rw [g3 hlt] at this
    exact absurd this (by simp)
  · unfold ext2_find_next_zero_bit at hne
    rw [if_pos (by omega)] at hne
    exact hne rfl

theorem memscan_spec (bm : Nat → Bool) (size p : Nat) :
    p ≤ memscan bm p size ∧ memscan bm p size ≤ p + size ∧
    (memscan bm p size < p + size → byte_is_zero bm (memscan bm p size) = true) ∧
    (∀ b, p ≤ b → b < memscan bm p size → byte_is_zero bm b = false) := by
  induction size generalizing p with
  | zero =>
    simp only [memscan]
    exact ⟨le_refl _, le_refl _, fun h => absurd h (by omega), fun k h1 h2 => absurd h2 (by omega)⟩
  | succ n ih =>
    simp only [memscan]
    split
    · rename_i h
      exact ⟨le_refl _, by omega, fun _ => h, fun k h1 h2 => absurd h2 (by omega)⟩
    · rename_i h
      obtain ⟨h1, h2, h3, h4⟩ := ih (p + 1)
      refine ⟨by omega, by omega, fun h' => h3 (by omega), ?_⟩
      intro k hk1 hk2
      by_cases hks : k = p
      · subst hks; simpa using h
      · exact h4 k (by omega) hk2

theorem memscan_none (bm : Nat → Bool) (size p : Nat)
    (h : ∀ b, p ≤ b → b < p + size → byte_is_zero bm b = false) :
    memscan bm p size = p + size := by
  obtain ⟨g1, g2, g3, g4⟩ := memscan_spec bm size p
  by_contra hne
  have hlt : memscan bm p size < p + size := by omega
  have := h _ g1 hlt
  rw [g3 hlt] at this
  exact absurd this (by simp)

theorem memscan_eq (bm : Nat → Bool) (size p b : Nat)
    (h1 : p ≤ b) (h2 : b < p + size) (h3 : byte_is_zero bm b = true)
    (h4 : ∀ k, p ≤ k → k < b → byte_is_zero bm k = false) :
    memscan bm p size = b := by
  obtain ⟨g1, g2, g3, g4⟩ := memscan_spec bm size p
  by_contra hne
  rcases Nat.lt_or_gt_of_ne hne with hlt | hgt
  · have := h4 _ g1 hlt
    rw [g3 (by omega)] at this
    exact absurd this (by simp)
  · have := g4 b h1 hgt
    rw [h3] at this
    exact absurd this (by simp)

set_option maxRecDepth 100000

theorem ulong_sub_of_le (a b : Nat) (ha : a < 2 ^ BITS_PER_LONG) (hb : b ≤ a) :
    ulong_sub a b = a - b := by
  unfold ulong_sub BITS_PER_LONG at *
  rw [Nat.mod_eq_of_lt (by omega : b < 2 ^ 32)]
  omega

theorem ulong_of_lt (a : Nat) (ha : a < 2 ^ BITS_PER_LONG) : ulong a = a := by
  unfold ulong
  exact Nat.mod_eq_of_lt ha

theorem u32_of_lt (a : Nat) (ha : a < 2 ^ 32) : u32 a = a := by
  unfold u32
  exact Nat.mod_eq_of_lt ha

/-- The search in the group of the goal comes down to the bit scan when the
goal bit is in use, the near-goal window has no free bit and no byte from the
end of the window to the end of the group is zero. -/
theorem new_block_goal_group_bit_scan (ino : inode) (sb : super_block) (goal i gdp bh j p : Nat)
    (hbpg : sb.s_blocks_per_group ≤ 8 * 65536)
    (hbit : sb.b_data bh j = true)
    (hwin : ∀ n, j ≤ n → n < end_goal j → sb.b_data bh n = true)
    (hbyte : ∀ b, after_window j ≤ 8 * b → 8 * b < sb.s_blocks_per_group →
      byte_is_zero (sb.b_data bh) b = false)
    (hp1 : after_window j ≤ p) (hp2 : p < sb.s_blocks_per_group)
    (hp3 : sb.b_data bh p = false)
    (hp4 : ∀ n, after_window j ≤ n → n < p → sb.b_data bh n = true) :
    new_block_goal_group ino sb goal i gdp bh j = new_block_got_block ino sb goal i gdp bh p := by
  unfold new_block_goal_group ext2_test_bit
  have hj1 : (if j ≠ 0 then ext2_find_next_zero_bit (sb.b_data bh) ((j + 63) / 64 * 64) j else j)
      = after_window j := by
    unfold after_window
    by_cases hj : j = 0
    · simp [hj]
    · rw [if_pos hj, if_neg hj]
      exact find_next_zero_bit_none _ _ _ hwin
  simp only [hbit, hj1]
  have hs8 : after_window j % 8 = 0 := by
    unfold after_window end_goal; split <;> omega
  have hlt32 : sb.s_blocks_per_group < 2 ^ BITS_PER_LONG := by
    unfold BITS_PER_LONG; omega
  have hsub : ulong (ulong_sub sb.s_blocks_per_group (after_window j) + 7) =
      sb.s_blocks_per_group - after_window j + 7 := by
    rw [ulong_sub_of_le _ _ hlt32 (by omega)]
    exact ulong_of_lt _ (by unfold BITS_PER_LONG; omega)
  rw [hsub]
  have hms : memscan (sb.b_data bh) (after_window j / 8)
      ((sb.s_blocks_per_group - after_window j + 7) / 8) =
      after_window j / 8 + (sb.s_blocks_per_group - after_window j + 7) / 8 := by
    apply memscan_none
    intro b hb1 hb2
    exact hbyte b (by omega) (by omega)
  rw [hms, find_next_zero_bit_eq _ _ _ p hp1 hp2 hp3 hp4]
  have he : ¬ (j ≠ 0 ∧ after_window j < (j + 63) / 64 * 64) := by
    unfold after_window end_goal
    split <;> omega
  rw [if_neg (by simp), if_neg he, if_neg (by omega), if_pos hp2]

theorem new_block_pass_goal_group_norm (ino : inode) (sb : super_block) (goal bh : Nat)
    (hgrp : group_of sb (norm_goal sb goal) < sb.s_groups_count)
    (hdesc : sb.s_group_desc (group_of sb (norm_goal sb goal) / sb.s_desc_per_block) = true)
    (hfree : 0 < (sb.gdt (group_of sb (norm_goal sb goal))).bg_free_blocks_count)
    (hload : (load_block_bitmap sb (group_of sb (norm_goal sb goal))).2 = .bh bh) :
    new_block_pass ino sb goal =
      new_block_goal_group ino (load_block_bitmap sb (group_of sb (norm_goal sb goal))).1
        (norm_goal sb goal) (group_of sb (norm_goal sb goal)) (group_of sb (norm_goal sb goal)) bh
        (bit_of sb (norm_goal sb goal)) := by
  unfold new_block_pass
  have hget := get_group_desc_some sb (group_of sb (norm_goal sb goal)) hgrp hdesc
  unfold group_of at hget hfree hload ⊢
  unfold bit_of
  unfold norm_goal at hget hfree hload ⊢
  simp only
  rw [hget]
  simp only [hfree, if_true]
  generalize hl : load_block_bitmap sb _ = l at hload ⊢
  obtain ⟨l1, l2⟩ := l
  simp only at hload
  subst hload
  rfl

/-- C6: bit-level fallback in the group of the goal.  When the group of the
(normalized) goal has a stored free count above 0, the goal bit is in use, no
bit of the near-goal window is free, no byte from the end of the window (from
offset 0 when the goal bit is bit 0) to the end of the group is zero, and `p`
is the lowest free bit at or after that point, then `ext2_new_block`, for a
caller that passes the reserved-block test, with the bitmap loading, quota
accepting and the block lying below `s_blocks_count`, returns
`first_data_block + group * blocks_per_group + p`. -/
theorem ext2_new_block_bit_fallback (fuel : Nat) (current : task_struct) (ino : inode)
    (goal bh p : Nat) (hfit : fields_fit ino.i_sb) (hgeo : geometry_ok ino.i_sb)
    (hres : ¬ reserved_reject ino.i_sb current) (hq : quota_accepts ino.i_dquot)
    (hgrp : group_of ino.i_sb (norm_goal ino.i_sb goal) < ino.i_sb.s_groups_count)
    (hdesc : ino.i_sb.s_group_desc
      (group_of ino.i_sb (norm_goal ino.i_sb goal) / ino.i_sb.s_desc_per_block) = true)
    (hfree : 0 < (ino.i_sb.gdt (group_of ino.i_sb (norm_goal ino.i_sb goal))).bg_free_blocks_count)
    (hload : (load_block_bitmap ino.i_sb (group_of ino.i_sb (norm_goal ino.i_sb goal))).2 = .bh bh)
    (hbit : ino.i_sb.b_data bh (bit_of ino.i_sb (norm_goal ino.i_sb goal)) = true)
    (hwin : ∀ n, bit_of ino.i_sb (norm_goal ino.i_sb goal) ≤ n →
      n < end_goal (bit_of ino.i_sb (norm_goal ino.i_sb goal)) → ino.i_sb.b_data bh n = true)
    (hbyte : ∀ b, after_window (bit_of ino.i_sb (norm_goal ino.i_sb goal)) ≤ 8 * b →
      8 * b < ino.i_sb.s_blocks_per_group → byte_is_zero (ino.i_sb.b_data bh) b = false)
    (hp1 : after_window (bit_of ino.i_sb (norm_goal ino.i_sb goal)) ≤ p)
    (hp2 : p < ino.i_sb.s_blocks_per_group)
    (hp3 : ino.i_sb.b_data bh p = false)
    (hp4 : ∀ n, after_window (bit_of ino.i_sb (norm_goal ino.i_sb goal)) ≤ n → n < p →
      ino.i_sb.b_data bh n = true)
    (hbc : ino.i_sb.s_es.s_first_data_block +
      group_of ino.i_sb (norm_goal ino.i_sb goal) * ino.i_sb.s_blocks_per_group + p <
        ino.i_sb.s_es.s_blocks_count) :
    ∃ r, ext2_new_block (fuel + 1) current ino goal = some r ∧
      r.ret = ino.i_sb.s_es.s_first_data_block +
        group_of ino.i_sb (norm_goal ino.i_sb goal) * ino.i_sb.s_blocks_per_group + p ∧
      r.err = 0 ∧ r.panicked = false := by
  have hsd := load_block_bitmap_same_disk ino.i_sb (group_of ino.i_sb (norm_goal ino.i_sb goal))
  have hpass := new_block_pass_goal_group_norm ino ino.i_sb goal bh hgrp hdesc hfree hload
  have hbpg : ino.i_sb.s_blocks_per_group ≤ 8 * 65536 :=
    le_trans hgeo.bpg_le (Nat.mul_le_mul_left 8 hgeo.blocksize_le)
  have hgg := new_block_goal_group_bit_scan ino
    (load_block_bitmap ino.i_sb (group_of ino.i_sb (norm_goal ino.i_sb goal))).1
    (norm_goal ino.i_sb goal) (group_of ino.i_sb (norm_goal ino.i_sb goal))
    (group_of ino.i_sb (norm_goal ino.i_sb goal)) bh (bit_of ino.i_sb (norm_goal ino.i_sb goal)) p
    (by rw [hsd.s_blocks_per_group]; exact hbpg)
    (by rw [hsd.b_data]; exact hbit)
    (by rw [hsd.b_data]; exact hwin)
    (by rw [hsd.b_data, hsd.s_blocks_per_group]; exact hbyte)
    hp1 (by rw [hsd.s_blocks_per_group]; exact hp2)
    (by rw [hsd.b_data]; exact hp3)
    (by rw [hsd.b_data]; exact hp4)
  have hnr : u32 (p + group_of ino.i_sb (norm_goal ino.i_sb goal) * ino.i_sb.s_blocks_per_group +
      ino.i_sb.s_es.s_first_data_block) = ino.i_sb.s_es.s_first_data_block +
        group_of ino.i_sb (norm_goal ino.i_sb goal) * ino.i_sb.s_blocks_per_group + p := by
    rw [u32_of_lt _ (by have := hfit.s_blocks_count; omega)]
    omega
  have hgot := new_block_got_block_success ino
    (load_block_bitmap ino.i_sb (group_of ino.i_sb (norm_goal ino.i_sb goal))).1
    (norm_goal ino.i_sb goal) (group_of ino.i_sb (norm_goal ino.i_sb goal))
    (group_of ino.i_sb (norm_goal ino.i_sb goal)) bh p hq
    (by rw [hsd.b_data]; exact hp3)
    (by rw [hsd.s_blocks_per_group, hsd.s_es, hnr]; exact hbc)
  rw [hsd.s_blocks_per_group, hsd.s_es, hnr] at hgot
  refine ⟨_, ext2_new_block_of_pass fuel current ino goal _ hres (hpass.trans (hgg.trans hgot)),
    rfl, rfl, rfl⟩

set_option maxRecDepth 100000

theorem geometry_ok_two_groups : geometry_ok sb_two_groups := by
  constructor <;> decide

theorem ext2_new_block_bit_fallback_witness :
    ∃ r, ext2_new_block 1 task_root ino_two_groups 0 = some r ∧
      r.ret = 5001 ∧ r.err = 0 ∧ r.panicked = false :=
  have hj : bit_of ino_two_groups.i_sb (norm_goal ino_two_groups.i_sb 0) = 0 := by decide
  ext2_new_block_bit_fallback 0 task_root ino_two_groups 0 3 5000
    fields_fit_two_groups geometry_ok_two_groups
    (by unfold reserved_reject; decide) (by simp [quota_accepts, ino_two_groups])
    (by decide) (by decide) (by decide) (by decide) (by decide)
    (by rw [hj]; intro n _ h2; exact absurd h2 (by unfold end_goal; omega))
    (by
      intro b _ _
      have h5 : ino_two_groups.i_sb.b_data 3 = fun n => decide (n ≠ 5000) := by
        funext n; simp [ino_two_groups, sb_two_groups]
      rw [h5]
      unfold byte_is_zero
      by_cases hb : b = 625
      · subst hb; decide
      · have e0 : 8 * b ≠ 5000 := by omega
        simp [e0])
    (by rw [hj]; decide) (by decide) (by decide)
    (by
      intro n _ h2
      have h5 : ino_two_groups.i_sb.b_data 3 = fun n => decide (n ≠ 5000) := by
        funext n; simp [ino_two_groups, sb_two_groups]
      rw [h5]
      simp only [decide_eq_true_eq]
      omega)
    (by decide)

set_option maxRecDepth 100000

theorem same_layout_refl (a : super_block) : same_layout a a := by
  constructor <;> intros <;> rfl

theorem same_layout_trans {a b c : super_block} (h1 : same_layout a b) (h2 : same_layout b c) :
    same_layout a c := by
  constructor
  · rw [h2.s_blocks_count, h1.s_blocks_count]
  · rw [h2.s_r_blocks_count, h1.s_r_blocks_count]
  · rw [h2.s_first_data_block, h1.s_first_data_block]
  · rw [h2.s_blocksize, h1.s_blocksize]
  · rw [h2.s_blocks_per_group, h1.s_blocks_per_group]
  · rw [h2.s_itb_per_group, h1.s_itb_per_group]
  · rw [h2.s_groups_count, h1.s_groups_count]
  · rw [h2.s_desc_per_block, h1.s_desc_per_block]
  · rw [h2.s_group_desc, h1.s_group_desc]
  · intro g; rw [h2.bg_block_bitmap, h1.bg_block_bitmap]
  · intro g; rw [h2.bg_inode_bitmap, h1.bg_inode_bitmap]
  · intro g; rw [h2.bg_inode_table, h1.bg_inode_table]
  · rw [h2.s_resuid, h1.s_resuid]
  · rw [h2.s_resgid, h1.s_resgid]
  · rw [h2.bread_ok, h1.bread_ok]

theorem same_layout_of_same_disk {a b : super_block} (h : same_disk a b) : same_layout a b := by
  constructor
  · rw [h.s_es]
  · rw [h.s_es]
  · rw [h.s_es]
  · exact h.s_blocksize
  · exact h.s_blocks_per_group
  · exact h.s_itb_per_group
  · exact h.s_groups_count
  · exact h.s_desc_per_block
  · exact h.s_group_desc
  · intro g; rw [h.gdt]
  · intro g; rw [h.gdt]
  · intro g; rw [h.gdt]
  · exact h.s_resuid
  · exact h.s_resgid
  · exact h.bread_ok

theorem count_set_congr (bm1 bm2 : Nat → Bool) (m s : Nat)
    (h : ∀ k, s ≤ k → k < s + m → bm1 k = bm2 k) :
    count_set bm1 s m = count_set bm2 s m := by
  induction m generalizing s with
  | zero => rfl
  | succ m ih =>
    simp only [count_set]
    rw [ih (s + 1) (fun k h1 h2 => h k (by omega) (by omega)), h s (le_refl _) (by omega)]

/-- What the loop over the bits of one group does: the bits `bit + i ..
bit + i + n - 1` of buffer `bh` are cleared, those that were set are counted,
and nothing else but the log changes. -/
theorem free_bits_loop_spec (bh bit block : Nat) (n i : Nat) (sb : super_block) (gf : Nat) :
    (free_bits_loop bh bit block n i sb gf).2 = gf + count_set (sb.b_data bh) (bit + i) n ∧
    (free_bits_loop bh bit block n i sb gf).1.b_data =
      (fun b k => if b = bh ∧ bit + i ≤ k ∧ k < bit + i + n then false else sb.b_data b k) ∧
    (free_bits_loop bh bit block n i sb gf).1.s_es = sb.s_es ∧
    (free_bits_loop bh bit block n i sb gf).1.gdt = sb.gdt ∧
    (free_bits_loop bh bit block n i sb gf).1.s_dirt = sb.s_dirt ∧
    (free_bits_loop bh bit block n i sb gf).1.s_block_bitmap = sb.s_block_bitmap ∧
    (free_bits_loop bh bit block n i sb gf).1.s_block_bitmap_number = sb.s_block_bitmap_number ∧
    (free_bits_loop bh bit block n i sb gf).1.s_loaded_block_bitmaps = sb.s_loaded_block_bitmaps ∧
    same_layout sb (free_bits_loop bh bit block n i sb gf).1 := by
  induction n generalizing i sb gf with
  | zero =>
    refine ⟨rfl, ?_, rfl, rfl, rfl, rfl, rfl, rfl, same_layout_refl _⟩
    show sb.b_data = _
    funext b k
    rw [if_neg (by omega)]
  | succ n ih =>
    simp only [free_bits_loop, count_set, ext2_clear_bit]
    have hcs : ∀ sb' : super_block,
        sb'.b_data = (write_bit sb bh (bit + i) false).b_data →
        count_set (sb'.b_data bh) (bit + (i + 1)) n = count_set (sb.b_data bh) (bit + i + 1) n := by
      intro sb' hsb'
      rw [hsb']
      apply count_set_congr
      intro k hk1 hk2
      simp only [write_bit]
      rw [if_neg (by omega)]
    have hbd : ∀ sb' : super_block,
        sb'.b_data = (write_bit sb bh (bit + i) false).b_data →
        (fun b k => if b = bh ∧ bit + (i + 1) ≤ k ∧ k < bit + (i + 1) + n then false
          else sb'.b_data b k) =
        (fun b k => if b = bh ∧ bit + i ≤ k ∧ k < bit + i + (n + 1) then false
          else sb.b_data b k) := by
      intro sb' hsb'
      funext b k
      rw [hsb']
      simp only [write_bit]
      by_cases h1 : b = bh ∧ bit + (i + 1) ≤ k ∧ k < bit + (i + 1) + n
      · rw [if_pos h1, if_pos ⟨h1.1, by omega, by omega⟩]
      · rw [if_neg h1]
        by_cases h2 : b = bh ∧ k = bit + i
        · rw [if_pos h2, if_pos ⟨h2.1, by omega, by omega⟩]
        · rw [if_neg h2]
          by_cases h3 : b = bh ∧ bit + i ≤ k ∧ k < bit + i + (n + 1)
          · exfalso
            rcases h3 with ⟨h3a, h3b, h3c⟩
            by_cases h4 : k = bit + i
            · exact h2 ⟨h3a, h4⟩
            · exact h1 ⟨h3a, by omega, by omega⟩
          · rw [if_neg h3]
    split
    · rename_i hold
      obtain ⟨h1, h2, h3, h4, h5, h6, h7, h8, h9⟩ :=
        ih (i + 1) (ext2_error (write_bit sb bh (bit + i) false) (.bit_already_cleared (block + i))) gf
      refine ⟨?_, ?_, h3, h4, h5, h6, h7, h8, ?_⟩
      · have hc := hcs (ext2_error (write_bit sb bh (bit + i) false)
          (.bit_already_cleared (block + i))) rfl
        rw [h1, hc]
        have : ¬ (sb.b_data bh (bit + i) = true) := by simpa using hold
        rw [if_neg this]; omega
      · rw [h2]; exact hbd _ rfl
      · refine same_layout_trans ?_ h9
        constructor <;> intros <;> rfl
    · rename_i hold
      obtain ⟨h1, h2, h3, h4, h5, h6, h7, h8, h9⟩ :=
        ih (i + 1) (write_bit sb bh (bit + i) false) (gf + 1)
      refine ⟨?_, ?_, h3, h4, h5, h6, h7, h8, ?_⟩
      · have hc := hcs (write_bit sb bh (bit + i) false) rfl
        rw [h1, hc]
        have : sb.b_data bh (bit + i) = true := by simpa using hold
        rw [if_pos this]; omega
      · rw [h2]; exact hbd _ rfl
      · refine same_layout_trans ?_ h9
        constructor <;> intros <;> rfl

set_option maxRecDepth 100000

theorem free_check_zone_spec (sb : super_block) (gdp block count : Nat) :
    same_disk sb (free_check_zone sb gdp block count) ∧
    (free_check_zone sb gdp block count).s_block_bitmap = sb.s_block_bitmap ∧
    (free_check_zone sb gdp block count).s_block_bitmap_number = sb.s_block_bitmap_number ∧
    (free_check_zone sb gdp block count).s_loaded_block_bitmaps = sb.s_loaded_block_bitmaps := by
  unfold free_check_zone
  split
  · exact ⟨same_disk_ext2_error _ _, rfl, rfl, rfl⟩
  · exact ⟨same_disk_refl _, rfl, rfl, rfl⟩

theorem group_release_blocks_spec (sb : super_block) (gdp count : Nat)
    (hfit : (sb.gdt gdp).bg_free_blocks_count < 2 ^ 16) :
    (group_release_blocks sb gdp count).gdt = (fun g => if g = gdp then
        { sb.gdt g with bg_free_blocks_count := u16 ((sb.gdt g).bg_free_blocks_count + count) }
      else sb.gdt g) ∧
    (group_release_blocks sb gdp count).b_data = sb.b_data ∧
    (group_release_blocks sb gdp count).s_es = sb.s_es ∧
    (group_release_blocks sb gdp count).s_dirt = sb.s_dirt ∧
    (group_release_blocks sb gdp count).s_block_bitmap = sb.s_block_bitmap ∧
    (group_release_blocks sb gdp count).s_block_bitmap_number = sb.s_block_bitmap_number ∧
    (group_release_blocks sb gdp count).s_loaded_block_bitmaps = sb.s_loaded_block_bitmaps ∧
    same_layout sb (group_release_blocks sb gdp count) := by
  unfold group_release_blocks
  split
  · refine ⟨rfl, rfl, rfl, rfl, rfl, rfl, rfl, ?_⟩
    constructor
    any_goals rfl
    all_goals (intro g; dsimp only; split <;> rfl)
  · rename_i h
    have h0 : count = 0 := by simpa using h
    refine ⟨?_, rfl, rfl, rfl, rfl, rfl, rfl, same_layout_refl _⟩
    funext g
    by_cases hg : g = gdp
    · rw [if_pos hg, h0, hg]
      simp only [Nat.add_zero, u16]
      rw [Nat.mod_eq_of_lt hfit]
    · rw [if_neg hg]

/-- What freeing the blocks of one group does to the state. -/
theorem free_in_group_spec (sb : super_block) (bh gdp bit block count : Nat)
    (hfit : (sb.gdt gdp).bg_free_blocks_count < 2 ^ 16) :
    (free_in_group sb bh gdp bit block count).2 = count_set (sb.b_data bh) bit count ∧
    (free_in_group sb bh gdp bit block count).1.b_data =
      (fun b k => if b = bh ∧ bit ≤ k ∧ k < bit + count then false else sb.b_data b k) ∧
    (free_in_group sb bh gdp bit block count).1.gdt = (fun g => if g = gdp then
        { sb.gdt g with
          bg_free_blocks_count := u16 ((sb.gdt g).bg_free_blocks_count + count_set (sb.b_data bh) bit count) }
      else sb.gdt g) ∧
    (free_in_group sb bh gdp bit block count).1.s_es = sb.s_es ∧
    (free_in_group sb bh gdp bit block count).1.s_dirt = sb.s_dirt ∧
    (free_in_group sb bh gdp bit block count).1.s_block_bitmap = sb.s_block_bitmap ∧
    (free_in_group sb bh gdp bit block count).1.s_block_bitmap_number = sb.s_block_bitmap_number ∧
    (free_in_group sb bh gdp bit block count).1.s_loaded_block_bitmaps = sb.s_loaded_block_bitmaps ∧
    same_layout sb (free_in_group sb bh gdp bit block count).1 := by
  obtain ⟨z1, z2, z3, z4⟩ := free_check_zone_spec sb gdp block count
  obtain ⟨l1, l2, l3, l4, l5, l6, l7, l8, l9⟩ :=
    free_bits_loop_spec bh bit block count 0 (free_check_zone sb gdp block count) 0
  have hfit2 : ((free_bits_loop bh bit block count 0 (free_check_zone sb gdp block count) 0).1.gdt
      gdp).bg_free_blocks_count < 2 ^ 16 := by
    rw [l4, z1.gdt]; exact hfit
  obtain ⟨g1, g2, g3, g4, g5, g6, g7, g8⟩ := group_release_blocks_spec
    (free_bits_loop bh bit block count 0 (free_check_zone sb gdp block count) 0).1 gdp
    (free_bits_loop bh bit block count 0 (free_check_zone sb gdp block count) 0).2 hfit2
  have hc : (free_bits_loop bh bit block count 0 (free_check_zone sb gdp block count) 0).2 =
      count_set (sb.b_data bh) bit count := by
    rw [l1, z1.b_data]; simp
  unfold free_in_group
  dsimp only
  refine ⟨hc, ?_, ?_, ?_, ?_, ?_, ?_, ?_, ?_⟩
  · rw [g2, l2, z1.b_data]; simp
  · rw [g1, l4, z1.gdt, hc]
  · rw [g3, l3, z1.s_es]
  · rw [g4, l5, z1.s_dirt]
  · rw [g5, l6, z2]
  · rw [g6, l7, z3]
  · rw [g7, l8, z4]
  · exact same_layout_trans (same_layout_of_same_disk z1) (same_layout_trans l9 g8)

theorem bitmap_block_layout {a b : super_block} (h : same_layout a b) (g : Nat) :
    bitmap_block b g = bitmap_block a g := h.bg_block_bitmap g

theorem group_of_layout {a b : super_block} (h : same_layout a b) (x : Nat) :
    group_of b x = group_of a x := by
  unfold group_of; rw [h.s_first_data_block, h.s_blocks_per_group]

theorem bit_of_layout {a b : super_block} (h : same_layout a b) (x : Nat) :
    bit_of b x = bit_of a x := by
  unfold bit_of; rw [h.s_first_data_block, h.s_blocks_per_group]

/-- A state with the layout and the cache of a state in working order, and
with counters within their types, is in working order. -/
theorem fs_ok_of_layout {a b : super_block} (ha : fs_ok a) (h : same_layout a b)
    (h1 : b.s_block_bitmap = a.s_block_bitmap)
    (h2 : b.s_block_bitmap_number = a.s_block_bitmap_number)
    (h3 : b.s_es.s_free_blocks_count < 2 ^ 32)
    (h4 : ∀ g, (b.gdt g).bg_free_blocks_count < 2 ^ 16) : fs_ok b := by
  constructor
  · constructor
    · rw [h.s_blocks_count]; exact ha.fit.s_blocks_count
    · rw [h.s_r_blocks_count]; exact ha.fit.s_r_blocks_count
    · exact h3
    · rw [h.s_first_data_block]; exact ha.fit.s_first_data_block
    · intro g; rw [h.bg_block_bitmap]; exact ha.fit.bg_block_bitmap g
    · intro g; rw [h.bg_inode_bitmap]; exact ha.fit.bg_inode_bitmap g
    · intro g; rw [h.bg_inode_table]; exact ha.fit.bg_inode_table g
    · exact h4
    · rw [h.s_blocks_per_group]; exact ha.fit.s_blocks_per_group
    · rw [h.s_itb_per_group]; exact ha.fit.s_itb_per_group
    · rw [h.s_groups_count]; exact ha.fit.s_groups_count
    · rw [h.s_desc_per_block]; exact ha.fit.s_desc_per_block
  · constructor
    · rw [h.s_blocks_per_group]; exact ha.geo.bpg_pos
    · rw [h.s_blocks_per_group, h.s_blocksize]; exact ha.geo.bpg_le
    · rw [h.s_blocksize]; exact ha.geo.blocksize_le
    · rw [h.s_first_data_block, h.s_blocks_count]; exact ha.geo.first_le
    · rw [h.s_first_data_block, h.s_blocks_count, h.s_groups_count, h.s_blocks_per_group]
      exact ha.geo.groups
  · have hc := ha.cache
    unfold cache_ok at *
    rw [h1, h2, h.s_groups_count]
    refine ⟨?_, hc.2⟩
    intro slot b hb
    rw [bitmap_block_layout h]
    exact hc.1 slot b hb
  · have hio := ha.io
    unfold io_ok at *
    rw [h.s_groups_count, h.s_desc_per_block, h.s_group_desc, h.bread_ok]
    intro g hg
    rw [bitmap_block_layout h]
    exact hio g hg
  · have hd := ha.distinct
    unfold bitmaps_distinct at *
    rw [h.s_groups_count]
    intro g g' hg hg'
    rw [bitmap_block_layout h, bitmap_block_layout h]
    exact hd g g' hg hg'

set_option maxRecDepth 100000

theorem count_used_split (sb : super_block) (sel : Nat → Bool) (a b block : Nat) :
    count_used sb sel block (a + b) =
      count_used sb sel block a + count_used sb sel (block + a) b := by
  induction a generalizing block with
  | zero => simp [count_used]
  | succ a ih =>
    have : a + 1 + b = (a + b) + 1 := by omega
    rw [this]
    simp only [count_used]
    rw [ih (block + 1)]
    have : block + 1 + a = block + (a + 1) := by omega
    rw [this]
    omega

theorem count_used_congr (sb1 sb2 : super_block) (sel1 sel2 : Nat → Bool) (n block : Nat)
    (h : ∀ x, block ≤ x → x < block + n →
      sel1 x = sel2 x ∧ block_bit sb1 x = block_bit sb2 x) :
    count_used sb1 sel1 block n = count_used sb2 sel2 block n := by
  induction n generalizing block with
  | zero => rfl
  | succ n ih =>
    simp only [count_used]
    rw [ih (block + 1) (fun x h1 h2 => h x (by omega) (by omega))]
    rw [(h block (le_refl _) (by omega)).1, (h block (le_refl _) (by omega)).2]

/-- Counting the blocks in use of a range that lies in one group is counting
the set bits of a stretch of the bitmap of the group. -/
theorem count_used_one_group (sb : super_block) (sel : Nat → Bool) (c : Bool) (g n block bit : Nat)
    (h : ∀ i, i < n → group_of sb (block + i) = g ∧ bit_of sb (block + i) = bit + i ∧
      sel (block + i) = c) :
    count_used sb sel block n =
      if c = true then count_set (sb.b_data (bitmap_block sb g)) bit n else 0 := by
  induction n generalizing block bit with
  | zero => simp [count_used, count_set]
  | succ n ih =>
    simp only [count_used, count_set]
    have h0 := h 0 (by omega)
    simp only [Nat.add_zero] at h0
    have hrec := ih (block + 1) (bit + 1) (fun i hi => by
      have := h (i + 1) (by omega)
      have e1 : block + 1 + i = block + (i + 1) := by omega
      have e2 : bit + 1 + i = bit + (i + 1) := by omega
      rw [e1, e2]; exact this)
    rw [hrec, h0.2.2]
    unfold block_bit
    rw [h0.1, h0.2.1]
    cases c <;> simp

theorem div_mod_in_group (B x i : Nat) (hB : 0 < B) (hi : x % B + i < B) :
    (x + i) / B = x / B ∧ (x + i) % B = x % B + i := by
  have hx : x + i = (x % B + i) + B * (x / B) := by
    have := Nat.mod_add_div x B; omega
  rw [hx]
  constructor
  · rw [Nat.add_mul_div_left _ _ hB, Nat.div_eq_of_lt hi]; omega
  · rw [Nat.add_mul_mod_self_left, Nat.mod_eq_of_lt hi]

theorem group_bit_of_add (sb : super_block) (block i : Nat)
    (hB : 0 < sb.s_blocks_per_group) (hlo : sb.s_es.s_first_data_block ≤ block)
    (hi : bit_of sb block + i < sb.s_blocks_per_group) :
    group_of sb (block + i) = group_of sb block ∧ bit_of sb (block + i) = bit_of sb block + i := by
  unfold group_of bit_of at *
  have e : block + i - sb.s_es.s_first_data_block = (block - sb.s_es.s_first_data_block) + i := by
    omega
  rw [e]
  exact div_mod_in_group _ _ _ hB hi

theorem group_of_next (sb : super_block) (block c x : Nat)
    (hB : 0 < sb.s_blocks_per_group) (hlo : sb.s_es.s_first_data_block ≤ block)
    (hc : bit_of sb block + c = sb.s_blocks_per_group) (hx : block + c ≤ x) :
    group_of sb block < group_of sb x := by
  unfold group_of bit_of at *
  have hm := Nat.mod_add_div (block - sb.s_es.s_first_data_block) sb.s_blocks_per_group
  have : (group_of sb block + 1) * sb.s_blocks_per_group ≤ x - sb.s_es.s_first_data_block := by
    unfold group_of
    rw [Nat.add_mul, Nat.one_mul, Nat.mul_comm]
    omega
  unfold group_of at this
  exact (Nat.le_div_iff_mul_le hB).mpr this

theorem group_of_lt_groups (sb : super_block) (hgeo : geometry_ok sb) (block : Nat)
    (hlo : sb.s_es.s_first_data_block ≤ block) (hhi : block < sb.s_es.s_blocks_count) : group_of sb block < sb.s_groups_count := by
  unfold group_of
  apply (Nat.div_lt_iff_lt_mul hgeo.bpg_pos).mpr
  have := hgeo.groups
  omega

set_option maxRecDepth 100000

theorem load_block_bitmap_ok (sb : super_block) (g : Nat) (hok : fs_ok sb)
    (hg : g < sb.s_groups_count) :
    load_block_bitmap sb g = ((load_block_bitmap sb g).1, .bh (bitmap_block sb g)) := by
  have h := (load_block_bitmap_spec sb g hok.cache).2.2.2 hok.io hg
  rw [← h]

/-- One round of the loop of `ext2_free_blocks` on a file system in working
order, for a non-empty range inside the data zone: the blocks of the range
that lie in the group of `block` are freed, and the loop goes on with the
rest of the range if there is one. -/
theorem free_do_more_step (ino : inode) (fuel : Nat) (sb : super_block) (block count freed : Nat)
    (hok : fs_ok sb) (hcnt : 0 < count) (hlo : sb.s_es.s_first_data_block ≤ block)
    (hhi : block + count ≤ sb.s_es.s_blocks_count) :
    free_do_more ino (fuel + 1) sb block count freed =
      if bit_of sb block + count - sb.s_blocks_per_group ≠ 0 then
        free_do_more ino fuel
          (free_in_group (load_block_bitmap sb (group_of sb block)).1
            (bitmap_block sb (group_of sb block)) (group_of sb block) (bit_of sb block) block
            (count - (bit_of sb block + count - sb.s_blocks_per_group))).1
          (block + (count - (bit_of sb block + count - sb.s_blocks_per_group)))
          (bit_of sb block + count - sb.s_blocks_per_group)
          (u32 (freed + (free_in_group (load_block_bitmap sb (group_of sb block)).1
            (bitmap_block sb (group_of sb block)) (group_of sb block) (bit_of sb block) block
            (count - (bit_of sb block + count - sb.s_blocks_per_group))).2))
      else
        free_error_return ino
          (free_in_group (load_block_bitmap sb (group_of sb block)).1
            (bitmap_block sb (group_of sb block)) (group_of sb block) (bit_of sb block) block
            (count - (bit_of sb block + count - sb.s_blocks_per_group))).1
          (u32 (freed + (free_in_group (load_block_bitmap sb (group_of sb block)).1
            (bitmap_block sb (group_of sb block)) (group_of sb block) (bit_of sb block) block
            (count - (bit_of sb block + count - sb.s_blocks_per_group))).2)) := by
  have hbc := hok.fit.s_blocks_count
  have hB := hok.geo.bpg_pos
  have hBfit := hok.fit.s_blocks_per_group
  have hg : group_of sb block < sb.s_groups_count :=
    group_of_lt_groups sb hok.geo block hlo (by omega)
  have hbit : bit_of sb block < sb.s_blocks_per_group := Nat.mod_lt _ hB
  have hbitle : bit_of sb block ≤ block := by
    unfold bit_of
    exact le_trans (Nat.mod_le _ _) (Nat.sub_le _ _)
  have e1 : ulong_sub block sb.s_es.s_first_data_block = block - sb.s_es.s_first_data_block :=
    ulong_sub_of_le _ _ (by unfold BITS_PER_LONG; omega) hlo
  have e2 : ulong (bit_of sb block + count) = bit_of sb block + count :=
    ulong_of_lt _ (by unfold BITS_PER_LONG; omega)
  have e3 : (if sb.s_blocks_per_group < bit_of sb block + count
      then ulong_sub (bit_of sb block + count) sb.s_blocks_per_group else 0) =
      bit_of sb block + count - sb.s_blocks_per_group := by
    split
    · exact ulong_sub_of_le _ _ (by unfold BITS_PER_LONG; omega) (by omega)
    · omega
  have e4 : ulong_sub count (bit_of sb block + count - sb.s_blocks_per_group) =
      count - (bit_of sb block + count - sb.s_blocks_per_group) :=
    ulong_sub_of_le _ _ (by unfold BITS_PER_LONG; omega) (by omega)
  have e5 : ulong (block + (count - (bit_of sb block + count - sb.s_blocks_per_group))) =
      block + (count - (bit_of sb block + count - sb.s_blocks_per_group)) :=
    ulong_of_lt _ (by unfold BITS_PER_LONG; omega)
  have hsd := load_block_bitmap_same_disk sb (group_of sb block)
  have hget : ext2_get_group_desc (load_block_bitmap sb (group_of sb block)).1 (group_of sb block)
      = ((load_block_bitmap sb (group_of sb block)).1, some (group_of sb block)) := by
    apply get_group_desc_some
    · rw [hsd.s_groups_count]; exact hg
    · rw [hsd.s_group_desc, hsd.s_desc_per_block]; exact (hok.io _ hg).1
  have hgo : (block - sb.s_es.s_first_data_block) / sb.s_blocks_per_group = group_of sb block := rfl
  have hbo : (block - sb.s_es.s_first_data_block) % sb.s_blocks_per_group = bit_of sb block := rfl
  simp only [free_do_more]
  rw [e1, hgo, hbo, load_block_bitmap_ok sb _ hok hg]
  simp only [hget]
  rw [e2, e3, e4, e5]

set_option maxRecDepth 100000

theorem fs_ok_of_same_disk {a b : super_block} (ha : fs_ok a) (h : same_disk a b)
    (hc : cache_ok b) : fs_ok b := by
  have hl := same_layout_of_same_disk h
  constructor
  · constructor
    · rw [h.s_es]; exact ha.fit.s_blocks_count
    · rw [h.s_es]; exact ha.fit.s_r_blocks_count
    · rw [h.s_es]; exact ha.fit.s_free_blocks_count
    · rw [h.s_es]; exact ha.fit.s_first_data_block
    · intro g; rw [h.gdt]; exact ha.fit.bg_block_bitmap g
    · intro g; rw [h.gdt]; exact ha.fit.bg_inode_bitmap g
    · intro g; rw [h.gdt]; exact ha.fit.bg_inode_table g
    · intro g; rw [h.gdt]; exact ha.fit.bg_free_blocks_count g
    · rw [h.s_blocks_per_group]; exact ha.fit.s_blocks_per_group
    · rw [h.s_itb_per_group]; exact ha.fit.s_itb_per_group
    · rw [h.s_groups_count]; exact ha.fit.s_groups_count
    · rw [h.s_desc_per_block]; exact ha.fit.s_desc_per_block
  · constructor
    · rw [h.s_blocks_per_group]; exact ha.geo.bpg_pos
    · rw [h.s_blocks_per_group, h.s_blocksize]; exact ha.geo.bpg_le
    · rw [h.s_blocksize]; exact ha.geo.blocksize_le
    · rw [h.s_es]; exact ha.geo.first_le
    · rw [h.s_es, h.s_groups_count, h.s_blocks_per_group]
      exact ha.geo.groups
  · exact hc
  · have hio := ha.io
    unfold io_ok at *
    rw [h.s_groups_count, h.s_desc_per_block, h.s_group_desc, h.bread_ok]
    intro g hg
    rw [bitmap_block_layout hl]
    exact hio g hg
  · have hd := ha.distinct
    unfold bitmaps_distinct at *
    rw [h.s_groups_count]
    intro g g' hg hg'
    rw [bitmap_block_layout hl, bitmap_block_layout hl]
    exact hd g g' hg hg'

theorem count_set_le (bm : Nat → Bool) (n s : Nat) : count_set bm s n ≤ n := by
  induction n generalizing s with
  | zero => simp [count_set]
  | succ n ih =>
    simp only [count_set]
    have := ih (s + 1)
    split <;> omega

/-- The state after the blocks of the range that lie in the group of `block`
have been freed. -/
theorem free_group_step_spec (sb : super_block) (block c1 : Nat) (hok : fs_ok sb)
    (hlo : sb.s_es.s_first_data_block ≤ block) (hhi : block < sb.s_es.s_blocks_count)
    (hc1 : bit_of sb block + c1 ≤ sb.s_blocks_per_group) :
    fs_ok (free_in_group (load_block_bitmap sb (group_of sb block)).1
        (bitmap_block sb (group_of sb block)) (group_of sb block) (bit_of sb block) block c1).1 ∧
    same_layout sb (free_in_group (load_block_bitmap sb (group_of sb block)).1
        (bitmap_block sb (group_of sb block)) (group_of sb block) (bit_of sb block) block c1).1 ∧
    (free_in_group (load_block_bitmap sb (group_of sb block)).1
        (bitmap_block sb (group_of sb block)) (group_of sb block) (bit_of sb block) block c1).1.b_data
      = (fun b k => if b = bitmap_block sb (group_of sb block) ∧ bit_of sb block ≤ k ∧
            k < bit_of sb block + c1 then false else sb.b_data b k) ∧
    (∀ g, ((free_in_group (load_block_bitmap sb (group_of sb block)).1
        (bitmap_block sb (group_of sb block)) (group_of sb block) (bit_of sb block) block c1).1.gdt
          g).bg_free_blocks_count =
        u16 ((sb.gdt g).bg_free_blocks_count + used_in_group sb g block c1)) ∧
    (free_in_group (load_block_bitmap sb (group_of sb block)).1
        (bitmap_block sb (group_of sb block)) (group_of sb block) (bit_of sb block) block c1).1.s_es
      = sb.s_es ∧
    (free_in_group (load_block_bitmap sb (group_of sb block)).1
        (bitmap_block sb (group_of sb block)) (group_of sb block) (bit_of sb block) block c1).2
      = used_in_range sb block c1 ∧
    used_in_range sb block c1 ≤ c1 := by
  have hB := hok.geo.bpg_pos
  have hg : group_of sb block < sb.s_groups_count :=
    group_of_lt_groups sb hok.geo block hlo hhi
  obtain ⟨hsd, hc, _, _⟩ := load_block_bitmap_spec sb (group_of sb block) hok.cache
  have hok1 := fs_ok_of_same_disk hok hsd hc
  obtain ⟨f1, f2, f3, f4, f5, f6, f7, f8, f9⟩ :=
    free_in_group_spec (load_block_bitmap sb (group_of sb block)).1
      (bitmap_block sb (group_of sb block)) (group_of sb block) (bit_of sb block) block c1
      (hok1.fit.bg_free_blocks_count _)
  rw [hsd.b_data] at f1 f2 f3
  rw [hsd.gdt] at f3
  rw [hsd.s_es] at f4
  have hin : ∀ (sel : Nat → Bool) (c : Bool),
      (∀ i, i < c1 → sel (block + i) = c) →
      count_used sb sel block c1 = if c = true then
        count_set (sb.b_data (bitmap_block sb (group_of sb block))) (bit_of sb block) c1 else 0 := by
    intro sel c hsel
    apply count_used_one_group
    intro i hi
    have := group_bit_of_add sb block i hB hlo (by omega)
    exact ⟨this.1, this.2, hsel i hi⟩
  have hrange : used_in_range sb block c1 =
      count_set (sb.b_data (bitmap_block sb (group_of sb block))) (bit_of sb block) c1 := by
    unfold used_in_range
    rw [hin (fun _ => true) true (fun _ _ => rfl)]
    simp
  have hgroup : ∀ g, used_in_group sb g block c1 = if g = group_of sb block then
      count_set (sb.b_data (bitmap_block sb (group_of sb block))) (bit_of sb block) c1 else 0 := by
    intro g
    unfold used_in_group
    rw [hin _ (decide (group_of sb block = g)) (fun i hi => by
      have := group_bit_of_add sb block i hB hlo (by omega)
      simp only [this.1])]
    by_cases hgg : g = group_of sb block
    · subst hgg; simp
    · have : ¬ (group_of sb block = g) := fun h => hgg h.symm
      simp [hgg, this]
  have hlay := same_layout_trans (same_layout_of_same_disk hsd) f9
  have hcounts : ∀ g, ((free_in_group (load_block_bitmap sb (group_of sb block)).1
        (bitmap_block sb (group_of sb block)) (group_of sb block) (bit_of sb block) block c1).1.gdt
          g).bg_free_blocks_count =
        u16 ((sb.gdt g).bg_free_blocks_count + used_in_group sb g block c1) := by
    intro g
    rw [f3, hgroup g]
    by_cases hgg : g = group_of sb block
    · simp only [hgg, if_true]
    · simp only [hgg, if_false, Nat.add_zero]
      unfold u16
      rw [Nat.mod_eq_of_lt (hok.fit.bg_free_blocks_count g)]
  refine ⟨?_, hlay, f2, hcounts, f4, ?_, ?_⟩
  · apply fs_ok_of_layout hok1 f9 f6 f7
    · rw [f4]; exact hok.fit.s_free_blocks_count
    · intro g
      rw [hcounts g]
      unfold u16
      exact Nat.mod_lt _ (by decide)
  · rw [f1, hrange]
  · rw [hrange]; exact count_set_le _ _ _

set_option maxRecDepth 100000

theorem u16_add_u16 (a b c : Nat) : u16 (u16 (a + b) + c) = u16 (a + (b + c)) := by
  unfold u16
  omega

theorem release_blocks_spec (sb : super_block) (n : Nat)
    (hfit : sb.s_es.s_free_blocks_count < 2 ^ 32) :
    (release_blocks sb n).s_es.s_free_blocks_count = u32 (sb.s_es.s_free_blocks_count + n) ∧
    (release_blocks sb n).b_data = sb.b_data ∧
    (release_blocks sb n).gdt = sb.gdt ∧
    (release_blocks sb n).s_block_bitmap = sb.s_block_bitmap ∧
    (release_blocks sb n).s_block_bitmap_number = sb.s_block_bitmap_number ∧
    same_layout sb (release_blocks sb n) := by
  unfold release_blocks
  split
  · refine ⟨rfl, rfl, rfl, rfl, rfl, ?_⟩
    constructor <;> intros <;> rfl
  · rename_i h
    have h0 : n = 0 := by simpa using h
    refine ⟨?_, rfl, rfl, rfl, rfl, same_layout_refl _⟩
    rw [h0, Nat.add_zero, u32_of_lt _ hfit]

theorem block_bit_eq (sb sb' : super_block) (h : same_layout sb sb') (b : Nat) :
    block_bit sb' b = sb'.b_data (bitmap_block sb (group_of sb b)) (bit_of sb b) := by
  unfold block_bit
  rw [group_of_layout h, bit_of_layout h, bitmap_block_layout h]

/-- The loop of `ext2_free_blocks` left after the last group of the range,
from what the round for that group has done. -/
theorem free_post_of_group (ino : inode) (sb sb5 : super_block) (block count freed gf : Nat)
    (hok : fs_ok sb) (hlo : sb.s_es.s_first_data_block ≤ block)
    (hc1 : bit_of sb block + count ≤ sb.s_blocks_per_group)
    (s1 : fs_ok sb5) (s2 : same_layout sb sb5)
    (s3 : sb5.b_data = (fun b k => if b = bitmap_block sb (group_of sb block) ∧
        bit_of sb block ≤ k ∧ k < bit_of sb block + count then false else sb.b_data b k))
    (s4 : ∀ g, (sb5.gdt g).bg_free_blocks_count =
        u16 ((sb.gdt g).bg_free_blocks_count + used_in_group sb g block count))
    (s5 : sb5.s_es = sb.s_es) (s6 : gf = used_in_range sb block count) :
    free_post ino sb block count freed (free_error_return ino sb5 (freed + gf)) := by
  subst s6
  have hB := hok.geo.bpg_pos
  obtain ⟨r1, r2, r3, r4, r5, r6⟩ := release_blocks_spec sb5 (freed + used_in_range sb block count) s1.fit.s_free_blocks_count
  have hlay := same_layout_trans s2 r6
  unfold free_error_return DQUOT_FREE_BLOCK
  constructor
  · rfl
  · exact hlay
  · apply fs_ok_of_layout s1 r6 r4 r5
    · rw [r1]; unfold u32; exact Nat.mod_lt _ (by decide)
    · intro g; rw [r3]; exact s1.fit.bg_free_blocks_count g
  · intro b hb1 hb2
    rw [block_bit_eq sb _ hlay b]
    have := group_bit_of_add sb block (b - block) hB hlo (by omega)
    rw [Nat.add_sub_cancel' hb1] at this
    rw [r2, s3]
    dsimp only
    rw [this.1, this.2, if_pos ⟨rfl, by omega, by omega⟩]
  · intro blk n hcov
    simp only [r2, s3]
    rw [if_neg]
    rintro ⟨h1, h2, h3⟩
    have := group_bit_of_add sb block (n - bit_of sb block) hB hlo (by omega)
    apply hcov (block + (n - bit_of sb block)) (by omega) (by omega)
    rw [this.1, this.2]
    exact ⟨h1, by omega⟩
  · intro g
    simp only [r3]
    exact s4 g
  · simp only [r1, s5]
  · rfl

set_option maxRecDepth 100000

/-- The loop of `ext2_free_blocks` for a range that goes on beyond the group
of `block`: what the round for that group has done, followed by what the loop
does for the rest of the range. -/
theorem free_post_compose (ino : inode) (sb sb5 : super_block) (block c1 ov freed gf : Nat)
    (R : free_result) (hok : fs_ok sb) (hlo : sb.s_es.s_first_data_block ≤ block)
    (hhi : block + c1 + ov ≤ sb.s_es.s_blocks_count)
    (hc1 : bit_of sb block + c1 = sb.s_blocks_per_group)
    (s2 : same_layout sb sb5)
    (s3 : sb5.b_data = (fun b k => if b = bitmap_block sb (group_of sb block) ∧
        bit_of sb block ≤ k ∧ k < bit_of sb block + c1 then false else sb.b_data b k))
    (s4 : ∀ g, (sb5.gdt g).bg_free_blocks_count =
        u16 ((sb.gdt g).bg_free_blocks_count + used_in_group sb g block c1))
    (s5 : sb5.s_es = sb.s_es) (s6 : gf = used_in_range sb block c1)
    (hR : free_post ino sb5 (block + c1) ov (freed + gf) R) :
    free_post ino sb block (c1 + ov) freed R := by
  subst s6
  have hB := hok.geo.bpg_pos
  have hlater : ∀ x, block + c1 ≤ x → x < block + c1 + ov →
      bitmap_block sb (group_of sb x) ≠ bitmap_block sb (group_of sb block) := by
    intro x hx1 hx2 heq
    have h1 := group_of_next sb block c1 x hB hlo hc1 hx1
    have h2 := group_of_lt_groups sb hok.geo x (by omega) (by omega)
    have h3 := hok.distinct _ _ h2 (by omega) heq
    omega
  have hbit : ∀ x, block + c1 ≤ x → x < block + c1 + ov → block_bit sb5 x = block_bit sb x := by
    intro x hx1 hx2
    rw [block_bit_eq sb sb5 s2 x, s3]
    dsimp only
    rw [if_neg (fun h => hlater x hx1 hx2 h.1)]
    rfl
  have hrange : used_in_range sb5 (block + c1) ov = used_in_range sb (block + c1) ov := by
    unfold used_in_range
    exact count_used_congr _ _ _ _ _ _ (fun x h1 h2 => ⟨rfl, hbit x h1 h2⟩)
  have hgroup : ∀ g, used_in_group sb5 g (block + c1) ov = used_in_group sb g (block + c1) ov := by
    intro g
    unfold used_in_group
    apply count_used_congr
    intro x h1 h2
    refine ⟨?_, hbit x h1 h2⟩
    simp only [group_of_layout s2]
  have hsplit_r : used_in_range sb block (c1 + ov) =
      used_in_range sb block c1 + used_in_range sb (block + c1) ov := by
    unfold used_in_range; exact count_used_split _ _ _ _ _
  have hsplit_g : ∀ g, used_in_group sb g block (c1 + ov) =
      used_in_group sb g block c1 + used_in_group sb g (block + c1) ov := by
    intro g; unfold used_in_group; exact count_used_split _ _ _ _ _
  have hlay := same_layout_trans s2 hR.layout
  constructor
  · exact hR.not_panicked
  · exact hlay
  · exact hR.ok
  · intro b hb1 hb2
    by_cases hb : b < block + c1
    · rw [block_bit_eq sb _ hlay b]
      have := group_bit_of_add sb block (b - block) hB hlo (by omega)
      rw [Nat.add_sub_cancel' hb1] at this
      rw [this.1, this.2]
      rw [hR.others]
      · rw [s3]; dsimp only
        rw [if_pos ⟨rfl, by omega, by omega⟩]
      · intro x hx1 hx2 hcon
        rw [bitmap_block_layout s2, group_of_layout s2] at hcon
        exact hlater x hx1 (by omega) hcon.1.symm
    · exact hR.cleared b (by omega) (by omega)
  · intro blk n hcov
    rw [hR.others]
    · rw [s3]; dsimp only
      rw [if_neg]
      rintro ⟨h1, h2, h3⟩
      have := group_bit_of_add sb block (n - bit_of sb block) hB hlo (by omega)
      apply hcov (block + (n - bit_of sb block)) (by omega) (by omega)
      rw [this.1, this.2]
      exact ⟨h1, by omega⟩
    · intro x hx1 hx2
      rw [bitmap_block_layout s2, group_of_layout s2, bit_of_layout s2]
      exact hcov x (by omega) (by omega)
  · intro g
    rw [hR.group_counts g, s4 g, hgroup g, hsplit_g g, u16_add_u16]
  · rw [hR.free_count, s5, hrange, hsplit_r, Nat.add_assoc freed]
  · rw [hR.quota, hrange, hsplit_r, Nat.add_assoc freed]

set_option maxRecDepth 100000

/-- The loop of `ext2_free_blocks`, entered on a file system in working order
for a non-empty range inside the data zone, ends as `free_post` says. -/
theorem free_do_more_post (ino : inode) (fuel : Nat) :
    ∀ (sb : super_block) (block count freed : Nat), fs_ok sb → count < fuel → 0 < count →
      sb.s_es.s_first_data_block ≤ block → block + count ≤ sb.s_es.s_blocks_count →
      freed + count < 2 ^ 32 →
      free_post ino sb block count freed (free_do_more ino fuel sb block count freed) := by
  induction fuel with
  | zero => intro sb block count freed _ h; exact absurd h (by omega)
  | succ fuel ih =>
    intro sb block count freed hok hfuel hcnt hlo hhi hfreed
    have hB := hok.geo.bpg_pos
    have hbit : bit_of sb block < sb.s_blocks_per_group := Nat.mod_lt _ hB
    rw [free_do_more_step ino fuel sb block count freed hok hcnt hlo hhi]
    by_cases hov : bit_of sb block + count - sb.s_blocks_per_group ≠ 0
    · rw [if_pos hov]
      have hc1 : bit_of sb block + (count - (bit_of sb block + count - sb.s_blocks_per_group)) =
          sb.s_blocks_per_group := by omega
      obtain ⟨s1, s2, s3, s4, s5, s6, s7⟩ := free_group_step_spec sb block
        (count - (bit_of sb block + count - sb.s_blocks_per_group)) hok hlo (by omega) (by omega)
      rw [s6, u32_of_lt _ (by omega)]
      have hR := ih _ (block + (count - (bit_of sb block + count - sb.s_blocks_per_group)))
        (bit_of sb block + count - sb.s_blocks_per_group)
        (freed + used_in_range sb block (count - (bit_of sb block + count - sb.s_blocks_per_group)))
        s1 (by omega) (by omega) (by rw [s5]; omega) (by rw [s5]; omega) (by omega)
      have hcomp := free_post_compose ino sb _ block
        (count - (bit_of sb block + count - sb.s_blocks_per_group))
        (bit_of sb block + count - sb.s_blocks_per_group) freed _ _ hok hlo (by omega) hc1
        s2 s3 s4 s5 rfl hR
      have e : count - (bit_of sb block + count - sb.s_blocks_per_group) +
          (bit_of sb block + count - sb.s_blocks_per_group) = count := by omega
      rw [e] at hcomp
      exact hcomp
    · rw [if_neg hov]
      have e : count - (bit_of sb block + count - sb.s_blocks_per_group) = count := by omega
      rw [e]
      obtain ⟨s1, s2, s3, s4, s5, s6, s7⟩ := free_group_step_spec sb block count hok hlo
        (by omega) (by omega)
      rw [s6, u32_of_lt _ (by omega)]
      exact free_post_of_group ino sb _ block count freed _ hok hlo (by omega) s1 s2 s3 s4 s5 rfl

/-- What `ext2_free_blocks` does on a file system in working order for a
non-empty range inside the data zone. -/
theorem ext2_free_blocks_post (ino : inode) (block count : Nat) (hok : fs_ok ino.i_sb)
    (hcnt : 0 < count) (hlo : ino.i_sb.s_es.s_first_data_block ≤ block)
    (hhi : block + count ≤ ino.i_sb.s_es.s_blocks_count) :
    free_post ino ino.i_sb block count 0 (ext2_free_blocks ino block count) := by
  have hbc := hok.fit.s_blocks_count
  unfold ext2_free_blocks
  simp only
  rw [if_neg]
  · exact free_do_more_post ino (count + 1) ino.i_sb block count 0 hok (by omega) hcnt hlo hhi
      (by omega)
  · rw [ulong_of_lt _ (by unfold BITS_PER_LONG; omega)]
    omega

set_option maxRecDepth 100000

theorem used_in_group_sum (sb : super_block) (n block gc : Nat)
    (h : ∀ b, block ≤ b → b < block + n → group_of sb b < gc) :
    ∑ g in Finset.range gc, used_in_group sb g block n = used_in_range sb block n := by
  induction n generalizing block with
  | zero => simp [used_in_group, used_in_range, count_used]
  | succ n ih =>
    have hrec := ih (block + 1) (fun b h1 h2 => h b (by omega) (by omega))
    unfold used_in_group used_in_range at *
    simp only [count_used]
    rw [Finset.sum_add_distrib, hrec]
    congr 1
    have hg := h block (le_refl _) (by omega)
    by_cases hb : block_bit sb block = true
    · simp only [hb, and_true, decide_eq_true_eq, true_and]
      rw [Finset.sum_ite_eq]
      simp [hg]
    · simp [hb]

theorem range_in_group_eq_used (sb : super_block) (g n block : Nat)
    (h : ∀ b, block ≤ b → b < block + n → block_bit sb b = true) :
    used_in_group sb g block n = range_in_group sb g block n := by
  induction n generalizing block with
  | zero => rfl
  | succ n ih =>
    unfold used_in_group at *
    simp only [count_used, range_in_group]
    rw [ih (block + 1) (fun b h1 h2 => h b (by omega) (by omega))]
    rw [h block (le_refl _) (by omega)]
    simp

theorem used_in_range_all (sb : super_block) (n block : Nat)
    (h : ∀ b, block ≤ b → b < block + n → block_bit sb b = true) :
    used_in_range sb block n = n := by
  induction n generalizing block with
  | zero => rfl
  | succ n ih =>
    unfold used_in_range at *
    simp only [count_used]
    rw [ih (block + 1) (fun b h1 h2 => h b (by omega) (by omega))]
    rw [h block (le_refl _) (by omega)]
    simp; omega

theorem range_in_group_zero (sb : super_block) (g n block : Nat)
    (h : ∀ b, block ≤ b → b < block + n → group_of sb b ≠ g) :
    range_in_group sb g block n = 0 := by
  induction n generalizing block with
  | zero => rfl
  | succ n ih =>
    simp only [range_in_group]
    rw [ih (block + 1) (fun b h1 h2 => h b (by omega) (by omega))]
    rw [if_neg (h block (le_refl _) (by omega))]

/-- C8: `ext2_free_blocks` counts the bits it has cleared and goes on after a
warning.  On a file system in working order (all bitmaps load), for every
non-empty range inside the data zone, whether or not some of its bits are
clear already and whether or not it overlaps a system zone, the call returns,
every bit of the range is clear afterwards, and, with `N` the number of bits
of the range that were set before the call: the free block count of the super
block has gone up by `N`, each group count has gone up by the number of those
bits in the group, these numbers adding up to `N`, and `N` blocks were
released from quota (the counters being 32-bit and 16-bit quantities). -/
theorem ext2_free_blocks_counts_cleared_bits (ino : inode) (block count : Nat)
    (hok : fs_ok ino.i_sb) (hcnt : 0 < count)
    (hlo : ino.i_sb.s_es.s_first_data_block ≤ block)
    (hhi : block + count ≤ ino.i_sb.s_es.s_blocks_count) :
    (ext2_free_blocks ino block count).panicked = false ∧
    (∀ b, block ≤ b → b < block + count →
      block_bit (ext2_free_blocks ino block count).ino.i_sb b = false) ∧
    (ext2_free_blocks ino block count).ino.i_sb.s_es.s_free_blocks_count =
      u32 (ino.i_sb.s_es.s_free_blocks_count + used_in_range ino.i_sb block count) ∧
    (∀ g, ((ext2_free_blocks ino block count).ino.i_sb.gdt g).bg_free_blocks_count =
      u16 ((ino.i_sb.gdt g).bg_free_blocks_count + used_in_group ino.i_sb g block count)) ∧
    ∑ g in Finset.range ino.i_sb.s_groups_count, used_in_group ino.i_sb g block count =
      used_in_range ino.i_sb block count ∧
    (ext2_free_blocks ino block count).ino.i_dquot.released =
      ino.i_dquot.released + used_in_range ino.i_sb block count ∧
    (ext2_free_blocks ino block count).ino.i_dquot.reserved = ino.i_dquot.reserved := by
  have hp := ext2_free_blocks_post ino block count hok hcnt hlo hhi
  refine ⟨hp.not_panicked, hp.cleared, ?_, hp.group_counts, ?_, ?_, ?_⟩
  · rw [hp.free_count, Nat.zero_add]
  · apply used_in_group_sum
    intro b h1 h2
    exact group_of_lt_groups _ hok.geo b (by omega) (by omega)
  · rw [hp.quota, Nat.zero_add]
  · rw [hp.quota]

/-- C7: freeing across group boundaries.  On a file system in working order,
for every non-empty range inside the data zone whose blocks are all
allocated, `ext2_free_blocks` clears every bit of the range, raises the free
count of every group by the number of blocks of the range that lie in the
group, leaves the count of a group without a block of the range as it was,
and raises the free block count of the super block by `count`. -/
theorem ext2_free_blocks_across_groups (ino : inode) (block count : Nat)
    (hok : fs_ok ino.i_sb) (hcnt : 0 < count)
    (hlo : ino.i_sb.s_es.s_first_data_block ≤ block)
    (hhi : block + count ≤ ino.i_sb.s_es.s_blocks_count)
    (hused : ∀ b, block ≤ b → b < block + count → block_bit ino.i_sb b = true) :
    (ext2_free_blocks ino block count).panicked = false ∧
    (∀ b, block ≤ b → b < block + count →
      block_bit (ext2_free_blocks ino block count).ino.i_sb b = false) ∧
    (∀ g, ((ext2_free_blocks ino block count).ino.i_sb.gdt g).bg_free_blocks_count =
      u16 ((ino.i_sb.gdt g).bg_free_blocks_count + range_in_group ino.i_sb g block count)) ∧
    (∀ g, (∀ b, block ≤ b → b < block + count → group_of ino.i_sb b ≠ g) →
      ((ext2_free_blocks ino block count).ino.i_sb.gdt g).bg_free_blocks_count =
        (ino.i_sb.gdt g).bg_free_blocks_count) ∧
    (ext2_free_blocks ino block count).ino.i_sb.s_es.s_free_blocks_count =
      u32 (ino.i_sb.s_es.s_free_blocks_count + count) := by
  have hp := ext2_free_blocks_post ino block count hok hcnt hlo hhi
  refine ⟨hp.not_panicked, hp.cleared, ?_, ?_, ?_⟩
  · intro g
    rw [hp.group_counts g, range_in_group_eq_used _ _ _ _ hused]
  · intro g hg
    rw [hp.group_counts g, range_in_group_eq_used _ _ _ _ hused, range_in_group_zero _ _ _ _ hg,
      Nat.add_zero]
    unfold u16
    exact Nat.mod_eq_of_lt (hok.fit.bg_free_blocks_count g)
  · rw [hp.free_count, Nat.zero_add, used_in_range_all _ _ _ hused]

theorem fs_ok_two_groups : fs_ok sb_two_groups := by
  refine ⟨fields_fit_two_groups, geometry_ok_two_groups, ?_, ?_, ?_⟩
  · constructor
    · intro slot b h; simp [sb_two_groups] at h
    · intro _ slot b _ h; simp [sb_two_groups] at h
  · intro g hg
    have hg' : g < 2 := hg
    interval_cases g <;> decide
  · intro g h hg hh
    have hg' : g < 2 := hg
    have hh' : h < 2 := hh
    interval_cases g <;> interval_cases h <;> decide

theorem ext2_free_blocks_across_groups_witness :
    ((ext2_free_blocks ino_two_groups 8192 3).ino.i_sb.gdt 0).bg_free_blocks_count = 2 ∧
    ((ext2_free_blocks ino_two_groups 8192 3).ino.i_sb.gdt 1).bg_free_blocks_count = 2 ∧
    (ext2_free_blocks ino_two_groups 8192 3).ino.i_sb.s_es.s_free_blocks_count = 4 ∧
    (∀ b, 8192 ≤ b → b < 8192 + 3 →
      block_bit (ext2_free_blocks ino_two_groups 8192 3).ino.i_sb b = false) :=
  have h := ext2_free_blocks_across_groups ino_two_groups 8192 3 fs_ok_two_groups (by decide)
    (by decide) (by decide)
    (by intro b h1 h2; interval_cases b <;> decide)
  ⟨(h.2.2.1 0).trans (by decide), (h.2.2.1 1).trans (by decide), h.2.2.2.2.trans (by decide), h.2.1⟩

theorem ext2_free_blocks_counts_cleared_bits_witness :
    (ext2_free_blocks ino_two_groups 4999 4).panicked = false ∧
    ((ext2_free_blocks ino_two_groups 4999 4).ino.i_sb.gdt 0).bg_free_blocks_count = 4 ∧
    (ext2_free_blocks ino_two_groups 4999 4).ino.i_sb.s_es.s_free_blocks_count = 4 ∧
    (ext2_free_blocks ino_two_groups 4999 4).ino.i_dquot.released = 3 :=
  have h := ext2_free_blocks_counts_cleared_bits ino_two_groups 4999 4 fs_ok_two_groups (by decide)
    (by decide) (by decide)
  ⟨h.1, (h.2.2.2.1 0).trans (by decide), h.2.2.1.trans (by decide), h.2.2.2.2.2.1.trans (by decide)⟩

set_option maxRecDepth 4000

theorem quota_accepts_of_no_limit (dq : dquot) (h : dq.limit = none) : quota_accepts dq := by
  unfold quota_accepts; rw [h]; trivial

/-- The label `got_block` when quota accepts and the chosen bit is set
already: the warning is logged, the quota released and `goto repeat` taken. -/
theorem new_block_got_block_again (ino : inode) (sb : super_block) (goal i gdp bh j : Nat)
    (hq : quota_accepts ino.i_dquot) (hbit : sb.b_data bh j = true) :
    new_block_got_block ino sb goal i gdp bh j =
      .again (DQUOT_FREE_BLOCK
        { i_sb := ext2_error (write_bit (new_block_check_zone sb gdp
              (u32 (j + i * sb.s_blocks_per_group + sb.s_es.s_first_data_block))) bh j true)
            (.bit_already_set j),
          i_dquot := { ino.i_dquot with reserved := ino.i_dquot.reserved + 1 } } 1) goal := by
  unfold new_block_got_block
  rw [DQUOT_ALLOC_BLOCK_accepts { ino with i_sb := sb } hq]
  simp only [ext2_set_bit, new_block_check_zone_b_data, hbit]
  rw [if_pos trivial]

theorem new_block_check_zone_same_disk (sb : super_block) (gdp tmp : Nat) :
    same_disk sb (new_block_check_zone sb gdp tmp) ∧
    (new_block_check_zone sb gdp tmp).s_block_bitmap = sb.s_block_bitmap ∧
    (new_block_check_zone sb gdp tmp).s_block_bitmap_number = sb.s_block_bitmap_number ∧
    (new_block_check_zone sb gdp tmp).s_loaded_block_bitmaps = sb.s_loaded_block_bitmaps := by
  unfold new_block_check_zone
  split
  · exact ⟨same_disk_ext2_error _ _, rfl, rfl, rfl⟩
  · exact ⟨same_disk_refl _, rfl, rfl, rfl⟩

/-- Writing to a bit the value it has leaves the file system as it is. -/
theorem write_bit_same (sb : super_block) (bh nr : Nat) (v : Bool) (h : sb.b_data bh nr = v) :
    same_disk sb (write_bit sb bh nr v) := by
  constructor
  any_goals rfl
  funext b n
  simp only [write_bit]
  split
  · rename_i hc; rw [hc.1, hc.2, h]
  · rfl

/-- The pass of `ext2_new_block` when the group of the goal has a stored free
count of 0: the other groups are searched. -/
theorem new_block_pass_group_full (ino : inode) (sb : super_block) (goal : Nat)
    (hgrp : group_of sb (norm_goal sb goal) < sb.s_groups_count)
    (hdesc : sb.s_group_desc (group_of sb (norm_goal sb goal) / sb.s_desc_per_block) = true)
    (hfull : (sb.gdt (group_of sb (norm_goal sb goal))).bg_free_blocks_count = 0) :
    new_block_pass ino sb goal =
      new_block_other_groups ino sb (norm_goal sb goal) (group_of sb (norm_goal sb goal)) := by
  unfold new_block_pass
  have hget := get_group_desc_some sb (group_of sb (norm_goal sb goal)) hgrp hdesc
  unfold group_of at hget hfull ⊢
  unfold norm_goal at hget hfull ⊢
  simp only
  rw [hget]
  simp only [hfull, Nat.lt_irrefl, if_false]

/-- The search of the other groups when it finds group `i1` and the bitmap of
that group loads. -/
theorem new_block_other_groups_found (ino : inode) (sb : super_block) (goal i i1 gdp bh : Nat)
    (hs : search_groups sb.s_groups_count sb i = (sb, .found i1 gdp))
    (hl : (load_block_bitmap sb i1).2 = .bh bh) :
    new_block_other_groups ino sb goal i =
      if memscan ((load_block_bitmap sb i1).1.b_data bh) 0
          ((load_block_bitmap sb i1).1.s_blocks_per_group / 8) * 8 <
          (load_block_bitmap sb i1).1.s_blocks_per_group then
        new_block_search_back ino (load_block_bitmap sb i1).1 goal i1 gdp bh
          (memscan ((load_block_bitmap sb i1).1.b_data bh) 0
            ((load_block_bitmap sb i1).1.s_blocks_per_group / 8) * 8)
      else if (load_block_bitmap sb i1).1.s_blocks_per_group ≤
          ext2_find_first_zero_bit ((load_block_bitmap sb i1).1.b_data bh)
            (load_block_bitmap sb i1).1.s_blocks_per_group then
        new_block_out ino (ext2_error (load_block_bitmap sb i1).1 (.free_count_corrupted i1))
          (- ENOSPC)
      else
        new_block_search_back ino (load_block_bitmap sb i1).1 goal i1 gdp bh
          (ext2_find_first_zero_bit ((load_block_bitmap sb i1).1.b_data bh)
            (load_block_bitmap sb i1).1.s_blocks_per_group) := by
  unfold new_block_other_groups
  rw [hs]
  dsimp only
  have hl' : load_block_bitmap sb i1 = ((load_block_bitmap sb i1).1, .bh bh) := by rw [← hl]
  rw [hl']

theorem sb_odd_scan :
    memscan (sb_odd.b_data 103) 0 (100 / 8) * 8 = 96 ∧ search_back (sb_odd.b_data 103) 7 96 = 96 ∧
    sb_odd.b_data 103 96 = true := by
  decide

theorem sb_odd_io (g : Nat) (hg : g < 2) :
    sb_odd.s_group_desc (g / 32) = true ∧ sb_odd.bread_ok (sb_odd.gdt g).bg_block_bitmap = true := by
  interval_cases g <;> decide

/-- One pass of `ext2_new_block` on a state of `stuck_odd` ends in `goto
repeat`, in a state of `stuck_odd` again. -/
theorem new_block_pass_stuck (ino : inode) (h : stuck_odd ino) :
    ∃ ino', new_block_pass ino ino.i_sb 1 = .again ino' 1 ∧ stuck_odd ino' := by
  obtain ⟨hsd, hc, hlim⟩ := h
  have hfdb : ino.i_sb.s_es.s_first_data_block = 1 := by rw [hsd.s_es]; rfl
  have hbc : ino.i_sb.s_es.s_blocks_count = 201 := by rw [hsd.s_es]; rfl
  have hbpg : ino.i_sb.s_blocks_per_group = 100 := by rw [hsd.s_blocks_per_group]; rfl
  have hgc : ino.i_sb.s_groups_count = 2 := by rw [hsd.s_groups_count]; rfl
  have hdpb : ino.i_sb.s_desc_per_block = 32 := by rw [hsd.s_desc_per_block]; rfl
  have hc0 : (ino.i_sb.gdt 0).bg_free_blocks_count = 0 := by rw [hsd.gdt]; rfl
  have hc1 : (ino.i_sb.gdt 1).bg_free_blocks_count = 1 := by rw [hsd.gdt]; rfl
  have hio : io_ok ino.i_sb := by
    intro g hg
    rw [hgc] at hg
    unfold bitmap_block
    rw [hsd.s_group_desc, hdpb, hsd.bread_ok, hsd.gdt]
    exact sb_odd_io g hg
  have hget0 : ext2_get_group_desc ino.i_sb 0 = (ino.i_sb, some 0) :=
    get_group_desc_some _ _ (by rw [hgc]; decide) (hio 0 (by rw [hgc]; decide)).1
  have hget1 : ext2_get_group_desc ino.i_sb 1 = (ino.i_sb, some 1) :=
    get_group_desc_some _ _ (by rw [hgc]; decide) (hio 1 (by rw [hgc]; decide)).1
  obtain ⟨lsd, lc, _, lok⟩ := load_block_bitmap_spec ino.i_sb 1 hc
  have hload : load_block_bitmap ino.i_sb 1 = ((load_block_bitmap ino.i_sb 1).1, .bh 103) := by
    have := lok hio (by rw [hgc]; decide)
    have hb : bitmap_block ino.i_sb 1 = 103 := by unfold bitmap_block; rw [hsd.gdt]; rfl
    rw [hb] at this
    rw [← this]
  have hsd2 := same_disk_trans hsd lsd
  have hsearch : search_groups ino.i_sb.s_groups_count ino.i_sb 0 = (ino.i_sb, .found 1 1) := by
    rw [hgc]
    simp only [search_groups, hgc]
    rw [if_neg (by omega)]
    simp only [hget1, hc1]
    rw [if_pos (by omega)]
  have hng : norm_goal ino.i_sb 1 = 1 := by
    unfold norm_goal; rw [hfdb, hbc]; rfl
  have hgo : group_of ino.i_sb 1 = 0 := by
    unfold group_of; rw [hfdb, hbpg]
  have hpass : new_block_pass ino ino.i_sb 1 =
      new_block_got_block ino (load_block_bitmap ino.i_sb 1).1 1 1 1 103 96 := by
    rw [new_block_pass_group_full ino ino.i_sb 1 (by rw [hng, hgo, hgc]; decide)
      (by rw [hng, hgo]; exact (hio 0 (by rw [hgc]; decide)).1) (by rw [hng, hgo]; exact hc0)]
    rw [hng, hgo, new_block_other_groups_found ino ino.i_sb 1 0 1 1 103 hsearch
      (by rw [hload])]
    rw [lsd.s_blocks_per_group, hbpg, hsd2.b_data, sb_odd_scan.1]
    rw [if_pos (by omega)]
    unfold new_block_search_back
    rw [hsd2.b_data, sb_odd_scan.2.1]
  have hagain := new_block_got_block_again ino (load_block_bitmap ino.i_sb 1).1 1 1 1 103 96
    (quota_accepts_of_no_limit _ hlim) (by rw [hsd2.b_data]; exact sb_odd_scan.2.2)
  refine ⟨_, hpass.trans hagain, ?_⟩
  obtain ⟨z1, z2, z3, _⟩ := new_block_check_zone_same_disk (load_block_bitmap ino.i_sb 1).1 1
    (u32 (96 + 1 * (load_block_bitmap ino.i_sb 1).1.s_blocks_per_group +
      (load_block_bitmap ino.i_sb 1).1.s_es.s_first_data_block))
  have hw := write_bit_same (new_block_check_zone (load_block_bitmap ino.i_sb 1).1 1
    (u32 (96 + 1 * (load_block_bitmap ino.i_sb 1).1.s_blocks_per_group +
      (load_block_bitmap ino.i_sb 1).1.s_es.s_first_data_block))) 103 96 true
    (by rw [z1.b_data, hsd2.b_data]; exact sb_odd_scan.2.2)
  have hsd3 := same_disk_trans (same_disk_trans lsd z1)
    (same_disk_trans hw (same_disk_ext2_error _ (.bit_already_set 96)))
  refine ⟨same_disk_trans hsd hsd3, ?_, hlim⟩
  exact cache_ok_of_same lc (same_disk_trans (same_disk_trans z1 hw) (same_disk_ext2_error _ _))
    z2 z3

theorem new_block_repeat_stuck (fuel : Nat) :
    ∀ ino, stuck_odd ino → new_block_repeat fuel ino 1 = none := by
  induction fuel with
  | zero => intro ino _; rfl
  | succ n ih =>
    intro ino h
    obtain ⟨ino', hp, hs⟩ := new_block_pass_stuck ino h
    simp only [new_block_repeat, hp]
    exact ih ino' hs

set_option maxRecDepth 100000

theorem fs_ok_window : fs_ok sb_window := by
  refine ⟨?_, ?_, ?_, ?_, ?_⟩
  · constructor
    any_goals decide
    all_goals (intro g; simp only [sb_window]; split <;> decide)
  · constructor <;> decide
  · constructor
    · intro slot b h; simp [sb_window] at h
    · intro _ slot b _ h; simp [sb_window] at h
  · intro g hg
    have hg' : g < 2 := hg
    interval_cases g <;> decide
  · intro g h hg hh
    have hg' : g < 2 := hg
    have hh' : h < 2 := hh
    interval_cases g <;> interval_cases h <;> decide

/-- C1, at a failing input.  On `sb_window` (96 blocks per group) the bit of
goal 71 (bit 70 of group 0) and the bits 71 to 95 are in use and bit 96 of the
bitmap of group 0 is clear.  The near-goal window, which ends at bit 128,
finds bit 96: `ext2_new_block` sets that bit and returns block 97 with
`*err = 0`.  Block 97 is block 0 of group 1; its bit was set before the call,
and the bit of the free block 51 of group 0 is still clear although the free
count of group 0 has dropped to 0. -/
theorem ext2_new_block_window_leaves_group :
    (ext2_new_block 1 task_root ino_window 71).map (fun r => (r.ret, r.err, r.panicked)) =
      some (97, 0, false) ∧
    group_of sb_window 97 = 1 ∧ bit_of sb_window 97 = 0 ∧ block_bit sb_window 97 = true ∧
    sb_window.b_data 3 96 = false ∧
    (ext2_new_block 1 task_root ino_window 71).map (fun r =>
        (r.ino.i_sb.b_data 3 96, block_bit r.ino.i_sb 51,
         (r.ino.i_sb.gdt 0).bg_free_blocks_count, (r.ino.i_sb.gdt 1).bg_free_blocks_count)) =
      some (true, false, 0, 0) := by
  decide

/-- C2, at a failing input.  On `sb_window`, `ext2_new_block` with goal 71
returns block 97, having set bit 96 of the bitmap of group 0; the following
`ext2_free_blocks(97, 1)` clears bit 0 of group 1, which was set before the
allocation, and leaves bit 96 of the bitmap of group 0, which was clear, set;
the free count of group 0 stays at 0 (it was 1) and that of group 1 becomes 1
(it was 0).  Only the free block count of the super block is back at 1. -/
theorem ext2_free_after_new_block_not_restored :
    (ext2_new_block 1 task_root ino_window 71).map (fun r =>
        ((ext2_free_blocks r.ino r.ret 1).panicked,
         (ext2_free_blocks r.ino r.ret 1).ino.i_sb.b_data 3 96,
         (ext2_free_blocks r.ino r.ret 1).ino.i_sb.b_data 99 0,
         ((ext2_free_blocks r.ino r.ret 1).ino.i_sb.gdt 0).bg_free_blocks_count,
         ((ext2_free_blocks r.ino r.ret 1).ino.i_sb.gdt 1).bg_free_blocks_count,
         (ext2_free_blocks r.ino r.ret 1).ino.i_sb.s_es.s_free_blocks_count)) =
      some (false, true, false, 0, 1, 1) ∧
    (sb_window.b_data 3 96, sb_window.b_data 99 0, (sb_window.gdt 0).bg_free_blocks_count,
      (sb_window.gdt 1).bg_free_blocks_count, sb_window.s_es.s_free_blocks_count) =
      (false, true, 1, 0, 1) := by
  decide

theorem stuck_odd_initial : stuck_odd ino_odd := by
  refine ⟨same_disk_refl _, ?_, rfl⟩
  constructor
  · intro slot b h; simp [ino_odd, sb_odd] at h
  · intro _ slot b _ h; simp [ino_odd, sb_odd] at h

/-- C5, at a failing input.  On `sb_odd` (100 blocks per group) the free block
count equals the reserved block count, the caller has `CAP_SYS_RESOURCE`, the
stored free counts are those of the bitmaps, block 106 is free, every bitmap
can be read and there is no quota limit.  With goal 1 `ext2_new_block` never
returns: whatever the number of passes allowed, the `goto repeat` loop is
still running. -/
theorem ext2_new_block_odd_never_returns :
    sb_odd.s_es.s_free_blocks_count = sb_odd.s_es.s_r_blocks_count ∧
    task_root.cap_sys_resource = true ∧ block_bit sb_odd 106 = false ∧
    (sb_odd.gdt 0).bg_free_blocks_count + count_set (sb_odd.b_data 3) 0 100 = 100 ∧
    (sb_odd.gdt 1).bg_free_blocks_count + count_set (sb_odd.b_data 103) 0 100 = 100 ∧
    ∀ fuel, ext2_new_block fuel task_root ino_odd 1 = none := by
  refine ⟨by decide, by decide, by decide, by decide, by decide, ?_⟩
  intro fuel
  unfold ext2_new_block
  simp only
  rw [if_neg (by decide)]
  exact new_block_repeat_stuck fuel ino_odd stuck_odd_initial

/-- C10, at a failing input.  On `sb_odd_two_free` (100 blocks per group)
group 0 is full and group 1 has the free bits 5 and 96.  With goal 1 the
search goes to group 1; its first twelve bytes hold no zero byte and its
first zero bit is bit 5, yet `ext2_new_block` claims bit 96 and returns block
197: `memscan` over `100 >> 3` bytes ends at byte 12, and `12 << 3 = 96` is
below 100, so the result is taken for a free byte. -/
theorem ext2_new_block_odd_skips_first_zero_bit :
    memscan (sb_odd_two_free.b_data 103) 0 (100 / 8) = 12 ∧
    ext2_find_first_zero_bit (sb_odd_two_free.b_data 103) 100 = 5 ∧
    (ext2_new_block 1 task_root ino_odd_two_free 1).map (fun r => (r.ret, r.err, r.panicked)) =
      some (197, 0, false) ∧
    (ext2_new_block 1 task_root ino_odd_two_free 1).map (fun r =>
        (r.ino.i_sb.b_data 103 5, r.ino.i_sb.b_data 103 96)) = some (false, true) := by
  decide


theorem search_back_spec (bm : Nat → Bool) (n j : Nat) :
    search_back bm n j ≤ j ∧ j ≤ search_back bm n j + n ∧
    (bm j = false → bm (search_back bm n j) = false) ∧
    (∀ k, search_back bm n j ≤ k → k < j → bm k = false) := by
  induction n generalizing j with
  | zero =>
    simp only [search_back]
    exact ⟨le_refl _, le_refl _, fun h => h, fun k h1 h2 => absurd h2 (by omega)⟩
  | succ n ih =>
    simp only [search_back]
    split
    · rename_i h
      obtain ⟨h1, h2, h3, h4⟩ := ih (j - 1)
      refine ⟨by omega, by omega, fun _ => h3 h.2, ?_⟩
      intro k hk1 hk2
      by_cases hk : k = j - 1
      · rw [hk]; exact h.2
      · exact h4 k hk1 (by omega)
    · exact ⟨le_refl _, by omega, fun h => h, fun k h1 h2 => absurd h2 (by omega)⟩

theorem byte_is_zero_bit (bm : Nat → Bool) (b : Nat) (h : byte_is_zero bm b = true) :
    bm (8 * b) = false := by
  unfold byte_is_zero at h
  cases h0 : bm (8 * b)
  · rfl
  · rw [h0] at h; simp at h

theorem byte_is_zero_bits (bm : Nat → Bool) (b k : Nat) (h : byte_is_zero bm b = true)
    (h1 : 8 * b ≤ k) (h2 : k < 8 * b + 8) : bm k = false := by
  unfold byte_is_zero at h
  simp only [Bool.not_eq_true', Bool.or_eq_false_iff] at h
  obtain ⟨⟨⟨⟨⟨⟨⟨a0, a1⟩, a2⟩, a3⟩, a4⟩, a5⟩, a6⟩, a7⟩ := h
  have : k = 8 * b ∨ k = 8 * b + 1 ∨ k = 8 * b + 2 ∨ k = 8 * b + 3 ∨ k = 8 * b + 4 ∨
      k = 8 * b + 5 ∨ k = 8 * b + 6 ∨ k = 8 * b + 7 := by omega
  rcases this with h | h | h | h | h | h | h | h <;> rw [h] <;> assumption

theorem load_block_bitmap_no_panic (sb : super_block) (g : Nat) (hc : cache_ok sb)
    (hg : g < sb.s_groups_count) : (load_block_bitmap sb g).2 ≠ .panic := by
  unfold load_block_bitmap
  rw [if_neg (by omega)]
  split
  · simp
  · split
    · rename_i hdirect
      split
      · exact (load_read_it_spec sb g g none hc (by simp) (fun _ => rfl)).2.2.2.1
      · rename_i b hb
        rw [if_pos (hc.2 hdirect g b hg hb)]
        simp
    · rename_i hlru
      dsimp only
      obtain ⟨hl1, hl2, hl3⟩ := lookup_slot_spec sb.s_block_bitmap_number g
        sb.s_loaded_block_bitmaps 0
      split
      · rename_i hi
        have hbh : ∀ b, sb.s_block_bitmap
            (lookup_slot sb.s_block_bitmap_number g sb.s_loaded_block_bitmaps 0) = some b →
            b = bitmap_block sb g := by
          intro b hb
          rw [hc.1 _ b hb, hl3 (by omega)]
        exact (load_read_it_spec _ g 0 _
          (cache_ok_shift sb hc (lookup_slot sb.s_block_bitmap_number g sb.s_loaded_block_bitmaps 0)
            sb.s_loaded_block_bitmaps hlru) hbh (fun h => absurd h hlru)).2.2.2.1
      · split
        · exact (load_read_it_spec _ g 0 none
            (cache_ok_shift sb hc (lookup_slot sb.s_block_bitmap_number g sb.s_loaded_block_bitmaps 0)
              (sb.s_loaded_block_bitmaps + 1) hlru) (by simp) (fun h => absurd h hlru)).2.2.2.1
        · exact (load_read_it_spec _ g 0 none
            (cache_ok_shift sb hc
              (lookup_slot sb.s_block_bitmap_number g sb.s_loaded_block_bitmaps 0 - 1)
              sb.s_loaded_block_bitmaps hlru) (by simp) (fun h => absurd h hlru)).2.2.2.1


theorem end_goal_mono (j b : Nat) (h : j ≤ b) : end_goal j ≤ end_goal b := by
  unfold end_goal; omega

/-- The search in the group of the goal either chooses a clear bit of the
group or hands over to the search of the other groups. -/
theorem new_block_goal_group_cases (ino : inode) (sb : super_block) (goal i gdp bh j : Nat)
    (hj : j < sb.s_blocks_per_group) (hfit : sb.s_blocks_per_group < 2 ^ BITS_PER_LONG)
    (h8 : sb.s_blocks_per_group % 8 = 0)
    (hpad : ∀ n, sb.s_blocks_per_group ≤ n → n < end_goal sb.s_blocks_per_group →
      sb.b_data bh n = true) :
    (∃ j', j' < sb.s_blocks_per_group ∧ sb.b_data bh j' = false ∧
      new_block_goal_group ino sb goal i gdp bh j = new_block_got_block ino sb goal i gdp bh j') ∨
    new_block_goal_group ino sb goal i gdp bh j = new_block_other_groups ino sb goal i := by
  unfold new_block_goal_group ext2_test_bit
  dsimp only
  by_cases hfast : sb.b_data bh j = false
  · left
    exact ⟨j, hj, hfast, by rw [if_pos hfast]⟩
  · rw [if_neg hfast]
    obtain ⟨w1, w2, w3, w4⟩ := find_next_zero_bit_spec (sb.b_data bh) ((j + 63) / 64 * 64) j
    generalize hJ : (if j ≠ 0 then ext2_find_next_zero_bit (sb.b_data bh) ((j + 63) / 64 * 64) j
      else j) = J1
    by_cases hwin : j ≠ 0 ∧ J1 < (j + 63) / 64 * 64
    · rw [if_pos hwin]
      left
      have hJ1 : J1 = ext2_find_next_zero_bit (sb.b_data bh) ((j + 63) / 64 * 64) j := by
        rw [← hJ, if_pos hwin.1]
      have hclear : sb.b_data bh J1 = false := by
        rw [hJ1]; exact w3 (by rw [← hJ1]; exact hwin.2)
      refine ⟨J1, ?_, hclear, rfl⟩
      by_contra hge
      have hp := hpad J1 (by omega) (by
        have := end_goal_mono j sb.s_blocks_per_group (by omega)
        unfold end_goal at this ⊢
        omega)
      rw [hclear] at hp
      exact absurd hp (by simp)
    · rw [if_neg hwin]
      have hJ8 : J1 % 8 = 0 := by
        by_cases hj0 : j = 0
        · rw [← hJ, if_neg (by simpa using hj0), hj0]
        · have hJ1 : J1 = ext2_find_next_zero_bit (sb.b_data bh) ((j + 63) / 64 * 64) j := by
            rw [← hJ, if_pos hj0]
          have : J1 = (j + 63) / 64 * 64 := by
            have := w1
            rw [← hJ1] at this
            have hn : ¬ J1 < (j + 63) / 64 * 64 := fun h => hwin ⟨hj0, h⟩
            omega
          omega
      obtain ⟨m1, m2, m3, m4⟩ := memscan_spec (sb.b_data bh)
        (ulong (ulong_sub sb.s_blocks_per_group J1 + 7) / 8) (J1 / 8)
      by_cases hk : memscan (sb.b_data bh) (J1 / 8)
          (ulong (ulong_sub sb.s_blocks_per_group J1 + 7) / 8) * 8 < sb.s_blocks_per_group
      · rw [if_pos hk]
        left
        have hJle : J1 ≤ sb.s_blocks_per_group := by omega
        have hsize : ulong (ulong_sub sb.s_blocks_per_group J1 + 7) / 8 =
            (sb.s_blocks_per_group - J1 + 7) / 8 := by
          rw [ulong_sub_of_le _ _ hfit hJle, ulong_of_lt _ (by unfold BITS_PER_LONG at *; omega)]
        rw [hsize] at m2 m3 hk ⊢
        have hfound : memscan (sb.b_data bh) (J1 / 8) ((sb.s_blocks_per_group - J1 + 7) / 8) <
            J1 / 8 + (sb.s_blocks_per_group - J1 + 7) / 8 := by omega
        have hz := byte_is_zero_bit _ _ (m3 hfound)
        obtain ⟨s1, s2, s3, s4⟩ := search_back_spec (sb.b_data bh) 7
          (memscan (sb.b_data bh) (J1 / 8) ((sb.s_blocks_per_group - J1 + 7) / 8) * 8)
        refine ⟨search_back (sb.b_data bh) 7
          (memscan (sb.b_data bh) (J1 / 8) ((sb.s_blocks_per_group - J1 + 7) / 8) * 8), by omega,
          ?_, rfl⟩
        apply s3
        rw [Nat.mul_comm]; exact hz
      · rw [if_neg hk]
        obtain ⟨b1, b2, b3, b4⟩ := find_next_zero_bit_spec (sb.b_data bh) sb.s_blocks_per_group J1
        by_cases hb : ext2_find_next_zero_bit (sb.b_data bh) sb.s_blocks_per_group J1 <
            sb.s_blocks_per_group
        · rw [if_pos hb]
          left
          exact ⟨_, hb, b3 hb, rfl⟩
        · rw [if_neg hb]
          right
          rfl


theorem search_groups_spec (n : Nat) (sb : super_block) (i : Nat) :
    same_disk sb (search_groups n sb i).1 ∧
    (search_groups n sb i).1.s_block_bitmap = sb.s_block_bitmap ∧
    (search_groups n sb i).1.s_block_bitmap_number = sb.s_block_bitmap_number ∧
    (∀ i1 gdp, (search_groups n sb i).2 = .found i1 gdp →
      (search_groups n sb i).1 = sb ∧ gdp = i1 ∧ i1 < sb.s_groups_count ∧
      0 < (sb.gdt i1).bg_free_blocks_count ∧
      sb.s_group_desc (i1 / sb.s_desc_per_block) = true) := by
  induction n generalizing i with
  | zero =>
    refine ⟨same_disk_refl _, rfl, rfl, fun i1 gdp h => ?_⟩
    simp [search_groups] at h
  | succ n ih =>
    simp only [search_groups]
    generalize hi1 : (if sb.s_groups_count ≤ i + 1 then 0 else i + 1) = i1
    have hsd := get_group_desc_same_disk sb i1
    have hca := get_group_desc_cache sb i1
    cases hget : ext2_get_group_desc sb i1 with
    | mk sb1 o =>
      rw [hget] at hsd hca
      cases o with
      | none =>
        exact ⟨hsd, hca.1, hca.2.1, fun i1 gdp h => by simp at h⟩
      | some gdp =>
        obtain ⟨e1, e2, e3, e4⟩ := get_group_desc_eq_some hget
        subst e1
        subst e2
        dsimp only
        split
        · rename_i hpos
          refine ⟨same_disk_refl _, rfl, rfl, ?_⟩
          intro i2 gdp2 h
          simp only [group_search.found.injEq] at h
          obtain ⟨h1, h2⟩ := h
          subst h1
          subst h2
          exact ⟨rfl, rfl, e3, hpos, e4⟩
        · exact ih gdp

theorem cache_ok_same_cache {a b : super_block} (hc : cache_ok a) (hsd : same_disk a b)
    (h1 : b.s_block_bitmap = a.s_block_bitmap)
    (h2 : b.s_block_bitmap_number = a.s_block_bitmap_number) : cache_ok b :=
  cache_ok_of_same hc hsd h1 h2

/-- The search of the other groups either fails with the file system as it
was or chooses a clear bit of a group with a stored free count above 0. -/
theorem new_block_other_groups_shape (ino : inode) (sb sb1 : super_block) (goal i : Nat)
    (hsd : same_disk sb sb1) (hc : cache_ok sb1)
    (h8 : sb.s_blocks_per_group % 8 = 0) :
    pass_shape ino sb goal (new_block_other_groups ino sb1 goal i) := by
  unfold new_block_other_groups
  obtain ⟨g1, g2, g3, g4⟩ := search_groups_spec sb1.s_groups_count sb1 i
  cases hs : search_groups sb1.s_groups_count sb1 i with
  | mk sb2 res =>
    rw [hs] at g1 g2 g3 g4
    dsimp only at g1 g2 g3 g4
    have hc2 : cache_ok sb2 := cache_ok_of_same hc g1 g2 g3
    cases res with
    | no_desc =>
      exact pass_shape.failed sb2 (- EIO) (same_disk_trans hsd g1) hc2 (Or.inl rfl)
    | not_found =>
      exact pass_shape.failed sb2 (- ENOSPC) (same_disk_trans hsd g1) hc2 (Or.inr rfl)
    | found i1 gdp =>
      obtain ⟨e1, e2, e3, e4, e5⟩ := g4 i1 gdp rfl
      subst e1
      subst e2
      dsimp only
      obtain ⟨l1, l2, l3, _⟩ := load_block_bitmap_spec sb2 gdp hc
      have lnp := load_block_bitmap_no_panic sb2 gdp hc e3
      have hsd2 := same_disk_trans hsd l1
      cases hl : load_block_bitmap sb2 gdp with
      | mk sb3 lr =>
        rw [hl] at l1 l2 l3 lnp hsd2
        dsimp only at l1 l2 l3 lnp hsd2
        cases lr with
        | panic => exact absurd rfl lnp
        | err_ptr e =>
          exact pass_shape.failed sb3 (- EIO) hsd2 l2 (Or.inl rfl)
        | bh b =>
          have hb : b = bitmap_block sb gdp := by
            rw [l3 b rfl]; exact bitmap_block_same hsd gdp
          subst hb
          dsimp only
          have hi : gdp < sb.s_groups_count := by rw [← hsd.s_groups_count]; exact e3
          have hfree : 0 < (sb.gdt gdp).bg_free_blocks_count := by rw [← hsd.gdt]; exact e4
          rw [hsd2.s_blocks_per_group, hsd2.b_data]
          obtain ⟨m1, m2, m3, m4⟩ := memscan_spec (sb.b_data (bitmap_block sb gdp))
            (sb.s_blocks_per_group / 8) 0
          by_cases hk : memscan (sb.b_data (bitmap_block sb gdp)) 0
              (sb.s_blocks_per_group / 8) * 8 < sb.s_blocks_per_group
          · rw [if_pos hk]
            unfold new_block_search_back
            rw [hsd2.b_data]
            obtain ⟨s1, s2, s3, s4⟩ := search_back_spec (sb.b_data (bitmap_block sb gdp)) 7
              (memscan (sb.b_data (bitmap_block sb gdp)) 0 (sb.s_blocks_per_group / 8) * 8)
            have hz := byte_is_zero_bit _ _ (m3 (by omega))
            exact pass_shape.chosen sb3 gdp _ hsd2 l2 hi (by omega)
              (s3 (by rw [Nat.mul_comm]; exact hz)) hfree
          · rw [if_neg hk]
            obtain ⟨b1, b2, b3, b4⟩ := find_next_zero_bit_spec (sb.b_data (bitmap_block sb gdp))
              sb.s_blocks_per_group 0
            unfold ext2_find_first_zero_bit
            by_cases hz : sb.s_blocks_per_group ≤
                ext2_find_next_zero_bit (sb.b_data (bitmap_block sb gdp)) sb.s_blocks_per_group 0
            · rw [if_pos hz]
              exact pass_shape.failed _ (- ENOSPC)
                (same_disk_trans hsd2 (same_disk_ext2_error _ _))
                (cache_ok_of_same l2 (same_disk_ext2_error _ _) rfl rfl) (Or.inr rfl)
            · rw [if_neg hz]
              unfold new_block_search_back
              rw [hsd2.b_data]
              obtain ⟨s1, s2, s3, s4⟩ := search_back_spec (sb.b_data (bitmap_block sb gdp)) 7
                (ext2_find_next_zero_bit (sb.b_data (bitmap_block sb gdp)) sb.s_blocks_per_group 0)
              exact pass_shape.chosen sb3 gdp _ hsd2 l2 hi (by omega) (s3 (b3 (by omega))) hfree


/-- A pass of `ext2_new_block` on a state with a coherent bitmap cache and
bitmaps laid out as `layout_ok` says ends as `pass_shape` says. -/
theorem new_block_pass_shape (ino : inode) (sb : super_block) (goal : Nat)
    (hc : cache_ok sb) (hB : 0 < sb.s_blocks_per_group)
    (hfit : sb.s_blocks_per_group < 2 ^ BITS_PER_LONG) (hlay : layout_ok sb) :
    pass_shape ino sb (norm_goal sb goal) (new_block_pass ino sb goal) := by
  unfold new_block_pass
  have hn : (if goal < sb.s_es.s_first_data_block ∨ sb.s_es.s_blocks_count ≤ goal
      then sb.s_es.s_first_data_block else goal) = norm_goal sb goal := rfl
  simp only [hn]
  generalize norm_goal sb goal = g
  have hsd := get_group_desc_same_disk sb ((g - sb.s_es.s_first_data_block) / sb.s_blocks_per_group)
  have hca := get_group_desc_cache sb ((g - sb.s_es.s_first_data_block) / sb.s_blocks_per_group)
  cases hget : ext2_get_group_desc sb
      ((g - sb.s_es.s_first_data_block) / sb.s_blocks_per_group) with
  | mk sb1 o =>
    rw [hget] at hsd hca
    cases o with
    | none =>
      exact pass_shape.failed sb1 (- EIO) hsd (cache_ok_of_same hc hsd hca.1 hca.2.1) (Or.inl rfl)
    | some gdp =>
      obtain ⟨e1, e2, e3, e4⟩ := get_group_desc_eq_some hget
      subst e1
      dsimp only
      by_cases hfree : 0 < (sb1.gdt gdp).bg_free_blocks_count
      · rw [if_pos hfree]
        rw [← e2] at e3
        obtain ⟨l1, l2, l3, _⟩ := load_block_bitmap_spec sb1
          ((g - sb1.s_es.s_first_data_block) / sb1.s_blocks_per_group) hc
        have lnp := load_block_bitmap_no_panic sb1
          ((g - sb1.s_es.s_first_data_block) / sb1.s_blocks_per_group) hc (by rw [← e2]; exact e3)
        cases hl : load_block_bitmap sb1
            ((g - sb1.s_es.s_first_data_block) / sb1.s_blocks_per_group) with
        | mk sb3 lr =>
          rw [hl] at l1 l2 l3 lnp
          dsimp only at l1 l2 l3 lnp
          cases lr with
          | panic => exact absurd rfl lnp
          | err_ptr e => exact pass_shape.failed sb3 (- EIO) l1 l2 (Or.inl rfl)
          | bh b =>
            have hb := l3 b rfl
            rw [← e2] at hb
            subst hb
            dsimp only
            have hj : (g - sb1.s_es.s_first_data_block) % sb1.s_blocks_per_group <
                sb3.s_blocks_per_group := by
              rw [l1.s_blocks_per_group]; exact Nat.mod_lt _ hB
            have hcases := new_block_goal_group_cases ino sb3 g
              ((g - sb1.s_es.s_first_data_block) / sb1.s_blocks_per_group) gdp
              (bitmap_block sb1 gdp)
              ((g - sb1.s_es.s_first_data_block) % sb1.s_blocks_per_group) hj
              (by rw [l1.s_blocks_per_group]; exact hfit)
              (by rw [l1.s_blocks_per_group]; exact hlay.bpg_mul8)
              (by
                rw [l1.s_blocks_per_group, l1.b_data]
                exact hlay.padding gdp e3)
            rcases hcases with ⟨j', hj1, hj2, hj3⟩ | hother
            · rw [hj3, ← e2]
              rw [l1.s_blocks_per_group] at hj1
              rw [l1.b_data] at hj2
              exact pass_shape.chosen sb3 gdp j' l1 l2 e3 hj1 hj2 hfree
            · rw [hother]
              exact new_block_other_groups_shape ino sb1 sb3 g _ l1 l2 hlay.bpg_mul8
      · rw [if_neg hfree]
        exact new_block_other_groups_shape ino sb1 sb1 g _ (same_disk_refl _) hc hlay.bpg_mul8


theorem DQUOT_ALLOC_BLOCK_rejects (ino : inode) (h : ¬ quota_accepts ino.i_dquot) :
    DQUOT_ALLOC_BLOCK ino = none := by
  unfold DQUOT_ALLOC_BLOCK
  unfold quota_accepts at h
  split
  · rename_i hl; rw [hl] at h; exact absurd trivial h
  · rename_i l hl
    rw [hl] at h
    simp only at h
    rw [if_neg h]

/-- The label `got_block` reached with a clear bit never takes `goto repeat`:
quota rejects, or the block `tmp` is not below `s_blocks_count` (the bit stays
set and `-ENOSPC` is returned), or the block is allocated. -/
theorem new_block_got_block_cases (ino : inode) (sb : super_block) (goal i gdp bh j tmp : Nat)
    (hbit : sb.b_data bh j = false)
    (htmp : tmp = u32 (j + i * sb.s_blocks_per_group + sb.s_es.s_first_data_block)) :
    (¬ quota_accepts ino.i_dquot ∧
      new_block_got_block ino sb goal i gdp bh j = new_block_out ino sb (- EDQUOT)) ∨
    (quota_accepts ino.i_dquot ∧ sb.s_es.s_blocks_count ≤ tmp ∧
      ∃ r, new_block_got_block ino sb goal i gdp bh j = .done r ∧ r.ret = 0 ∧ r.err = - ENOSPC) ∨
    (quota_accepts ino.i_dquot ∧ tmp < sb.s_es.s_blocks_count ∧
      new_block_got_block ino sb goal i gdp bh j =
        .done { ino := { i_sb := new_block_commit (write_bit (new_block_check_zone sb gdp tmp) bh j true) gdp,
                         i_dquot := { ino.i_dquot with reserved := ino.i_dquot.reserved + 1 } },
                ret := tmp, err := 0, panicked := false }) := by
  subst htmp
  by_cases hq : quota_accepts ino.i_dquot
  · by_cases hlt : u32 (j + i * sb.s_blocks_per_group + sb.s_es.s_first_data_block) <
        sb.s_es.s_blocks_count
    · right; right
      exact ⟨hq, hlt, new_block_got_block_success ino sb goal i gdp bh j hq hbit hlt⟩
    · right; left
      refine ⟨hq, by omega, ?_⟩
      unfold new_block_got_block
      rw [DQUOT_ALLOC_BLOCK_accepts { ino with i_sb := sb } hq]
      simp only [ext2_set_bit, new_block_check_zone_b_data, hbit]
      rw [if_neg (by simp), if_pos (by omega)]
      exact ⟨_, rfl, rfl, rfl⟩
  · left
    refine ⟨hq, ?_⟩
    unfold new_block_got_block
    rw [DQUOT_ALLOC_BLOCK_rejects { ino with i_sb := sb } hq]


theorem write_bit_spec (sb : super_block) (bh nr : Nat) (v : Bool) :
    same_layout sb (write_bit sb bh nr v) ∧ (write_bit sb bh nr v).gdt = sb.gdt ∧
    (write_bit sb bh nr v).s_es = sb.s_es ∧
    (write_bit sb bh nr v).s_block_bitmap = sb.s_block_bitmap ∧
    (write_bit sb bh nr v).s_block_bitmap_number = sb.s_block_bitmap_number := by
  refine ⟨?_, rfl, rfl, rfl, rfl⟩
  constructor <;> intros <;> rfl

theorem new_block_commit_spec (sb : super_block) (gdp : Nat) :
    same_layout sb (new_block_commit sb gdp) ∧
    (new_block_commit sb gdp).b_data = sb.b_data ∧
    (∀ g, ((new_block_commit sb gdp).gdt g).bg_free_blocks_count =
      if g = gdp then u16_sub (sb.gdt g).bg_free_blocks_count 1
      else (sb.gdt g).bg_free_blocks_count) ∧
    (new_block_commit sb gdp).s_es.s_free_blocks_count =
      u32_sub sb.s_es.s_free_blocks_count 1 ∧
    (new_block_commit sb gdp).s_block_bitmap = sb.s_block_bitmap ∧
    (new_block_commit sb gdp).s_block_bitmap_number = sb.s_block_bitmap_number := by
  refine ⟨?_, rfl, ?_, rfl, rfl, rfl⟩
  · constructor
    · rfl
    · rfl
    · rfl
    · rfl
    · rfl
    · rfl
    · rfl
    · rfl
    · rfl
    · intro g; simp only [new_block_commit]; split <;> rfl
    · intro g; simp only [new_block_commit]; split <;> rfl
    · intro g; simp only [new_block_commit]; split <;> rfl
    · rfl
    · rfl
    · rfl
  · intro g
    simp only [new_block_commit]
    split <;> rfl

theorem neg_ENOSPC_ne : (- ENOSPC) ≠ 0 := by decide

theorem neg_EIO_ne : (- EIO) ≠ 0 := by decide

theorem neg_EDQUOT_ne : (- EDQUOT) ≠ 0 := by decide

theorem cache_ok_of_layout {a b : super_block} (hc : cache_ok a) (h : same_layout a b)
    (h1 : b.s_block_bitmap = a.s_block_bitmap)
    (h2 : b.s_block_bitmap_number = a.s_block_bitmap_number) : cache_ok b := by
  unfold cache_ok at *
  rw [h1, h2, h.s_groups_count]
  refine ⟨?_, hc.2⟩
  intro slot b hb
  rw [bitmap_block_layout h]
  exact hc.1 slot b hb

theorem block_nr_fits (sb : super_block) (i j : Nat) (hi : i < sb.s_groups_count)
    (hj : j < sb.s_blocks_per_group)
    (hfit : sb.s_groups_count * sb.s_blocks_per_group + sb.s_es.s_first_data_block ≤ 2 ^ 32) :
    u32 (j + i * sb.s_blocks_per_group + sb.s_es.s_first_data_block) =
      sb.s_es.s_first_data_block + i * sb.s_blocks_per_group + j := by
  have h1 : (i + 1) * sb.s_blocks_per_group ≤ sb.s_groups_count * sb.s_blocks_per_group :=
    Nat.mul_le_mul_right _ hi
  rw [Nat.succ_mul] at h1
  rw [u32_of_lt _ (by omega)]
  omega

/-- A successful `ext2_new_block`, on a state with a coherent bitmap cache and
bitmaps laid out as `layout_ok` says, has done what `alloc_post` says. -/
theorem ext2_new_block_success (fuel : Nat) (current : task_struct) (ino : inode) (goal : Nat)
    (r : new_block_result) (hc : cache_ok ino.i_sb) (hB : 0 < ino.i_sb.s_blocks_per_group)
    (hfit : ino.i_sb.s_blocks_per_group < 2 ^ BITS_PER_LONG) (hlay : layout_ok ino.i_sb)
    (h : ext2_new_block fuel current ino goal = some r) (herr : r.err = 0) :
    ∃ i j, alloc_post ino r i j := by
  unfold ext2_new_block at h
  simp only at h
  split at h
  · simp only [Option.some.injEq] at h
    rw [← h] at herr
    exact absurd herr neg_ENOSPC_ne
  · cases fuel with
    | zero => simp [new_block_repeat] at h
    | succ n =>
      simp only [new_block_repeat] at h
      have shape := new_block_pass_shape ino ino.i_sb goal hc hB hfit hlay
      generalize new_block_pass ino ino.i_sb goal = res at shape h
      cases shape with
      | failed sb1 e hsd hc1 he =>
        simp only [new_block_out, Option.some.injEq] at h
        rw [← h] at herr
        rcases he with he | he
        · subst he; exact absurd herr neg_EIO_ne
        · subst he; exact absurd herr neg_ENOSPC_ne
      | chosen sb1 i j hsd hc1 hi hj hbit hfree =>
        have hbit1 : sb1.b_data (bitmap_block ino.i_sb i) j = false := by
          rw [hsd.b_data]; exact hbit
        have hnr := block_nr_fits ino.i_sb i j hi hj hlay.groups_fit
        rcases new_block_got_block_cases ino sb1 (norm_goal ino.i_sb goal) i i
          (bitmap_block ino.i_sb i) j
          (ino.i_sb.s_es.s_first_data_block + i * ino.i_sb.s_blocks_per_group + j) hbit1
          (by rw [hsd.s_blocks_per_group, hsd.s_es, hnr]) with
          ⟨_, hg⟩ | ⟨_, _, r0, hg, _, hr0⟩ | ⟨hq, hlt, hg⟩
        · rw [hg] at h
          simp only [new_block_out, Option.some.injEq] at h
          rw [← h] at herr
          exact absurd herr neg_EDQUOT_ne
        · rw [hg] at h
          simp only [Option.some.injEq] at h
          rw [← h, hr0] at herr
          exact absurd herr neg_ENOSPC_ne
        · rw [hg] at h
          simp only [Option.some.injEq] at h
          subst h
          obtain ⟨z1, z2, z3, _⟩ := new_block_check_zone_same_disk sb1 i
            (ino.i_sb.s_es.s_first_data_block + i * ino.i_sb.s_blocks_per_group + j)
          obtain ⟨w1, w2, w3, w4, w5⟩ := write_bit_spec (new_block_check_zone sb1 i
            (ino.i_sb.s_es.s_first_data_block + i * ino.i_sb.s_blocks_per_group + j))
            (bitmap_block ino.i_sb i) j true
          obtain ⟨c1, c2, c3, c4, c5, c6⟩ := new_block_commit_spec (write_bit
            (new_block_check_zone sb1 i
              (ino.i_sb.s_es.s_first_data_block + i * ino.i_sb.s_blocks_per_group + j))
            (bitmap_block ino.i_sb i) j true) i
          have hsd1 := same_disk_trans hsd z1
          have hlayout := same_layout_trans (same_layout_of_same_disk hsd1)
            (same_layout_trans w1 c1)
          refine ⟨i, j, ?_⟩
          constructor
          · exact hi
          · exact hj
          · rfl
          · rw [hsd.s_es] at hlt; exact hlt
          · exact hbit
          · exact hfree
          · show (new_block_commit _ i).b_data = _
            rw [c2]
            simp only [write_bit]
            rw [hsd1.b_data]
          · intro g
            show ((new_block_commit _ i).gdt g).bg_free_blocks_count = _
            rw [c3 g, w2, hsd1.gdt]
          · show (new_block_commit _ i).s_es.s_free_blocks_count = _
            rw [c4, w3, hsd1.s_es]
          · exact hlayout
          · apply cache_ok_of_layout hc1 (same_layout_trans (same_layout_of_same_disk z1)
              (same_layout_trans w1 c1))
            · show (new_block_commit _ i).s_block_bitmap = _
              rw [c5, w4, z2]
            · show (new_block_commit _ i).s_block_bitmap_number = _
              rw [c6, w5, z3]
          · rfl
          · rfl


theorem group_bit_of_block (sb : super_block) (i j : Nat) (hj : j < sb.s_blocks_per_group) :
    group_of sb (sb.s_es.s_first_data_block + i * sb.s_blocks_per_group + j) = i ∧
    bit_of sb (sb.s_es.s_first_data_block + i * sb.s_blocks_per_group + j) = j := by
  unfold group_of bit_of
  have e : sb.s_es.s_first_data_block + i * sb.s_blocks_per_group + j - sb.s_es.s_first_data_block
      = j + sb.s_blocks_per_group * i := by
    rw [Nat.mul_comm]; omega
  rw [e]
  constructor
  · rw [Nat.add_mul_div_left _ _ (by omega), Nat.div_eq_of_lt hj]; omega
  · rw [Nat.add_mul_mod_self_left, Nat.mod_eq_of_lt hj]

/-- After a successful `ext2_new_block` the bitmaps are still laid out as
`layout_ok` says. -/
theorem layout_ok_after_alloc (ino : inode) (r : new_block_result) (i j : Nat)
    (hlay : layout_ok ino.i_sb) (hp : alloc_post ino r i j) : layout_ok r.ino.i_sb := by
  constructor
  · rw [hp.layout.s_blocks_per_group]; exact hlay.bpg_mul8
  · intro g hg n h1 h2
    rw [hp.layout.s_groups_count] at hg
    rw [hp.layout.s_blocks_per_group] at h1 h2
    rw [hp.b_data, bitmap_block_layout hp.layout]
    dsimp only
    split
    · rfl
    · exact hlay.padding g hg n h1 h2
  · rw [hp.layout.s_groups_count, hp.layout.s_blocks_per_group, hp.layout.s_first_data_block]
    exact hlay.groups_fit

/-- The first part of C1 where the bitmaps are laid out as `layout_ok` says:
the bit of the block returned by a successful `ext2_new_block` was clear
before the call and is set after it. -/
theorem new_block_bit_clear_then_set (fuel : Nat) (current : task_struct) (ino : inode)
    (goal : Nat) (r : new_block_result) (hc : cache_ok ino.i_sb)
    (hB : 0 < ino.i_sb.s_blocks_per_group)
    (hfit : ino.i_sb.s_blocks_per_group < 2 ^ BITS_PER_LONG) (hlay : layout_ok ino.i_sb)
    (h : ext2_new_block fuel current ino goal = some r) (herr : r.err = 0) :
    block_bit ino.i_sb r.ret = false ∧ block_bit r.ino.i_sb r.ret = true := by
  obtain ⟨i, j, hp⟩ := ext2_new_block_success fuel current ino goal r hc hB hfit hlay h herr
  obtain ⟨hg, hb⟩ := group_bit_of_block ino.i_sb i j hp.bit
  constructor
  · unfold block_bit
    rw [hp.ret, hg, hb]
    exact hp.was_clear
  · rw [block_bit_eq ino.i_sb r.ino.i_sb hp.layout, hp.ret, hg, hb, hp.b_data]
    dsimp only
    rw [if_pos ⟨rfl, rfl⟩]

/-- The second part of C1 where the bitmaps are laid out as `layout_ok` says:
a successful `ext2_new_block` that follows a successful `ext2_new_block`
returns another block. -/
theorem new_block_twice_differ (fuel fuel2 : Nat) (current current2 : task_struct) (ino : inode)
    (goal goal2 : Nat) (r r2 : new_block_result) (hc : cache_ok ino.i_sb)
    (hB : 0 < ino.i_sb.s_blocks_per_group)
    (hfit : ino.i_sb.s_blocks_per_group < 2 ^ BITS_PER_LONG) (hlay : layout_ok ino.i_sb)
    (h : ext2_new_block fuel current ino goal = some r) (herr : r.err = 0)
    (h2 : ext2_new_block fuel2 current2 r.ino goal2 = some r2) (herr2 : r2.err = 0) :
    r2.ret ≠ r.ret := by
  obtain ⟨i, j, hp⟩ := ext2_new_block_success fuel current ino goal r hc hB hfit hlay h herr
  have hset := (new_block_bit_clear_then_set fuel current ino goal r hc hB hfit hlay h herr).2
  have hclear := (new_block_bit_clear_then_set fuel2 current2 r.ino goal2 r2 hp.cache
    (by rw [hp.layout.s_blocks_per_group]; exact hB)
    (by rw [hp.layout.s_blocks_per_group]; exact hfit)
    (layout_ok_after_alloc ino r i j hlay hp) h2 herr2).1
  intro heq
  rw [heq, hset] at hclear
  exact absurd hclear (by simp)


/-- A state with the layout of a state in working order, a coherent bitmap
cache and counters within their types is in working order. -/
theorem fs_ok_of_layout_cache {a b : super_block} (ha : fs_ok a) (h : same_layout a b)
    (hc : cache_ok b) (h3 : b.s_es.s_free_blocks_count < 2 ^ 32)
    (h4 : ∀ g, (b.gdt g).bg_free_blocks_count < 2 ^ 16) : fs_ok b := by
  constructor
  · constructor
    · rw [h.s_blocks_count]; exact ha.fit.s_blocks_count
    · rw [h.s_r_blocks_count]; exact ha.fit.s_r_blocks_count
    · exact h3
    · rw [h.s_first_data_block]; exact ha.fit.s_first_data_block
    · intro g; rw [h.bg_block_bitmap]; exact ha.fit.bg_block_bitmap g
    · intro g; rw [h.bg_inode_bitmap]; exact ha.fit.bg_inode_bitmap g
    · intro g; rw [h.bg_inode_table]; exact ha.fit.bg_inode_table g
    · exact h4
    · rw [h.s_blocks_per_group]; exact ha.fit.s_blocks_per_group
    · rw [h.s_itb_per_group]; exact ha.fit.s_itb_per_group
    · rw [h.s_groups_count]; exact ha.fit.s_groups_count
    · rw [h.s_desc_per_block]; exact ha.fit.s_desc_per_block
  · constructor
    · rw [h.s_blocks_per_group]; exact ha.geo.bpg_pos
    · rw [h.s_blocks_per_group, h.s_blocksize]; exact ha.geo.bpg_le
    · rw [h.s_blocksize]; exact ha.geo.blocksize_le
    · rw [h.s_first_data_block, h.s_blocks_count]; exact ha.geo.first_le
    · rw [h.s_first_data_block, h.s_blocks_count, h.s_groups_count, h.s_blocks_per_group]
      exact ha.geo.groups
  · exact hc
  · have hio := ha.io
    unfold io_ok at *
    rw [h.s_groups_count, h.s_desc_per_block, h.s_group_desc, h.bread_ok]
    intro g hg
    rw [bitmap_block_layout h]
    exact hio g hg
  · have hd := ha.distinct
    unfold bitmaps_distinct at *
    rw [h.s_groups_count]
    intro g g' hg hg'
    rw [bitmap_block_layout h, bitmap_block_layout h]
    exact hd g g' hg hg'

theorem u16_sub_lt (a b : Nat) : u16_sub a b < 2 ^ 16 := by
  unfold u16_sub
  exact Nat.mod_lt _ (by norm_num)

theorem u32_sub_lt (a b : Nat) : u32_sub a b < 2 ^ 32 := by
  unfold u32_sub
  exact Nat.mod_lt _ (by norm_num)

theorem u16_sub_add_one (a : Nat) (h : a < 2 ^ 16) : u16 (u16_sub a 1 + 1) = a := by
  unfold u16 u16_sub
  norm_num at h ⊢
  omega

theorem u32_sub_add_one (a : Nat) (h : a < 2 ^ 32) : u32 (u32_sub a 1 + 1) = a := by
  unfold u32 u32_sub
  norm_num at h ⊢
  omega

/-- After a successful `ext2_new_block` on a file system in working order
the file system is in working order. -/
theorem fs_ok_after_alloc (ino : inode) (r : new_block_result) (i j : Nat)
    (hok : fs_ok ino.i_sb) (hp : alloc_post ino r i j) : fs_ok r.ino.i_sb := by
  refine fs_ok_of_layout_cache hok hp.layout hp.cache ?_ ?_
  · rw [hp.free_count]; exact u32_sub_lt _ _
  · intro g
    rw [hp.group_count]
    split
    · exact u16_sub_lt _ _
    · exact hok.fit.bg_free_blocks_count g

/-- C2 where the bitmaps are laid out as `layout_ok` says: on a file system in
working order, `ext2_free_blocks(B, 1)` after a successful `ext2_new_block`
that returned `B` ends without panic with every bitmap bit, the free count of
every group and the free count of the super block as they were before the
allocation. -/
theorem free_after_new_block_restores (fuel : Nat) (current : task_struct) (ino : inode)
    (goal : Nat) (r : new_block_result) (hok : fs_ok ino.i_sb) (hlay : layout_ok ino.i_sb)
    (h : ext2_new_block fuel current ino goal = some r) (herr : r.err = 0) :
    (ext2_free_blocks r.ino r.ret 1).panicked = false ∧
    (ext2_free_blocks r.ino r.ret 1).ino.i_sb.b_data = ino.i_sb.b_data ∧
    (∀ g, ((ext2_free_blocks r.ino r.ret 1).ino.i_sb.gdt g).bg_free_blocks_count =
      (ino.i_sb.gdt g).bg_free_blocks_count) ∧
    (ext2_free_blocks r.ino r.ret 1).ino.i_sb.s_es.s_free_blocks_count =
      ino.i_sb.s_es.s_free_blocks_count := by
  obtain ⟨i, j, hp⟩ := ext2_new_block_success fuel current ino goal r hok.cache hok.geo.bpg_pos
    hok.fit.s_blocks_per_group hlay h herr
  have hok1 := fs_ok_after_alloc ino r i j hok hp
  obtain ⟨hg, hb⟩ := group_bit_of_block ino.i_sb i j hp.bit
  have hg1 : group_of r.ino.i_sb r.ret = i := by rw [group_of_layout hp.layout, hp.ret, hg]
  have hb1 : bit_of r.ino.i_sb r.ret = j := by rw [bit_of_layout hp.layout, hp.ret, hb]
  have hset : block_bit r.ino.i_sb r.ret = true := by
    rw [block_bit_eq ino.i_sb r.ino.i_sb hp.layout, hp.ret, hg, hb, hp.b_data]
    dsimp only
    rw [if_pos ⟨rfl, rfl⟩]
  have hlo : r.ino.i_sb.s_es.s_first_data_block ≤ r.ret := by
    rw [hp.layout.s_first_data_block, hp.ret]; omega
  have hhi : r.ret + 1 ≤ r.ino.i_sb.s_es.s_blocks_count := by
    rw [hp.layout.s_blocks_count]; exact hp.below
  have hf := ext2_free_blocks_post r.ino r.ret 1 hok1 (by omega) hlo hhi
  have hur : used_in_range r.ino.i_sb r.ret 1 = 1 := by
    simp [used_in_range, count_used, hset]
  have hug : ∀ g, used_in_group r.ino.i_sb g r.ret 1 = if g = i then 1 else 0 := by
    intro g
    simp only [used_in_group, count_used, hset, hg1, decide_eq_true_eq, and_true, Nat.add_zero]
    by_cases hgi : g = i
    · rw [if_pos hgi, if_pos hgi.symm]
    · rw [if_neg hgi, if_neg (fun e => hgi e.symm)]
  refine ⟨hf.not_panicked, ?_, ?_, ?_⟩
  · funext blk n
    by_cases hc : blk = bitmap_block ino.i_sb i ∧ n = j
    · have := hf.cleared r.ret (le_refl _) (by omega)
      rw [block_bit_eq r.ino.i_sb _ hf.layout, hg1, hb1, bitmap_block_layout hp.layout] at this
      rw [hc.1, hc.2, this, hp.was_clear]
    · rw [hf.others blk n, hp.b_data]
      · dsimp only
        rw [if_neg hc]
      · intro b h1 h2
        have hbe : b = r.ret := by omega
        rw [hbe, hg1, hb1, bitmap_block_layout hp.layout]
        exact hc
  · intro g
    rw [hf.group_counts, hug, hp.group_count]
    by_cases hgi : g = i
    · rw [if_pos hgi, if_pos hgi]
      exact u16_sub_add_one _ (hok.fit.bg_free_blocks_count g)
    · rw [if_neg hgi, if_neg hgi, Nat.add_zero]
      unfold u16
      exact Nat.mod_eq_of_lt (hok.fit.bg_free_blocks_count g)
  · rw [hf.free_count, hur, hp.free_count, Nat.zero_add]
    exact u32_sub_add_one _ hok.fit.s_free_blocks_count


/-- The loop over the other groups when every descriptor is loaded and every
stored free count is 0: all rounds are used up and nothing is found. -/
theorem search_groups_all_zero (n : Nat) (sb : super_block) (i : Nat)
    (hgc : 0 < sb.s_groups_count)
    (hdesc : ∀ g, g < sb.s_groups_count → sb.s_group_desc (g / sb.s_desc_per_block) = true)
    (hzero : ∀ g, g < sb.s_groups_count → (sb.gdt g).bg_free_blocks_count = 0) :
    search_groups n sb i = (sb, .not_found) := by
  induction n generalizing i with
  | zero => rfl
  | succ n ih =>
    have hi1 : (if sb.s_groups_count ≤ i + 1 then 0 else i + 1) < sb.s_groups_count := by
      split <;> omega
    unfold search_groups
    simp only
    rw [get_group_desc_some sb _ hi1 (hdesc _ hi1)]
    simp only
    rw [hzero _ hi1, if_neg (by omega)]
    exact ih _

/-- The group of the goal, once the goal is put into range, is a group of the
file system. -/
theorem group_of_norm_goal_lt (sb : super_block) (hgeo : geometry_ok sb)
    (hgc : 0 < sb.s_groups_count) (goal : Nat) :
    group_of sb (norm_goal sb goal) < sb.s_groups_count := by
  unfold norm_goal
  split
  · unfold group_of
    rw [Nat.sub_self, Nat.zero_div]
    exact hgc
  · rename_i h
    exact group_of_lt_groups sb hgeo goal (by omega) (by omega)

/-- C11.  No space: when every group descriptor is loaded and holds a stored
free block count of 0, `ext2_new_block` returns 0 with `*err = -ENOSPC` for
every goal and every caller, and leaves the whole state (bitmaps, free
counters, quota) as it was.  The file system has the geometry set up by
mounting and at least one group. -/
theorem ext2_new_block_no_space (fuel : Nat) (current : task_struct) (ino : inode) (goal : Nat)
    (hgeo : geometry_ok ino.i_sb) (hgc : 0 < ino.i_sb.s_groups_count)
    (hdesc : ∀ g, g < ino.i_sb.s_groups_count →
      ino.i_sb.s_group_desc (g / ino.i_sb.s_desc_per_block) = true)
    (hzero : ∀ g, g < ino.i_sb.s_groups_count → (ino.i_sb.gdt g).bg_free_blocks_count = 0) :
    ∃ r, ext2_new_block (fuel + 1) current ino goal = some r ∧ r.ret = 0 ∧ r.err = - ENOSPC ∧
      r.panicked = false ∧ r.ino = ino := by
  by_cases hres : reserved_reject ino.i_sb current
  · exact ext2_new_block_reserved_policy (fuel + 1) current ino goal hres
  · have hg := group_of_norm_goal_lt ino.i_sb hgeo hgc goal
    have hpass : new_block_pass ino ino.i_sb goal =
        .done { ino := ino, ret := 0, err := - ENOSPC, panicked := false } := by
      rw [new_block_pass_group_full ino ino.i_sb goal hg (hdesc _ hg) (hzero _ hg)]
      unfold new_block_other_groups
      rw [search_groups_all_zero _ _ _ hgc hdesc hzero]
      rfl
    exact ⟨_, ext2_new_block_of_pass fuel current ino goal _ hres hpass, rfl, rfl, rfl, rfl⟩

set_option maxRecDepth 100000 in
theorem geometry_ok_no_space : geometry_ok sb_no_space := by
  constructor <;> decide

theorem ext2_new_block_no_space_witness :
    ∃ r, ext2_new_block 1 task_root ino_no_space 5001 = some r ∧ r.ret = 0 ∧ r.err = - ENOSPC ∧
      r.panicked = false ∧ r.ino = ino_no_space :=
  ext2_new_block_no_space 0 task_root ino_no_space 5001 geometry_ok_no_space (by decide)
    (by decide) (by decide)


theorem find_in_other_groups_finish (ino : inode) (sb : super_block) (goal i : Nat) :
    new_block_other_groups ino sb goal i = new_block_finish ino goal (find_in_other_groups sb i) := by
  unfold new_block_other_groups find_in_other_groups
  rcases hs : search_groups sb.s_groups_count sb i with ⟨sb1, r⟩
  cases r with
  | no_desc => rfl
  | not_found => rfl
  | found i1 gdp =>
    dsimp only
    rcases hl : load_block_bitmap sb1 i1 with ⟨sb2, l⟩
    cases l with
    | panic => rfl
    | err_ptr e => rfl
    | bh b =>
      dsimp only
      split_ifs <;> rfl

theorem find_in_goal_group_finish (ino : inode) (sb : super_block) (goal i gdp bh j : Nat) :
    new_block_goal_group ino sb goal i gdp bh j =
      new_block_finish ino goal (find_in_goal_group sb i gdp bh j) := by
  unfold new_block_goal_group find_in_goal_group
  dsimp only
  split_ifs <;> first | rfl | exact find_in_other_groups_finish ino sb goal i

/-- A pass of `ext2_new_block` is its search followed by what the label
`got_block`, `io_error` or `out` reached by the search does. -/
theorem new_block_pass_finish (ino : inode) (sb : super_block) (goal : Nat) :
    new_block_pass ino sb goal =
      new_block_finish ino (norm_goal sb goal) (new_block_find sb goal) := by
  unfold new_block_pass new_block_find norm_goal
  dsimp only
  rcases hd : ext2_get_group_desc sb _ with ⟨sb1, d⟩
  cases d with
  | none => rfl
  | some gdp =>
    dsimp only
    by_cases hf : 0 < (sb1.gdt gdp).bg_free_blocks_count
    · rw [if_pos hf, if_pos hf]
      rcases hl : load_block_bitmap sb1 _ with ⟨sb2, l⟩
      cases l with
      | panic => rfl
      | err_ptr e => rfl
      | bh b => exact find_in_goal_group_finish ino sb2 _ _ gdp b _
    · rw [if_neg hf, if_neg hf]
      exact find_in_other_groups_finish ino sb1 _ _


theorem find_in_other_groups_same_disk (sb : super_block) (i : Nat) :
    same_disk sb (find_in_other_groups sb i).1 := by
  unfold find_in_other_groups
  have hs := (search_groups_spec sb.s_groups_count sb i).1
  rcases hsr : search_groups sb.s_groups_count sb i with ⟨sb1, r⟩
  rw [hsr] at hs
  cases r with
  | no_desc => exact hs
  | not_found => exact hs
  | found i1 gdp =>
    dsimp only
    have hl := load_block_bitmap_same_disk sb1 i1
    rcases hlr : load_block_bitmap sb1 i1 with ⟨sb2, l⟩
    rw [hlr] at hl
    cases l with
    | panic => exact same_disk_trans hs hl
    | err_ptr e => exact same_disk_trans hs hl
    | bh b =>
      dsimp only
      split_ifs
      · exact same_disk_trans hs hl
      · exact same_disk_trans hs (same_disk_trans hl (same_disk_ext2_error _ _))
      · exact same_disk_trans hs hl

theorem find_in_goal_group_same_disk (sb : super_block) (i gdp bh j : Nat) :
    same_disk sb (find_in_goal_group sb i gdp bh j).1 := by
  unfold find_in_goal_group
  dsimp only
  split_ifs <;> first | exact same_disk_refl sb | exact find_in_other_groups_same_disk sb i

/-- The search of a pass of `ext2_new_block` changes no bitmap bit and no
free block count: it touches the bitmap cache and the log only. -/
theorem new_block_find_same_disk (sb : super_block) (goal : Nat) :
    same_disk sb (new_block_find sb goal).1 := by
  unfold new_block_find
  dsimp only
  have hd := get_group_desc_same_disk sb
    (((if goal < sb.s_es.s_first_data_block ∨ sb.s_es.s_blocks_count ≤ goal
        then sb.s_es.s_first_data_block else goal) - sb.s_es.s_first_data_block) /
      sb.s_blocks_per_group)
  rcases hdr : ext2_get_group_desc sb _ with ⟨sb1, d⟩
  rw [hdr] at hd
  cases d with
  | none => exact hd
  | some gdp =>
    dsimp only
    split
    · have hl := load_block_bitmap_same_disk sb1
        (((if goal < sb.s_es.s_first_data_block ∨ sb.s_es.s_blocks_count ≤ goal
            then sb.s_es.s_first_data_block else goal) - sb.s_es.s_first_data_block) /
          sb.s_blocks_per_group)
      rcases hlr : load_block_bitmap sb1 _ with ⟨sb2, l⟩
      rw [hlr] at hl
      cases l with
      | panic => exact same_disk_trans hd hl
      | err_ptr e => exact same_disk_trans hd hl
      | bh b => exact same_disk_trans hd (same_disk_trans hl (find_in_goal_group_same_disk sb2 _ _ _ _))
    · exact same_disk_trans hd (find_in_other_groups_same_disk sb1 _)

/-- C12.  Quota rejection: when the search of `ext2_new_block` (the caller
having passed the reserved-block test) ends at the label `got_block` with a
bit `j` of a group `i`, and the quota collaborator rejects the reservation of
one block, the call returns 0 with `*err = -EDQUOT`; the state it leaves
differs from the one before the call in the bitmap cache and the log only (no
bitmap bit, no group free count and not the free count of the super block has
changed), and the quota is as it was. -/
theorem ext2_new_block_quota_rejected (fuel : Nat) (current : task_struct) (ino : inode)
    (goal i gdp bh j : Nat) (hres : ¬ reserved_reject ino.i_sb current)
    (hfound : (new_block_find ino.i_sb goal).2 = .got_block i gdp bh j)
    (hq : ¬ quota_accepts ino.i_dquot) :
    ∃ r, ext2_new_block (fuel + 1) current ino goal = some r ∧ r.ret = 0 ∧ r.err = - EDQUOT ∧
      r.panicked = false ∧ same_disk ino.i_sb r.ino.i_sb ∧ r.ino.i_dquot = ino.i_dquot := by
  have hsd := new_block_find_same_disk ino.i_sb goal
  have hpass : new_block_pass ino ino.i_sb goal =
      new_block_out ino (new_block_find ino.i_sb goal).1 (- EDQUOT) := by
    rw [new_block_pass_finish]
    rcases hf : new_block_find ino.i_sb goal with ⟨sb1, f⟩
    rw [hf] at hfound
    dsimp only at hfound
    subst hfound
    show new_block_got_block ino sb1 _ i gdp bh j = _
    unfold new_block_got_block
    rw [DQUOT_ALLOC_BLOCK_rejects { ino with i_sb := sb1 } hq]
  exact ⟨_, ext2_new_block_of_pass fuel current ino goal _ hres hpass, rfl, rfl, rfl, hsd, rfl⟩

set_option maxRecDepth 100000 in
theorem ext2_new_block_quota_rejected_witness :
    ∃ r, ext2_new_block 1 task_root ino_quota_full 5001 = some r ∧ r.ret = 0 ∧
      r.err = - EDQUOT ∧ r.panicked = false ∧ same_disk ino_quota_full.i_sb r.ino.i_sb ∧
      r.ino.i_dquot = ino_quota_full.i_dquot :=
  ext2_new_block_quota_rejected 0 task_root ino_quota_full 5001 0 0 3 5000
    (by unfold reserved_reject; decide) (by decide) (by simp [quota_accepts, ino_quota_full])


theorem u16_sub_one_of_pos (a : Nat) (h0 : 0 < a) (h : a < 2 ^ 16) : u16_sub a 1 + 1 = a := by
  unfold u16_sub
  norm_num at h ⊢
  omega

theorem u32_sub_one_of_pos (a : Nat) (h0 : 0 < a) (h : a < 2 ^ 32) : u32_sub a 1 + 1 = a := by
  unfold u32_sub
  norm_num at h ⊢
  omega

/-- C13 where the bitmaps are laid out as `layout_ok` says: after a successful
`ext2_new_block` on a file system in working order, the stored free count of
the group of the block returned is one less than before, the stored free count
of every other group is as before, and the free count of the super block is
one less than before (in 32-bit arithmetic; exactly one less when it was
above 0). -/
theorem new_block_counts_after_success (fuel : Nat) (current : task_struct) (ino : inode)
    (goal : Nat) (r : new_block_result) (hok : fs_ok ino.i_sb) (hlay : layout_ok ino.i_sb)
    (h : ext2_new_block fuel current ino goal = some r) (herr : r.err = 0) :
    (r.ino.i_sb.gdt (group_of ino.i_sb r.ret)).bg_free_blocks_count + 1 =
      (ino.i_sb.gdt (group_of ino.i_sb r.ret)).bg_free_blocks_count ∧
    (∀ g, g ≠ group_of ino.i_sb r.ret →
      (r.ino.i_sb.gdt g).bg_free_blocks_count = (ino.i_sb.gdt g).bg_free_blocks_count) ∧
    r.ino.i_sb.s_es.s_free_blocks_count = u32_sub ino.i_sb.s_es.s_free_blocks_count 1 ∧
    (0 < ino.i_sb.s_es.s_free_blocks_count →
      r.ino.i_sb.s_es.s_free_blocks_count + 1 = ino.i_sb.s_es.s_free_blocks_count) := by
  obtain ⟨i, j, hp⟩ := ext2_new_block_success fuel current ino goal r hok.cache hok.geo.bpg_pos
    hok.fit.s_blocks_per_group hlay h herr
  obtain ⟨hg, -⟩ := group_bit_of_block ino.i_sb i j hp.bit
  rw [hp.ret, hg]
  refine ⟨?_, ?_, hp.free_count, ?_⟩
  · rw [hp.group_count, if_pos rfl]
    exact u16_sub_one_of_pos _ hp.had_free (hok.fit.bg_free_blocks_count i)
  · intro g hgi
    rw [hp.group_count, if_neg hgi]
  · intro h0
    rw [hp.free_count]
    exact u32_sub_one_of_pos _ h0 hok.fit.s_free_blocks_count

/-- C13, at a failing input.  On `sb_window` (96 blocks per group, bit 96 of
the bitmap of group 0 clear) `ext2_new_block` with goal 71 returns block 97
with `*err = 0`.  Block 97 lies in group 1, yet the stored free count of group
1 is 0 as before, and it is the stored free count of group 0, a group that
does not contain the block, that has gone down from 1 to 0. -/
theorem ext2_new_block_window_counts_other_group :
    (ext2_new_block 1 task_root ino_window 71).map (fun r =>
        (r.ret, r.err, (r.ino.i_sb.gdt 0).bg_free_blocks_count,
         (r.ino.i_sb.gdt 1).bg_free_blocks_count, r.ino.i_sb.s_es.s_free_blocks_count)) =
      some (97, 0, 0, 0, 0) ∧
    (97 - sb_window.s_es.s_first_data_block) / sb_window.s_blocks_per_group = 1 ∧
    ((sb_window.gdt 0).bg_free_blocks_count, (sb_window.gdt 1).bg_free_blocks_count,
      sb_window.s_es.s_free_blocks_count) = (1, 0, 1) := by
  decide


/-- The range test of `ext2_free_blocks`, when it fires: the error is logged
and the call returns with every bitmap bit, every group free count, the free
count of the super block and the quota as they were. -/
theorem ext2_free_blocks_range_error (ino : inode) (block count : Nat)
    (h : block < ino.i_sb.s_es.s_first_data_block ∨
      ino.i_sb.s_es.s_blocks_count < ulong (block + count)) :
    (ext2_free_blocks ino block count).panicked = false ∧
    same_disk ino.i_sb (ext2_free_blocks ino block count).ino.i_sb ∧
    (ext2_free_blocks ino block count).ino.i_dquot = ino.i_dquot := by
  unfold ext2_free_blocks
  simp only
  rw [if_pos h]
  refine ⟨rfl, ?_, rfl⟩
  exact same_disk_ext2_error _ _

/-- C14 where `block + count` does not wrap: if a block of the range
`[block, block + count)` lies outside the data zone, `ext2_free_blocks`
changes no bitmap bit, no free count and no quota. -/
theorem ext2_free_blocks_range_error_no_wrap (ino : inode) (block count b : Nat)
    (hfit : block + count < 2 ^ BITS_PER_LONG) (h1 : block ≤ b) (h2 : b < block + count)
    (hout : b < ino.i_sb.s_es.s_first_data_block ∨ ino.i_sb.s_es.s_blocks_count ≤ b) :
    (ext2_free_blocks ino block count).panicked = false ∧
    same_disk ino.i_sb (ext2_free_blocks ino block count).ino.i_sb ∧
    (ext2_free_blocks ino block count).ino.i_dquot = ino.i_dquot := by
  apply ext2_free_blocks_range_error
  rw [ulong_of_lt _ hfit]
  omega

set_option maxRecDepth 100000 in
/-- C14, at a failing input.  On `sb_large` (`s_blocks_count = 2^32 - 1`)
`ext2_free_blocks(inode, 2^32 - 2, 5)` is asked to free a range whose second
block, `2^32 - 1`, lies at `s_blocks_count`.  In `unsigned long` arithmetic
`block + count` is 3, the range test does not fire, and the call clears bits
32766 and 32767 of the last group and bits 0, 1 and 2 of group 0 (blocks 0, 1
and 2), raises the free counts of these groups by 2 and 3 and that of the
super block by 5, and releases 5 blocks of quota. -/
theorem ext2_free_blocks_wraps_past_end :
    sb_large.s_es.s_blocks_count ≤ 4294967294 + 1 ∧ ulong (4294967294 + 5) = 3 ∧
    ((ext2_free_blocks ino_large 4294967294 5).panicked,
     (ext2_free_blocks ino_large 4294967294 5).ino.i_sb.b_data 1026 0,
     (ext2_free_blocks ino_large 4294967294 5).ino.i_sb.b_data 1026 2,
     (ext2_free_blocks ino_large 4294967294 5).ino.i_sb.b_data (131071 * 32768 + 1026) 32766) =
      (false, false, false, false) ∧
    (((ext2_free_blocks ino_large 4294967294 5).ino.i_sb.gdt 0).bg_free_blocks_count,
     ((ext2_free_blocks ino_large 4294967294 5).ino.i_sb.gdt 131071).bg_free_blocks_count,
     (ext2_free_blocks ino_large 4294967294 5).ino.i_sb.s_es.s_free_blocks_count,
     (ext2_free_blocks ino_large 4294967294 5).ino.i_dquot.released) = (3, 2, 5, 5) ∧
    (sb_large.b_data 1026 0, sb_large.b_data 1026 2,
     sb_large.b_data (131071 * 32768 + 1026) 32766) = (true, true, true) ∧
    ((sb_large.gdt 0).bg_free_blocks_count, (sb_large.gdt 131071).bg_free_blocks_count,
     sb_large.s_es.s_free_blocks_count, ino_large.i_dquot.released) = (0, 0, 0, 0) := by
  decide


theorem lookup_slot_before (number : Nat → Nat) (g n i : Nat) :
    ∀ k, i ≤ k → k < lookup_slot number g n i → number k ≠ g := by
  induction n generalizing i with
  | zero =>
    intro k h1 h2
    simp only [lookup_slot] at h2
    omega
  | succ n ih =>
    intro k h1 h2
    simp only [lookup_slot] at h2
    split at h2
    · omega
    · rename_i hne
      by_cases hk : k = i
      · rw [hk]; exact hne
      · exact ih (i + 1) k (by omega) h2

theorem read_if_null_fields (sb : super_block) (g : Nat) (bh : Option Nat) :
    (read_if_null sb g bh).1.s_groups_count = sb.s_groups_count ∧
    (read_if_null sb g bh).1.s_loaded_block_bitmaps = sb.s_loaded_block_bitmaps ∧
    (read_if_null sb g bh).1.s_block_bitmap_number = sb.s_block_bitmap_number ∧
    (read_if_null sb g bh).1.s_block_bitmap = sb.s_block_bitmap := by
  cases bh with
  | some b => exact ⟨rfl, rfl, rfl, rfl⟩
  | none =>
    exact ⟨(read_block_bitmap_same_disk sb g).s_groups_count, (read_block_bitmap_cache sb g).2.2,
      (read_block_bitmap_cache sb g).2.1, (read_block_bitmap_cache sb g).1⟩

/-- The cache after the label `read_it` of `load_block_bitmap`: slot `slot`
is tagged with the group and holds what was read in (or the buffer found). -/
theorem load_read_it_fields (sb : super_block) (g slot : Nat) (bh : Option Nat) :
    (load_read_it sb g slot bh).1.s_groups_count = sb.s_groups_count ∧
    (load_read_it sb g slot bh).1.s_loaded_block_bitmaps = sb.s_loaded_block_bitmaps ∧
    (load_read_it sb g slot bh).1.s_block_bitmap_number =
      (fun k => if k = slot then g else sb.s_block_bitmap_number k) ∧
    (load_read_it sb g slot bh).1.s_block_bitmap =
      (fun k => if k = slot then (read_if_null sb g bh).2 else sb.s_block_bitmap k) ∧
    (load_read_it sb g slot bh).2 = bh_or_err (read_if_null sb g bh).2 := by
  obtain ⟨h1, h2, h3, h4⟩ := read_if_null_fields sb g bh
  unfold load_read_it store_slot
  refine ⟨h1, h2, ?_, ?_, rfl⟩
  · show (fun k => if k = slot then g else (read_if_null sb g bh).1.s_block_bitmap_number k) = _
    rw [h3]
  · show (fun k => if k = slot then (read_if_null sb g bh).2
      else (read_if_null sb g bh).1.s_block_bitmap k) = _
    rw [h4]


/-- The LRU part of `load_block_bitmap`, when the first slot does not answer
the request: the slots before slot `m` move up by one and the label `read_it`
is reached for slot 0. -/
theorem load_block_bitmap_lru (sb : super_block) (g : Nat) (hg : g < sb.s_groups_count)
    (hmode : EXT2_MAX_GROUP_LOADED < sb.s_groups_count)
    (hshort : (if 0 < sb.s_loaded_block_bitmaps ∧ sb.s_block_bitmap_number 0 = g
      then sb.s_block_bitmap 0 else none) = none) :
    ∃ m loaded bh0, lru_case sb g m loaded bh0 ∧
      load_block_bitmap sb g =
        load_read_it { sb with
          s_loaded_block_bitmaps := loaded
          s_block_bitmap_number := shift_slots sb.s_block_bitmap_number m
          s_block_bitmap := shift_slots sb.s_block_bitmap m } g 0 bh0 := by
  obtain ⟨-, h2, h3⟩ := lookup_slot_spec sb.s_block_bitmap_number g sb.s_loaded_block_bitmaps 0
  have h4 := lookup_slot_before sb.s_block_bitmap_number g sb.s_loaded_block_bitmaps 0
  rw [Nat.zero_add] at h2 h3
  unfold load_block_bitmap
  rw [if_neg (by omega), hshort]
  dsimp only
  rw [if_neg (by omega)]
  by_cases hi : lookup_slot sb.s_block_bitmap_number g sb.s_loaded_block_bitmaps 0 <
      sb.s_loaded_block_bitmaps
  · rw [if_pos hi]
    exact ⟨_, _, _, Or.inl ⟨hi, h3 hi, rfl, rfl⟩, rfl⟩
  · rw [if_neg hi]
    have hie : lookup_slot sb.s_block_bitmap_number g sb.s_loaded_block_bitmaps 0 =
        sb.s_loaded_block_bitmaps := by omega
    have hmiss : ∀ k, k < sb.s_loaded_block_bitmaps → sb.s_block_bitmap_number k ≠ g :=
      fun k hk => h4 k (Nat.zero_le k) (by omega)
    by_cases hl : sb.s_loaded_block_bitmaps < EXT2_MAX_GROUP_LOADED
    · rw [if_pos hl, hie]
      exact ⟨_, _, _, Or.inr (Or.inl ⟨hmiss, hl, rfl, rfl, rfl⟩), rfl⟩
    · rw [if_neg hl, hie]
      refine ⟨_, _, _, Or.inr (Or.inr ⟨hmiss, by omega, ?_, rfl, rfl⟩), rfl⟩
      have : 0 < EXT2_MAX_GROUP_LOADED := by decide
      omega


theorem load_block_bitmap_panic (sb : super_block) (g : Nat) (hg : sb.s_groups_count ≤ g) :
    load_block_bitmap sb g =
      (ext2_error sb (.load_group_out_of_range g sb.s_groups_count), .panic) := by
  unfold load_block_bitmap
  rw [if_pos hg]

/-- The first test of `load_block_bitmap`: the first slot answers the request. -/
theorem load_block_bitmap_first (sb : super_block) (g b : Nat) (hg : g < sb.s_groups_count)
    (hshort : (if 0 < sb.s_loaded_block_bitmaps ∧ sb.s_block_bitmap_number 0 = g
      then sb.s_block_bitmap 0 else none) = some b) :
    load_block_bitmap sb g = (sb, .bh b) := by
  unfold load_block_bitmap
  rw [if_neg (by omega), hshort]

/-- The part of `load_block_bitmap` for a file system of at most
`EXT2_MAX_GROUP_LOADED` groups. -/
theorem load_block_bitmap_direct (sb : super_block) (g : Nat) (hg : g < sb.s_groups_count)
    (hmode : sb.s_groups_count ≤ EXT2_MAX_GROUP_LOADED)
    (hshort : (if 0 < sb.s_loaded_block_bitmaps ∧ sb.s_block_bitmap_number 0 = g
      then sb.s_block_bitmap 0 else none) = none) :
    load_block_bitmap sb g =
      match sb.s_block_bitmap g with
      | none => load_read_it sb g g none
      | some b =>
        if sb.s_block_bitmap_number g = g then (sb, .bh b)
        else (ext2_error sb .load_wrong_bitmap_number, .panic) := by
  unfold load_block_bitmap
  rw [if_neg (by omega), hshort]
  dsimp only
  rw [if_pos hmode]

/-- The cache after the LRU part of `load_block_bitmap`: slot 0 is tagged
with the group and holds `res`, the buffer found or read; the slots before
slot `m` have moved up by one. -/
theorem load_block_bitmap_lru_fields (sb : super_block) (g : Nat) (hg : g < sb.s_groups_count)
    (hmode : EXT2_MAX_GROUP_LOADED < sb.s_groups_count)
    (hshort : (if 0 < sb.s_loaded_block_bitmaps ∧ sb.s_block_bitmap_number 0 = g
      then sb.s_block_bitmap 0 else none) = none) :
    ∃ m loaded bh0 res, lru_case sb g m loaded bh0 ∧
      (∀ b, bh0 = some b → res = some b) ∧
      (load_block_bitmap sb g).2 = bh_or_err res ∧
      (load_block_bitmap sb g).1.s_groups_count = sb.s_groups_count ∧
      (load_block_bitmap sb g).1.s_loaded_block_bitmaps = loaded ∧
      (load_block_bitmap sb g).1.s_block_bitmap_number =
        (fun k => if k = 0 then g else if k ≤ m then sb.s_block_bitmap_number (k - 1)
          else sb.s_block_bitmap_number k) ∧
      (load_block_bitmap sb g).1.s_block_bitmap =
        (fun k => if k = 0 then res else if k ≤ m then sb.s_block_bitmap (k - 1)
          else sb.s_block_bitmap k) := by
  obtain ⟨m, loaded, bh0, hcase, heq⟩ := load_block_bitmap_lru sb g hg hmode hshort
  obtain ⟨h1, h2, h3, h4, h5⟩ := load_read_it_fields { sb with
    s_loaded_block_bitmaps := loaded
    s_block_bitmap_number := shift_slots sb.s_block_bitmap_number m
    s_block_bitmap := shift_slots sb.s_block_bitmap m } g 0 bh0
  rw [← heq] at h1 h2 h3 h4 h5
  refine ⟨m, loaded, bh0, _, hcase, ?_, h5, h1, h2, ?_, ?_⟩
  · intro b hb
    rw [hb]
    rfl
  · rw [h3]
    funext k
    dsimp only
    rw [shift_slots_apply]
    by_cases hk : k = 0
    · rw [if_pos hk, if_pos hk]
    · rw [if_neg hk, if_neg hk]
      by_cases hkm : k ≤ m
      · rw [if_pos ⟨by omega, hkm⟩, if_pos hkm]
      · rw [if_neg (fun h => hkm h.2), if_neg hkm]
  · rw [h4]
    funext k
    dsimp only
    rw [shift_slots_apply]
    by_cases hk : k = 0
    · rw [if_pos hk, if_pos hk]
    · rw [if_neg hk, if_neg hk]
      by_cases hkm : k ≤ m
      · rw [if_pos ⟨by omega, hkm⟩, if_pos hkm]
      · rw [if_neg (fun h => hkm h.2), if_neg hkm]

theorem cache_inv_of_fields {a b : super_block} (h : cache_inv a)
    (hg : b.s_groups_count = a.s_groups_count)
    (hl : b.s_loaded_block_bitmaps = a.s_loaded_block_bitmaps)
    (hn : b.s_block_bitmap_number = a.s_block_bitmap_number)
    (hb : b.s_block_bitmap = a.s_block_bitmap) : cache_inv b := by
  constructor
  · rw [hg, hl]; exact h.direct_loaded
  · rw [hg, hn, hb]; exact h.direct_tag
  · rw [hg, hl]; exact h.lru_loaded
  · rw [hg, hl, hb]; exact h.lru_empty
  · rw [hg, hl, hn]; exact h.lru_distinct

theorem cache_inv_of_empty (sb : super_block) (h : cache_empty sb) : cache_inv sb := by
  constructor
  · intro _; exact h.1
  · intro _ s b hs; rw [h.2 s] at hs; exact absurd hs (by simp)
  · intro _; rw [h.1]; exact Nat.zero_le _
  · intro _ s _; exact h.2 s
  · intro _ s t hs; rw [h.1] at hs; omega


/-- The slot that a slot in use after the LRU part of `load_block_bitmap`,
other than slot 0, had before: it was in use and not tagged with the group
asked for. -/
theorem lru_old_slot (sb : super_block) (g m loaded : Nat) (bh0 : Option Nat)
    (hcase : lru_case sb g m loaded bh0)
    (hd : ∀ s t, s < sb.s_loaded_block_bitmaps → t < sb.s_loaded_block_bitmaps →
      sb.s_block_bitmap_number s = sb.s_block_bitmap_number t → s = t)
    (k : Nat) (hk0 : k ≠ 0) (hk : k < loaded) :
    (if k ≤ m then k - 1 else k) < sb.s_loaded_block_bitmaps ∧
    sb.s_block_bitmap_number (if k ≤ m then k - 1 else k) ≠ g := by
  rcases hcase with ⟨c1, c2, c3, -⟩ | ⟨c1, c2, c3, c4, -⟩ | ⟨c1, c2, c3, c4, -⟩
  · have hlt : (if k ≤ m then k - 1 else k) < sb.s_loaded_block_bitmaps := by
      split <;> omega
    refine ⟨hlt, ?_⟩
    intro he
    have := hd _ m hlt c1 (he.trans c2.symm)
    split at this <;> omega
  · have hlt : (if k ≤ m then k - 1 else k) < sb.s_loaded_block_bitmaps := by
      split <;> omega
    exact ⟨hlt, c1 _ hlt⟩
  · have hlt : (if k ≤ m then k - 1 else k) < sb.s_loaded_block_bitmaps := by
      split <;> omega
    exact ⟨hlt, c1 _ hlt⟩

/-- A call of `load_block_bitmap` keeps the invariant of the bitmap cache. -/
theorem load_block_bitmap_cache_inv (sb : super_block) (g : Nat) (h : cache_inv sb) :
    cache_inv (load_block_bitmap sb g).1 := by
  by_cases hg : sb.s_groups_count ≤ g
  · rw [load_block_bitmap_panic sb g hg]
    exact cache_inv_of_fields h rfl rfl rfl rfl
  · have hg1 : g < sb.s_groups_count := by omega
    cases hs : (if 0 < sb.s_loaded_block_bitmaps ∧ sb.s_block_bitmap_number 0 = g
        then sb.s_block_bitmap 0 else none) with
    | some b =>
      rw [load_block_bitmap_first sb g b hg1 hs]
      exact h
    | none =>
      by_cases hmode : sb.s_groups_count ≤ EXT2_MAX_GROUP_LOADED
      · rw [load_block_bitmap_direct sb g hg1 hmode hs]
        cases hb : sb.s_block_bitmap g with
        | none =>
          dsimp only
          obtain ⟨h1, h2, h3, h4, -⟩ := load_read_it_fields sb g g none
          constructor
          · intro _; rw [h2]; exact h.direct_loaded hmode
          · intro _ s b hsb
            rw [h4] at hsb
            rw [h3]
            dsimp only at hsb ⊢
            by_cases hsg : s = g
            · rw [if_pos hsg, hsg]
            · rw [if_neg hsg] at hsb
              rw [if_neg hsg]
              exact h.direct_tag hmode s b hsb
          · intro hm; rw [h1] at hm; omega
          · intro hm; rw [h1] at hm; omega
          · intro hm; rw [h1] at hm; omega
        | some b =>
          dsimp only
          split
          · exact h
          · exact cache_inv_of_fields h rfl rfl rfl rfl
      · have hlru : EXT2_MAX_GROUP_LOADED < sb.s_groups_count := by omega
        obtain ⟨m, loaded, bh0, res, hcase, -, -, h1, h2, h3, h4⟩ :=
          load_block_bitmap_lru_fields sb g hg1 hlru hs
        have hl := h.lru_loaded hlru
        have he := h.lru_empty hlru
        have hd := h.lru_distinct hlru
        have hold := lru_old_slot sb g m loaded bh0 hcase hd
        constructor
        · intro hm; rw [h1] at hm; omega
        · intro hm; rw [h1] at hm; omega
        · intro _
          rw [h2]
          rcases hcase with ⟨-, -, c3, -⟩ | ⟨-, c2, -, c4, -⟩ | ⟨-, -, -, c4, -⟩ <;> omega
        · intro _ s hsl
          rw [h2] at hsl
          rw [h4]
          dsimp only
          have hs0 : s ≠ 0 ∧ ¬ s ≤ m ∧ sb.s_loaded_block_bitmaps ≤ s := by
            rcases hcase with ⟨c1, -, c3, -⟩ | ⟨-, c2, c3, c4, -⟩ | ⟨-, c2, c3, c4, -⟩
            · omega
            · omega
            · have : 0 < EXT2_MAX_GROUP_LOADED := by decide
              omega
          rw [if_neg hs0.1, if_neg hs0.2.1]
          exact he s hs0.2.2
        · intro _ s t hsl htl hst
          rw [h2] at hsl htl
          rw [h3] at hst
          dsimp only at hst
          by_cases hs0 : s = 0
          · by_cases ht0 : t = 0
            · omega
            · rw [if_pos hs0, if_neg ht0] at hst
              have := (hold t ht0 htl).2
              split at this
              · rename_i hle; rw [if_pos hle] at hst; exact absurd hst.symm this
              · rename_i hle; rw [if_neg hle] at hst; exact absurd hst.symm this
          · by_cases ht0 : t = 0
            · rw [if_neg hs0, if_pos ht0] at hst
              have := (hold s hs0 hsl).2
              split at this
              · rename_i hle; rw [if_pos hle] at hst; exact absurd hst this
              · rename_i hle; rw [if_neg hle] at hst; exact absurd hst this
            · rw [if_neg hs0, if_neg ht0] at hst
              have h5 := (hold s hs0 hsl).1
              have h6 := (hold t ht0 htl).1
              have h7 : (if s ≤ m then s - 1 else s) = (if t ≤ m then t - 1 else t) := by
                apply hd _ _ h5 h6
                by_cases hsm : s ≤ m <;> by_cases htm : t ≤ m
                · rw [if_pos hsm, if_pos htm] at hst ⊢; exact hst
                · rw [if_pos hsm, if_neg htm] at hst ⊢; exact hst
                · rw [if_neg hsm, if_pos htm] at hst ⊢; exact hst
                · rw [if_neg hsm, if_neg htm] at hst ⊢; exact hst
              split at h7 <;> split at h7 <;> omega

/-- Every state reachable from the empty cache satisfies the invariant of the
bitmap cache. -/
theorem cache_inv_of_reachable (sb : super_block) (h : cache_reachable sb) : cache_inv sb := by
  induction h with
  | empty sb he => exact cache_inv_of_empty sb he
  | load sb g _ ih => exact load_block_bitmap_cache_inv sb g ih
  | other sb sb1 _ hg hl hn hb ih => exact cache_inv_of_fields ih hg hl hn hb


/-- C15.  At most one resident copy per group: in every state whose bitmap
cache is reachable from the empty cache by calls of `load_block_bitmap`
(successful or failing), no two occupied slots are tagged with the same group;
with at most `EXT2_MAX_GROUP_LOADED` groups every occupied slot `s` is tagged
with group `s`; with more groups (LRU) the tags of the slots
`0 .. s_loaded_block_bitmaps - 1` are pairwise distinct. -/
theorem load_block_bitmap_one_copy_per_group (sb : super_block) (h : cache_reachable sb) :
    (∀ s t b c, sb.s_block_bitmap s = some b → sb.s_block_bitmap t = some c →
      sb.s_block_bitmap_number s = sb.s_block_bitmap_number t → s = t) ∧
    (sb.s_groups_count ≤ EXT2_MAX_GROUP_LOADED →
      ∀ s b, sb.s_block_bitmap s = some b → sb.s_block_bitmap_number s = s) ∧
    (EXT2_MAX_GROUP_LOADED < sb.s_groups_count →
      ∀ s t, s < sb.s_loaded_block_bitmaps → t < sb.s_loaded_block_bitmaps →
        sb.s_block_bitmap_number s = sb.s_block_bitmap_number t → s = t) := by
  have hinv := cache_inv_of_reachable sb h
  refine ⟨?_, hinv.direct_tag, hinv.lru_distinct⟩
  intro s t b c hs ht hst
  by_cases hmode : sb.s_groups_count ≤ EXT2_MAX_GROUP_LOADED
  · have h1 := hinv.direct_tag hmode s b hs
    have h2 := hinv.direct_tag hmode t c ht
    omega
  · have hlru : EXT2_MAX_GROUP_LOADED < sb.s_groups_count := by omega
    have he := hinv.lru_empty hlru
    have hsl : s < sb.s_loaded_block_bitmaps := by
      by_contra hc
      rw [he s (by omega)] at hs
      exact absurd hs (by simp)
    have htl : t < sb.s_loaded_block_bitmaps := by
      by_contra hc
      rw [he t (by omega)] at ht
      exact absurd ht (by simp)
    exact hinv.lru_distinct hlru s t hsl htl hst

theorem cache_empty_large : cache_empty sb_large :=
  ⟨rfl, fun _ => rfl⟩

theorem cache_reachable_large_loaded : cache_reachable sb_large_loaded :=
  .load _ 5 (.load _ 7 (.load _ 5 (.empty _ cache_empty_large)))

theorem load_block_bitmap_one_copy_per_group_witness :
    cache_reachable sb_large_loaded ∧
    (∀ s t b c, sb_large_loaded.s_block_bitmap s = some b →
      sb_large_loaded.s_block_bitmap t = some c →
      sb_large_loaded.s_block_bitmap_number s = sb_large_loaded.s_block_bitmap_number t →
      s = t) ∧
    (sb_large_loaded.s_groups_count ≤ EXT2_MAX_GROUP_LOADED →
      ∀ s b, sb_large_loaded.s_block_bitmap s = some b →
        sb_large_loaded.s_block_bitmap_number s = s) ∧
    (EXT2_MAX_GROUP_LOADED < sb_large_loaded.s_groups_count →
      ∀ s t, s < sb_large_loaded.s_loaded_block_bitmaps →
        t < sb_large_loaded.s_loaded_block_bitmaps →
        sb_large_loaded.s_block_bitmap_number s = sb_large_loaded.s_block_bitmap_number t →
        s = t) :=
  ⟨cache_reachable_large_loaded,
   load_block_bitmap_one_copy_per_group sb_large_loaded cache_reachable_large_loaded⟩


theorem slots_length {α : Type} (f : Nat → α) (k n : Nat) : (slots f k n).length = n := by
  induction n generalizing k with
  | zero => rfl
  | succ n ih => simp only [slots, List.length_cons, ih]

theorem slots_append {α : Type} (f : Nat → α) (k a b : Nat) :
    slots f k (a + b) = slots f k a ++ slots f (k + a) b := by
  induction a generalizing k with
  | zero => simp only [Nat.zero_add, slots, List.nil_append, Nat.add_zero]
  | succ a ih =>
    have e : a + 1 + b = (a + b) + 1 := by omega
    rw [e]
    simp only [slots, List.cons_append]
    rw [ih (k + 1)]
    have e2 : k + 1 + a = k + (a + 1) := by omega
    rw [e2]

theorem slots_congr {α : Type} (f f' : Nat → α) (k n : Nat)
    (h : ∀ x, k ≤ x → x < k + n → f x = f' x) : slots f k n = slots f' k n := by
  induction n generalizing k with
  | zero => rfl
  | succ n ih =>
    simp only [slots]
    rw [h k (le_refl k) (by omega), ih (k + 1) (fun x h1 h2 => h x (by omega) (by omega))]

theorem slots_shift {α : Type} (f : Nat → α) (k n : Nat) :
    slots (fun x => f (x - 1)) (k + 1) n = slots f k n := by
  induction n generalizing k with
  | zero => rfl
  | succ n ih =>
    simp only [slots]
    rw [ih (k + 1)]
    rfl

theorem mem_slots {α : Type} (f : Nat → α) (k n : Nat) (e : α) :
    e ∈ slots f k n ↔ ∃ x, k ≤ x ∧ x < k + n ∧ f x = e := by
  induction n generalizing k with
  | zero =>
    simp only [slots, List.not_mem_nil, false_iff]
    rintro ⟨x, h1, h2, -⟩
    omega
  | succ n ih =>
    simp only [slots, List.mem_cons, ih]
    constructor
    · rintro (h | ⟨x, h1, h2, h3⟩)
      · exact ⟨k, le_refl k, by omega, h.symm⟩
      · exact ⟨x, by omega, by omega, h3⟩
    · rintro ⟨x, h1, h2, h3⟩
      by_cases hx : x = k
      · left; rw [← h3, hx]
      · right; exact ⟨x, by omega, by omega, h3⟩

theorem slots_filter_ne (f : Nat → Nat × Option Nat) (g k n : Nat)
    (h : ∀ x, k ≤ x → x < k + n → (f x).1 ≠ g) :
    (slots f k n).filter (fun e => decide (e.1 ≠ g)) = slots f k n := by
  rw [List.filter_eq_self]
  intro e he
  obtain ⟨x, h1, h2, h3⟩ := (mem_slots f k n e).mp he
  rw [← h3]
  exact decide_eq_true (h x h1 h2)

theorem slots_any_ne (f : Nat → Nat × Option Nat) (g k n : Nat)
    (h : ∀ x, k ≤ x → x < k + n → (f x).1 ≠ g) :
    (slots f k n).any (fun e => decide (e.1 = g)) = false := by
  rw [List.any_eq_false]
  intro e he
  obtain ⟨x, h1, h2, h3⟩ := (mem_slots f k n e).mp he
  rw [← h3]
  simpa using h x h1 h2


theorem slots_moved_low (number : Nat → Nat) (bitmap : Nat → Option Nat) (g m : Nat)
    (res : Option Nat) :
    slots (fun k => (if k = 0 then g else if k ≤ m then number (k - 1) else number k,
        if k = 0 then res else if k ≤ m then bitmap (k - 1) else bitmap k)) 1 m =
      slots (fun k => (number k, bitmap k)) 0 m := by
  rw [← slots_shift (fun k => (number k, bitmap k)) 0 m]
  apply slots_congr
  intro x h1 h2
  have hx0 : x ≠ 0 := by omega
  have hxm : x ≤ m := by omega
  simp only [if_neg hx0, if_pos hxm]

theorem slots_moved_high (number : Nat → Nat) (bitmap : Nat → Option Nat) (g m n : Nat)
    (res : Option Nat) :
    slots (fun k => (if k = 0 then g else if k ≤ m then number (k - 1) else number k,
        if k = 0 then res else if k ≤ m then bitmap (k - 1) else bitmap k)) (m + 1) n =
      slots (fun k => (number k, bitmap k)) (m + 1) n := by
  apply slots_congr
  intro x h1 h2
  have hx0 : x ≠ 0 := by omega
  have hxm : ¬ x ≤ m := by omega
  simp only [if_neg hx0, if_neg hxm]

/-- A hit at slot `m`: the slots after the move are the move-to-front list. -/
theorem slots_hit (number : Nat → Nat) (bitmap : Nat → Option Nat) (cap g m L : Nat)
    (res : Option Nat) (hm : m < L) (hg : number m = g)
    (hd : ∀ s t, s < L → t < L → number s = number t → s = t) :
    slots (fun k => (if k = 0 then g else if k ≤ m then number (k - 1) else number k,
        if k = 0 then res else if k ≤ m then bitmap (k - 1) else bitmap k)) 0 L =
      spec_move_to_front cap (slots (fun k => (number k, bitmap k)) 0 L) g res := by
  obtain ⟨r, hr⟩ : ∃ r, L = m + 1 + r := ⟨L - m - 1, by omega⟩
  subst hr
  have hlow : ∀ x, 0 ≤ x → x < 0 + m → ((fun k => (number k, bitmap k)) x).1 ≠ g := by
    intro x _ h2 he
    have := hd x m (by omega) (by omega) (he.trans hg.symm)
    omega
  have hhigh : ∀ x, m + 1 ≤ x → x < m + 1 + r → ((fun k => (number k, bitmap k)) x).1 ≠ g := by
    intro x h1 h2 he
    have := hd x m (by omega) (by omega) (he.trans hg.symm)
    omega
  have hold : slots (fun k => (number k, bitmap k)) 0 (m + 1 + r) =
      slots (fun k => (number k, bitmap k)) 0 m ++
        ((number m, bitmap m) :: slots (fun k => (number k, bitmap k)) (m + 1) r) := by
    have e : m + 1 + r = m + (r + 1) := by omega
    rw [e, slots_append, Nat.zero_add]
    simp only [slots]
  have hnew : slots (fun k => (if k = 0 then g else if k ≤ m then number (k - 1) else number k,
        if k = 0 then res else if k ≤ m then bitmap (k - 1) else bitmap k)) 0 (m + 1 + r) =
      (g, res) :: (slots (fun k => (number k, bitmap k)) 0 m ++
        slots (fun k => (number k, bitmap k)) (m + 1) r) := by
    have e : m + 1 + r = (m + r) + 1 := by omega
    rw [e]
    simp only [slots, if_true]
    rw [Nat.zero_add, slots_append, slots_moved_low]
    have e2 : 1 + m = m + 1 := by omega
    rw [e2, slots_moved_high]
  rw [hnew, hold]
  unfold spec_move_to_front
  have hany : (slots (fun k => (number k, bitmap k)) 0 m ++
      ((number m, bitmap m) :: slots (fun k => (number k, bitmap k)) (m + 1) r)).any
        (fun e => decide (e.1 = g)) = true := by
    rw [List.any_eq_true]
    exact ⟨(number m, bitmap m), by simp, by simpa using hg⟩
  rw [hany, if_pos rfl, List.filter_append, List.filter_cons,
    slots_filter_ne _ g 0 m hlow, slots_filter_ne _ g (m + 1) r hhigh]
  have hn : ¬ (decide ((number m, bitmap m).1 ≠ g) = true) := by simpa using hg
  rw [if_neg hn]

/-- A miss: the slots after the move are the move-to-front list. -/
theorem slots_miss (number : Nat → Nat) (bitmap : Nat → Option Nat) (cap g L : Nat)
    (res : Option Nat) (hmiss : ∀ k, k < L → number k ≠ g) :
    (L ≠ cap →
      slots (fun k => (if k = 0 then g else if k ≤ L then number (k - 1) else number k,
          if k = 0 then res else if k ≤ L then bitmap (k - 1) else bitmap k)) 0 (L + 1) =
        spec_move_to_front cap (slots (fun k => (number k, bitmap k)) 0 L) g res) ∧
    (∀ m, L = cap → m + 1 = L →
      slots (fun k => (if k = 0 then g else if k ≤ m then number (k - 1) else number k,
          if k = 0 then res else if k ≤ m then bitmap (k - 1) else bitmap k)) 0 L =
        spec_move_to_front cap (slots (fun k => (number k, bitmap k)) 0 L) g res) := by
  have hno : ∀ x, 0 ≤ x → x < 0 + L → ((fun k => (number k, bitmap k)) x).1 ≠ g :=
    fun x _ h2 => hmiss x (by omega)
  have hany := slots_any_ne (fun k => (number k, bitmap k)) g 0 L hno
  constructor
  · intro hL
    unfold spec_move_to_front
    rw [hany, if_neg (by simp), slots_length, if_neg hL]
    simp only [slots, if_true]
    rw [Nat.zero_add, slots_moved_low]
  · intro m hL hm
    unfold spec_move_to_front
    rw [hany, if_neg (by simp), slots_length, if_pos hL]
    subst hm
    have e : slots (fun k => (number k, bitmap k)) 0 (m + 1) =
        slots (fun k => (number k, bitmap k)) 0 m ++ [(number m, bitmap m)] := by
      rw [slots_append, Nat.zero_add]
      simp only [slots]
    rw [e, List.dropLast_concat]
    simp only [slots, if_true]
    rw [Nat.zero_add, slots_moved_low]


theorem read_block_bitmap_bread_log (sb : super_block) (g b : Nat)
    (h : (read_block_bitmap sb g).2 = some b) :
    (read_block_bitmap sb g).1.bread_log = sb.bread_log ++ [b] := by
  unfold read_block_bitmap at h ⊢
  rcases hd : ext2_get_group_desc sb g with ⟨sb1, d⟩
  rw [hd] at h
  cases d with
  | none => simp at h
  | some gdp =>
    obtain ⟨h1, -, -, -⟩ := get_group_desc_eq_some hd
    subst h1
    dsimp only at h ⊢
    split
    · rename_i hok
      rw [if_pos hok] at h
      simp only [Option.some.injEq] at h
      rw [← h]
      rfl
    · rename_i hok
      rw [if_neg hok] at h
      simp at h

theorem bh_or_err_eq_bh (res : Option Nat) (b : Nat) (h : bh_or_err res = .bh b) :
    res = some b := by
  cases res with
  | none => simp [bh_or_err] at h
  | some c =>
    simp only [bh_or_err, load_result.bh.injEq] at h
    rw [h]

/-- The LRU part of `load_block_bitmap`, when the first slot does not answer
the request and the call succeeds: either the buffer was found in the cache
and no block is read, or no buffer was found and the bitmap block is read. -/
theorem load_block_bitmap_lru_bread_log (sb : super_block) (g b : Nat)
    (hg : g < sb.s_groups_count) (hmode : EXT2_MAX_GROUP_LOADED < sb.s_groups_count)
    (hshort : (if 0 < sb.s_loaded_block_bitmaps ∧ sb.s_block_bitmap_number 0 = g
      then sb.s_block_bitmap 0 else none) = none)
    (hload : (load_block_bitmap sb g).2 = .bh b) :
    ∃ m loaded bh0, lru_case sb g m loaded bh0 ∧
      ((bh0 = some b ∧ (load_block_bitmap sb g).1.bread_log = sb.bread_log) ∨
       (bh0 = none ∧ (load_block_bitmap sb g).1.bread_log = sb.bread_log ++ [b])) := by
  obtain ⟨m, loaded, bh0, hcase, heq⟩ := load_block_bitmap_lru sb g hg hmode hshort
  refine ⟨m, loaded, bh0, hcase, ?_⟩
  rw [heq] at hload ⊢
  cases bh0 with
  | some b0 =>
    left
    have : b0 = b := by
      simp only [load_read_it, read_if_null, bh_or_err, load_result.bh.injEq] at hload
      exact hload
    rw [this]
    exact ⟨rfl, rfl⟩
  | none =>
    right
    refine ⟨rfl, ?_⟩
    have hres := bh_or_err_eq_bh _ b hload
    exact read_block_bitmap_bread_log _ g b hres


/-- C16.  Move-to-front LRU reference: with more than `EXT2_MAX_GROUP_LOADED`
groups, after a successful `load_block_bitmap(g)` on a cache reachable from
the empty cache, the ordered list of the cache entries is the move-to-front
list of the spec: the entry of `g` with the buffer returned comes first,
followed by the previous list without the entry of `g` if there was one,
without its last entry if there was none and the cache was full, and
unchanged otherwise.  No block is read if `g` was resident with a buffer, and
the bitmap block is read (once) if it was not. -/
theorem load_block_bitmap_move_to_front (sb : super_block) (g b : Nat)
    (hmode : EXT2_MAX_GROUP_LOADED < sb.s_groups_count) (hr : cache_reachable sb)
    (hload : (load_block_bitmap sb g).2 = .bh b) :
    cache_entries (load_block_bitmap sb g).1 =
      spec_move_to_front EXT2_MAX_GROUP_LOADED (cache_entries sb) g (some b) ∧
    (resident_with_buffer sb g → (load_block_bitmap sb g).1.bread_log = sb.bread_log) ∧
    (¬ resident_with_buffer sb g →
      (load_block_bitmap sb g).1.bread_log = sb.bread_log ++ [b]) := by
  have hinv := cache_inv_of_reachable sb hr
  have hd := hinv.lru_distinct hmode
  have hg : g < sb.s_groups_count := by
    by_contra hc
    rw [load_block_bitmap_panic sb g (by omega)] at hload
    simp at hload
  cases hs : (if 0 < sb.s_loaded_block_bitmaps ∧ sb.s_block_bitmap_number 0 = g
      then sb.s_block_bitmap 0 else none) with
  | some b0 =>
    have hfirst := load_block_bitmap_first sb g b0 hg hs
    rw [hfirst] at hload ⊢
    simp only [load_result.bh.injEq] at hload
    subst hload
    have hc : 0 < sb.s_loaded_block_bitmaps ∧ sb.s_block_bitmap_number 0 = g := by
      by_contra hc
      rw [if_neg hc] at hs
      simp at hs
    rw [if_pos hc] at hs
    have hres : resident_with_buffer sb g := by
      refine ⟨b0, ?_⟩
      unfold cache_entries
      rw [mem_slots]
      exact ⟨0, le_refl 0, by omega, by rw [hc.2, hs]⟩
    refine ⟨?_, fun _ => rfl, fun hn => absurd hres hn⟩
    dsimp only
    unfold cache_entries
    rw [← slots_hit sb.s_block_bitmap_number sb.s_block_bitmap EXT2_MAX_GROUP_LOADED g 0
      sb.s_loaded_block_bitmaps (some b0) hc.1 hc.2 hd]
    apply slots_congr
    intro x _ _
    by_cases hx : x = 0
    · simp only [if_pos hx]
      rw [hx, hc.2, hs]
    · have hx0 : ¬ x ≤ 0 := by omega
      simp only [if_neg hx, if_neg hx0]
  | none =>
    obtain ⟨m, loaded, bh0, res, hcase, -, hret, -, h2, h3, h4⟩ :=
      load_block_bitmap_lru_fields sb g hg hmode hs
    rw [hret] at hload
    have hres := bh_or_err_eq_bh res b hload
    subst hres
    refine ⟨?_, ?_⟩
    · unfold cache_entries
      rw [h2, h3, h4]
      dsimp only
      rcases hcase with ⟨c1, c2, c3, -⟩ | ⟨c1, c2, c3, c4, -⟩ | ⟨c1, c2, c3, c4, -⟩
      · rw [c3]
        exact slots_hit _ _ _ g m _ _ c1 c2 hd
      · rw [c4, c3]
        exact (slots_miss _ _ EXT2_MAX_GROUP_LOADED g _ _ c1).1 (by omega)
      · rw [c4]
        have hl := hinv.lru_loaded hmode
        exact (slots_miss _ _ EXT2_MAX_GROUP_LOADED g _ _ c1).2 m (by omega) c3
    · obtain ⟨m', loaded', bh1, hcase', hlog⟩ :=
        load_block_bitmap_lru_bread_log sb g b hg hmode hs (by rw [hret]; exact hload)
      have hiff : resident_with_buffer sb g ↔ bh1 = some b := by
        constructor
        · rintro ⟨b', hb'⟩
          unfold cache_entries at hb'
          rw [mem_slots] at hb'
          obtain ⟨x, -, hx, hfx⟩ := hb'
          simp only [Prod.mk.injEq] at hfx
          rcases hlog with ⟨hb1, -⟩ | ⟨hb1, -⟩
          · exact hb1
          · exfalso
            rcases hcase' with ⟨c1, c2, -, c4⟩ | ⟨c1, -⟩ | ⟨c1, -⟩
            · have hxm := hd x m' (by omega) c1 (hfx.1.trans c2.symm)
              rw [hxm, ← c4, hb1] at hfx
              simp at hfx
            · exact c1 x (by omega) hfx.1
            · exact c1 x (by omega) hfx.1
        · intro hb1
          rcases hcase' with ⟨c1, c2, -, c4⟩ | ⟨-, -, -, -, c5⟩ | ⟨-, -, -, -, c5⟩
          · refine ⟨b, ?_⟩
            unfold cache_entries
            rw [mem_slots]
            exact ⟨m', Nat.zero_le _, by omega, by rw [c2, ← c4, hb1]⟩
          · rw [c5] at hb1; simp at hb1
          · rw [c5] at hb1; simp at hb1
      constructor
      · intro hres
        rcases hlog with ⟨-, hl⟩ | ⟨hb1, -⟩
        · exact hl
        · have := hiff.mp hres
          rw [hb1] at this
          simp at this
      · intro hres
        rcases hlog with ⟨hb1, -⟩ | ⟨-, hl⟩
        · exact absurd (hiff.mpr hb1) hres
        · exact hl

set_option maxRecDepth 100000 in
theorem load_block_bitmap_move_to_front_witness :
    cache_entries (load_block_bitmap sb_large_loaded 7).1 =
      spec_move_to_front EXT2_MAX_GROUP_LOADED (cache_entries sb_large_loaded) 7 (some 230402) ∧
    (resident_with_buffer sb_large_loaded 7 →
      (load_block_bitmap sb_large_loaded 7).1.bread_log = sb_large_loaded.bread_log) ∧
    (¬ resident_with_buffer sb_large_loaded 7 →
      (load_block_bitmap sb_large_loaded 7).1.bread_log = sb_large_loaded.bread_log ++ [230402]) :=
  load_block_bitmap_move_to_front sb_large_loaded 7 230402 (by decide)
    cache_reachable_large_loaded (by decide)


theorem read_block_bitmap_fails (sb : super_block) (g : Nat)
    (h : sb.bread_ok (bitmap_block sb g) = false) : (read_block_bitmap sb g).2 = none := by
  unfold read_block_bitmap
  rcases hd : ext2_get_group_desc sb g with ⟨sb1, d⟩
  cases d with
  | none => rfl
  | some gdp =>
    obtain ⟨h1, h2, -, -⟩ := get_group_desc_eq_some hd
    subst h1 h2
    dsimp only
    unfold bitmap_block at h
    rw [if_neg (by rw [h]; simp)]

/-- The label `read_it` of `load_block_bitmap` when no buffer was found and
the read of the bitmap block fails: `ERR_PTR(-EIO)` is returned. -/
theorem load_read_it_fails (sb : super_block) (g slot : Nat)
    (h : sb.bread_ok (bitmap_block sb g) = false) :
    (load_read_it sb g slot none).2 = .err_ptr (- EIO) := by
  unfold load_read_it read_if_null
  dsimp only
  rw [read_block_bitmap_fails sb g h]
  rfl

theorem load_read_it_bread_log_some (sb : super_block) (g slot b : Nat) :
    (load_read_it sb g slot (some b)).1.bread_log = sb.bread_log := rfl

/-- A call of `load_block_bitmap` that asks the device for a block, the
read failing, returns `ERR_PTR(-EIO)`. -/
theorem load_block_bitmap_read_fails (sb : super_block) (g : Nat)
    (hread : (load_block_bitmap sb g).1.bread_log ≠ sb.bread_log)
    (hfail : sb.bread_ok (bitmap_block sb g) = false) :
    (load_block_bitmap sb g).2 = .err_ptr (- EIO) := by
  by_cases hg : sb.s_groups_count ≤ g
  · rw [load_block_bitmap_panic sb g hg] at hread
    exact absurd rfl hread
  · have hg1 : g < sb.s_groups_count := by omega
    cases hs : (if 0 < sb.s_loaded_block_bitmaps ∧ sb.s_block_bitmap_number 0 = g
        then sb.s_block_bitmap 0 else none) with
    | some b =>
      rw [load_block_bitmap_first sb g b hg1 hs] at hread
      exact absurd rfl hread
    | none =>
      by_cases hmode : sb.s_groups_count ≤ EXT2_MAX_GROUP_LOADED
      · rw [load_block_bitmap_direct sb g hg1 hmode hs] at hread ⊢
        cases hb : sb.s_block_bitmap g with
        | none =>
          rw [hb] at hread
          exact load_read_it_fails sb g g hfail
        | some b =>
          rw [hb] at hread
          dsimp only at hread
          split at hread
          · exact absurd rfl hread
          · exact absurd rfl hread
      · obtain ⟨m, loaded, bh0, -, heq⟩ := load_block_bitmap_lru sb g hg1 (by omega) hs
        rw [heq] at hread ⊢
        cases bh0 with
        | some b0 => exact absurd (load_read_it_bread_log_some _ g 0 b0) hread
        | none => exact load_read_it_fails _ g 0 hfail


theorem reads_succeeded_of_eq (sb sb1 : super_block) (h : sb1.bread_log = sb.bread_log) :
    reads_succeeded sb sb1 :=
  ⟨[], by rw [h, List.append_nil], fun b hb => absurd hb (List.not_mem_nil b)⟩

theorem reads_succeeded_trans {a b c : super_block} (h1 : reads_succeeded a b)
    (h2 : reads_succeeded b c) (hok : b.bread_ok = a.bread_ok) : reads_succeeded a c := by
  obtain ⟨l1, e1, o1⟩ := h1
  obtain ⟨l2, e2, o2⟩ := h2
  refine ⟨l1 ++ l2, by rw [e2, e1, List.append_assoc], ?_⟩
  intro x hx
  rcases List.mem_append.mp hx with hx | hx
  · exact o1 x hx
  · rw [← hok]; exact o2 x hx

theorem get_group_desc_bread_log (sb : super_block) (g : Nat) :
    (ext2_get_group_desc sb g).1.bread_log = sb.bread_log := by
  unfold ext2_get_group_desc
  split
  · rfl
  · dsimp only
    split <;> rfl

theorem read_block_bitmap_reads (sb : super_block) (g : Nat) :
    (read_block_bitmap sb g).2 = none ∨ reads_succeeded sb (read_block_bitmap sb g).1 := by
  unfold read_block_bitmap
  rcases hd : ext2_get_group_desc sb g with ⟨sb1, d⟩
  cases d with
  | none => left; rfl
  | some gdp =>
    obtain ⟨h1, -, -, -⟩ := get_group_desc_eq_some hd
    subst h1
    dsimp only
    split
    · right
      rename_i hok
      refine ⟨[(sb1.gdt gdp).bg_block_bitmap], rfl, ?_⟩
      intro b hb
      rw [List.mem_singleton] at hb
      rw [hb]; exact hok
    · left; rfl

theorem load_read_it_reads (sb : super_block) (g slot : Nat) (bh : Option Nat) :
    (∃ e, (load_read_it sb g slot bh).2 = .err_ptr e) ∨
      reads_succeeded sb (load_read_it sb g slot bh).1 := by
  cases bh with
  | some b => right; exact reads_succeeded_of_eq _ _ rfl
  | none =>
    rcases read_block_bitmap_reads sb g with h | h
    · left
      refine ⟨- EIO, ?_⟩
      unfold load_read_it read_if_null
      dsimp only
      rw [h]
      rfl
    · right
      exact h

/-- A call of `load_block_bitmap` returns an error, or every block it asked
the device for was read. -/
theorem load_block_bitmap_reads (sb : super_block) (g : Nat) :
    (∃ e, (load_block_bitmap sb g).2 = .err_ptr e) ∨
      reads_succeeded sb (load_block_bitmap sb g).1 := by
  by_cases hg : sb.s_groups_count ≤ g
  · rw [load_block_bitmap_panic sb g hg]
    right; exact reads_succeeded_of_eq _ _ rfl
  · have hg1 : g < sb.s_groups_count := by omega
    cases hs : (if 0 < sb.s_loaded_block_bitmaps ∧ sb.s_block_bitmap_number 0 = g
        then sb.s_block_bitmap 0 else none) with
    | some b =>
      rw [load_block_bitmap_first sb g b hg1 hs]
      right; exact reads_succeeded_of_eq _ _ rfl
    | none =>
      by_cases hmode : sb.s_groups_count ≤ EXT2_MAX_GROUP_LOADED
      · rw [load_block_bitmap_direct sb g hg1 hmode hs]
        cases hb : sb.s_block_bitmap g with
        | none => exact load_read_it_reads sb g g none
        | some b =>
          dsimp only
          right
          split <;> exact reads_succeeded_of_eq _ _ rfl
      · obtain ⟨m, loaded, bh0, -, heq⟩ := load_block_bitmap_lru sb g hg1 (by omega) hs
        rw [heq]
        rcases load_read_it_reads { sb with
            s_loaded_block_bitmaps := loaded
            s_block_bitmap_number := shift_slots sb.s_block_bitmap_number m
            s_block_bitmap := shift_slots sb.s_block_bitmap m } g 0 bh0 with h | h
        · left; exact h
        · right
          obtain ⟨l, e1, o1⟩ := h
          exact ⟨l, e1, o1⟩

theorem search_groups_bread_log (n : Nat) (sb : super_block) (i : Nat) :
    (search_groups n sb i).1.bread_log = sb.bread_log := by
  induction n generalizing sb i with
  | zero => rfl
  | succ n ih =>
    unfold search_groups
    dsimp only
    have hd := get_group_desc_bread_log sb (if sb.s_groups_count ≤ i + 1 then 0 else i + 1)
    rcases hdr : ext2_get_group_desc sb (if sb.s_groups_count ≤ i + 1 then 0 else i + 1)
      with ⟨sb1, d⟩
    rw [hdr] at hd
    cases d with
    | none => exact hd
    | some gdp =>
      dsimp only
      split
      · exact hd
      · rw [ih sb1]; exact hd


theorem reads_succeeded_step {a b c : super_block} (h1 : same_disk a b)
    (hl : b.bread_log = a.bread_log) (h2 : reads_succeeded b c) : reads_succeeded a c :=
  reads_succeeded_trans (reads_succeeded_of_eq a b hl) h2 h1.bread_ok

theorem find_in_other_groups_reads (sb : super_block) (i : Nat) :
    (∃ g, (find_in_other_groups sb i).2 = .load_failed g) ∨
      reads_succeeded sb (find_in_other_groups sb i).1 := by
  unfold find_in_other_groups
  have hs := (search_groups_spec sb.s_groups_count sb i).1
  have hl := search_groups_bread_log sb.s_groups_count sb i
  rcases hsr : search_groups sb.s_groups_count sb i with ⟨sb1, r⟩
  rw [hsr] at hs hl
  dsimp only at hl
  cases r with
  | no_desc => right; exact reads_succeeded_of_eq _ _ hl
  | not_found => right; exact reads_succeeded_of_eq _ _ hl
  | found i1 gdp =>
    dsimp only
    have hr := load_block_bitmap_reads sb1 i1
    rcases hlr : load_block_bitmap sb1 i1 with ⟨sb2, l⟩
    rw [hlr] at hr
    cases l with
    | err_ptr e => left; exact ⟨i1, rfl⟩
    | panic =>
      right
      rcases hr with ⟨e, he⟩ | hr
      · simp at he
      · exact reads_succeeded_step hs hl hr
    | bh b =>
      right
      rcases hr with ⟨e, he⟩ | hr
      · simp at he
      · have hfin := reads_succeeded_step hs hl hr
        dsimp only
        split_ifs
        · exact hfin
        · obtain ⟨l, e1, o1⟩ := hfin
          exact ⟨l, e1, o1⟩
        · exact hfin

theorem find_in_goal_group_reads (sb : super_block) (i gdp bh j : Nat) :
    (∃ g, (find_in_goal_group sb i gdp bh j).2 = .load_failed g) ∨
      reads_succeeded sb (find_in_goal_group sb i gdp bh j).1 := by
  unfold find_in_goal_group
  dsimp only
  split_ifs <;>
    first
    | exact Or.inr (reads_succeeded_of_eq _ _ rfl)
    | exact find_in_other_groups_reads sb i

/-- The search of a pass of `ext2_new_block` ends because a bitmap could not
be loaded, or every block it asked the device for was read. -/
theorem new_block_find_reads (sb : super_block) (goal : Nat) :
    (∃ g, (new_block_find sb goal).2 = .load_failed g) ∨
      reads_succeeded sb (new_block_find sb goal).1 := by
  unfold new_block_find
  dsimp only
  have hd := get_group_desc_same_disk sb
    (((if goal < sb.s_es.s_first_data_block ∨ sb.s_es.s_blocks_count ≤ goal
        then sb.s_es.s_first_data_block else goal) - sb.s_es.s_first_data_block) /
      sb.s_blocks_per_group)
  have hl := get_group_desc_bread_log sb
    (((if goal < sb.s_es.s_first_data_block ∨ sb.s_es.s_blocks_count ≤ goal
        then sb.s_es.s_first_data_block else goal) - sb.s_es.s_first_data_block) /
      sb.s_blocks_per_group)
  rcases hdr : ext2_get_group_desc sb _ with ⟨sb1, d⟩
  rw [hdr] at hd hl
  dsimp only at hl
  cases d with
  | none => right; exact reads_succeeded_of_eq _ _ hl
  | some gdp =>
    dsimp only
    split
    · have hr := load_block_bitmap_reads sb1
        (((if goal < sb.s_es.s_first_data_block ∨ sb.s_es.s_blocks_count ≤ goal
            then sb.s_es.s_first_data_block else goal) - sb.s_es.s_first_data_block) /
          sb.s_blocks_per_group)
      have hsd := load_block_bitmap_same_disk sb1
        (((if goal < sb.s_es.s_first_data_block ∨ sb.s_es.s_blocks_count ≤ goal
            then sb.s_es.s_first_data_block else goal) - sb.s_es.s_first_data_block) /
          sb.s_blocks_per_group)
      rcases hlr : load_block_bitmap sb1 _ with ⟨sb2, l⟩
      rw [hlr] at hr hsd
      cases l with
      | err_ptr e => left; exact ⟨_, rfl⟩
      | panic =>
        right
        rcases hr with ⟨e, he⟩ | hr
        · simp at he
        · exact reads_succeeded_step hd hl hr
      | bh b =>
        rcases hr with ⟨e, he⟩ | hr
        · simp at he
        · rcases find_in_goal_group_reads sb2 _ gdp b _ with h | h
          · left; exact h
          · right
            exact reads_succeeded_trans (reads_succeeded_step hd hl hr) h
              (same_disk_trans hd hsd).bread_ok
    · rcases find_in_other_groups_reads sb1 _ with h | h
      · left; exact h
      · right; exact reads_succeeded_step hd hl h


theorem new_block_check_zone_bread (sb : super_block) (gdp tmp : Nat) :
    (new_block_check_zone sb gdp tmp).bread_log = sb.bread_log ∧
    (new_block_check_zone sb gdp tmp).bread_ok = sb.bread_ok := by
  unfold new_block_check_zone
  split <;> exact ⟨rfl, rfl⟩

/-- What the label `got_block` does not touch: the device is not asked for a
block, and when `goto repeat` is taken no bitmap bit and no free block count
has changed. -/
theorem new_block_got_block_trace (ino : inode) (sb : super_block) (goal i gdp bh j : Nat) :
    (pass_sb (new_block_got_block ino sb goal i gdp bh j)).bread_log = sb.bread_log ∧
    (∀ ino1 g1, new_block_got_block ino sb goal i gdp bh j = .again ino1 g1 →
      same_disk sb ino1.i_sb) := by
  have hz := new_block_check_zone_bread sb gdp
    (u32 (j + i * sb.s_blocks_per_group + sb.s_es.s_first_data_block))
  have hzd := (new_block_check_zone_same_disk sb gdp
    (u32 (j + i * sb.s_blocks_per_group + sb.s_es.s_first_data_block))).1
  by_cases hq : quota_accepts ino.i_dquot
  · unfold new_block_got_block
    rw [DQUOT_ALLOC_BLOCK_accepts { ino with i_sb := sb } hq]
    dsimp only
    by_cases hbit : (ext2_set_bit (new_block_check_zone sb gdp
        (u32 (j + i * sb.s_blocks_per_group + sb.s_es.s_first_data_block))) bh j).2 = true
    · rw [if_pos hbit]
      refine ⟨hz.1, ?_⟩
      intro ino1 g1 he
      simp only [pass_result.again.injEq] at he
      rw [← he.1]
      exact same_disk_trans hzd
        (same_disk_trans (write_bit_same _ bh j true hbit) (same_disk_ext2_error _ _))
    · rw [if_neg hbit]
      split
      · exact ⟨hz.1, fun _ _ he => by simp at he⟩
      · exact ⟨hz.1, fun _ _ he => by simp at he⟩
  · unfold new_block_got_block
    rw [DQUOT_ALLOC_BLOCK_rejects { ino with i_sb := sb } hq]
    exact ⟨rfl, fun _ _ he => by simp [new_block_out] at he⟩

/-- How a pass of `ext2_new_block` ends: with 0 and `-EIO`, no bitmap bit and
no free block count changed; or with every block it asked the device for
read.  When `goto repeat` is taken no bitmap bit and no free block count has
changed. -/
theorem new_block_pass_trace (ino : inode) (sb : super_block) (goal : Nat) :
    ((∃ r, new_block_pass ino sb goal = .done r ∧ r.ret = 0 ∧ r.err = - EIO ∧
        r.panicked = false ∧ same_disk sb r.ino.i_sb) ∨
      reads_succeeded sb (pass_sb (new_block_pass ino sb goal))) ∧
    (∀ ino1 g1, new_block_pass ino sb goal = .again ino1 g1 → same_disk sb ino1.i_sb) := by
  rw [new_block_pass_finish]
  have hsd := new_block_find_same_disk sb goal
  have hr := new_block_find_reads sb goal
  rcases hf : new_block_find sb goal with ⟨sb1, f⟩
  rw [hf] at hsd hr
  dsimp only at hsd hr
  cases f with
  | load_failed g =>
    exact ⟨Or.inl ⟨_, rfl, rfl, rfl, rfl, hsd⟩, fun _ _ he => by
      simp [new_block_finish, new_block_io_error, new_block_out] at he⟩
  | got_block i gdp bh j =>
    rcases hr with ⟨g, hg⟩ | hr
    · simp at hg
    · obtain ⟨h1, h2⟩ := new_block_got_block_trace ino sb1 (norm_goal sb goal) i gdp bh j
      refine ⟨Or.inr ?_, ?_⟩
      · exact reads_succeeded_trans hr (reads_succeeded_of_eq _ _ h1) hsd.bread_ok
      · intro ino1 g1 he
        exact same_disk_trans hsd (h2 ino1 g1 he)
  | no_desc =>
    rcases hr with ⟨g, hg⟩ | hr
    · simp at hg
    · exact ⟨Or.inr hr, fun _ _ he => by
        simp [new_block_finish, new_block_io_error, new_block_out] at he⟩
  | load_panic =>
    rcases hr with ⟨g, hg⟩ | hr
    · simp at hg
    · exact ⟨Or.inr hr, fun _ _ he => by simp [new_block_finish] at he⟩
  | not_found =>
    rcases hr with ⟨g, hg⟩ | hr
    · simp at hg
    · exact ⟨Or.inr hr, fun _ _ he => by simp [new_block_finish, new_block_out] at he⟩
  | corrupted =>
    rcases hr with ⟨g, hg⟩ | hr
    · simp at hg
    · exact ⟨Or.inr hr, fun _ _ he => by simp [new_block_finish, new_block_out] at he⟩

/-- How the `goto repeat` loop of `ext2_new_block` ends, if it ends: with 0
and `-EIO`, no bitmap bit and no free block count changed; or with every
block it asked the device for read. -/
theorem new_block_repeat_trace (fuel : Nat) (ino : inode) (goal : Nat) (r : new_block_result)
    (h : new_block_repeat fuel ino goal = some r) :
    (r.ret = 0 ∧ r.err = - EIO ∧ r.panicked = false ∧ same_disk ino.i_sb r.ino.i_sb) ∨
      reads_succeeded ino.i_sb r.ino.i_sb := by
  induction fuel generalizing ino goal with
  | zero => simp [new_block_repeat] at h
  | succ fuel ih =>
    obtain ⟨h1, h2⟩ := new_block_pass_trace ino ino.i_sb goal
    unfold new_block_repeat at h
    rcases hp : new_block_pass ino ino.i_sb goal with r1 | ⟨ino1, g1⟩
    · rw [hp] at h h1
      simp only [Option.some.injEq] at h
      subst h
      rcases h1 with ⟨r2, he, e1, e2, e3, e4⟩ | h1
      · simp only [pass_result.done.injEq] at he
        subst he
        exact Or.inl ⟨e1, e2, e3, e4⟩
      · exact Or.inr h1
    · rw [hp] at h h1
      dsimp only at h
      have hsd := h2 ino1 g1 hp
      have hreads : reads_succeeded ino.i_sb ino1.i_sb := by
        rcases h1 with ⟨r2, he, -⟩ | h1
        · simp at he
        · exact h1
      rcases ih ino1 g1 h with ⟨e1, e2, e3, e4⟩ | h3
      · exact Or.inl ⟨e1, e2, e3, same_disk_trans hsd e4⟩
      · exact Or.inr (reads_succeeded_trans hreads h3 hsd.bread_ok)


/-- C17.  I/O failure is an error result.  A call of `load_block_bitmap` that
asks the device for the bitmap block, the read failing, returns
`ERR_PTR(-EIO)`, not a buffer.  A call of `ext2_new_block` in the course of
which a block asked of the device could not be read returns 0 with
`*err = -EIO`, and no bitmap bit and no free block count has changed (the
state differs from the one before the call in the bitmap cache, the log and
the record of reads only).  Such a call does return: when the search of its
first pass ends because the bitmap of a group `i` could not be loaded, one
pass gives that result. -/
theorem load_block_bitmap_io_failure (sb : super_block) (g fuel : Nat) (current : task_struct)
    (ino : inode) (goal i : Nat) :
    ((load_block_bitmap sb g).1.bread_log ≠ sb.bread_log →
      sb.bread_ok (bitmap_block sb g) = false →
      (load_block_bitmap sb g).2 = .err_ptr (- EIO)) ∧
    (∀ r, ext2_new_block fuel current ino goal = some r →
      (∃ l b, r.ino.i_sb.bread_log = ino.i_sb.bread_log ++ l ∧ b ∈ l ∧
        ino.i_sb.bread_ok b = false) →
      r.ret = 0 ∧ r.err = - EIO ∧ r.panicked = false ∧ same_disk ino.i_sb r.ino.i_sb) ∧
    (¬ reserved_reject ino.i_sb current →
      (new_block_find ino.i_sb goal).2 = .load_failed i →
      ∃ r, ext2_new_block (fuel + 1) current ino goal = some r ∧ r.ret = 0 ∧ r.err = - EIO ∧
        r.panicked = false ∧ same_disk ino.i_sb r.ino.i_sb ∧ r.ino.i_dquot = ino.i_dquot) := by
  refine ⟨load_block_bitmap_read_fails sb g, ?_, ?_⟩
  · intro r hr ⟨l, b, hl, hb, hfail⟩
    have hcases : (r.ret = 0 ∧ r.err = - EIO ∧ r.panicked = false ∧
        same_disk ino.i_sb r.ino.i_sb) ∨ reads_succeeded ino.i_sb r.ino.i_sb := by
      unfold ext2_new_block at hr
      dsimp only at hr
      split at hr
      · simp only [Option.some.injEq] at hr
        subst hr
        exact Or.inr (reads_succeeded_of_eq _ _ rfl)
      · exact new_block_repeat_trace fuel ino goal r hr
    rcases hcases with h | ⟨l1, hl1, hok⟩
    · exact h
    · rw [hl] at hl1
      have := List.append_cancel_left hl1
      rw [this] at hb
      rw [hok b hb] at hfail
      exact absurd hfail (by simp)
  · intro hres hfound
    have hsd := new_block_find_same_disk ino.i_sb goal
    have hpass : new_block_pass ino ino.i_sb goal =
        new_block_io_error ino (new_block_find ino.i_sb goal).1 := by
      rw [new_block_pass_finish]
      rcases hf : new_block_find ino.i_sb goal with ⟨sb1, f⟩
      rw [hf] at hfound
      dsimp only at hfound
      subst hfound
      rfl
    exact ⟨_, ext2_new_block_of_pass fuel current ino goal _ hres hpass, rfl, rfl, rfl, hsd, rfl⟩

set_option maxRecDepth 100000 in
theorem load_block_bitmap_io_failure_witness :
    (load_block_bitmap sb_bad_disk 0).2 = .err_ptr (- EIO) ∧
    (∃ r, ext2_new_block 1 task_root ino_bad_disk 5001 = some r ∧ r.ret = 0 ∧ r.err = - EIO ∧
      r.panicked = false ∧ same_disk ino_bad_disk.i_sb r.ino.i_sb ∧
      r.ino.i_dquot = ino_bad_disk.i_dquot) ∧
    (∀ r, ext2_new_block 1 task_root ino_bad_disk 5001 = some r →
      r.ret = 0 ∧ r.err = - EIO ∧ r.panicked = false ∧ same_disk ino_bad_disk.i_sb r.ino.i_sb) := by
  have h := load_block_bitmap_io_failure sb_bad_disk 0 0 task_root ino_bad_disk 5001 0
  have h1 := load_block_bitmap_io_failure sb_bad_disk 0 1 task_root ino_bad_disk 5001 0
  refine ⟨h.1 (by decide) (by decide),
    h.2.2 (by unfold reserved_reject; decide) (by decide), ?_⟩
  intro r hr
  refine h1.2.1 r hr ⟨[3], 3, ?_, by simp, by decide⟩
  have hlog : (ext2_new_block 1 task_root ino_bad_disk 5001).map
      (fun r => r.ino.i_sb.bread_log) = some [3] := by decide
  rw [hr] at hlog
  simp only [Option.map_some', Option.some.injEq] at hlog
  rw [hlog]
  rfl


set_option maxRecDepth 100000 in
/-- C19, at a failing input.  On `sb_near` the goal block 64 (bit 63 of group
0) is in use, group 0 has a stored free count of 9, and block 65, the block
right after the goal in the same group, is free.  `ext2_new_block` with goal
64 searches the window from bit 63 to `(63 + 63) & ~63 = 64`, that is the
goal bit alone, then looks for a free byte and returns block 201 with
`*err = 0`: a block 137 blocks after the goal, while block 65 stays free. -/
theorem ext2_new_block_misses_block_near_goal :
    block_bit sb_near 64 = true ∧ block_bit sb_near 65 = false ∧
    group_of sb_near 64 = 0 ∧ group_of sb_near 65 = 0 ∧
    0 < (sb_near.gdt 0).bg_free_blocks_count ∧
    (ext2_new_block 1 task_root ino_near 64).map (fun r =>
        (r.ret, r.err, r.panicked, block_bit r.ino.i_sb 65, block_bit r.ino.i_sb 201)) =
      some (201, 0, false, false, true) ∧
    64 + 32 < 201 := by
  decide

set_option maxRecDepth 100000 in
theorem fs_ok_near : fs_ok sb_near ∧ layout_ok sb_near := by
  refine ⟨⟨?_, ?_, ?_, ?_, ?_⟩, ?_⟩
  · constructor
    any_goals decide
    all_goals (intro g; simp only [sb_near]; split <;> decide)
  · constructor <;> decide
  · constructor
    · intro slot b h; simp [sb_near] at h
    · intro _ slot b _ h; simp [sb_near] at h
  · intro g hg
    have : g = 0 ∨ g = 1 := by
      have : g < 2 := hg
      omega
    rcases this with h | h <;> subst h <;> decide
  · intro g h hg hh he
    have h1 : g = 0 ∨ g = 1 := by
      have : g < 2 := hg
      omega
    have h2 : h = 0 ∨ h = 1 := by
      have : h < 2 := hh
      omega
    rcases h1 with h1 | h1 <;> rcases h2 with h2 | h2 <;> subst h1 <;> subst h2 <;>
      first | rfl | (exact absurd he (by decide))
  · constructor
    · decide
    · intro g hg n h1 h2
      have hg2 : g = 0 ∨ g = 1 := by
        have : g < 2 := hg
        omega
      have hn : 256 ≤ n := h1
      rcases hg2 with h | h <;> subst h
      · simp only [bitmap_block, sb_near, if_true]
        simp only [decide_eq_true_eq]
        omega
      · simp [bitmap_block, sb_near]
    · decide


/-- The loop of `test_root` ends within `a` rounds when `b` is at least 2 and
answers whether `a` is a power of `b`. -/
theorem test_root_loop_spec (b : Nat) (hb : 2 ≤ b) (fuel a : Nat) (h1 : 1 ≤ a)
    (hf : a ≤ fuel) :
    ∃ v, test_root_loop b fuel a = some v ∧ (v = 0 ∨ v = 1) ∧ (v = 1 ↔ ∃ k, a = b ^ k) := by
  induction fuel generalizing a with
  | zero => omega
  | succ fuel ih =>
    unfold test_root_loop
    by_cases ha1 : a = 1
    · rw [if_pos ha1]
      exact ⟨1, rfl, Or.inr rfl, ⟨fun _ => ⟨0, by rw [ha1, pow_zero]⟩, fun _ => rfl⟩⟩
    · rw [if_neg ha1]
      by_cases hmod : a % b ≠ 0
      · rw [if_pos hmod]
        refine ⟨0, rfl, Or.inl rfl, ⟨fun h => absurd h (by decide), ?_⟩⟩
        rintro ⟨k, hk⟩
        exfalso
        cases k with
        | zero => rw [pow_zero] at hk; exact ha1 hk
        | succ k =>
          apply hmod
          rw [hk, pow_succ]
          exact Nat.mul_mod_left _ _
      · rw [if_neg hmod]
        have hmod0 : a % b = 0 := by omega
        have hdvd : b ∣ a := Nat.dvd_of_mod_eq_zero hmod0
        obtain ⟨c, hc⟩ := hdvd
        have hcpos : 1 ≤ c := by
          rcases Nat.eq_zero_or_pos c with h0 | h0
          · rw [h0, Nat.mul_zero] at hc; omega
          · exact h0
        have hdiv : a / b = c := by
          rw [hc]
          exact Nat.mul_div_cancel_left c (by omega)
        have hlt : c < a := by
          rw [hc]
          calc c = 1 * c := (Nat.one_mul c).symm
            _ < b * c := Nat.mul_lt_mul_of_pos_right (by omega) hcpos
        rw [hdiv]
        obtain ⟨v, hv, h01, hiff⟩ := ih c hcpos (by omega)
        refine ⟨v, hv, h01, ?_⟩
        rw [hiff]
        constructor
        · rintro ⟨k, hk⟩
          exact ⟨k + 1, by rw [hc, hk, pow_succ, Nat.mul_comm]⟩
        · rintro ⟨k, hk⟩
          cases k with
          | zero => rw [pow_zero] at hk; exact absurd hk ha1
          | succ k =>
            refine ⟨k, ?_⟩
            have hbk : b * c = b * b ^ k := by rw [← hc, hk, pow_succ, Nat.mul_comm]
            exact Nat.eq_of_mul_eq_mul_left (show 0 < b by omega) hbk

/-- The function `test_root(a, b)` returns within `a` rounds of its loop when
`b` is at least 2: 1 if `a` is 0 or a power of `b`, and 0 if not. -/
theorem test_root_spec (b : Nat) (hb : 2 ≤ b) (fuel a : Nat) (hf : a ≤ fuel) :
    ∃ v, test_root fuel a b = some v ∧ (v = 0 ∨ v = 1) ∧
      (v = 1 ↔ a = 0 ∨ ∃ k, a = b ^ k) := by
  unfold test_root
  by_cases ha : a = 0
  · rw [if_pos ha]
    exact ⟨1, rfl, Or.inr rfl, ⟨fun _ => Or.inl ha, fun _ => rfl⟩⟩
  · rw [if_neg ha]
    obtain ⟨v, hv, h01, hiff⟩ := test_root_loop_spec b hb fuel a (by omega) hf
    refine ⟨v, hv, h01, ?_⟩
    rw [hiff]
    constructor
    · intro h; exact Or.inr h
    · rintro (h | h)
      · exact absurd h ha
      · exact h

/-- The function `ext2_group_sparse(group)` returns 1 if the group is 0 or a
power of 3, 5 or 7, and 0 if not. -/
theorem ext2_group_sparse_spec (fuel group : Nat) (hf : group ≤ fuel) :
    ∃ s, ext2_group_sparse fuel group = some s ∧ (s = 0 ∨ s = 1) ∧
      (s = 1 ↔ group = 0 ∨ (∃ k, group = 3 ^ k) ∨ (∃ k, group = 5 ^ k) ∨
        (∃ k, group = 7 ^ k)) := by
  obtain ⟨x, hx, x01, xiff⟩ := test_root_spec 3 (by omega) fuel group hf
  obtain ⟨y, hy, y01, yiff⟩ := test_root_spec 5 (by omega) fuel group hf
  obtain ⟨z, hz, z01, ziff⟩ := test_root_spec 7 (by omega) fuel group hf
  unfold ext2_group_sparse
  rw [hx]
  dsimp only
  by_cases hx0 : x ≠ 0
  · rw [if_pos hx0]
    have hx1 : x = 1 := x01.resolve_left hx0
    refine ⟨1, rfl, Or.inr rfl, ⟨fun _ => ?_, fun _ => rfl⟩⟩
    rcases xiff.mp hx1 with h | h
    · exact Or.inl h
    · exact Or.inr (Or.inl h)
  · rw [if_neg hx0, hy]
    dsimp only
    have hxn : ¬ (group = 0 ∨ ∃ k, group = 3 ^ k) :=
      fun h => hx0 (by rw [xiff.mpr h]; decide)
    by_cases hy0 : y ≠ 0
    · rw [if_pos hy0]
      have hy1 : y = 1 := y01.resolve_left hy0
      refine ⟨1, rfl, Or.inr rfl, ⟨fun _ => ?_, fun _ => rfl⟩⟩
      rcases yiff.mp hy1 with h | h
      · exact Or.inl h
      · exact Or.inr (Or.inr (Or.inl h))
    · rw [if_neg hy0, hz]
      dsimp only
      have hyn : ¬ (group = 0 ∨ ∃ k, group = 5 ^ k) :=
        fun h => hy0 (by rw [yiff.mpr h]; decide)
      by_cases hz0 : z ≠ 0
      · rw [if_pos hz0]
        have hz1 : z = 1 := z01.resolve_left hz0
        refine ⟨1, rfl, Or.inr rfl, ⟨fun _ => ?_, fun _ => rfl⟩⟩
        rcases ziff.mp hz1 with h | h
        · exact Or.inl h
        · exact Or.inr (Or.inr (Or.inr h))
      · rw [if_neg hz0]
        have hzn : ¬ (group = 0 ∨ ∃ k, group = 7 ^ k) :=
          fun h => hz0 (by rw [ziff.mpr h]; decide)
        refine ⟨0, rfl, Or.inl rfl, ⟨fun h => absurd h (by decide), ?_⟩⟩
        rintro (h | h | h | h)
        · exact absurd (Or.inl h) hxn
        · exact absurd (Or.inr h) hxn
        · exact absurd (Or.inr h) hyn
        · exact absurd (Or.inr h) hzn

/-- C20.  The function `ext2_bg_has_super` returns (the loops of `test_root`
end within `group` rounds), its value is 0 or 1, and it is 0 exactly when the
sparse-super feature is set and the group is none of 0, 1, a power of 3, a
power of 5 or a power of 7.  The function `test_root(a, b)`, for `a >= 0` and
`b` one of 3, 5, 7, returns within `a` rounds of its loop, and it returns 1
if `a = 0` or `a = b ^ k` for some `k >= 0`, and 0 if not. -/
theorem ext2_bg_has_super_zero_or_one (fuel : Nat) (sparse_super : Bool) (group a b : Nat)
    (hgroup : group ≤ fuel) (ha : a ≤ fuel) (hb : b = 3 ∨ b = 5 ∨ b = 7) :
    (∃ v, ext2_bg_has_super fuel sparse_super group = some v ∧ (v = 0 ∨ v = 1) ∧
      (v = 0 ↔ sparse_super = true ∧ group ≠ 0 ∧ group ≠ 1 ∧ (∀ k, group ≠ 3 ^ k) ∧
        (∀ k, group ≠ 5 ^ k) ∧ (∀ k, group ≠ 7 ^ k))) ∧
    (∃ v, test_root fuel a b = some v ∧ (v = 0 ∨ v = 1) ∧
      (v = 1 ↔ a = 0 ∨ ∃ k, a = b ^ k)) := by
  refine ⟨?_, test_root_spec b (by omega) fuel a ha⟩
  obtain ⟨s, hs, s01, siff⟩ := ext2_group_sparse_spec fuel group hgroup
  unfold ext2_bg_has_super
  by_cases hsp : sparse_super = true
  · rw [if_pos hsp, hs]
    dsimp only
    by_cases hs0 : s = 0
    · rw [if_pos hs0]
      refine ⟨0, rfl, Or.inl rfl, ⟨fun _ => ?_, fun _ => rfl⟩⟩
      have hn : ¬ (group = 0 ∨ (∃ k, group = 3 ^ k) ∨ (∃ k, group = 5 ^ k) ∨
          (∃ k, group = 7 ^ k)) := fun h => by
        have h1 := siff.mpr h
        rw [hs0] at h1
        exact absurd h1 (by decide)
      refine ⟨hsp, fun h => hn (Or.inl h), fun h => hn (Or.inr (Or.inl ⟨0, by rw [h, pow_zero]⟩)),
        fun k h => hn (Or.inr (Or.inl ⟨k, h⟩)), fun k h => hn (Or.inr (Or.inr (Or.inl ⟨k, h⟩))),
        fun k h => hn (Or.inr (Or.inr (Or.inr ⟨k, h⟩)))⟩
    · rw [if_neg hs0]
      refine ⟨1, rfl, Or.inr rfl, ⟨fun h => absurd h (by decide), ?_⟩⟩
      rintro ⟨-, h0, -, h3, h5, h7⟩
      exfalso
      have hs1 : s = 1 := s01.resolve_left hs0
      rcases siff.mp hs1 with h | ⟨k, h⟩ | ⟨k, h⟩ | ⟨k, h⟩
      · exact h0 h
      · exact h3 k h
      · exact h5 k h
      · exact h7 k h
  · rw [if_neg hsp]
    refine ⟨1, rfl, Or.inr rfl, ⟨fun h => absurd h (by decide), ?_⟩⟩
    rintro ⟨h, -⟩
    exact absurd h hsp

theorem ext2_bg_has_super_zero_or_one_witness :
    (∃ v, ext2_bg_has_super 25 true 6 = some v ∧ (v = 0 ∨ v = 1) ∧
      (v = 0 ↔ true = true ∧ 6 ≠ 0 ∧ 6 ≠ 1 ∧ (∀ k, 6 ≠ 3 ^ k) ∧
        (∀ k, 6 ≠ 5 ^ k) ∧ (∀ k, 6 ≠ 7 ^ k))) ∧
    (∃ v, test_root 25 25 5 = some v ∧ (v = 0 ∨ v = 1) ∧
      (v = 1 ↔ 25 = 0 ∨ ∃ k, 25 = 5 ^ k)) :=
  ext2_bg_has_super_zero_or_one 25 true 6 25 5 (by decide) (by decide) (by decide)


theorem same_disk_symm {a b : super_block} (h : same_disk a b) : same_disk b a := by
  constructor
  · exact h.s_es.symm
  · exact h.s_blocksize.symm
  · exact h.s_blocks_per_group.symm
  · exact h.s_itb_per_group.symm
  · exact h.s_groups_count.symm
  · exact h.s_desc_per_block.symm
  · exact h.s_group_desc.symm
  · exact h.gdt.symm
  · exact h.s_resuid.symm
  · exact h.s_resgid.symm
  · exact h.s_dirt.symm
  · exact h.bread_ok.symm
  · exact h.b_data.symm

theorem io_ok_of_same_disk {a b : super_block} (h : io_ok a) (hsd : same_disk a b) : io_ok b := by
  unfold io_ok at *
  rw [hsd.s_groups_count, hsd.s_desc_per_block, hsd.s_group_desc, hsd.bread_ok]
  intro g hg
  rw [bitmap_block_same hsd]
  exact h g hg

theorem load_read_it_log (sb : super_block) (g slot : Nat) (bh : Option Nat) (hio : io_ok sb)
    (hg : g < sb.s_groups_count) : (load_read_it sb g slot bh).1.log = sb.log := by
  cases bh with
  | some b => rfl
  | none =>
    unfold load_read_it read_if_null
    dsimp only
    rw [read_block_bitmap_ok hio hg]
    rfl

/-- On a state with a coherent bitmap cache whose bitmaps can all be read,
`load_block_bitmap` reports nothing. -/
theorem load_block_bitmap_log (sb : super_block) (g : Nat) (hc : cache_ok sb) (hio : io_ok sb)
    (hg : g < sb.s_groups_count) : (load_block_bitmap sb g).1.log = sb.log := by
  cases hs : (if 0 < sb.s_loaded_block_bitmaps ∧ sb.s_block_bitmap_number 0 = g
      then sb.s_block_bitmap 0 else none) with
  | some b => rw [load_block_bitmap_first sb g b hg hs]
  | none =>
    by_cases hmode : sb.s_groups_count ≤ EXT2_MAX_GROUP_LOADED
    · rw [load_block_bitmap_direct sb g hg hmode hs]
      cases hb : sb.s_block_bitmap g with
      | none => exact load_read_it_log sb g g none hio hg
      | some b =>
        dsimp only
        rw [if_pos (hc.2 hmode g b hg hb)]
    · obtain ⟨m, loaded, bh0, -, heq⟩ := load_block_bitmap_lru sb g hg (by omega) hs
      rw [heq]
      exact load_read_it_log _ g 0 bh0 hio hg

/-- The loop of `ext2_count_free_blocks` changes no bitmap bit and no free
block count. -/
theorem count_free_loop_same_disk (n i : Nat) (sb : super_block) (dc bc : Nat)
    (out : List audit_line) (p : Bool) :
    same_disk sb (count_free_loop n i
      { sb := sb, desc_count := dc, bitmap_count := bc, out := out, panicked := p }).sb := by
  induction n generalizing i sb dc bc out p with
  | zero => exact same_disk_refl _
  | succ n ih =>
    unfold count_free_loop
    dsimp only
    have hd := get_group_desc_same_disk sb i
    rcases hdr : ext2_get_group_desc sb i with ⟨sb1, d⟩
    rw [hdr] at hd
    dsimp only at hd
    cases d with
    | none =>
      dsimp only
      exact same_disk_trans hd (ih _ _ _ _ _ _)
    | some gdp =>
      dsimp only
      have hl := load_block_bitmap_same_disk sb1 i
      rcases hlr : load_block_bitmap sb1 i with ⟨sb2, l⟩
      rw [hlr] at hl
      dsimp only at hl
      cases l with
      | panic => exact same_disk_trans hd hl
      | err_ptr e =>
        dsimp only
        exact same_disk_trans hd (same_disk_trans hl (ih _ _ _ _ _ _))
      | bh b =>
        dsimp only
        exact same_disk_trans hd (same_disk_trans hl (ih _ _ _ _ _ _))

/-- The function `ext2_count_free_blocks` changes no bitmap bit and no free
block count. -/
theorem ext2_count_free_blocks_same_disk (debug : Bool) (sb : super_block) :
    same_disk sb (ext2_count_free_blocks debug sb).sb := by
  unfold ext2_count_free_blocks
  split
  · dsimp only
    split
    · exact count_free_loop_same_disk sb.s_groups_count 0 sb 0 0 [] false
    · exact count_free_loop_same_disk sb.s_groups_count 0 sb 0 0 [] false
  · exact same_disk_refl _


/-- What `load_block_bitmap` does on a state with a coherent bitmap cache
whose bitmaps can all be read: it returns the bitmap block of the group and
reports nothing; the cache stays coherent and the disk as it was. -/
theorem load_block_bitmap_quiet (sb : super_block) (g : Nat) (hc : cache_ok sb) (hio : io_ok sb)
    (hg : g < sb.s_groups_count) :
    load_block_bitmap sb g = ((load_block_bitmap sb g).1, .bh (bitmap_block sb g)) ∧
    same_disk sb (load_block_bitmap sb g).1 ∧ cache_ok (load_block_bitmap sb g).1 ∧
    io_ok (load_block_bitmap sb g).1 ∧ (load_block_bitmap sb g).1.log = sb.log := by
  obtain ⟨h1, h2, -, h4⟩ := load_block_bitmap_spec sb g hc
  have h := h4 hio hg
  refine ⟨?_, h1, h2, io_ok_of_same_disk hio h1, load_block_bitmap_log sb g hc hio hg⟩
  rw [← h]

theorem ext2_count_free_same_disk {a b : super_block} (h : same_disk a b) (bh : Nat) :
    ext2_count_free b bh b.s_blocksize = ext2_count_free a bh a.s_blocksize := by
  unfold ext2_count_free
  rw [h.b_data, h.s_blocksize]

/-- The loop of `ext2_count_free_blocks` run on two states of the same disk,
both with a coherent bitmap cache, all bitmaps being readable: the counts and
the lines printed are the same. -/
theorem count_free_loop_sync (n i : Nat) (a b : super_block) (dc bc : Nat)
    (out : List audit_line) (hsd : same_disk a b) (hca : cache_ok a) (hcb : cache_ok b)
    (hio : io_ok a) (hn : i + n ≤ a.s_groups_count) :
    (count_free_loop n i
        { sb := b, desc_count := dc, bitmap_count := bc, out := out, panicked := false }).desc_count =
      (count_free_loop n i
        { sb := a, desc_count := dc, bitmap_count := bc, out := out, panicked := false }).desc_count ∧
    (count_free_loop n i
        { sb := b, desc_count := dc, bitmap_count := bc, out := out, panicked := false }).bitmap_count =
      (count_free_loop n i
        { sb := a, desc_count := dc, bitmap_count := bc, out := out, panicked := false }).bitmap_count ∧
    (count_free_loop n i
        { sb := b, desc_count := dc, bitmap_count := bc, out := out, panicked := false }).out =
      (count_free_loop n i
        { sb := a, desc_count := dc, bitmap_count := bc, out := out, panicked := false }).out ∧
    (count_free_loop n i
        { sb := b, desc_count := dc, bitmap_count := bc, out := out, panicked := false }).panicked =
      false ∧
    (count_free_loop n i
        { sb := a, desc_count := dc, bitmap_count := bc, out := out, panicked := false }).panicked =
      false ∧
    cache_ok (count_free_loop n i
        { sb := a, desc_count := dc, bitmap_count := bc, out := out, panicked := false }).sb := by
  induction n generalizing i a b dc bc out with
  | zero => exact ⟨rfl, rfl, rfl, rfl, rfl, hca⟩
  | succ n ih =>
    have hia : i < a.s_groups_count := by omega
    have hib : i < b.s_groups_count := by rw [hsd.s_groups_count]; exact hia
    have hiob := io_ok_of_same_disk hio hsd
    obtain ⟨ea, sa, ca, ioa, -⟩ := load_block_bitmap_quiet a i hca hio hia
    obtain ⟨eb, sb', cb, -, -⟩ := load_block_bitmap_quiet b i hcb hiob hib
    have hsd' : same_disk (load_block_bitmap a i).1 (load_block_bitmap b i).1 :=
      same_disk_trans (same_disk_symm sa) (same_disk_trans hsd sb')
    have hx : ext2_count_free (load_block_bitmap b i).1 (bitmap_block b i)
          (load_block_bitmap b i).1.s_blocksize =
        ext2_count_free (load_block_bitmap a i).1 (bitmap_block a i)
          (load_block_bitmap a i).1.s_blocksize := by
      rw [bitmap_block_same hsd]
      exact ext2_count_free_same_disk hsd' _
    have hgc : (load_block_bitmap a i).1.s_groups_count = a.s_groups_count := sa.s_groups_count
    unfold count_free_loop
    dsimp only
    rw [get_group_desc_some a i hia (hio i hia).1, get_group_desc_some b i hib (hiob i hib).1]
    dsimp only
    rw [ea, eb]
    dsimp only
    rw [hx, sb'.gdt, hsd.gdt, sa.gdt]
    exact ih (i + 1) _ _ _ _ _ hsd' ca cb ioa (by omega)


/-- The function `ext2_count_free_blocks` run twice in a row on a state with
a coherent bitmap cache whose bitmaps can all be read: both runs return, with
the same value and the same lines printed. -/
theorem ext2_count_free_blocks_twice (debug : Bool) (sb : super_block) (hc : cache_ok sb)
    (hio : io_ok sb) :
    (ext2_count_free_blocks debug sb).panicked = false ∧
    (ext2_count_free_blocks debug (ext2_count_free_blocks debug sb).sb).panicked = false ∧
    (ext2_count_free_blocks debug (ext2_count_free_blocks debug sb).sb).ret =
      (ext2_count_free_blocks debug sb).ret ∧
    (ext2_count_free_blocks debug (ext2_count_free_blocks debug sb).sb).out =
      (ext2_count_free_blocks debug sb).out := by
  cases debug with
  | false => exact ⟨rfl, rfl, rfl, rfl⟩
  | true =>
    obtain ⟨-, -, -, -, hp1, hc1⟩ := count_free_loop_sync sb.s_groups_count 0 sb sb 0 0 []
      (same_disk_refl sb) hc hc hio (by omega)
    have hsd := count_free_loop_same_disk sb.s_groups_count 0 sb 0 0 [] false
    have e1 : ext2_count_free_blocks true sb =
        { sb := (count_free_loop sb.s_groups_count 0
            { sb := sb, desc_count := 0, bitmap_count := 0, out := [], panicked := false }).sb
          ret := (count_free_loop sb.s_groups_count 0
            { sb := sb, desc_count := 0, bitmap_count := 0, out := [], panicked := false }).bitmap_count
          out := (count_free_loop sb.s_groups_count 0
            { sb := sb, desc_count := 0, bitmap_count := 0, out := [], panicked := false }).out ++
            [.total (count_free_loop sb.s_groups_count 0
              { sb := sb, desc_count := 0, bitmap_count := 0, out := [],
                panicked := false }).sb.s_es.s_free_blocks_count
              (count_free_loop sb.s_groups_count 0
                { sb := sb, desc_count := 0, bitmap_count := 0, out := [],
                  panicked := false }).desc_count
              (count_free_loop sb.s_groups_count 0
                { sb := sb, desc_count := 0, bitmap_count := 0, out := [],
                  panicked := false }).bitmap_count]
          panicked := false } := by
      unfold ext2_count_free_blocks
      rw [if_pos rfl]
      dsimp only
      rw [if_neg (by rw [hp1]; simp)]
    obtain ⟨h1, h2, h3, hp2, -, -⟩ := count_free_loop_sync sb.s_groups_count 0 sb
      (count_free_loop sb.s_groups_count 0
        { sb := sb, desc_count := 0, bitmap_count := 0, out := [], panicked := false }).sb
      0 0 [] hsd hc hc1 hio (by omega)
    have hsd2 := count_free_loop_same_disk sb.s_groups_count 0
      (count_free_loop sb.s_groups_count 0
        { sb := sb, desc_count := 0, bitmap_count := 0, out := [], panicked := false }).sb
      0 0 [] false
    rw [e1]
    dsimp only
    unfold ext2_count_free_blocks
    rw [if_pos rfl]
    dsimp only
    rw [hsd.s_groups_count, if_neg (by rw [hp2]; simp)]
    dsimp only
    rw [h1, h2, h3, hsd2.s_es]
    exact ⟨rfl, rfl, rfl, rfl⟩


theorem only_log_refl (a : super_block) : only_log a a :=
  ⟨same_disk_refl a, rfl, rfl, rfl⟩

theorem only_log_trans {a b c : super_block} (h1 : only_log a b) (h2 : only_log b c) :
    only_log a c :=
  ⟨same_disk_trans h1.disk h2.disk, h2.s_loaded_block_bitmaps.trans h1.s_loaded_block_bitmaps,
    h2.s_block_bitmap_number.trans h1.s_block_bitmap_number,
    h2.s_block_bitmap.trans h1.s_block_bitmap⟩

theorem only_log_error (a : super_block) (m : ext2_msg) : only_log a (ext2_error a m) :=
  ⟨same_disk_ext2_error a m, rfl, rfl, rfl⟩

theorem only_log_cond (a : super_block) (p : Prop) [Decidable p] (m : ext2_msg) :
    only_log a (if p then ext2_error a m else a) := by
  split
  · exact only_log_error a m
  · exact only_log_refl a

theorem cache_ok_of_only_log {a b : super_block} (hc : cache_ok a) (h : only_log a b) :
    cache_ok b :=
  cache_ok_of_same hc h.disk h.s_block_bitmap h.s_block_bitmap_number

theorem log_sync_error {la lb : List ext2_msg} {a b : super_block} (h : log_sync la lb a b)
    (m : ext2_msg) : log_sync la lb (ext2_error a m) (ext2_error b m) := by
  obtain ⟨ms, h1, h2⟩ := h.logs
  refine ⟨same_disk_trans (same_disk_symm (same_disk_ext2_error a m))
    (same_disk_trans h.disk (same_disk_ext2_error b m)), ms ++ [m], ?_, ?_⟩
  · show a.log ++ [m] = la ++ (ms ++ [m])
    rw [h1, List.append_assoc]
  · show b.log ++ [m] = lb ++ (ms ++ [m])
    rw [h2, List.append_assoc]

theorem log_sync_cond {la lb : List ext2_msg} {a b : super_block} (h : log_sync la lb a b)
    (p q : Prop) [Decidable p] [Decidable q] (hpq : p ↔ q) (m : ext2_msg) :
    log_sync la lb (if p then ext2_error a m else a) (if q then ext2_error b m else b) := by
  by_cases hp : p
  · rw [if_pos hp, if_pos (hpq.mp hp)]
    exact log_sync_error h m
  · rw [if_neg hp, if_neg (fun hq => hp (hpq.mpr hq))]
    exact h

theorem check_desc_blocks_only_log (bh i n j : Nat) (a : super_block) :
    only_log a (check_desc_blocks bh i n j a) := by
  induction n generalizing j a with
  | zero => exact only_log_refl a
  | succ n ih =>
    unfold check_desc_blocks
    exact only_log_trans (only_log_cond a _ _) (ih _ _)

theorem check_desc_blocks_sync (bh i n j : Nat) (la lb : List ext2_msg) (a b : super_block)
    (h : log_sync la lb a b) :
    log_sync la lb (check_desc_blocks bh i n j a) (check_desc_blocks bh i n j b) := by
  induction n generalizing j a b with
  | zero => exact h
  | succ n ih =>
    unfold check_desc_blocks
    apply ih
    apply log_sync_cond h
    unfold ext2_test_bit
    rw [h.disk.b_data]

theorem block_in_use_same_disk {a b : super_block} (h : same_disk a b) (block bh : Nat) :
    block_in_use b block bh = block_in_use a block bh := by
  unfold block_in_use ext2_test_bit
  rw [h.b_data, h.s_es, h.s_blocks_per_group]

theorem check_inode_table_only_log (bh gdp i n j : Nat) (a : super_block) :
    only_log a (check_inode_table bh gdp i n j a) := by
  induction n generalizing j a with
  | zero => exact only_log_refl a
  | succ n ih =>
    unfold check_inode_table
    exact only_log_trans (only_log_cond a _ _) (ih _ _)

theorem check_inode_table_sync (bh gdp i n j : Nat) (la lb : List ext2_msg) (a b : super_block)
    (h : log_sync la lb a b) :
    log_sync la lb (check_inode_table bh gdp i n j a) (check_inode_table bh gdp i n j b) := by
  induction n generalizing j a b with
  | zero => exact h
  | succ n ih =>
    unfold check_inode_table
    apply ih
    apply log_sync_cond h
    rw [block_in_use_same_disk h.disk, h.disk.gdt]


theorem quiet_step_comp {f g : super_block → super_block} (hf : quiet_step f)
    (hg : quiet_step g) : quiet_step (fun s => g (f s)) :=
  ⟨fun a => only_log_trans (hf.1 a) (hg.1 (f a)),
   fun la lb a b h => hg.2 la lb (f a) (f b) (hf.2 la lb a b h)⟩

theorem quiet_step_cond (c : super_block → Prop) [∀ s, Decidable (c s)]
    (m : super_block → ext2_msg) (hc : ∀ a b, same_disk a b → (c a ↔ c b))
    (hm : ∀ a b, same_disk a b → m b = m a) :
    quiet_step (fun s => if c s then ext2_error s (m s) else s) := by
  constructor
  · intro a
    exact only_log_cond a _ _
  · intro la lb a b h
    dsimp only
    rw [hm a b h.disk]
    exact log_sync_cond h _ _ (hc a b h.disk) _

theorem quiet_step_desc_blocks (bh i n : Nat) :
    quiet_step (fun s => check_desc_blocks bh i n 0 s) :=
  ⟨fun a => check_desc_blocks_only_log bh i n 0 a,
   fun la lb a b h => check_desc_blocks_sync bh i n 0 la lb a b h⟩

theorem quiet_step_inode_table (bh gdp i : Nat) :
    quiet_step (fun s => check_inode_table bh gdp i s.s_itb_per_group 0 s) := by
  constructor
  · intro a
    exact check_inode_table_only_log bh gdp i _ 0 a
  · intro la lb a b h
    dsimp only
    rw [h.disk.s_itb_per_group]
    exact check_inode_table_sync bh gdp i _ 0 la lb a b h

theorem ext2_bg_has_super_some (sparse_super : Bool) (i : Nat) :
    ∃ v, ext2_bg_has_super i sparse_super i = some v := by
  obtain ⟨s, hs, -, -⟩ := ext2_group_sparse_spec i i (le_refl i)
  unfold ext2_bg_has_super
  split
  · rw [hs]
    dsimp only
    split
    · exact ⟨0, rfl⟩
    · exact ⟨1, rfl⟩
  · exact ⟨1, rfl⟩

theorem ext2_bg_num_gdb_some (sparse_super : Bool) (s_gdb_count i : Nat) :
    ∃ v, ext2_bg_num_gdb i sparse_super s_gdb_count i = some v := by
  obtain ⟨s, hs, -, -⟩ := ext2_group_sparse_spec i i (le_refl i)
  unfold ext2_bg_num_gdb
  split
  · rw [hs]
    dsimp only
    split
    · exact ⟨0, rfl⟩
    · exact ⟨s_gdb_count, rfl⟩
  · exact ⟨s_gdb_count, rfl⟩

theorem quiet_step_marks (d i gdp bh : Nat) :
    quiet_step (fun s => check_group_marks d i gdp bh s) := by
  have q2 := quiet_step_desc_blocks bh i d
  have q3 := @quiet_step_comp _ _ q2 (quiet_step_cond
    (fun s => block_in_use s (s.gdt gdp).bg_block_bitmap bh = false)
    (fun _ => .block_bitmap_marked_free i)
    (fun a b h => by dsimp only; rw [block_in_use_same_disk h, h.gdt]) (fun _ _ _ => rfl))
  have q4 := @quiet_step_comp _ _ q3 (quiet_step_cond
    (fun s => block_in_use s (s.gdt gdp).bg_inode_bitmap bh = false)
    (fun _ => .inode_bitmap_marked_free i)
    (fun a b h => by dsimp only; rw [block_in_use_same_disk h, h.gdt]) (fun _ _ _ => rfl))
  exact @quiet_step_comp _ (fun s => check_inode_table bh gdp i s.s_itb_per_group 0 s) q4
    (quiet_step_inode_table bh gdp i)

theorem quiet_step_count (i gdp bh : Nat) :
    quiet_step (fun s => (check_group_count i gdp bh s).1) :=
  quiet_step_cond
    (fun s => (s.gdt gdp).bg_free_blocks_count ≠ ext2_count_free s bh s.s_blocksize)
    (fun s => .wrong_group_free_count i (s.gdt gdp).bg_free_blocks_count
      (ext2_count_free s bh s.s_blocksize))
    (fun a b h => by dsimp only; rw [ext2_count_free_same_disk h, h.gdt])
    (fun a b h => by dsimp only; rw [ext2_count_free_same_disk h, h.gdt])

/-- The checks of `ext2_check_blocks_bitmap` on one group return; they at most
log messages, and on two states of the same disk they log the same messages
and count the same number of free blocks. -/
theorem check_group_spec (sparse_super : Bool) (s_gdb_count i gdp bh : Nat) :
    ∃ f : super_block → super_block, ∃ x : super_block → Nat, quiet_step f ∧
      (∀ a b, same_disk a b → x b = x a) ∧
      ∀ a, check_group sparse_super s_gdb_count a i gdp bh = some (f a, x a) := by
  obtain ⟨v, hv⟩ := ext2_bg_has_super_some sparse_super i
  obtain ⟨d, hd⟩ := ext2_bg_num_gdb_some sparse_super s_gdb_count i
  have q1 : quiet_step (fun s => if v ≠ 0 ∧ ext2_test_bit s bh 0 = false
      then ext2_error s (.super_block_marked_free i) else s) :=
    quiet_step_cond (fun s => v ≠ 0 ∧ ext2_test_bit s bh 0 = false) (fun _ => _)
      (fun a b h => by dsimp only; unfold ext2_test_bit; rw [h.b_data]) (fun _ _ _ => rfl)
  have q5 := @quiet_step_comp _ (fun s => check_group_marks d i gdp bh s) q1
    (quiet_step_marks d i gdp bh)
  have q6 := @quiet_step_comp _ (fun s => (check_group_count i gdp bh s).1) q5
    (quiet_step_count i gdp bh)
  refine ⟨_, fun a => (check_group_count i gdp bh (check_group_marks d i gdp bh
    (if v ≠ 0 ∧ ext2_test_bit a bh 0 = false
     then ext2_error a (.super_block_marked_free i) else a))).2, q6, ?_, ?_⟩
  · intro a b h
    exact ext2_count_free_same_disk (q5.2 a.log b.log a b
      ⟨h, [], (List.append_nil _).symm, (List.append_nil _).symm⟩).disk bh
  · intro a
    unfold check_group
    rw [hv, hd]


/-- The loop of `ext2_check_blocks_bitmap` ends, and it changes no bitmap bit
and no free block count. -/
theorem check_loop_same_disk (sparse_super : Bool) (s_gdb_count n i : Nat) (sb : super_block)
    (dc bc : Nat) (out : List audit_line) (p : Bool) :
    ∃ r, check_loop sparse_super s_gdb_count n i
        { sb := sb, desc_count := dc, bitmap_count := bc, out := out, panicked := p } = some r ∧
      same_disk sb r.sb := by
  induction n generalizing i sb dc bc out p with
  | zero => exact ⟨_, rfl, same_disk_refl _⟩
  | succ n ih =>
    unfold check_loop
    dsimp only
    have hd := get_group_desc_same_disk sb i
    rcases hdr : ext2_get_group_desc sb i with ⟨sb1, d⟩
    rw [hdr] at hd
    dsimp only at hd
    cases d with
    | none =>
      dsimp only
      obtain ⟨r, hr, hsd⟩ := ih (i + 1) sb1 dc bc out p
      exact ⟨r, hr, same_disk_trans hd hsd⟩
    | some gdp =>
      dsimp only
      have hl := load_block_bitmap_same_disk sb1 i
      rcases hlr : load_block_bitmap sb1 i with ⟨sb2, l⟩
      rw [hlr] at hl
      dsimp only at hl
      cases l with
      | panic => exact ⟨_, rfl, same_disk_trans hd hl⟩
      | err_ptr e =>
        dsimp only
        obtain ⟨r, hr, hsd⟩ := ih (i + 1) sb2 _ bc out p
        exact ⟨r, hr, same_disk_trans hd (same_disk_trans hl hsd)⟩
      | bh b =>
        dsimp only
        obtain ⟨f, x, hq, -, hf⟩ := check_group_spec sparse_super s_gdb_count i gdp b
        rw [hf sb2]
        dsimp only
        obtain ⟨r, hr, hsd⟩ := ih (i + 1) (f sb2) _ _ out p
        exact ⟨r, hr, same_disk_trans hd (same_disk_trans hl
          (same_disk_trans (hq.1 sb2).disk hsd))⟩

/-- The function `ext2_check_blocks_bitmap` returns, and it changes no bitmap
bit and no free block count. -/
theorem ext2_check_blocks_bitmap_same_disk (sparse_super : Bool) (s_gdb_count : Nat)
    (sb : super_block) :
    ∃ r, ext2_check_blocks_bitmap sparse_super s_gdb_count sb = some r ∧ same_disk sb r.sb := by
  obtain ⟨r, hr, hsd⟩ := check_loop_same_disk sparse_super s_gdb_count sb.s_groups_count 0 sb
    0 0 [] false
  unfold ext2_check_blocks_bitmap
  rw [hr]
  dsimp only
  split
  · exact ⟨_, rfl, hsd⟩
  · refine ⟨_, rfl, ?_⟩
    dsimp only
    split
    · exact same_disk_trans hsd (same_disk_ext2_error _ _)
    · exact hsd


/-- The loop of `ext2_check_blocks_bitmap` run on two states of the same
disk, both with a coherent bitmap cache, all bitmaps being readable: both runs
end without panic, with the same counts and the same messages logged. -/
theorem check_loop_sync (sparse_super : Bool) (s_gdb_count n i : Nat) (a b : super_block)
    (dc bc : Nat) (out : List audit_line) (la lb : List ext2_msg)
    (hs : log_sync la lb a b) (hca : cache_ok a) (hcb : cache_ok b)
    (hio : io_ok a) (hn : i + n ≤ a.s_groups_count) :
    ∃ ra rb,
      check_loop sparse_super s_gdb_count n i
        { sb := a, desc_count := dc, bitmap_count := bc, out := out, panicked := false } =
          some ra ∧
      check_loop sparse_super s_gdb_count n i
        { sb := b, desc_count := dc, bitmap_count := bc, out := out, panicked := false } =
          some rb ∧
      rb.desc_count = ra.desc_count ∧ rb.bitmap_count = ra.bitmap_count ∧
      ra.panicked = false ∧ rb.panicked = false ∧ log_sync la lb ra.sb rb.sb ∧
      cache_ok ra.sb ∧ cache_ok rb.sb := by
  induction n generalizing i a b dc bc with
  | zero => exact ⟨_, _, rfl, rfl, rfl, rfl, rfl, rfl, hs, hca, hcb⟩
  | succ n ih =>
    have hsd := hs.disk
    have hia : i < a.s_groups_count := by omega
    have hib : i < b.s_groups_count := by rw [hsd.s_groups_count]; exact hia
    have hiob := io_ok_of_same_disk hio hsd
    obtain ⟨ea, sa, ca, ioa, la'⟩ := load_block_bitmap_quiet a i hca hio hia
    obtain ⟨eb, sb', cb, -, lb'⟩ := load_block_bitmap_quiet b i hcb hiob hib
    have hsd' : same_disk (load_block_bitmap a i).1 (load_block_bitmap b i).1 :=
      same_disk_trans (same_disk_symm sa) (same_disk_trans hsd sb')
    have hs' : log_sync la lb (load_block_bitmap a i).1 (load_block_bitmap b i).1 := by
      obtain ⟨m, h1, h2⟩ := hs.logs
      exact ⟨hsd', m, by rw [la', h1], by rw [lb', h2]⟩
    obtain ⟨f, x, hq, hx, hf⟩ := check_group_spec sparse_super s_gdb_count i i (bitmap_block a i)
    have hsf := hq.2 la lb _ _ hs'
    have hol := hq.1 (load_block_bitmap a i).1
    have holb := hq.1 (load_block_bitmap b i).1
    unfold check_loop
    dsimp only
    rw [get_group_desc_some a i hia (hio i hia).1, get_group_desc_some b i hib (hiob i hib).1]
    dsimp only
    rw [ea, eb]
    dsimp only
    rw [bitmap_block_same hsd, hf, hf]
    dsimp only
    rw [hx _ _ hsd', hsd.gdt]
    exact ih (i + 1) _ _ _ _ hsf (cache_ok_of_only_log ca hol) (cache_ok_of_only_log cb holb)
      (io_ok_of_same_disk ioa hol.disk)
      (by rw [hol.disk.s_groups_count, sa.s_groups_count]; omega)


theorem cache_ok_stale : cache_ok sb_stale := by
  constructor
  · intro slot b h
    simp only [sb_stale] at h
    split at h
    · simp only [Option.some.injEq] at h
      rw [← h]
      simp [bitmap_block, sb_stale]
    · simp at h
  · intro hm
    exact absurd hm (by decide)

/-- The state `sb_stale` is reached from the empty cache of `sb_fresh` by
loading the bitmap of group 0, after which the device stops reading block 3. -/
theorem cache_reachable_stale : cache_reachable sb_stale := by
  refine .other (load_block_bitmap sb_fresh 0).1 sb_stale
    (.load sb_fresh 0 (.empty sb_fresh ⟨rfl, fun _ => rfl⟩)) rfl ?_ ?_ ?_
  · decide
  · funext k
    have h := (load_block_bitmap_lru_fields sb_fresh 0 (by decide) (by decide) rfl)
    obtain ⟨m, loaded, bh0, res, hcase, -, -, -, -, h3, -⟩ := h
    rw [h3]
    dsimp only
    have hm : m = 0 := by
      rcases hcase with ⟨c1, -⟩ | ⟨-, -, c3, -⟩ | ⟨-, c2, -⟩
      · exact absurd c1 (Nat.not_lt_zero m)
      · exact c3
      · exact absurd c2 (by decide)
    subst hm
    split
    · rfl
    · split <;> rfl
  · funext k
    by_cases hk : k = 0
    · subst hk
      decide
    · have h := (load_block_bitmap_lru_fields sb_fresh 0 (by decide) (by decide) rfl)
      obtain ⟨m, loaded, bh0, res, hcase, -, -, -, -, -, h4⟩ := h
      rw [h4]
      dsimp only
      have hm : m = 0 := by
        rcases hcase with ⟨c1, -⟩ | ⟨-, -, c3, -⟩ | ⟨-, c2, -⟩
        · exact absurd c1 (Nat.not_lt_zero m)
        · exact c3
        · exact absurd c2 (by decide)
      subst hm
      rw [if_neg hk, if_neg (by omega)]
      simp only [sb_stale, sb_fresh, if_neg hk]

set_option maxRecDepth 100000 in
/-- C18, a state on which the audit is not idempotent.  On `sb_stale` (nine
groups, LRU cache) the bitmap of group 0 is in the cache and its block can no
longer be read.  The first run of `ext2_count_free_blocks` (with
`EXT2FS_DEBUG`) finds the bitmap of group 0 in the cache, counts its free
block and returns 1; loading the bitmaps of the other eight groups evicts it.
The second run, with no allocation or deallocation in between, cannot load the
bitmap of group 0, skips the group and returns 0; its report has no line for
group 0. -/
theorem ext2_count_free_blocks_runs_differ :
    cache_ok sb_stale ∧ cache_reachable sb_stale ∧
    ((ext2_count_free_blocks true sb_stale).panicked,
     (ext2_count_free_blocks true sb_stale).ret,
     (ext2_count_free_blocks true sb_stale).out.length,
     (ext2_count_free_blocks true sb_stale).out.head?) =
      (false, 1, 10, some (.group 0 1 1)) ∧
    ((ext2_count_free_blocks true (ext2_count_free_blocks true sb_stale).sb).panicked,
     (ext2_count_free_blocks true (ext2_count_free_blocks true sb_stale).sb).ret,
     (ext2_count_free_blocks true (ext2_count_free_blocks true sb_stale).sb).out.length,
     (ext2_count_free_blocks true (ext2_count_free_blocks true sb_stale).sb).out.head?) =
      (false, 0, 9, some (.group 1 0 0)) :=
  ⟨cache_ok_stale, cache_reachable_stale, by decide!, by decide!⟩


/-- The function `ext2_check_blocks_bitmap` run twice in a row on a state
with a coherent bitmap cache whose bitmaps can all be read: both runs return
without panic, with the same counts and the same messages logged. -/
theorem ext2_check_blocks_bitmap_twice (sparse_super : Bool) (s_gdb_count : Nat)
    (sb : super_block) (hc : cache_ok sb) (hio : io_ok sb) :
    ∃ s1 s2 m, ext2_check_blocks_bitmap sparse_super s_gdb_count sb = some s1 ∧
      ext2_check_blocks_bitmap sparse_super s_gdb_count s1.sb = some s2 ∧
      s1.panicked = false ∧ s2.panicked = false ∧
      s1.sb.log = sb.log ++ m ∧ s2.sb.log = s1.sb.log ++ m ∧
      s2.desc_count = s1.desc_count ∧ s2.bitmap_count = s1.bitmap_count := by
  obtain ⟨r1, hr1, hsd1⟩ := ext2_check_blocks_bitmap_same_disk sparse_super s_gdb_count sb
  obtain ⟨ra0, -, hra0, -, -, -, hp0, -, -, hc0, -⟩ := check_loop_sync sparse_super s_gdb_count
    sb.s_groups_count 0 sb sb 0 0 [] sb.log sb.log
    ⟨same_disk_refl sb, [], (List.append_nil _).symm, (List.append_nil _).symm⟩ hc hc hio
    (by omega)
  have e1 : r1 = { ra0 with
      sb := if ra0.sb.s_es.s_free_blocks_count ≠ ra0.bitmap_count
            then ext2_error ra0.sb
              (.wrong_super_free_count ra0.sb.s_es.s_free_blocks_count ra0.bitmap_count)
            else ra0.sb } := by
    unfold ext2_check_blocks_bitmap at hr1
    rw [hra0] at hr1
    dsimp only at hr1
    rw [if_neg (by rw [hp0]; simp)] at hr1
    simp only [Option.some.injEq] at hr1
    exact hr1.symm
  have hol : only_log ra0.sb r1.sb := by
    rw [e1]
    exact only_log_cond _ _ _
  have hc1 : cache_ok r1.sb := cache_ok_of_only_log hc0 hol
  obtain ⟨ra, rb, hra, hrb, hdc, hbc, hpa, hpb, hsync, -, -⟩ := check_loop_sync sparse_super
    s_gdb_count sb.s_groups_count 0 sb r1.sb 0 0 [] sb.log r1.sb.log
    ⟨hsd1, [], (List.append_nil _).symm, (List.append_nil _).symm⟩ hc hc1 hio (by omega)
  have hraeq : ra = ra0 := by
    rw [hra0] at hra
    simp only [Option.some.injEq] at hra
    exact hra.symm
  subst hraeq
  have hfin := log_sync_cond hsync (ra.sb.s_es.s_free_blocks_count ≠ ra.bitmap_count)
    (rb.sb.s_es.s_free_blocks_count ≠ rb.bitmap_count)
    (by rw [hsync.disk.s_es, hbc])
    (.wrong_super_free_count ra.sb.s_es.s_free_blocks_count ra.bitmap_count)
  obtain ⟨m, hm1, hm2⟩ := hfin.logs
  refine ⟨r1, { rb with
      sb := if rb.sb.s_es.s_free_blocks_count ≠ rb.bitmap_count
            then ext2_error rb.sb
              (.wrong_super_free_count rb.sb.s_es.s_free_blocks_count rb.bitmap_count)
            else rb.sb }, m, hr1, ?_, ?_, hpb, ?_, ?_, ?_, ?_⟩
  · unfold ext2_check_blocks_bitmap
    rw [hsd1.s_groups_count, hrb]
    dsimp only
    rw [if_neg (by rw [hpb]; simp)]
  · rw [e1]
    exact hpa
  · rw [e1]
    exact hm1
  · dsimp only
    rw [hsync.disk.s_es, hbc] at hm2 ⊢
    exact hm2
  · rw [e1]
    exact hdc
  · rw [e1]
    exact hbc

/-- C18, as amended.  The audit is read-only: for every state,
`ext2_count_free_blocks` (with or without `EXT2FS_DEBUG`) and
`ext2_check_blocks_bitmap` return having changed no bitmap bit, no group free
count and not the free count of the super block.  On a state with a coherent
bitmap cache whose bitmaps can all be read, the audit is idempotent: run twice
with no allocation or deallocation in between, `ext2_count_free_blocks`
returns the same value and prints the same lines, and
`ext2_check_blocks_bitmap` counts the same numbers and logs the same
messages.  Without `EXT2FS_DEBUG`, `ext2_count_free_blocks` is idempotent on
every state. -/
theorem audit_read_only_and_repeatable (debug sparse_super : Bool) (s_gdb_count : Nat)
    (sb : super_block) :
    same_disk sb (ext2_count_free_blocks debug sb).sb ∧
    (∃ r, ext2_check_blocks_bitmap sparse_super s_gdb_count sb = some r ∧ same_disk sb r.sb) ∧
    ((ext2_count_free_blocks false (ext2_count_free_blocks false sb).sb).ret =
        (ext2_count_free_blocks false sb).ret ∧
      (ext2_count_free_blocks false (ext2_count_free_blocks false sb).sb).out =
        (ext2_count_free_blocks false sb).out) ∧
    (cache_ok sb → io_ok sb →
      ((ext2_count_free_blocks debug sb).panicked = false ∧
        (ext2_count_free_blocks debug (ext2_count_free_blocks debug sb).sb).panicked = false ∧
        (ext2_count_free_blocks debug (ext2_count_free_blocks debug sb).sb).ret =
          (ext2_count_free_blocks debug sb).ret ∧
        (ext2_count_free_blocks debug (ext2_count_free_blocks debug sb).sb).out =
          (ext2_count_free_blocks debug sb).out) ∧
      ∃ s1 s2 m, ext2_check_blocks_bitmap sparse_super s_gdb_count sb = some s1 ∧
        ext2_check_blocks_bitmap sparse_super s_gdb_count s1.sb = some s2 ∧
        s1.panicked = false ∧ s2.panicked = false ∧
        s1.sb.log = sb.log ++ m ∧ s2.sb.log = s1.sb.log ++ m ∧
        s2.desc_count = s1.desc_count ∧ s2.bitmap_count = s1.bitmap_count) :=
  ⟨ext2_count_free_blocks_same_disk debug sb,
   ext2_check_blocks_bitmap_same_disk sparse_super s_gdb_count sb,
   ⟨rfl, rfl⟩,
   fun hc hio => ⟨ext2_count_free_blocks_twice debug sb hc hio,
     ext2_check_blocks_bitmap_twice sparse_super s_gdb_count sb hc hio⟩⟩

theorem audit_read_only_and_repeatable_witness :
    cache_ok sb_two_groups ∧ io_ok sb_two_groups ∧
    ((ext2_count_free_blocks true sb_two_groups).panicked = false ∧
      (ext2_count_free_blocks true (ext2_count_free_blocks true sb_two_groups).sb).panicked =
        false ∧
      (ext2_count_free_blocks true (ext2_count_free_blocks true sb_two_groups).sb).ret =
        (ext2_count_free_blocks true sb_two_groups).ret ∧
      (ext2_count_free_blocks true (ext2_count_free_blocks true sb_two_groups).sb).out =
        (ext2_count_free_blocks true sb_two_groups).out) ∧
    ∃ s1 s2 m, ext2_check_blocks_bitmap true 1 sb_two_groups = some s1 ∧
      ext2_check_blocks_bitmap true 1 s1.sb = some s2 ∧
      s1.panicked = false ∧ s2.panicked = false ∧
      s1.sb.log = sb_two_groups.log ++ m ∧ s2.sb.log = s1.sb.log ++ m ∧
      s2.desc_count = s1.desc_count ∧ s2.bitmap_count = s1.bitmap_count :=
  ⟨fs_ok_two_groups.cache, fs_ok_two_groups.io,
   (audit_read_only_and_repeatable true true 1 sb_two_groups).2.2.2
     fs_ok_two_groups.cache fs_ok_two_groups.io⟩


set_option maxRecDepth 100000

/-- What the label `got_block` does with a clear bit `j` when quota accepts:
the bit is set and nothing else in the bitmaps changes; the block of the bit
is returned when it lies below `s_blocks_count`, and otherwise the call ends
with 0 and `-ENOSPC`, the free counts being as they were. -/
theorem new_block_got_block_claims (ino : inode) (sb : super_block) (goal i gdp bh j : Nat)
    (hq : quota_accepts ino.i_dquot) (hbit : sb.b_data bh j = false) :
    ∃ r, new_block_got_block ino sb goal i gdp bh j = .done r ∧ r.panicked = false ∧
      r.ino.i_sb.b_data = (fun b n => if b = bh ∧ n = j then true else sb.b_data b n) ∧
      r.ino.i_dquot = { ino.i_dquot with reserved := ino.i_dquot.reserved + 1 } ∧
      (u32 (j + i * sb.s_blocks_per_group + sb.s_es.s_first_data_block) < sb.s_es.s_blocks_count →
        r.ret = u32 (j + i * sb.s_blocks_per_group + sb.s_es.s_first_data_block) ∧ r.err = 0) ∧
      (sb.s_es.s_blocks_count ≤ u32 (j + i * sb.s_blocks_per_group + sb.s_es.s_first_data_block) →
        r.ret = 0 ∧ r.err = - ENOSPC ∧ r.ino.i_sb.gdt = sb.gdt ∧ r.ino.i_sb.s_es = sb.s_es) := by
  have hz := new_block_check_zone_same_disk sb gdp
    (u32 (j + i * sb.s_blocks_per_group + sb.s_es.s_first_data_block))
  by_cases hlt : u32 (j + i * sb.s_blocks_per_group + sb.s_es.s_first_data_block) <
      sb.s_es.s_blocks_count
  · refine ⟨_, new_block_got_block_success ino sb goal i gdp bh j hq hbit hlt, rfl, ?_, rfl,
      fun _ => ⟨rfl, rfl⟩, fun h => absurd hlt (by omega)⟩
    show (new_block_commit _ gdp).b_data = _
    rw [(new_block_commit_spec _ gdp).2.1]
    simp only [write_bit]
    rw [hz.1.b_data]
  · unfold new_block_got_block
    rw [DQUOT_ALLOC_BLOCK_accepts { ino with i_sb := sb } hq]
    simp only [ext2_set_bit, new_block_check_zone_b_data, hbit]
    rw [if_neg (by simp), if_pos (by omega)]
    refine ⟨_, rfl, rfl, ?_, rfl, fun h => absurd h hlt, fun _ => ⟨rfl, rfl, ?_, ?_⟩⟩
    · show (ext2_error (write_bit _ bh j true) _).b_data = _
      simp only [ext2_error, write_bit]
      rw [hz.1.b_data]
    · show (ext2_error (write_bit _ bh j true) _).gdt = _
      simp only [ext2_error, write_bit]
      rw [hz.1.gdt]
    · show (ext2_error (write_bit _ bh j true) _).s_es = _
      simp only [ext2_error, write_bit]
      rw [hz.1.s_es]

/-- The search in the group of the goal ends in the near-goal window when the
goal bit is in use and `p` is the lowest free bit from the goal bit up to the
end of the window. -/
theorem new_block_goal_group_window (ino : inode) (sb : super_block) (goal i gdp bh j p : Nat)
    (hbit : sb.b_data bh j = true)
    (hp1 : j ≤ p) (hp2 : p < end_goal j) (hp3 : sb.b_data bh p = false)
    (hp4 : ∀ n, j ≤ n → n < p → sb.b_data bh n = true) :
    new_block_goal_group ino sb goal i gdp bh j = new_block_got_block ino sb goal i gdp bh p := by
  unfold new_block_goal_group ext2_test_bit
  have hj : j ≠ 0 := by
    intro h0; subst h0; unfold end_goal at hp2; omega
  have hj1 : (if j ≠ 0 then ext2_find_next_zero_bit (sb.b_data bh) ((j + 63) / 64 * 64) j else j)
      = p := by
    rw [if_pos hj]
    exact find_next_zero_bit_eq _ _ _ p hp1 hp2 hp3 hp4
  simp only [hbit, hj1]
  rw [if_neg (by simp), if_pos ⟨hj, hp2⟩]

/-- C21.  Near-goal window: when the goal (after normalization; an in-range
goal is left as it is) falls on bit `j` of a group with a stored free count
above 0, the goal bit is in use, and `p` is the lowest free bit of the window
from `j` up to, not including, `(j + 63) & ~63`, then `ext2_new_block`, for a
caller that passes the reserved-block test, with the bitmap loading as `bh`
and quota accepting, claims bit `p`: the call returns having set bit `p` of
the bitmap and no other bit, and the block returned is
`first_data_block + group * blocks_per_group + p` when that block lies below
`s_blocks_count`. -/
theorem ext2_new_block_near_goal_window (fuel : Nat) (current : task_struct) (ino : inode)
    (goal bh p : Nat) (hfit : fields_fit ino.i_sb)
    (hres : ¬ reserved_reject ino.i_sb current) (hq : quota_accepts ino.i_dquot)
    (hgrp : group_of ino.i_sb (norm_goal ino.i_sb goal) < ino.i_sb.s_groups_count)
    (hdesc : ino.i_sb.s_group_desc
      (group_of ino.i_sb (norm_goal ino.i_sb goal) / ino.i_sb.s_desc_per_block) = true)
    (hfree : 0 < (ino.i_sb.gdt (group_of ino.i_sb (norm_goal ino.i_sb goal))).bg_free_blocks_count)
    (hload : (load_block_bitmap ino.i_sb (group_of ino.i_sb (norm_goal ino.i_sb goal))).2 = .bh bh)
    (hbit : ino.i_sb.b_data bh (bit_of ino.i_sb (norm_goal ino.i_sb goal)) = true)
    (hp1 : bit_of ino.i_sb (norm_goal ino.i_sb goal) ≤ p)
    (hp2 : p < end_goal (bit_of ino.i_sb (norm_goal ino.i_sb goal)))
    (hp3 : ino.i_sb.b_data bh p = false)
    (hp4 : ∀ n, bit_of ino.i_sb (norm_goal ino.i_sb goal) ≤ n → n < p →
      ino.i_sb.b_data bh n = true) :
    ∃ r, ext2_new_block (fuel + 1) current ino goal = some r ∧ r.panicked = false ∧
      r.ino.i_sb.b_data = (fun b n => if b = bh ∧ n = p then true else ino.i_sb.b_data b n) ∧
      (ino.i_sb.s_es.s_first_data_block +
          group_of ino.i_sb (norm_goal ino.i_sb goal) * ino.i_sb.s_blocks_per_group + p <
          ino.i_sb.s_es.s_blocks_count →
        r.ret = ino.i_sb.s_es.s_first_data_block +
          group_of ino.i_sb (norm_goal ino.i_sb goal) * ino.i_sb.s_blocks_per_group + p ∧
        r.err = 0) := by
  have hsd := load_block_bitmap_same_disk ino.i_sb (group_of ino.i_sb (norm_goal ino.i_sb goal))
  have hpass := new_block_pass_goal_group_norm ino ino.i_sb goal bh hgrp hdesc hfree hload
  have hgg := new_block_goal_group_window ino
    (load_block_bitmap ino.i_sb (group_of ino.i_sb (norm_goal ino.i_sb goal))).1
    (norm_goal ino.i_sb goal) (group_of ino.i_sb (norm_goal ino.i_sb goal))
    (group_of ino.i_sb (norm_goal ino.i_sb goal)) bh (bit_of ino.i_sb (norm_goal ino.i_sb goal)) p
    (by rw [hsd.b_data]; exact hbit) hp1 hp2
    (by rw [hsd.b_data]; exact hp3)
    (by rw [hsd.b_data]; exact hp4)
  obtain ⟨r, hr, hpan, hdata, _, hret, _⟩ := new_block_got_block_claims ino
    (load_block_bitmap ino.i_sb (group_of ino.i_sb (norm_goal ino.i_sb goal))).1
    (norm_goal ino.i_sb goal) (group_of ino.i_sb (norm_goal ino.i_sb goal))
    (group_of ino.i_sb (norm_goal ino.i_sb goal)) bh p hq
    (by rw [hsd.b_data]; exact hp3)
  rw [hsd.s_blocks_per_group, hsd.s_es] at hret
  rw [hsd.b_data] at hdata
  refine ⟨r, ext2_new_block_of_pass fuel current ino goal _ hres (hpass.trans (hgg.trans hr)),
    hpan, hdata, ?_⟩
  intro hbc
  have hnr : u32 (p + group_of ino.i_sb (norm_goal ino.i_sb goal) * ino.i_sb.s_blocks_per_group +
      ino.i_sb.s_es.s_first_data_block) = ino.i_sb.s_es.s_first_data_block +
        group_of ino.i_sb (norm_goal ino.i_sb goal) * ino.i_sb.s_blocks_per_group + p := by
    rw [u32_of_lt _ (by have := hfit.s_blocks_count; omega)]
    omega
  rw [hnr] at hret
  exact hret hbc

theorem ext2_new_block_near_goal_window_witness :
    ∃ r, ext2_new_block 1 task_root ino_two_groups 4996 = some r ∧ r.panicked = false ∧
      r.ino.i_sb.b_data =
        (fun b n => if b = 3 ∧ n = 5000 then true else ino_two_groups.i_sb.b_data b n) ∧
      (ino_two_groups.i_sb.s_es.s_first_data_block +
          group_of ino_two_groups.i_sb (norm_goal ino_two_groups.i_sb 4996) *
            ino_two_groups.i_sb.s_blocks_per_group + 5000 <
          ino_two_groups.i_sb.s_es.s_blocks_count →
        r.ret = ino_two_groups.i_sb.s_es.s_first_data_block +
          group_of ino_two_groups.i_sb (norm_goal ino_two_groups.i_sb 4996) *
            ino_two_groups.i_sb.s_blocks_per_group + 5000 ∧
        r.err = 0) :=
  have hj : bit_of ino_two_groups.i_sb (norm_goal ino_two_groups.i_sb 4996) = 4995 := by decide
  ext2_new_block_near_goal_window 0 task_root ino_two_groups 4996 3 5000
    fields_fit_two_groups
    (by unfold reserved_reject; decide) (by simp [quota_accepts, ino_two_groups])
    (by decide) (by decide) (by decide) (by decide) (by decide)
    (by rw [hj]; decide) (by rw [hj]; decide) (by decide)
    (by
      intro n h1 h2
      rw [hj] at h1
      have h5 : ino_two_groups.i_sb.b_data 3 = fun n => decide (n ≠ 5000) := by
        funext n; simp [ino_two_groups, sb_two_groups]
      rw [h5]
      simp only [decide_eq_true_eq]
      omega)


set_option maxRecDepth 100000

theorem scan_in_other_groups_back (sb : super_block) (i : Nat) :
    find_in_other_groups sb i = back_scan (scan_in_other_groups sb i) := by
  unfold find_in_other_groups scan_in_other_groups
  rcases hs : search_groups sb.s_groups_count sb i with ⟨sb1, r⟩
  cases r with
  | no_desc => rfl
  | not_found => rfl
  | found i1 gdp =>
    dsimp only
    rcases hl : load_block_bitmap sb1 i1 with ⟨sb2, l⟩
    cases l with
    | panic => rfl
    | err_ptr e => rfl
    | bh b =>
      dsimp only
      split_ifs <;> rfl

theorem scan_in_goal_group_back (sb : super_block) (i gdp bh j : Nat) :
    find_in_goal_group sb i gdp bh j = back_scan (scan_in_goal_group sb i gdp bh j) := by
  unfold find_in_goal_group scan_in_goal_group
  dsimp only
  split_ifs <;> first | rfl | exact scan_in_other_groups_back sb i

/-- The search of a pass of `ext2_new_block` is its search up to the labels
`search_back` and `got_block` followed by the back-scan. -/
theorem new_block_scan_back (sb : super_block) (goal : Nat) :
    new_block_find sb goal = back_scan (new_block_scan sb goal) := by
  unfold new_block_find new_block_scan
  dsimp only
  rcases hd : ext2_get_group_desc sb _ with ⟨sb1, d⟩
  cases d with
  | none => rfl
  | some gdp =>
    dsimp only
    by_cases hf : 0 < (sb1.gdt gdp).bg_free_blocks_count
    · rw [if_pos hf, if_pos hf]
      rcases hl : load_block_bitmap sb1 _ with ⟨sb2, l⟩
      cases l with
      | panic => rfl
      | err_ptr e => rfl
      | bh b => exact scan_in_goal_group_back sb2 _ gdp b _
    · rw [if_neg hf, if_neg hf]
      exact scan_in_other_groups_back sb1 _

/-- The loop of `search_back` moves `j` back by `m` bits, `m` being the
largest number with `m ≤ n` and `m ≤ j` such that the `m` bits before bit `j`
are clear. -/
theorem search_back_sub (bm : Nat → Bool) (n j : Nat) :
    ∃ m, m ≤ n ∧ m ≤ j ∧ search_back bm n j = j - m ∧
      (∀ k, j - m ≤ k → k < j → bm k = false) ∧
      (∀ m', m' ≤ n → m' ≤ j → (∀ k, j - m' ≤ k → k < j → bm k = false) → m' ≤ m) := by
  induction n generalizing j with
  | zero =>
    refine ⟨0, le_refl _, Nat.zero_le _, rfl, ?_, ?_⟩
    · intro k h1 h2; omega
    · intro m' h1 _ _; exact h1
  | succ n ih =>
    by_cases hc : 0 < j ∧ bm (j - 1) = false
    · obtain ⟨m, h1, h2, h3, h4, h5⟩ := ih (j - 1)
      refine ⟨m + 1, by omega, by omega, ?_, ?_, ?_⟩
      · simp only [search_back]
        rw [if_pos hc, h3]
        omega
      · intro k hk1 hk2
        by_cases hk : k = j - 1
        · rw [hk]; exact hc.2
        · exact h4 k (by omega) (by omega)
      · intro m' hm1 hm2 hm3
        by_cases hm0 : m' = 0
        · omega
        · have := h5 (m' - 1) (by omega) (by omega) (fun k hk1 hk2 => hm3 k (by omega) (by omega))
          omega
    · refine ⟨0, Nat.zero_le _, Nat.zero_le _, ?_, ?_, ?_⟩
      · simp only [search_back]
        rw [if_neg hc]
        rfl
      · intro k h1 h2; omega
      · intro m' hm1 hm2 hm3
        by_contra hne
        apply hc
        refine ⟨by omega, hm3 (j - 1) (by omega) (by omega)⟩

set_option maxRecDepth 100000

theorem back_scan_fst (x : super_block × scan_result) : (back_scan x).1 = x.1 := by
  obtain ⟨sb, r⟩ := x
  cases r <;> rfl

theorem new_block_scan_same_disk (sb : super_block) (goal : Nat) :
    same_disk sb (new_block_scan sb goal).1 := by
  have h := new_block_find_same_disk sb goal
  rw [new_block_scan_back, back_scan_fst] at h
  exact h

theorem scan_in_other_groups_first_zero (sb : super_block) (i i1 gdp bh j : Nat)
    (h : (scan_in_other_groups sb i).2 = .first_zero i1 gdp bh j) :
    ∀ k, k < j → (scan_in_other_groups sb i).1.b_data bh k = true := by
  unfold scan_in_other_groups at h ⊢
  rcases hs : search_groups sb.s_groups_count sb i with ⟨sb1, r⟩
  rw [hs] at h
  cases r with
  | no_desc => simp at h
  | not_found => simp at h
  | found i2 gdp2 =>
    dsimp only at h ⊢
    rcases hl : load_block_bitmap sb1 i2 with ⟨sb2, l⟩
    rw [hl] at h
    cases l with
    | panic => simp at h
    | err_ptr e => simp at h
    | bh b =>
      dsimp only at h ⊢
      split_ifs at h ⊢ with h1 h2
      simp only [scan_result.first_zero.injEq] at h
      obtain ⟨_, _, hb, hj⟩ := h
      subst hb
      intro k hk
      rw [← hj] at hk
      exact (find_next_zero_bit_spec (sb2.b_data b) sb2.s_blocks_per_group 0).2.2.2 k
        (Nat.zero_le _) hk

theorem scan_in_goal_group_first_zero (sb : super_block) (i gdp0 bh0 j0 i1 gdp bh j : Nat)
    (h : (scan_in_goal_group sb i gdp0 bh0 j0).2 = .first_zero i1 gdp bh j) :
    ∀ k, k < j → (scan_in_goal_group sb i gdp0 bh0 j0).1.b_data bh k = true := by
  unfold scan_in_goal_group at h ⊢
  dsimp only at h ⊢
  split_ifs at h ⊢ <;>
    exact scan_in_other_groups_first_zero sb i i1 gdp bh j h

/-- The bit handed back by `ext2_find_first_zero_bit` in a later group has no
clear bit before it. -/
theorem new_block_scan_first_zero (sb : super_block) (goal i gdp bh j : Nat)
    (h : (new_block_scan sb goal).2 = .first_zero i gdp bh j) :
    ∀ k, k < j → (new_block_scan sb goal).1.b_data bh k = true := by
  unfold new_block_scan at h ⊢
  dsimp only at h ⊢
  rcases hd : ext2_get_group_desc sb _ with ⟨sb1, d⟩
  rw [hd] at h
  cases d with
  | none => simp at h
  | some gdp1 =>
    dsimp only at h ⊢
    by_cases hf : 0 < (sb1.gdt gdp1).bg_free_blocks_count
    · rw [if_pos hf] at h ⊢
      rcases hl : load_block_bitmap sb1 _ with ⟨sb2, l⟩
      rw [hl] at h
      cases l with
      | panic => simp at h
      | err_ptr e => simp at h
      | bh b => exact scan_in_goal_group_first_zero sb2 _ gdp1 b _ i gdp bh j h
    · rw [if_neg hf] at h ⊢
      exact scan_in_other_groups_first_zero sb1 _ i gdp bh j h

theorem search_back_stays (bm : Nat → Bool) (n j : Nat) (h : ∀ k, k < j → bm k = true) :
    search_back bm n j = j := by
  cases n with
  | zero => rfl
  | succ n =>
    simp only [search_back]
    rw [if_neg]
    rintro ⟨h1, h2⟩
    rw [h (j - 1) (by omega)] at h2
    exact absurd h2 (by decide)


theorem scan_in_other_groups_clear (sb : super_block) (i i1 gdp bh j : Nat)
    (h : (scan_in_other_groups sb i).2 = .direct i1 gdp bh j ∨
      (scan_in_other_groups sb i).2 = .first_zero i1 gdp bh j) :
    (scan_in_other_groups sb i).1.b_data bh j = false := by
  unfold scan_in_other_groups at h ⊢
  rcases hs : search_groups sb.s_groups_count sb i with ⟨sb1, r⟩
  rw [hs] at h
  cases r with
  | no_desc => simp at h
  | not_found => simp at h
  | found i2 gdp2 =>
    dsimp only at h ⊢
    rcases hl : load_block_bitmap sb1 i2 with ⟨sb2, l⟩
    rw [hl] at h
    cases l with
    | panic => simp at h
    | err_ptr e => simp at h
    | bh b =>
      dsimp only at h ⊢
      split_ifs at h ⊢ with h1 h2
      · simp at h
      · simp at h
      · simp only [scan_result.first_zero.injEq, false_or] at h
        obtain ⟨_, _, hb, hj⟩ := h
        subst hb
        rw [← hj]
        exact (find_next_zero_bit_spec (sb2.b_data b) sb2.s_blocks_per_group 0).2.2.1
          (by unfold ext2_find_first_zero_bit at h2; omega)


theorem scan_in_goal_group_clear (sb : super_block) (i gdp0 bh0 j0 i1 gdp bh j : Nat)
    (h : (scan_in_goal_group sb i gdp0 bh0 j0).2 = .direct i1 gdp bh j ∨
      (scan_in_goal_group sb i gdp0 bh0 j0).2 = .first_zero i1 gdp bh j) :
    (scan_in_goal_group sb i gdp0 bh0 j0).1.b_data bh j = false := by
  unfold scan_in_goal_group at h ⊢
  dsimp only at h ⊢
  by_cases h1 : ext2_test_bit sb bh0 j0 = false
  · rw [if_pos h1] at h ⊢
    have h := h.resolve_right (by simp)
    simp only [scan_result.direct.injEq] at h
    obtain ⟨_, _, hb, hj⟩ := h
    subst hb; subst hj
    exact h1
  · rw [if_neg h1] at h ⊢
    generalize hj1 : (if j0 ≠ 0 then ext2_find_next_zero_bit (sb.b_data bh0)
      ((j0 + 63) / 64 * 64) j0 else j0) = j1 at h ⊢
    by_cases h2 : j0 ≠ 0 ∧ j1 < (j0 + 63) / 64 * 64
    · rw [if_pos h2] at h ⊢
      have h := h.resolve_right (by simp)
      simp only [scan_result.direct.injEq] at h
      obtain ⟨_, _, hb, hj⟩ := h
      subst hb; subst hj
      rw [if_pos h2.1] at hj1
      have h5 := h2.2
      rw [← hj1] at h5 ⊢
      exact (find_next_zero_bit_spec (sb.b_data bh0) _ j0).2.2.1 h5
    · rw [if_neg h2] at h ⊢
      by_cases h3 : memscan (sb.b_data bh0) (j1 / 8)
          (ulong (ulong_sub sb.s_blocks_per_group j1 + 7) / 8) * 8 < sb.s_blocks_per_group
      · rw [if_pos h3] at h
        simp at h
      · rw [if_neg h3] at h ⊢
        by_cases h4 : ext2_find_next_zero_bit (sb.b_data bh0) sb.s_blocks_per_group j1 <
            sb.s_blocks_per_group
        · rw [if_pos h4] at h ⊢
          have h := h.resolve_right (by simp)
          simp only [scan_result.direct.injEq] at h
          obtain ⟨_, _, hb, hj⟩ := h
          subst hb; subst hj
          exact (find_next_zero_bit_spec (sb.b_data bh0) _ j1).2.2.1 h4
        · rw [if_neg h4] at h ⊢
          exact scan_in_other_groups_clear sb i i1 gdp bh j h

/-- A bit with which the search ends at the label `got_block`, or which
`ext2_find_first_zero_bit` hands back in a later group, is clear. -/
theorem new_block_scan_clear (sb : super_block) (goal i gdp bh j : Nat)
    (h : (new_block_scan sb goal).2 = .direct i gdp bh j ∨
      (new_block_scan sb goal).2 = .first_zero i gdp bh j) :
    (new_block_scan sb goal).1.b_data bh j = false := by
  unfold new_block_scan at h ⊢
  dsimp only at h ⊢
  rcases hd : ext2_get_group_desc sb _ with ⟨sb1, d⟩
  rw [hd] at h
  cases d with
  | none => simp at h
  | some gdp1 =>
    dsimp only at h ⊢
    by_cases hf : 0 < (sb1.gdt gdp1).bg_free_blocks_count
    · rw [if_pos hf] at h ⊢
      rcases hl : load_block_bitmap sb1 _ with ⟨sb2, l⟩
      rw [hl] at h
      cases l with
      | panic => simp at h
      | err_ptr e => simp at h
      | bh b => exact scan_in_goal_group_clear sb2 _ gdp1 b _ i gdp bh j h
    · rw [if_neg hf] at h ⊢
      exact scan_in_other_groups_clear sb1 _ i gdp bh j h

/-- A pass that enters the label `got_block` with a clear bit, quota
accepting, makes `ext2_new_block` claim that bit. -/
theorem claims_bit_of_pass (fuel : Nat) (current : task_struct) (ino : inode)
    (goal g i gdp bh j : Nat) (sb1 : super_block)
    (hres : ¬ reserved_reject ino.i_sb current) (hq : quota_accepts ino.i_dquot)
    (hsd : same_disk ino.i_sb sb1) (hbit : ino.i_sb.b_data bh j = false)
    (hpass : new_block_pass ino ino.i_sb goal = new_block_got_block ino sb1 g i gdp bh j) :
    claims_bit fuel current ino goal i bh j := by
  obtain ⟨r, hr, hpan, hdata, _, hret, _⟩ := new_block_got_block_claims ino sb1 g i gdp bh j hq
    (by rw [hsd.b_data]; exact hbit)
  rw [hsd.s_blocks_per_group, hsd.s_es] at hret
  rw [hsd.b_data] at hdata
  exact ⟨r, ext2_new_block_of_pass fuel current ino goal _ hres (hpass.trans hr), hpan, hdata,
    hret⟩

/-- A pass of `ext2_new_block` enters the label `got_block` with the bit its
search ended on, moved back by the back-scan when the search ended at the
label `search_back`. -/
theorem new_block_pass_of_scan (ino : inode) (sb : super_block) (goal : Nat) :
    (∀ i gdp bh j, (new_block_scan sb goal).2 = .direct i gdp bh j →
      new_block_pass ino sb goal =
        new_block_got_block ino (new_block_scan sb goal).1 (norm_goal sb goal) i gdp bh j) ∧
    (∀ i gdp bh j, (new_block_scan sb goal).2 = .first_zero i gdp bh j →
      new_block_pass ino sb goal =
        new_block_got_block ino (new_block_scan sb goal).1 (norm_goal sb goal) i gdp bh
          (search_back ((new_block_scan sb goal).1.b_data bh) 7 j)) ∧
    (∀ i gdp bh r, (new_block_scan sb goal).2 = .byte i gdp bh r →
      new_block_pass ino sb goal =
        new_block_got_block ino (new_block_scan sb goal).1 (norm_goal sb goal) i gdp bh
          (search_back ((new_block_scan sb goal).1.b_data bh) 7 (r * 8))) := by
  rw [new_block_pass_finish, new_block_scan_back]
  rcases new_block_scan sb goal with ⟨sb1, x⟩
  refine ⟨?_, ?_, ?_⟩ <;> intro i gdp bh j h <;> dsimp only at h <;> subst h <;> rfl


/-- C22 (counterexample).  On the file system `sb_run` with goal 1 the byte
scan finds byte 25 of the bitmap of group 0, whose first bit is bit 200; the
back-scan moves over the free bits 199, 198 and 197, and `ext2_new_block` sets
bit 197 and returns block 198, bit 200 staying clear. -/
theorem ext2_new_block_back_scan_moves_bit :
    (new_block_scan sb_run 1).2 = .byte 0 0 3 25 ∧
    byte_is_zero (sb_run.b_data 3) 25 = true ∧
    (ext2_new_block 1 task_root ino_run 1).map (fun r => (r.ret, r.err, r.panicked)) =
      some (198, 0, false) ∧
    (ext2_new_block 1 task_root ino_run 1).map
      (fun r => (r.ino.i_sb.b_data 3 197, r.ino.i_sb.b_data 3 200)) = some (true, false) ∧
    (sb_run.b_data 3 197, sb_run.b_data 3 200) = (false, false) := by
  refine ⟨?_, ?_, ?_, ?_, ?_⟩ <;> decide

/-- C22 (amended).  The back-scan changes which bit is claimed only after the
byte scan, and only by moving it back over free bits.  For a caller that
passes the reserved-block test, quota accepting: a bit `j` found by the test
of the goal bit, in the near-goal window or by a bit scan (`direct`,
`first_zero`) is the bit that `ext2_new_block` sets and whose block it
returns; when the byte scan hands over byte `r`, whose first bit `8 * r` is
free, the bit that `ext2_new_block` sets and whose block it returns is
`8 * r - m`, where `m` is the largest number with `m ≤ 7` and `m ≤ 8 * r` such
that the bits `8 * r - m` to `8 * r - 1` are free (`m = 0` if `r = 0` or bit
`8 * r - 1` is in use). -/
theorem ext2_new_block_claims_back_scanned_bit (fuel : Nat) (current : task_struct)
    (ino : inode) (goal : Nat)
    (hres : ¬ reserved_reject ino.i_sb current) (hq : quota_accepts ino.i_dquot) :
    (∀ i gdp bh j, (new_block_scan ino.i_sb goal).2 = .direct i gdp bh j ∨
        (new_block_scan ino.i_sb goal).2 = .first_zero i gdp bh j →
      claims_bit fuel current ino goal i bh j) ∧
    (∀ i gdp bh r, (new_block_scan ino.i_sb goal).2 = .byte i gdp bh r →
      ino.i_sb.b_data bh (8 * r) = false →
      ∃ m, m ≤ 7 ∧ m ≤ 8 * r ∧
        (∀ k, 8 * r - m ≤ k → k ≤ 8 * r → ino.i_sb.b_data bh k = false) ∧
        (∀ m', m' ≤ 7 → m' ≤ 8 * r →
          (∀ k, 8 * r - m' ≤ k → k < 8 * r → ino.i_sb.b_data bh k = false) → m' ≤ m) ∧
        (r = 0 ∨ ino.i_sb.b_data bh (8 * r - 1) = true → m = 0) ∧
        claims_bit fuel current ino goal i bh (8 * r - m)) := by
  have hsd := new_block_scan_same_disk ino.i_sb goal
  obtain ⟨p1, p2, p3⟩ := new_block_pass_of_scan ino ino.i_sb goal
  constructor
  · intro i gdp bh j h
    have hclear := new_block_scan_clear ino.i_sb goal i gdp bh j h
    rw [hsd.b_data] at hclear
    rcases h with h | h
    · exact claims_bit_of_pass fuel current ino goal _ i gdp bh j _ hres hq hsd hclear
        (p1 i gdp bh j h)
    · have hz := new_block_scan_first_zero ino.i_sb goal i gdp bh j h
      have hp := p2 i gdp bh j h
      rw [search_back_stays _ 7 j hz] at hp
      exact claims_bit_of_pass fuel current ino goal _ i gdp bh j _ hres hq hsd hclear hp
  · intro i gdp bh r h hbit
    obtain ⟨m, m1, m2, m3, m4, m5⟩ := search_back_sub (ino.i_sb.b_data bh) 7 (8 * r)
    have hp := p3 i gdp bh r h
    rw [hsd.b_data, Nat.mul_comm r 8, m3] at hp
    have hfree : ∀ k, 8 * r - m ≤ k → k ≤ 8 * r → ino.i_sb.b_data bh k = false := by
      intro k hk1 hk2
      by_cases hk : k = 8 * r
      · rw [hk]; exact hbit
      · exact m4 k hk1 (by omega)
    refine ⟨m, m1, m2, hfree, m5, ?_, ?_⟩
    · intro h0
      rcases h0 with h0 | h0
      · omega
      · by_contra hm
        have := m4 (8 * r - 1) (by omega) (by omega)
        rw [this] at h0
        exact absurd h0 (by decide)
    · exact claims_bit_of_pass fuel current ino goal _ i gdp bh (8 * r - m) _ hres hq hsd
        (hfree _ (le_refl _) (by omega)) hp

theorem ext2_new_block_claims_back_scanned_bit_witness :
    ∃ m, m ≤ 7 ∧ m ≤ 8 * 25 ∧
      (∀ k, 8 * 25 - m ≤ k → k ≤ 8 * 25 → ino_run.i_sb.b_data 3 k = false) ∧
      (∀ m', m' ≤ 7 → m' ≤ 8 * 25 →
        (∀ k, 8 * 25 - m' ≤ k → k < 8 * 25 → ino_run.i_sb.b_data 3 k = false) → m' ≤ m) ∧
      (25 = 0 ∨ ino_run.i_sb.b_data 3 (8 * 25 - 1) = true → m = 0) ∧
      claims_bit 0 task_root ino_run 1 0 3 (8 * 25 - m) :=
  (ext2_new_block_claims_back_scanned_bit 0 task_root ino_run 1
    (by unfold reserved_reject; decide) (by simp [quota_accepts, ino_run])).2 0 0 3 25
    (by decide) (by decide)

/-- C23.  Start of the free run: when the byte scan of `ext2_new_block` (for a
caller that passes the reserved-block test, quota accepting) finds the
entirely free byte `r` of the bitmap `bh`, whose first bit is `k = 8 * r`,
the bit that `ext2_new_block` claims is `k - m`, where `m` is the largest
number with `m ≤ 7` and `m ≤ k` such that the bits `k - m` to `k - 1` are all
free (`m = 0` if `k = 0` or bit `k - 1` is in use); every bit from `k - m` to
`k + 7` is free before the call. -/
theorem ext2_new_block_start_of_free_run (fuel : Nat) (current : task_struct) (ino : inode)
    (goal i gdp bh r : Nat)
    (hres : ¬ reserved_reject ino.i_sb current) (hq : quota_accepts ino.i_dquot)
    (hscan : (new_block_scan ino.i_sb goal).2 = .byte i gdp bh r)
    (hzero : byte_is_zero (ino.i_sb.b_data bh) r = true) :
    ∃ m, m ≤ 7 ∧ m ≤ 8 * r ∧
      (∀ n, 8 * r - m ≤ n → n < 8 * r + 8 → ino.i_sb.b_data bh n = false) ∧
      (∀ m', m' ≤ 7 → m' ≤ 8 * r →
        (∀ n, 8 * r - m' ≤ n → n < 8 * r → ino.i_sb.b_data bh n = false) → m' ≤ m) ∧
      (r = 0 ∨ ino.i_sb.b_data bh (8 * r - 1) = true → m = 0) ∧
      claims_bit fuel current ino goal i bh (8 * r - m) := by
  have hsd := new_block_scan_same_disk ino.i_sb goal
  obtain ⟨m, m1, m2, m3, m4, m5⟩ := search_back_sub (ino.i_sb.b_data bh) 7 (8 * r)
  have hp := (new_block_pass_of_scan ino ino.i_sb goal).2.2 i gdp bh r hscan
  rw [hsd.b_data, Nat.mul_comm r 8, m3] at hp
  have hfree : ∀ n, 8 * r - m ≤ n → n < 8 * r + 8 → ino.i_sb.b_data bh n = false := by
    intro n hn1 hn2
    by_cases hn : n < 8 * r
    · exact m4 n hn1 hn
    · exact byte_is_zero_bits _ r n hzero (by omega) hn2
  refine ⟨m, m1, m2, hfree, m5, ?_, ?_⟩
  · intro h0
    rcases h0 with h0 | h0
    · omega
    · by_contra hm
      have := m4 (8 * r - 1) (by omega) (by omega)
      rw [this] at h0
      exact absurd h0 (by decide)
  · exact claims_bit_of_pass fuel current ino goal _ i gdp bh (8 * r - m) _ hres hq hsd
      (hfree _ (le_refl _) (by omega)) hp

theorem ext2_new_block_start_of_free_run_witness :
    ∃ m, m ≤ 7 ∧ m ≤ 8 * 25 ∧
      (∀ n, 8 * 25 - m ≤ n → n < 8 * 25 + 8 → ino_run.i_sb.b_data 3 n = false) ∧
      (∀ m', m' ≤ 7 → m' ≤ 8 * 25 →
        (∀ n, 8 * 25 - m' ≤ n → n < 8 * 25 → ino_run.i_sb.b_data 3 n = false) → m' ≤ m) ∧
      (25 = 0 ∨ ino_run.i_sb.b_data 3 (8 * 25 - 1) = true → m = 0) ∧
      claims_bit 0 task_root ino_run 1 0 3 (8 * 25 - m) :=
  ext2_new_block_start_of_free_run 0 task_root ino_run 1 0 0 3 25
    (by unfold reserved_reject; decide) (by simp [quota_accepts, ino_run])
    (by decide) (by decide)


set_option maxRecDepth 100000

/-- How the label `got_block` can end in an error: no bitmap bit changed
(quota rejected), or the bit chosen, clear before, set and its block not below
`s_blocks_count`; the free block counts are as they were. -/
theorem new_block_got_block_error (ino : inode) (sb : super_block) (goal i gdp bh j : Nat)
    (r : new_block_result) (h : new_block_got_block ino sb goal i gdp bh j = .done r)
    (herr : r.err ≠ 0) :
    r.ret = 0 ∧ r.ino.i_sb.gdt = sb.gdt ∧ r.ino.i_sb.s_es = sb.s_es ∧
    (r.ino.i_sb.b_data = sb.b_data ∨ past_end_exit sb r) := by
  have hzd := (new_block_check_zone_same_disk sb gdp
    (u32 (j + i * sb.s_blocks_per_group + sb.s_es.s_first_data_block))).1
  by_cases hq : quota_accepts ino.i_dquot
  · by_cases hbit : sb.b_data bh j = true
    · rw [new_block_got_block_again ino sb goal i gdp bh j hq hbit] at h
      simp at h
    · have hbit0 : sb.b_data bh j = false := by simpa using hbit
      by_cases hlt : u32 (j + i * sb.s_blocks_per_group + sb.s_es.s_first_data_block) <
          sb.s_es.s_blocks_count
      · rw [new_block_got_block_success ino sb goal i gdp bh j hq hbit0 hlt] at h
        simp only [pass_result.done.injEq] at h
        rw [← h] at herr
        exact absurd rfl herr
      · unfold new_block_got_block at h
        rw [DQUOT_ALLOC_BLOCK_accepts { ino with i_sb := sb } hq] at h
        simp only [ext2_set_bit, new_block_check_zone_b_data, hbit0] at h
        rw [if_neg (by simp), if_pos (by omega)] at h
        simp only [pass_result.done.injEq] at h
        subst h
        have hd : (ext2_error (write_bit (new_block_check_zone sb gdp
            (u32 (j + i * sb.s_blocks_per_group + sb.s_es.s_first_data_block))) bh j true)
            (.block_ge_blocks_count
              (u32 (j + i * sb.s_blocks_per_group + sb.s_es.s_first_data_block))
              sb.s_es.s_blocks_count i)).b_data =
            (fun b n => if b = bh ∧ n = j then true else sb.b_data b n) := by
          simp only [ext2_error, write_bit]
          rw [hzd.b_data]
        refine ⟨rfl, ?_, ?_, Or.inr ⟨i, bh, j, hbit0, by omega, rfl, hd, ?_⟩⟩
        · show (ext2_error (write_bit _ bh j true) _).gdt = _
          simp only [ext2_error, write_bit]
          rw [hzd.gdt]
        · show (ext2_error (write_bit _ bh j true) _).s_es = _
          simp only [ext2_error, write_bit]
          rw [hzd.s_es]
        · show (ext2_error (write_bit _ bh j true) _).log.getLast? = _
          simp [ext2_error]
  · unfold new_block_got_block at h
    rw [DQUOT_ALLOC_BLOCK_rejects { ino with i_sb := sb } hq] at h
    simp only [new_block_out, pass_result.done.injEq] at h
    subst h
    exact ⟨rfl, rfl, rfl, Or.inl rfl⟩


theorem past_end_exit_of_same_disk {a b : super_block} (r : new_block_result)
    (hsd : same_disk a b) (h : past_end_exit b r) : past_end_exit a r := by
  unfold past_end_exit at h ⊢
  rw [hsd.b_data, hsd.s_es, hsd.s_blocks_per_group] at h
  exact h

/-- How a pass of `ext2_new_block` can end in an error. -/
theorem new_block_pass_error (ino : inode) (sb : super_block) (goal : Nat)
    (r : new_block_result) (h : new_block_pass ino sb goal = .done r) (herr : r.err ≠ 0) :
    r.ret = 0 ∧ r.ino.i_sb.gdt = sb.gdt ∧ r.ino.i_sb.s_es = sb.s_es ∧
    (r.ino.i_sb.b_data = sb.b_data ∨ past_end_exit sb r) := by
  rw [new_block_pass_finish] at h
  have hsd := new_block_find_same_disk sb goal
  rcases hf : new_block_find sb goal with ⟨sb1, f⟩
  rw [hf] at hsd h
  dsimp only at hsd
  cases f with
  | got_block i gdp bh j =>
    obtain ⟨h1, h2, h3, h4⟩ := new_block_got_block_error ino sb1 (norm_goal sb goal) i gdp bh j r
      h herr
    refine ⟨h1, by rw [h2, hsd.gdt], by rw [h3, hsd.s_es], ?_⟩
    rcases h4 with h4 | h4
    · exact Or.inl (by rw [h4, hsd.b_data])
    · exact Or.inr (past_end_exit_of_same_disk r hsd h4)
  | load_failed g =>
    simp only [new_block_finish, new_block_io_error, new_block_out, pass_result.done.injEq] at h
    subst h
    exact ⟨rfl, hsd.gdt, hsd.s_es, Or.inl hsd.b_data⟩
  | no_desc =>
    simp only [new_block_finish, new_block_io_error, new_block_out, pass_result.done.injEq] at h
    subst h
    exact ⟨rfl, hsd.gdt, hsd.s_es, Or.inl hsd.b_data⟩
  | load_panic =>
    simp only [new_block_finish, pass_result.done.injEq] at h
    subst h
    exact ⟨rfl, hsd.gdt, hsd.s_es, Or.inl hsd.b_data⟩
  | not_found =>
    simp only [new_block_finish, new_block_out, pass_result.done.injEq] at h
    subst h
    exact ⟨rfl, hsd.gdt, hsd.s_es, Or.inl hsd.b_data⟩
  | corrupted =>
    simp only [new_block_finish, new_block_out, pass_result.done.injEq] at h
    subst h
    exact ⟨rfl, hsd.gdt, hsd.s_es, Or.inl hsd.b_data⟩

/-- How the `goto repeat` loop of `ext2_new_block` can end in an error. -/
theorem new_block_repeat_error (fuel : Nat) (ino : inode) (goal : Nat) (r : new_block_result)
    (h : new_block_repeat fuel ino goal = some r) (herr : r.err ≠ 0) :
    r.ret = 0 ∧ r.ino.i_sb.gdt = ino.i_sb.gdt ∧ r.ino.i_sb.s_es = ino.i_sb.s_es ∧
    (r.ino.i_sb.b_data = ino.i_sb.b_data ∨ past_end_exit ino.i_sb r) := by
  induction fuel generalizing ino goal with
  | zero => simp [new_block_repeat] at h
  | succ fuel ih =>
    unfold new_block_repeat at h
    rcases hp : new_block_pass ino ino.i_sb goal with r1 | ⟨ino1, g1⟩
    · rw [hp] at h
      simp only [Option.some.injEq] at h
      subst h
      exact new_block_pass_error ino ino.i_sb goal r1 hp herr
    · rw [hp] at h
      dsimp only at h
      have hsd := (new_block_pass_trace ino ino.i_sb goal).2 ino1 g1 hp
      obtain ⟨h1, h2, h3, h4⟩ := ih ino1 g1 h
      refine ⟨h1, by rw [h2, hsd.gdt], by rw [h3, hsd.s_es], ?_⟩
      rcases h4 with h4 | h4
      · exact Or.inl (by rw [h4, hsd.b_data])
      · exact Or.inr (past_end_exit_of_same_disk r hsd h4)

/-- C24 (counterexample).  On the file system `sb_short` (101 blocks, bit 40
of the last group, which stands for block 105, clear) `ext2_new_block` with
goal 1 returns 0 with `*err = -ENOSPC`, and bit 40 of the bitmap of group 1,
clear before the call, is set after it. -/
theorem ext2_new_block_error_leaves_bit_set :
    (ext2_new_block 1 task_root ino_short 1).map (fun r => (r.ret, r.err, r.panicked)) =
      some (0, - ENOSPC, false) ∧
    sb_short.b_data 67 40 = false ∧
    (ext2_new_block 1 task_root ino_short 1).map (fun r => r.ino.i_sb.b_data 67 40) =
      some true ∧
    (ext2_new_block 1 task_root ino_short 1).map (fun r => r.ino.i_sb.log) =
      some [.block_ge_blocks_count 105 101 1] := by
  refine ⟨?_, ?_, ?_, ?_⟩ <;> decide

/-- C24 (amended).  No counter changes on failure, and no bitmap bit except at
the exit for a block past the end: if `ext2_new_block` returns with a non-zero
error code, it returns 0, no group free count and not the free count of the
super block has changed, and no bitmap bit has changed, except when the call
ends with the error "block >= blocks count" (`past_end_exit`): then the one
bit chosen, clear before and standing for a block at or after
`s_blocks_count`, is set and no other bit has changed. -/
theorem ext2_new_block_error_leaves_counts (fuel : Nat) (current : task_struct) (ino : inode)
    (goal : Nat) (r : new_block_result)
    (h : ext2_new_block fuel current ino goal = some r) (herr : r.err ≠ 0) :
    r.ret = 0 ∧ r.ino.i_sb.gdt = ino.i_sb.gdt ∧ r.ino.i_sb.s_es = ino.i_sb.s_es ∧
    (r.ino.i_sb.b_data = ino.i_sb.b_data ∨ past_end_exit ino.i_sb r) := by
  unfold ext2_new_block at h
  dsimp only at h
  split at h
  · simp only [Option.some.injEq] at h
    subst h
    exact ⟨rfl, rfl, rfl, Or.inl rfl⟩
  · exact new_block_repeat_error fuel ino goal r h herr

theorem ext2_new_block_error_leaves_counts_witness :
    ∃ r, ext2_new_block 1 task_root ino_short 1 = some r ∧ r.err ≠ 0 ∧
      r.ret = 0 ∧ r.ino.i_sb.gdt = ino_short.i_sb.gdt ∧
      r.ino.i_sb.s_es = ino_short.i_sb.s_es ∧
      (r.ino.i_sb.b_data = ino_short.i_sb.b_data ∨ past_end_exit ino_short.i_sb r) := by
  have hs : (ext2_new_block 1 task_root ino_short 1).isSome = true := by decide
  obtain ⟨r, hr⟩ := Option.isSome_iff_exists.mp hs
  have he : (ext2_new_block 1 task_root ino_short 1).map (fun r => r.err) =
      some (- ENOSPC) := by decide
  rw [hr] at he
  simp only [Option.map_some', Option.some.injEq] at he
  have herr : r.err ≠ 0 := by rw [he]; exact neg_ENOSPC_ne
  exact ⟨r, hr, herr,
    ext2_new_block_error_leaves_counts 1 task_root ino_short 1 r hr herr⟩


set_option maxRecDepth 100000

theorem desc_sum_congr (a b : super_block) (n : Nat)
    (h : ∀ g, g < n → (b.gdt g).bg_free_blocks_count = (a.gdt g).bg_free_blocks_count) :
    desc_sum b n = desc_sum a n := by
  induction n with
  | zero => rfl
  | succ n ih =>
    simp only [desc_sum]
    rw [ih (fun g hg => h g (by omega)), h n (by omega)]

theorem desc_sum_update (a b : super_block) (i n k : Nat) (hi : i < n)
    (h : ∀ g, (b.gdt g).bg_free_blocks_count =
      if g = i then (a.gdt g).bg_free_blocks_count + k else (a.gdt g).bg_free_blocks_count) :
    desc_sum b n = desc_sum a n + k := by
  induction n with
  | zero => omega
  | succ n ih =>
    simp only [desc_sum]
    by_cases hn : i = n
    · have e : desc_sum b n = desc_sum a n := by
        apply desc_sum_congr
        intro g hg
        rw [h g, if_neg (by omega)]
      rw [e, h n, if_pos hn.symm]
      omega
    · rw [ih (by omega), h n, if_neg (fun e => hn e.symm)]
      omega

theorem desc_sum_ge (a : super_block) (i n : Nat) (hi : i < n) :
    (a.gdt i).bg_free_blocks_count ≤ desc_sum a n := by
  induction n with
  | zero => omega
  | succ n ih =>
    simp only [desc_sum]
    by_cases hn : i = n
    · rw [hn]; omega
    · have := ih (by omega); omega

theorem find_in_other_groups_group (sb : super_block) (i i1 gdp bh j : Nat)
    (h : (find_in_other_groups sb i).2 = .got_block i1 gdp bh j) :
    gdp = i1 ∧ i1 < sb.s_groups_count ∧ 0 < (sb.gdt i1).bg_free_blocks_count := by
  unfold find_in_other_groups at h
  have hs := (search_groups_spec sb.s_groups_count sb i).2.2.2
  rcases hsr : search_groups sb.s_groups_count sb i with ⟨sb1, r⟩
  rw [hsr] at h hs
  cases r with
  | no_desc => simp at h
  | not_found => simp at h
  | found i2 gdp2 =>
    obtain ⟨_, e2, e3, e4, _⟩ := hs i2 gdp2 rfl
    dsimp only at h
    rcases hl : load_block_bitmap sb1 i2 with ⟨sb2, l⟩
    rw [hl] at h
    cases l with
    | panic => simp at h
    | err_ptr e => simp at h
    | bh b =>
      dsimp only at h
      have key : ∀ x, (sb2, find_result.got_block i2 gdp2 b x).2 = .got_block i1 gdp bh j →
          gdp = i1 ∧ i1 < sb.s_groups_count ∧ 0 < (sb.gdt i1).bg_free_blocks_count := by
        intro x hx
        simp only [find_result.got_block.injEq] at hx
        obtain ⟨h1, h2, _, _⟩ := hx
        subst h1; subst h2
        exact ⟨e2, e3, e4⟩
      by_cases c1 : memscan (sb2.b_data b) 0 (sb2.s_blocks_per_group / 8) * 8 <
          sb2.s_blocks_per_group
      · rw [if_pos c1] at h
        exact key _ h
      · rw [if_neg c1] at h
        by_cases c2 : sb2.s_blocks_per_group ≤
            ext2_find_first_zero_bit (sb2.b_data b) sb2.s_blocks_per_group
        · rw [if_pos c2] at h
          simp at h
        · rw [if_neg c2] at h
          exact key _ h

theorem find_in_goal_group_group (sb : super_block) (i gdp0 bh0 j0 i1 gdp bh j : Nat)
    (h0 : gdp0 = i ∧ i < sb.s_groups_count ∧ 0 < (sb.gdt i).bg_free_blocks_count)
    (h : (find_in_goal_group sb i gdp0 bh0 j0).2 = .got_block i1 gdp bh j) :
    gdp = i1 ∧ i1 < sb.s_groups_count ∧ 0 < (sb.gdt i1).bg_free_blocks_count := by
  unfold find_in_goal_group at h
  dsimp only at h
  have key : ∀ x, (sb, find_result.got_block i gdp0 bh0 x).2 = .got_block i1 gdp bh j →
      gdp = i1 ∧ i1 < sb.s_groups_count ∧ 0 < (sb.gdt i1).bg_free_blocks_count := by
    intro x hx
    simp only [find_result.got_block.injEq] at hx
    obtain ⟨h1, h2, _, _⟩ := hx
    subst h1; subst h2
    exact h0
  by_cases c1 : ext2_test_bit sb bh0 j0 = false
  · rw [if_pos c1] at h
    exact key _ h
  · rw [if_neg c1] at h
    generalize (if j0 ≠ 0 then ext2_find_next_zero_bit (sb.b_data bh0)
      ((j0 + 63) / 64 * 64) j0 else j0) = j1 at h
    by_cases c2 : j0 ≠ 0 ∧ j1 < (j0 + 63) / 64 * 64
    · rw [if_pos c2] at h
      exact key _ h
    · rw [if_neg c2] at h
      by_cases c3 : memscan (sb.b_data bh0) (j1 / 8)
          (ulong (ulong_sub sb.s_blocks_per_group j1 + 7) / 8) * 8 < sb.s_blocks_per_group
      · rw [if_pos c3] at h
        exact key _ h
      · rw [if_neg c3] at h
        by_cases c4 : ext2_find_next_zero_bit (sb.b_data bh0) sb.s_blocks_per_group j1 <
            sb.s_blocks_per_group
        · rw [if_pos c4] at h
          exact key _ h
        · rw [if_neg c4] at h
          exact find_in_other_groups_group sb i i1 gdp bh j h

/-- A search that ends at the label `got_block` ends there with the
descriptor of a group of the file system that has a stored free count above
0. -/
theorem new_block_find_group (sb : super_block) (goal i gdp bh j : Nat)
    (h : (new_block_find sb goal).2 = .got_block i gdp bh j) :
    gdp = i ∧ i < sb.s_groups_count ∧ 0 < (sb.gdt i).bg_free_blocks_count := by
  unfold new_block_find at h
  dsimp only at h
  rcases hd : ext2_get_group_desc sb _ with ⟨sb1, d⟩
  rw [hd] at h
  cases d with
  | none => simp at h
  | some gdp1 =>
    obtain ⟨e1, e2, e3, _⟩ := get_group_desc_eq_some hd
    subst e1
    dsimp only at h
    by_cases hf : 0 < (sb1.gdt gdp1).bg_free_blocks_count
    · rw [if_pos hf] at h
      have hl := load_block_bitmap_same_disk sb1
        (((if goal < sb1.s_es.s_first_data_block ∨ sb1.s_es.s_blocks_count ≤ goal
            then sb1.s_es.s_first_data_block else goal) - sb1.s_es.s_first_data_block) /
          sb1.s_blocks_per_group)
      rcases hlr : load_block_bitmap sb1 _ with ⟨sb2, l⟩
      rw [hlr] at h hl
      cases l with
      | panic => simp at h
      | err_ptr e => simp at h
      | bh b =>
        dsimp only at h hl
        have := find_in_goal_group_group sb2 _ gdp1 b _ i gdp bh j
          ⟨e2, by rw [hl.s_groups_count]; exact e3, by rw [hl.gdt, ← e2]; exact hf⟩ h
        rw [hl.s_groups_count, hl.gdt] at this
        exact this
    · rw [if_neg hf] at h
      exact find_in_other_groups_group sb1 _ i gdp bh j h


/-- What the label `got_block` does to the free block counts: they stay as
they are, or the count of descriptor `gdp` and the count of the super block
go down by one. -/
theorem new_block_got_block_counts (ino : inode) (sb : super_block) (goal i gdp bh j : Nat)
    (r : new_block_result) (h : new_block_got_block ino sb goal i gdp bh j = .done r) :
    r.ino.i_sb.s_groups_count = sb.s_groups_count ∧
    ((r.ino.i_sb.gdt = sb.gdt ∧ r.ino.i_sb.s_es = sb.s_es) ∨
     ((∀ g, (r.ino.i_sb.gdt g).bg_free_blocks_count =
        if g = gdp then u16_sub (sb.gdt g).bg_free_blocks_count 1
        else (sb.gdt g).bg_free_blocks_count) ∧
      r.ino.i_sb.s_es.s_free_blocks_count = u32_sub sb.s_es.s_free_blocks_count 1)) := by
  have hz := new_block_check_zone_same_disk sb gdp
    (u32 (j + i * sb.s_blocks_per_group + sb.s_es.s_first_data_block))
  by_cases hq : quota_accepts ino.i_dquot
  · by_cases hbit : sb.b_data bh j = true
    · rw [new_block_got_block_again ino sb goal i gdp bh j hq hbit] at h
      simp at h
    · have hbit0 : sb.b_data bh j = false := by simpa using hbit
      by_cases hlt : u32 (j + i * sb.s_blocks_per_group + sb.s_es.s_first_data_block) <
          sb.s_es.s_blocks_count
      · rw [new_block_got_block_success ino sb goal i gdp bh j hq hbit0 hlt] at h
        simp only [pass_result.done.injEq] at h
        subst h
        obtain ⟨c1, c2, c3, c4, c5, c6⟩ := new_block_commit_spec (write_bit
          (new_block_check_zone sb gdp
            (u32 (j + i * sb.s_blocks_per_group + sb.s_es.s_first_data_block))) bh j true) gdp
        refine ⟨?_, Or.inr ⟨?_, ?_⟩⟩
        · show (new_block_commit _ gdp).s_groups_count = _
          rw [c1.s_groups_count]
          show (new_block_check_zone sb gdp _).s_groups_count = _
          rw [hz.1.s_groups_count]
        · intro g
          show ((new_block_commit _ gdp).gdt g).bg_free_blocks_count = _
          rw [c3 g]
          show (if g = gdp then u16_sub (((new_block_check_zone sb gdp _).gdt g)).bg_free_blocks_count 1
            else (((new_block_check_zone sb gdp _).gdt g)).bg_free_blocks_count) = _
          rw [hz.1.gdt]
        · show (new_block_commit _ gdp).s_es.s_free_blocks_count = _
          rw [c4]
          show u32_sub (new_block_check_zone sb gdp _).s_es.s_free_blocks_count 1 = _
          rw [hz.1.s_es]
      · unfold new_block_got_block at h
        rw [DQUOT_ALLOC_BLOCK_accepts { ino with i_sb := sb } hq] at h
        simp only [ext2_set_bit, new_block_check_zone_b_data, hbit0] at h
        rw [if_neg (by simp), if_pos (by omega)] at h
        simp only [pass_result.done.injEq] at h
        subst h
        refine ⟨?_, Or.inl ⟨?_, ?_⟩⟩
        · show (new_block_check_zone sb gdp _).s_groups_count = _
          rw [hz.1.s_groups_count]
        · show (new_block_check_zone sb gdp _).gdt = _
          rw [hz.1.gdt]
        · show (new_block_check_zone sb gdp _).s_es = _
          rw [hz.1.s_es]
  · unfold new_block_got_block at h
    rw [DQUOT_ALLOC_BLOCK_rejects { ino with i_sb := sb } hq] at h
    simp only [new_block_out, pass_result.done.injEq] at h
    subst h
    exact ⟨rfl, Or.inl ⟨rfl, rfl⟩⟩

/-- What a pass of `ext2_new_block` that ends the call does to the free block
counts: they stay as they are, or the count of one group of the file system,
which was above 0, and the count of the super block go down by one. -/
theorem new_block_pass_counts (ino : inode) (sb : super_block) (goal : Nat)
    (r : new_block_result) (h : new_block_pass ino sb goal = .done r) :
    r.ino.i_sb.s_groups_count = sb.s_groups_count ∧
    ((r.ino.i_sb.gdt = sb.gdt ∧ r.ino.i_sb.s_es = sb.s_es) ∨
     ∃ i, i < sb.s_groups_count ∧ 0 < (sb.gdt i).bg_free_blocks_count ∧
      (∀ g, (r.ino.i_sb.gdt g).bg_free_blocks_count =
        if g = i then u16_sub (sb.gdt g).bg_free_blocks_count 1
        else (sb.gdt g).bg_free_blocks_count) ∧
      r.ino.i_sb.s_es.s_free_blocks_count = u32_sub sb.s_es.s_free_blocks_count 1) := by
  rw [new_block_pass_finish] at h
  have hsd := new_block_find_same_disk sb goal
  have hgrp := new_block_find_group sb goal
  rcases hf : new_block_find sb goal with ⟨sb1, f⟩
  rw [hf] at hsd h hgrp
  dsimp only at hsd hgrp
  cases f with
  | got_block i gdp bh j =>
    obtain ⟨e1, e2, e3⟩ := hgrp i gdp bh j rfl
    subst e1
    obtain ⟨h1, h2⟩ := new_block_got_block_counts ino sb1 (norm_goal sb goal) gdp gdp bh j r h
    refine ⟨by rw [h1, hsd.s_groups_count], ?_⟩
    rcases h2 with ⟨h2, h3⟩ | ⟨h2, h3⟩
    · exact Or.inl ⟨by rw [h2, hsd.gdt], by rw [h3, hsd.s_es]⟩
    · refine Or.inr ⟨gdp, e2, e3, ?_, by rw [h3, hsd.s_es]⟩
      intro g
      rw [h2 g, hsd.gdt]
  | load_failed g =>
    simp only [new_block_finish, new_block_io_error, new_block_out, pass_result.done.injEq] at h
    subst h
    exact ⟨hsd.s_groups_count, Or.inl ⟨hsd.gdt, hsd.s_es⟩⟩
  | no_desc =>
    simp only [new_block_finish, new_block_io_error, new_block_out, pass_result.done.injEq] at h
    subst h
    exact ⟨hsd.s_groups_count, Or.inl ⟨hsd.gdt, hsd.s_es⟩⟩
  | load_panic =>
    simp only [new_block_finish, pass_result.done.injEq] at h
    subst h
    exact ⟨hsd.s_groups_count, Or.inl ⟨hsd.gdt, hsd.s_es⟩⟩
  | not_found =>
    simp only [new_block_finish, new_block_out, pass_result.done.injEq] at h
    subst h
    exact ⟨hsd.s_groups_count, Or.inl ⟨hsd.gdt, hsd.s_es⟩⟩
  | corrupted =>
    simp only [new_block_finish, new_block_out, pass_result.done.injEq] at h
    subst h
    exact ⟨hsd.s_groups_count, Or.inl ⟨hsd.gdt, hsd.s_es⟩⟩

theorem new_block_repeat_counts (fuel : Nat) (ino : inode) (goal : Nat) (r : new_block_result)
    (h : new_block_repeat fuel ino goal = some r) :
    r.ino.i_sb.s_groups_count = ino.i_sb.s_groups_count ∧
    ((r.ino.i_sb.gdt = ino.i_sb.gdt ∧ r.ino.i_sb.s_es = ino.i_sb.s_es) ∨
     ∃ i, i < ino.i_sb.s_groups_count ∧ 0 < (ino.i_sb.gdt i).bg_free_blocks_count ∧
      (∀ g, (r.ino.i_sb.gdt g).bg_free_blocks_count =
        if g = i then u16_sub (ino.i_sb.gdt g).bg_free_blocks_count 1
        else (ino.i_sb.gdt g).bg_free_blocks_count) ∧
      r.ino.i_sb.s_es.s_free_blocks_count = u32_sub ino.i_sb.s_es.s_free_blocks_count 1) := by
  induction fuel generalizing ino goal with
  | zero => simp [new_block_repeat] at h
  | succ fuel ih =>
    unfold new_block_repeat at h
    rcases hp : new_block_pass ino ino.i_sb goal with r1 | ⟨ino1, g1⟩
    · rw [hp] at h
      simp only [Option.some.injEq] at h
      subst h
      exact new_block_pass_counts ino ino.i_sb goal r1 hp
    · rw [hp] at h
      dsimp only at h
      have hsd := (new_block_pass_trace ino ino.i_sb goal).2 ino1 g1 hp
      have := ih ino1 g1 h
      rw [hsd.s_groups_count, hsd.gdt, hsd.s_es] at this
      exact this

/-- A call of `ext2_new_block` that returns keeps the sum of the stored free
counts of the groups equal to the free count of the super block. -/
theorem new_block_counts_sum (fuel : Nat) (current : task_struct) (ino : inode) (goal : Nat)
    (r : new_block_result)
    (h16 : ∀ g, g < ino.i_sb.s_groups_count → (ino.i_sb.gdt g).bg_free_blocks_count < 2 ^ 16)
    (h32 : ino.i_sb.s_es.s_free_blocks_count < 2 ^ 32)
    (hsum : counts_sum_ok ino.i_sb)
    (h : ext2_new_block fuel current ino goal = some r) : counts_sum_ok r.ino.i_sb := by
  have key : r.ino.i_sb.s_groups_count = ino.i_sb.s_groups_count ∧
      ((r.ino.i_sb.gdt = ino.i_sb.gdt ∧ r.ino.i_sb.s_es = ino.i_sb.s_es) ∨
       ∃ i, i < ino.i_sb.s_groups_count ∧ 0 < (ino.i_sb.gdt i).bg_free_blocks_count ∧
        (∀ g, (r.ino.i_sb.gdt g).bg_free_blocks_count =
          if g = i then u16_sub (ino.i_sb.gdt g).bg_free_blocks_count 1
          else (ino.i_sb.gdt g).bg_free_blocks_count) ∧
        r.ino.i_sb.s_es.s_free_blocks_count = u32_sub ino.i_sb.s_es.s_free_blocks_count 1) := by
    unfold ext2_new_block at h
    dsimp only at h
    split at h
    · simp only [Option.some.injEq] at h
      subst h
      exact ⟨rfl, Or.inl ⟨rfl, rfl⟩⟩
    · exact new_block_repeat_counts fuel ino goal r h
  obtain ⟨hg, hc⟩ := key
  unfold counts_sum_ok at hsum ⊢
  rw [hg]
  rcases hc with ⟨c1, c2⟩ | ⟨i, hi, hpos, c1, c2⟩
  · rw [c2, ← hsum]
    apply desc_sum_congr
    intro g _
    rw [c1]
  · have hge := desc_sum_ge ino.i_sb i _ hi
    have hup : desc_sum ino.i_sb ino.i_sb.s_groups_count =
        desc_sum r.ino.i_sb ino.i_sb.s_groups_count + 1 := by
      apply desc_sum_update r.ino.i_sb ino.i_sb i _ 1 hi
      intro g
      rw [c1 g]
      by_cases hgi : g = i
      · rw [if_pos hgi, if_pos hgi, hgi]
        exact (u16_sub_one_of_pos _ hpos (h16 i hi)).symm
      · rw [if_neg hgi, if_neg hgi]
    have h1 := u32_sub_one_of_pos ino.i_sb.s_es.s_free_blocks_count (by omega) h32
    rw [c2]
    omega


set_option maxRecDepth 100000

/-- The label `error_return` of `ext2_free_blocks` brings the free count of
the super block up by the number of blocks freed in the groups. -/
theorem free_error_return_sum (ino : inode) (sb : super_block) (freed : Nat)
    (h32 : sb.s_es.s_free_blocks_count + freed < 2 ^ 32)
    (hsum : desc_sum sb sb.s_groups_count = sb.s_es.s_free_blocks_count + freed) :
    counts_sum_ok (free_error_return ino sb freed).ino.i_sb := by
  obtain ⟨r1, _, r3, _, _, r6⟩ := release_blocks_spec sb freed (by omega)
  show counts_sum_ok (release_blocks sb freed)
  unfold counts_sum_ok
  rw [r6.s_groups_count, r1, u32_of_lt _ h32, ← hsum]
  apply desc_sum_congr
  intro g _
  rw [r3]

theorem free_do_more_sum (ino : inode) (fuel : Nat) :
    ∀ (sb : super_block) (block count freed : Nat), 0 < sb.s_blocks_per_group →
      sb.s_blocks_per_group + count < 2 ^ BITS_PER_LONG →
      (∀ g, g < sb.s_groups_count → (sb.gdt g).bg_free_blocks_count + count < 2 ^ 16) →
      sb.s_es.s_free_blocks_count + freed + count < 2 ^ 32 →
      desc_sum sb sb.s_groups_count = sb.s_es.s_free_blocks_count + freed →
      (free_do_more ino fuel sb block count freed).panicked = false →
      counts_sum_ok (free_do_more ino fuel sb block count freed).ino.i_sb := by
  induction fuel with
  | zero =>
    intro sb block count freed _ _ _ h32 hsum _
    simp only [free_do_more]
    exact free_error_return_sum ino sb freed (by omega) hsum
  | succ fuel ih =>
    intro sb block count freed hB hbc h16 h32 hsum hnp
    simp only [free_do_more] at hnp ⊢
    generalize hbitd : ulong_sub block sb.s_es.s_first_data_block % sb.s_blocks_per_group = bit
      at hnp ⊢
    have hbit : bit < sb.s_blocks_per_group := by rw [← hbitd]; exact Nat.mod_lt _ hB
    generalize ulong_sub block sb.s_es.s_first_data_block / sb.s_blocks_per_group = grp at hnp ⊢
    have hul : ulong (bit + count) = bit + count := ulong_of_lt _ (by omega)
    rw [hul] at hnp ⊢
    generalize hovd : (if sb.s_blocks_per_group < bit + count
      then ulong_sub (bit + count) sb.s_blocks_per_group else 0) = ov at hnp ⊢
    have hov : ov ≤ count := by
      rw [← hovd]
      split
      · rw [ulong_sub_of_le _ _ (by omega) (by omega)]; omega
      · omega
    generalize hcd : ulong_sub count ov = c1 at hnp ⊢
    have hc1 : c1 + ov = count := by
      rw [← hcd, ulong_sub_of_le _ _ (by unfold BITS_PER_LONG; omega) hov]; omega
    have hl := load_block_bitmap_same_disk sb grp
    rcases hlr : load_block_bitmap sb grp with ⟨sb1, l⟩
    rw [hlr] at hnp hl
    try dsimp only at hl
    have hsum1 : desc_sum sb1 sb1.s_groups_count = sb1.s_es.s_free_blocks_count + freed := by
      rw [hl.s_groups_count, hl.s_es, ← hsum]
      apply desc_sum_congr
      intro g _
      rw [hl.gdt]
    cases l with
    | panic => simp at hnp
    | err_ptr e =>
      dsimp only
      exact free_error_return_sum ino sb1 freed (by rw [hl.s_es]; omega) hsum1
    | bh bh =>
      dsimp only at hnp ⊢
      have hd := get_group_desc_same_disk sb1 grp
      rcases hdr : ext2_get_group_desc sb1 grp with ⟨sb2, d⟩
      rw [hdr] at hnp hd
      try dsimp only at hd
      have hsd2 := same_disk_trans hl hd
      have hsum2 : desc_sum sb2 sb2.s_groups_count = sb2.s_es.s_free_blocks_count + freed := by
        rw [hsd2.s_groups_count, hsd2.s_es, ← hsum]
        apply desc_sum_congr
        intro g _
        rw [hsd2.gdt]
      cases d with
      | none =>
        dsimp only
        exact free_error_return_sum ino sb2 freed (by rw [hsd2.s_es]; omega) hsum2
      | some gdp =>
        dsimp only at hnp ⊢
        obtain ⟨e1, e2, e3, _⟩ := get_group_desc_eq_some hdr
        subst e1
        have hgdp : gdp < sb.s_groups_count := by rw [e2, ← hl.s_groups_count]; exact e3
        have hfit : (sb2.gdt gdp).bg_free_blocks_count < 2 ^ 16 := by
          rw [hsd2.gdt]; have := h16 gdp hgdp; omega
        obtain ⟨f1, _, f3, f4, _, _, _, _, f9⟩ := free_in_group_spec sb2 bh gdp bit block c1 hfit
        have hgf := count_set_le (sb2.b_data bh) c1 bit
        rw [← f1] at hgf
        generalize hfg : free_in_group sb2 bh gdp bit block c1 = fg at hnp f1 f3 f4 f9 hgf ⊢
        have hcnt : ∀ g, (fg.1.gdt g).bg_free_blocks_count =
            if g = gdp then (sb.gdt g).bg_free_blocks_count + fg.2
            else (sb.gdt g).bg_free_blocks_count := by
          intro g
          rw [f3]
          dsimp only
          by_cases hg : g = gdp
          · rw [if_pos hg, if_pos hg]
            dsimp only
            rw [← f1, hsd2.gdt]
            unfold u16
            apply Nat.mod_eq_of_lt
            have := h16 gdp hgdp
            rw [hg]; omega
          · rw [if_neg hg, if_neg hg, hsd2.gdt]
        have hgc : fg.1.s_groups_count = sb.s_groups_count := by
          rw [f9.s_groups_count, hsd2.s_groups_count]
        have hes : fg.1.s_es = sb.s_es := by rw [f4, hsd2.s_es]
        have hfr : u32 (freed + fg.2) = freed + fg.2 := u32_of_lt _ (by omega)
        rw [hfr] at hnp ⊢
        have hsum3 : desc_sum fg.1 fg.1.s_groups_count =
            fg.1.s_es.s_free_blocks_count + (freed + fg.2) := by
          rw [hgc, hes, desc_sum_update sb fg.1 gdp _ fg.2 hgdp hcnt, hsum]
          omega
        by_cases ho : ov ≠ 0
        · rw [if_pos ho] at hnp ⊢
          apply ih _ _ _ _ _ _ _ _ hsum3 hnp
          · rw [f9.s_blocks_per_group, hsd2.s_blocks_per_group]; exact hB
          · rw [f9.s_blocks_per_group, hsd2.s_blocks_per_group]; omega
          · intro g hg
            rw [hgc] at hg
            rw [hcnt g]
            have := h16 g hg
            split <;> omega
          · rw [hes]; omega
        · rw [if_neg ho] at hnp ⊢
          exact free_error_return_sum ino fg.1 (freed + fg.2) (by rw [hes]; omega) hsum3


/-- C25.  Sum-of-counts invariant.  On a state whose counters hold values of
their types and in which the sum of the stored free block counts of all
groups equals the free block count of the super block, the same holds after
any call of `ext2_new_block` (preallocation not in use) that returns, with or
without success, and after any call of `ext2_free_blocks` that returns,
whether the range is rejected, freed, or the call fails part-way through
(a descriptor or a bitmap not loading), provided no counter wraps around:
the count of every group plus `count` stays below `2^16` and the count of
the super block plus `count` below `2^32`. -/
theorem ext2_counts_sum_invariant (ino : inode)
    (h16 : ∀ g, g < ino.i_sb.s_groups_count → (ino.i_sb.gdt g).bg_free_blocks_count < 2 ^ 16)
    (h32 : ino.i_sb.s_es.s_free_blocks_count < 2 ^ 32)
    (hsum : counts_sum_ok ino.i_sb) :
    (∀ fuel current goal r, ext2_new_block fuel current ino goal = some r →
      counts_sum_ok r.ino.i_sb) ∧
    (∀ block count, 0 < ino.i_sb.s_blocks_per_group →
      ino.i_sb.s_blocks_per_group + count < 2 ^ BITS_PER_LONG →
      (∀ g, g < ino.i_sb.s_groups_count →
        (ino.i_sb.gdt g).bg_free_blocks_count + count < 2 ^ 16) →
      ino.i_sb.s_es.s_free_blocks_count + count < 2 ^ 32 →
      (ext2_free_blocks ino block count).panicked = false →
      counts_sum_ok (ext2_free_blocks ino block count).ino.i_sb) := by
  constructor
  · intro fuel current goal r h
    exact new_block_counts_sum fuel current ino goal r h16 h32 hsum h
  · intro block count hB hbc hw16 hw32 hnp
    unfold ext2_free_blocks at hnp ⊢
    dsimp only at hnp ⊢
    split
    · apply free_error_return_sum
      · show ino.i_sb.s_es.s_free_blocks_count + 0 < 2 ^ 32
        omega
      · have e : desc_sum (ext2_error ino.i_sb (.free_not_in_datazone block count))
            ino.i_sb.s_groups_count = desc_sum ino.i_sb ino.i_sb.s_groups_count :=
          desc_sum_congr _ _ _ (fun _ _ => rfl)
        show desc_sum (ext2_error ino.i_sb (.free_not_in_datazone block count))
          ino.i_sb.s_groups_count = ino.i_sb.s_es.s_free_blocks_count + 0
        rw [e]
        exact hsum
    · rename_i hc
      rw [if_neg hc] at hnp
      exact free_do_more_sum ino (count + 1) ino.i_sb block count 0 hB hbc hw16 (by omega)
        hsum hnp

theorem ext2_counts_sum_invariant_witness :
    (∃ r, ext2_new_block 1 task_root ino_two_groups 5001 = some r ∧
      counts_sum_ok r.ino.i_sb) ∧
    counts_sum_ok (ext2_free_blocks ino_two_groups 8192 3).ino.i_sb ∧
    counts_sum_ok (ext2_free_blocks
      { ino_two_groups with i_sb := { sb_two_groups with bread_ok := fun b => decide (b ≠ 8195) } }
      8192 3).ino.i_sb := by
  have hg2 : ∀ g, g < 2 → g = 0 ∨ g = 1 := by intro g hg; omega
  have h := ext2_counts_sum_invariant ino_two_groups
    (by intro g hg; rcases hg2 g hg with rfl | rfl <;> decide)
    (by decide) (by unfold counts_sum_ok; decide)
  have h1 := ext2_counts_sum_invariant
    { ino_two_groups with i_sb := { sb_two_groups with bread_ok := fun b => decide (b ≠ 8195) } }
    (by intro g hg; rcases hg2 g hg with rfl | rfl <;> decide)
    (by decide) (by unfold counts_sum_ok; decide)
  refine ⟨?_, ?_, ?_⟩
  · have hs : (ext2_new_block 1 task_root ino_two_groups 5001).isSome = true := by decide
    obtain ⟨r, hr⟩ := Option.isSome_iff_exists.mp hs
    exact ⟨r, hr, h.1 1 task_root 5001 r hr⟩
  · refine h.2 8192 3 (by decide) (by decide) ?_ (by decide) (by decide)
    intro g hg
    rcases hg2 g hg with rfl | rfl <;> decide
  · refine h1.2 8192 3 (by decide) (by decide) ?_ (by decide) (by decide)
    intro g hg
    rcases hg2 g hg with rfl | rfl <;> decide


set_option maxRecDepth 100000

set_option maxRecDepth 100000

theorem in_range_iff (b first len : Nat) (hlen : 0 < len)
    (hfit : first + len < 2 ^ BITS_PER_LONG) :
    in_range b first len = true ↔ first ≤ b ∧ b < first + len := by
  unfold in_range
  rw [ulong_of_lt _ hfit, ulong_sub_of_le _ _ hfit (by omega)]
  simp only [Bool.and_eq_true, decide_eq_true_eq]
  omega

/-- The test for the system zones made by `ext2_free_blocks` on the blocks
`[block, block + count)` of one group logs the error when the range contains
the block bitmap or the inode bitmap of the group, or when it overlaps the
inode table without strictly containing it, that is, when its first or its
last block is a block of the inode table. -/
theorem free_check_zone_flags (sb : super_block) (gdp block count : Nat)
    (hcount : 0 < count) (hfit : block + count < 2 ^ BITS_PER_LONG)
    (hitb : 0 < sb.s_itb_per_group)
    (htab : (sb.gdt gdp).bg_inode_table + sb.s_itb_per_group < 2 ^ BITS_PER_LONG)
    (h : (block ≤ (sb.gdt gdp).bg_block_bitmap ∧ (sb.gdt gdp).bg_block_bitmap < block + count) ∨
      (block ≤ (sb.gdt gdp).bg_inode_bitmap ∧ (sb.gdt gdp).bg_inode_bitmap < block + count) ∨
      (block < (sb.gdt gdp).bg_inode_table + sb.s_itb_per_group ∧
        (sb.gdt gdp).bg_inode_table < block + count ∧
        ¬ (block < (sb.gdt gdp).bg_inode_table ∧
          (sb.gdt gdp).bg_inode_table + sb.s_itb_per_group < block + count))) :
    free_check_zone sb gdp block count = ext2_error sb (.free_in_system_zone block count) := by
  unfold free_check_zone
  rw [if_pos]
  have e1 := in_range_iff (sb.gdt gdp).bg_block_bitmap block count hcount hfit
  have e2 := in_range_iff (sb.gdt gdp).bg_inode_bitmap block count hcount hfit
  have e3 := in_range_iff block (sb.gdt gdp).bg_inode_table sb.s_itb_per_group hitb htab
  have e4 := in_range_iff (ulong_sub (ulong (block + count)) 1) (sb.gdt gdp).bg_inode_table
    sb.s_itb_per_group hitb htab
  rw [ulong_of_lt _ hfit, ulong_sub_of_le _ _ hfit (by omega)] at e4
  rw [ulong_of_lt _ hfit, ulong_sub_of_le _ _ hfit (by omega)]
  simp only [Bool.or_eq_true]
  rw [e1, e2, e3, e4]
  omega

/-- C27.  On the file system `sb_gap`, whose group 0 has its inode table in
the blocks 10 and 11, `ext2_free_blocks(inode, 9, 4)` frees the blocks 9 to
12, a range of group 0 that strictly contains the whole inode table, and logs
nothing: no "Freeing blocks in system zones" error. -/
theorem ext2_free_blocks_misses_enclosed_inode_table :
    ((sb_gap.gdt 0).bg_inode_table, sb_gap.s_itb_per_group, group_of sb_gap 9,
      group_of sb_gap 12) = (10, 2, 0, 0) ∧
    (ext2_free_blocks ino_gap 9 4).panicked = false ∧
    (ext2_free_blocks ino_gap 9 4).ino.i_sb.log = [] ∧
    (block_bit (ext2_free_blocks ino_gap 9 4).ino.i_sb 10,
      block_bit (ext2_free_blocks ino_gap 9 4).ino.i_sb 11) = (false, false) ∧
    (block_bit sb_gap 10, block_bit sb_gap 11) = (true, true) ∧
    ((ext2_free_blocks ino_gap 9 4).ino.i_sb.gdt 0).bg_free_blocks_count = 4 := by
  refine ⟨?_, ?_, ?_, ?_, ?_, ?_⟩ <;> decide


set_option maxRecDepth 100000

/-- Where the bitmaps are laid out as `layout_ok` says, a pass of
`ext2_new_block` never takes `goto repeat`: the bit handed to `ext2_set_bit`
is clear, and the call returns after a single pass. -/
theorem new_block_single_pass (fuel : Nat) (current : task_struct) (ino : inode) (goal : Nat)
    (hc : cache_ok ino.i_sb) (hB : 0 < ino.i_sb.s_blocks_per_group)
    (hfit : ino.i_sb.s_blocks_per_group < 2 ^ BITS_PER_LONG) (hlay : layout_ok ino.i_sb) :
    takes_repeat (new_block_pass ino ino.i_sb goal) = false ∧
    ∃ r, ext2_new_block (fuel + 1) current ino goal = some r := by
  have shape := new_block_pass_shape ino ino.i_sb goal hc hB hfit hlay
  have hdone : ∃ r, new_block_pass ino ino.i_sb goal = .done r := by
    generalize new_block_pass ino ino.i_sb goal = res at shape
    cases shape with
    | failed sb1 e hsd hc1 he => exact ⟨_, rfl⟩
    | chosen sb1 i j hsd hc1 hi hj hbit hfree =>
      have hbit1 : sb1.b_data (bitmap_block ino.i_sb i) j = false := by
        rw [hsd.b_data]; exact hbit
      rcases new_block_got_block_cases ino sb1 (norm_goal ino.i_sb goal) i i
        (bitmap_block ino.i_sb i) j _ hbit1 rfl with ⟨_, hg⟩ | ⟨_, _, r0, hg, _⟩ | ⟨_, _, hg⟩
      · exact ⟨_, hg⟩
      · exact ⟨_, hg⟩
      · exact ⟨_, hg⟩
  obtain ⟨r, hr⟩ := hdone
  refine ⟨by rw [hr]; rfl, ?_⟩
  unfold ext2_new_block
  dsimp only
  split
  · exact ⟨_, rfl⟩
  · exact ⟨r, new_block_repeat_done fuel ino goal r hr⟩

/-- C28.  On the file system `sb_odd` (100 blocks per group) the pass of
`ext2_new_block` with goal 1 hands bit 96 of group 1 to `ext2_set_bit` (the
byte scan of the later group ends at byte 12 without having found a zero
byte), the bit is set already, the warning "bit already set" is logged and
`goto repeat` is taken; the call does not end after this pass. -/
theorem ext2_new_block_odd_takes_goto_repeat :
    (new_block_scan sb_odd 1).2 = .byte 1 1 103 12 ∧
    byte_is_zero (sb_odd.b_data 103) 12 = false ∧
    search_back (sb_odd.b_data 103) 7 96 = 96 ∧
    sb_odd.b_data 103 96 = true ∧
    takes_repeat (new_block_pass ino_odd sb_odd 1) = true ∧
    (pass_sb (new_block_pass ino_odd sb_odd 1)).log = [.bit_already_set 96] ∧
    (ext2_new_block 1 task_root ino_odd 1).isNone = true := by
  refine ⟨?_, ?_, ?_, ?_, ?_, ?_, ?_⟩ <;> decide


set_option maxRecDepth 100000

/-- C29.  On the file system `sb_window` (96 blocks per group) the search of
`ext2_new_block` with goal 71 ends on bit 96 of the bitmap of group 0, a bit
offset that is not below `s_blocks_per_group`; the call succeeds and returns
block 97, which lies in group 1, while the bit set is bit 96 of the bitmap of
group 0 and the free count brought down is that of group 0. -/
theorem ext2_new_block_window_bit_past_group :
    (new_block_find sb_window 71).2 = .got_block 0 0 3 96 ∧
    sb_window.s_blocks_per_group = 96 ∧
    (ext2_new_block 1 task_root ino_window 71).map (fun r => (r.ret, r.err, r.panicked)) =
      some (97, 0, false) ∧
    (group_of sb_window 97, bit_of sb_window 97, bitmap_block sb_window 0,
      bitmap_block sb_window 1) = (1, 0, 3, 99) ∧
    (sb_window.b_data 3 96, sb_window.b_data 99 0) = (false, true) ∧
    (ext2_new_block 1 task_root ino_window 71).map
      (fun r => (r.ino.i_sb.b_data 3 96, r.ino.i_sb.b_data 99 0)) = some (true, true) ∧
    ((sb_window.gdt 0).bg_free_blocks_count, (sb_window.gdt 1).bg_free_blocks_count) = (1, 0) ∧
    (ext2_new_block 1 task_root ino_window 71).map
      (fun r => ((r.ino.i_sb.gdt 0).bg_free_blocks_count,
        (r.ino.i_sb.gdt 1).bg_free_blocks_count)) = some (0, 0) := by
  refine ⟨?_, ?_, ?_, ?_, ?_, ?_, ?_, ?_⟩ <;> decide

/-- C30.  On the file system `sb_window`, where the stored free count of each
group equals the number of clear bits among the 96 bits of its bitmap (1 and
0), the successful call of `ext2_new_block` with goal 71 leaves group 0 with
a stored free count of 0 and one clear bit (bit 50) among the 96 bits of its
bitmap. -/
theorem ext2_new_block_window_breaks_counts_match :
    ((sb_window.gdt 0).bg_free_blocks_count, count_clear (sb_window.b_data 3) 0 96) = (1, 1) ∧
    ((sb_window.gdt 1).bg_free_blocks_count, count_clear (sb_window.b_data 99) 0 96) = (0, 0) ∧
    (ext2_new_block 1 task_root ino_window 71).map (fun r => (r.ret, r.err, r.panicked)) =
      some (97, 0, false) ∧
    (ext2_new_block 1 task_root ino_window 71).map
      (fun r => ((r.ino.i_sb.gdt 0).bg_free_blocks_count,
        count_clear (r.ino.i_sb.b_data 3) 0 96, r.ino.i_sb.b_data 3 50)) =
      some (0, 1, false) := by
  refine ⟨?_, ?_, ?_, ?_⟩ <;> decide


set_option maxRecDepth 100000

theorem count_clear_congr (bm1 bm2 : Nat → Bool) (n s : Nat)
    (h : ∀ k, s ≤ k → k < s + n → bm1 k = bm2 k) :
    count_clear bm1 s n = count_clear bm2 s n := by
  induction n generalizing s with
  | zero => rfl
  | succ n ih =>
    simp only [count_clear]
    rw [h s (le_refl _) (by omega), ih (s + 1) (fun k h1 h2 => h k (by omega) (by omega))]

theorem count_clear_le (bm : Nat → Bool) (n s : Nat) : count_clear bm s n ≤ n := by
  induction n generalizing s with
  | zero => exact le_refl _
  | succ n ih =>
    simp only [count_clear]
    have := ih (s + 1)
    split <;> omega

/-- Clearing the bits `[a, a + c)` of a bitmap brings the number of its clear
bits up by the number of bits of the range that were set. -/
theorem count_clear_clear_range (bm : Nat → Bool) (n : Nat) :
    ∀ s a c, s ≤ a → a + c ≤ s + n →
      count_clear (fun k => if a ≤ k ∧ k < a + c then false else bm k) s n =
        count_clear bm s n + count_set bm a c := by
  induction n with
  | zero =>
    intro s a c h1 h2
    have hc : c = 0 := by omega
    subst hc
    rfl
  | succ n ih =>
    intro s a c h1 h2
    cases c with
    | zero =>
      simp only [count_set, Nat.add_zero]
      apply count_clear_congr
      intro k _ _
      rw [if_neg (by omega)]
    | succ c =>
      simp only [count_clear]
      by_cases hs : s = a
      · subst hs
        have h0 : s ≤ s ∧ s < s + (c + 1) := ⟨le_refl _, by omega⟩
        simp only [if_pos h0]
        have e : count_clear (fun k => if s ≤ k ∧ k < s + (c + 1) then false else bm k) (s + 1) n =
            count_clear (fun k => if s + 1 ≤ k ∧ k < s + 1 + c then false else bm k) (s + 1) n := by
          apply count_clear_congr
          intro k hk1 _
          by_cases hk : k < s + 1 + c
          · rw [if_pos ⟨by omega, by omega⟩, if_pos ⟨hk1, hk⟩]
          · rw [if_neg (by omega), if_neg (by omega)]
        rw [e, ih (s + 1) (s + 1) c (le_refl _) (by omega)]
        simp only [count_set]
        cases bm s <;> simp <;> omega
      · have h0 : ¬ (a ≤ s ∧ s < a + (c + 1)) := by omega
        simp only [if_neg h0]
        rw [ih (s + 1) a (c + 1) (by omega) (by omega)]
        omega

/-- Setting a clear bit of a bitmap brings the number of its clear bits down
by one. -/
theorem count_clear_set_bit (bm : Nat → Bool) (n : Nat) :
    ∀ s j, s ≤ j → j < s + n → bm j = false →
      count_clear (fun k => if k = j then true else bm k) s n + 1 = count_clear bm s n := by
  induction n with
  | zero => intro s j h1 h2; omega
  | succ n ih =>
    intro s j h1 h2 hj
    simp only [count_clear]
    by_cases hs : s = j
    · subst hs
      have e : count_clear (fun k => if k = s then true else bm k) (s + 1) n =
          count_clear bm (s + 1) n := by
        apply count_clear_congr
        intro k hk _
        rw [if_neg (by omega)]
      rw [e]
      simp [hj]
      omega
    · have := ih (s + 1) j (by omega) (by omega) hj
      simp only [if_neg hs]
      omega


theorem counts_match_of_eq {a b : super_block} (h : counts_match a) (hl : same_layout a b)
    (hg : b.gdt = a.gdt) (hd : b.b_data = a.b_data) : counts_match b := by
  intro g hgc
  rw [hl.s_groups_count] at hgc
  rw [hg, hd, hl.s_blocks_per_group, bitmap_block_layout hl]
  exact h g hgc

/-- Where the bitmaps are laid out as `layout_ok` says, a successful
`ext2_new_block` on a file system in working order keeps the stored free
count of every group equal to the number of clear bits of its bitmap. -/
theorem new_block_keeps_counts_match (fuel : Nat) (current : task_struct) (ino : inode)
    (goal : Nat) (r : new_block_result) (hok : fs_ok ino.i_sb) (hlay : layout_ok ino.i_sb)
    (hm : counts_match ino.i_sb)
    (h : ext2_new_block fuel current ino goal = some r) (herr : r.err = 0) :
    counts_match r.ino.i_sb := by
  obtain ⟨i, j, hp⟩ := ext2_new_block_success fuel current ino goal r hok.cache hok.geo.bpg_pos
    hok.fit.s_blocks_per_group hlay h herr
  intro g hg
  rw [hp.layout.s_groups_count] at hg
  rw [hp.group_count g, hp.b_data, hp.layout.s_blocks_per_group, bitmap_block_layout hp.layout]
  by_cases hgi : g = i
  · subst hgi
    rw [if_pos rfl]
    have hcc := count_clear_set_bit (ino.i_sb.b_data (bitmap_block ino.i_sb g))
      ino.i_sb.s_blocks_per_group 0 j (Nat.zero_le _) (by have := hp.bit; omega) hp.was_clear
    have e : count_clear (fun n => if bitmap_block ino.i_sb g = bitmap_block ino.i_sb g ∧ n = j
        then true else ino.i_sb.b_data (bitmap_block ino.i_sb g) n) 0 ino.i_sb.s_blocks_per_group =
        count_clear (fun k => if k = j then true
          else ino.i_sb.b_data (bitmap_block ino.i_sb g) k) 0 ino.i_sb.s_blocks_per_group := by
      apply count_clear_congr
      intro k _ _
      by_cases hk : k = j
      · rw [if_pos ⟨rfl, hk⟩, if_pos hk]
      · rw [if_neg (fun c => hk c.2), if_neg hk]
    rw [e]
    have h1 := u16_sub_one_of_pos _ hp.had_free (hok.fit.bg_free_blocks_count g)
    have h2 := hm g hg
    omega
  · rw [if_neg hgi]
    have hne : bitmap_block ino.i_sb g ≠ bitmap_block ino.i_sb i :=
      fun c => hgi (hok.distinct g i hg hp.group c)
    have e : count_clear (fun n => if bitmap_block ino.i_sb g = bitmap_block ino.i_sb i ∧ n = j
        then true else ino.i_sb.b_data (bitmap_block ino.i_sb g) n) 0 ino.i_sb.s_blocks_per_group =
        count_clear (ino.i_sb.b_data (bitmap_block ino.i_sb g)) 0 ino.i_sb.s_blocks_per_group := by
      apply count_clear_congr
      intro k _ _
      rw [if_neg (fun c => hne c.1)]
    rw [e]
    exact hm g hg

/-- Freeing the blocks of one group on a file system in working order keeps
the stored free count of every group equal to the number of clear bits of its
bitmap. -/
theorem free_group_step_counts_match (sb : super_block) (block c1 : Nat) (hok : fs_ok sb)
    (hm : counts_match sb) (h16 : sb.s_blocks_per_group < 2 ^ 16)
    (hlo : sb.s_es.s_first_data_block ≤ block) (hhi : block < sb.s_es.s_blocks_count)
    (hc1 : bit_of sb block + c1 ≤ sb.s_blocks_per_group) :
    counts_match (free_in_group (load_block_bitmap sb (group_of sb block)).1
        (bitmap_block sb (group_of sb block)) (group_of sb block) (bit_of sb block) block c1).1 := by
  have hg : group_of sb block < sb.s_groups_count :=
    group_of_lt_groups sb hok.geo block hlo hhi
  obtain ⟨hsd, hc, _, _⟩ := load_block_bitmap_spec sb (group_of sb block) hok.cache
  have hok1 := fs_ok_of_same_disk hok hsd hc
  obtain ⟨f1, f2, f3, f4, f5, f6, f7, f8, f9⟩ :=
    free_in_group_spec (load_block_bitmap sb (group_of sb block)).1
      (bitmap_block sb (group_of sb block)) (group_of sb block) (bit_of sb block) block c1
      (hok1.fit.bg_free_blocks_count _)
  rw [hsd.b_data] at f2 f3
  rw [hsd.gdt] at f3
  have hlay := same_layout_trans (same_layout_of_same_disk hsd) f9
  intro g hgc
  rw [hlay.s_groups_count] at hgc
  rw [f3, f2, hlay.s_blocks_per_group, bitmap_block_layout hlay]
  dsimp only
  by_cases hgi : g = group_of sb block
  · subst hgi
    rw [if_pos rfl]
    dsimp only
    have e : count_clear (fun k => if bitmap_block sb (group_of sb block) =
          bitmap_block sb (group_of sb block) ∧ bit_of sb block ≤ k ∧ k < bit_of sb block + c1
        then false else sb.b_data (bitmap_block sb (group_of sb block)) k) 0
          sb.s_blocks_per_group =
        count_clear (fun k => if bit_of sb block ≤ k ∧ k < bit_of sb block + c1 then false
          else sb.b_data (bitmap_block sb (group_of sb block)) k) 0 sb.s_blocks_per_group := by
      apply count_clear_congr
      intro k _ _
      by_cases hk : bit_of sb block ≤ k ∧ k < bit_of sb block + c1
      · rw [if_pos ⟨rfl, hk⟩, if_pos hk]
      · rw [if_neg (fun c => hk c.2), if_neg hk]
    rw [e, count_clear_clear_range _ _ 0 _ _ (Nat.zero_le _) (by omega), ← hm _ hg]
    have hle := count_clear_le (fun k => if bit_of sb block ≤ k ∧ k < bit_of sb block + c1
      then false else sb.b_data (bitmap_block sb (group_of sb block)) k) sb.s_blocks_per_group 0
    rw [count_clear_clear_range _ _ 0 _ _ (Nat.zero_le _) (by omega), ← hm _ hg] at hle
    unfold u16
    exact Nat.mod_eq_of_lt (by omega)
  · rw [if_neg hgi]
    have hne : bitmap_block sb g ≠ bitmap_block sb (group_of sb block) :=
      fun c => hgi (hok.distinct g _ hgc hg c)
    have e : count_clear (fun k => if bitmap_block sb g = bitmap_block sb (group_of sb block) ∧
          bit_of sb block ≤ k ∧ k < bit_of sb block + c1
        then false else sb.b_data (bitmap_block sb g) k) 0 sb.s_blocks_per_group =
        count_clear (sb.b_data (bitmap_block sb g)) 0 sb.s_blocks_per_group := by
      apply count_clear_congr
      intro k _ _
      rw [if_neg (fun c => hne c.1)]
    rw [e]
    exact hm g hgc

theorem free_error_return_counts_match (ino : inode) (sb : super_block) (freed : Nat)
    (hfit : sb.s_es.s_free_blocks_count < 2 ^ 32) (hm : counts_match sb) :
    counts_match (free_error_return ino sb freed).ino.i_sb := by
  obtain ⟨_, r2, r3, _, _, r6⟩ := release_blocks_spec sb freed hfit
  exact counts_match_of_eq hm r6 r3 r2

theorem free_do_more_counts_match (ino : inode) (fuel : Nat) :
    ∀ (sb : super_block) (block count freed : Nat), fs_ok sb → counts_match sb →
      sb.s_blocks_per_group < 2 ^ 16 → count < fuel → 0 < count →
      sb.s_es.s_first_data_block ≤ block → block + count ≤ sb.s_es.s_blocks_count →
      counts_match (free_do_more ino fuel sb block count freed).ino.i_sb := by
  induction fuel with
  | zero => intro sb block count freed _ _ _ h; exact absurd h (by omega)
  | succ fuel ih =>
    intro sb block count freed hok hm h16 hfuel hcnt hlo hhi
    have hB := hok.geo.bpg_pos
    have hbit : bit_of sb block < sb.s_blocks_per_group := Nat.mod_lt _ hB
    rw [free_do_more_step ino fuel sb block count freed hok hcnt hlo hhi]
    by_cases hov : bit_of sb block + count - sb.s_blocks_per_group ≠ 0
    · rw [if_pos hov]
      obtain ⟨s1, s2, s3, s4, s5, s6, s7⟩ := free_group_step_spec sb block
        (count - (bit_of sb block + count - sb.s_blocks_per_group)) hok hlo (by omega) (by omega)
      have hm1 := free_group_step_counts_match sb block
        (count - (bit_of sb block + count - sb.s_blocks_per_group)) hok hm h16 hlo (by omega)
        (by omega)
      exact ih _ _ _ _ s1 hm1 (by rw [s2.s_blocks_per_group]; exact h16) (by omega) (by omega)
        (by rw [s5]; omega) (by rw [s5]; omega)
    · rw [if_neg hov]
      have e : count - (bit_of sb block + count - sb.s_blocks_per_group) = count := by omega
      rw [e]
      obtain ⟨s1, s2, s3, s4, s5, s6, s7⟩ := free_group_step_spec sb block count hok hlo
        (by omega) (by omega)
      exact free_error_return_counts_match ino _ _ s1.fit.s_free_blocks_count
        (free_group_step_counts_match sb block count hok hm h16 hlo (by omega) (by omega))

/-- `ext2_free_blocks` on a non-empty range inside the data zone of a file
system in working order (all bitmaps load), with fewer than `2^16` blocks per
group, keeps the stored free count of every group equal to the number of
clear bits of its bitmap. -/
theorem free_blocks_keeps_counts_match (ino : inode) (block count : Nat) (hok : fs_ok ino.i_sb)
    (hm : counts_match ino.i_sb) (h16 : ino.i_sb.s_blocks_per_group < 2 ^ 16)
    (hcnt : 0 < count) (hlo : ino.i_sb.s_es.s_first_data_block ≤ block)
    (hhi : block + count ≤ ino.i_sb.s_es.s_blocks_count) :
    counts_match (ext2_free_blocks ino block count).ino.i_sb := by
  have hbc := hok.fit.s_blocks_count
  unfold ext2_free_blocks
  simp only
  rw [if_neg]
  · exact free_do_more_counts_match ino (count + 1) ino.i_sb block count 0 hok hm h16 (by omega)
      hcnt hlo hhi
  · rw [ulong_of_lt _ (by unfold BITS_PER_LONG; omega)]
    omega

end Ext2
